import Mathlib

/-! Partial-assembly diffusion kernels (`fem/bilininteg_diffusion.cpp`).

A shallow embedding of the Setup and Apply kernels of the partial-assembly
diffusion integrator, together with the collocated-gradient builder, and
theorems about them in exact arithmetic.

Conventions of the embedding.

* A raw buffer (`double *`, `Vector`, `Array<double>`) is a total map
  `Nat → K` from flat offsets to values; a store is `Function.update`.
* `Reshape(p, N0, N1, ...)` is the strided view whose first index runs
  fastest: entry `(i0, i1, i2, ...)` lives at `i0 + N0*(i1 + N1*(i2 + ...))`.
* `for (int i = 0; i < n; ++i) body` is `forLoop n body`, which runs
  `body 0`, `body 1`, ... in that order over an explicit state.
* `MFEM_FORALL(e, NE, body)` and `MFEM_FOREACH_THREAD(i, k, N)` are, on the
  host, exactly such loops; `MFEM_SYNC_THREAD` separates the phases.
* Arithmetic is exact: the scalar type `K` is any commutative ring (Apply
  kernels), field (Setup kernels) or linearly ordered field with a square
  root function passed as a parameter (QR, dispatcher).
* Uninitialized local and shared arrays are parameters of the kernels, so
  that every theorem holds whatever they contain on entry.
* A failed `MFEM_VERIFY` is `none`; `MFEM_ABORT(msg)` is `Except.error msg`.
* Sizes and indices (`int`) are natural numbers.  The one `int` expression
  that can leave the 32-bit range for sizes in range, the key
  `(D1D << 4) | Q1D` of the dispatcher's `switch`, is reduced `% 2 ^ 32`.
-/

namespace PADiffusion

/-! ## Loops and strided views -/

/-- The loop `for (int i = 0; i < n; ++i) s = body i s`. -/
def forLoop {σ : Type*} : Nat → (Nat → σ → σ) → σ → σ
  | 0, _, s => s
  | n + 1, body, s => body n (forLoop n body s)

/-- Offset of entry `(i0, i1)` in `Reshape(p, N0, N1)`. -/
def idx2 (N0 i0 i1 : Nat) : Nat := i0 + N0 * i1

/-- Offset of entry `(i0, i1, i2)` in `Reshape(p, N0, N1, N2)`. -/
def idx3 (N0 N1 i0 i1 i2 : Nat) : Nat := i0 + N0 * (i1 + N1 * i2)

/-- Offset of entry `(i0, i1, i2, i3)` in `Reshape(p, N0, N1, N2, N3)`. -/
def idx4 (N0 N1 N2 i0 i1 i2 i3 : Nat) : Nat := i0 + N0 * (i1 + N1 * (i2 + N2 * i3))

/-! ## Setup kernels -/

section Setup

variable {K : Type*} [Field K]

/-- The kernel `PADiffusionSetup2D`: `w` are the quadrature weights, `j` the
Jacobians viewed as `Reshape(j, NQ, 2, 2, NE)`, `op` the output viewed as
`Reshape(op, NQ, 3, NE)`.  The result is the output buffer after the call. -/
def PADiffusionSetup2D (Q1D NE : Nat) (w j : Nat → K) (COEFF : K) (op : Nat → K) :
    Nat → K :=
  let NQ := Q1D * Q1D
  forLoop NE (fun e y =>
    forLoop NQ (fun q y =>
      let J11 := j (idx4 NQ 2 2 q 0 0 e)
      let J21 := j (idx4 NQ 2 2 q 1 0 e)
      let J12 := j (idx4 NQ 2 2 q 0 1 e)
      let J22 := j (idx4 NQ 2 2 q 1 1 e)
      let c_detJ := w q * COEFF / ((J11 * J22) - (J21 * J12))
      let y := Function.update y (idx3 NQ 3 q 0 e) (c_detJ * (J12 * J12 + J22 * J22))
      let y := Function.update y (idx3 NQ 3 q 1 e) (-c_detJ * (J12 * J11 + J22 * J21))
      Function.update y (idx3 NQ 3 q 2 e) (c_detJ * (J11 * J11 + J21 * J21))) y) op

/-- The Jacobian at point `q` of element `e` as a matrix: `J(q,i,j,e)` is
row `i`, column `j`. -/
def jac2 (NQ : Nat) (j : Nat → K) (q e : Nat) : Matrix (Fin 2) (Fin 2) K :=
  Matrix.of (fun r c => j (idx4 NQ 2 2 q r.val c.val e))

end Setup

section Setup3D

variable {K : Type*} [Field K]

/-- The Jacobian at point `q` of element `e` as a 3x3 matrix: `J(q,i,j,e)` is
row `i`, column `j`, read through `Reshape(j, NQ, 3, 3, NE)`. -/
def jac3 (NQ : Nat) (j : Nat → K) (q e : Nat) : Matrix (Fin 3) (Fin 3) K :=
  Matrix.of (fun r c => j (idx4 NQ 3 3 q r.val c.val e))

/-- The local `detJ` of `PADiffusionSetup3D`. -/
def Setup3D_detJ (J : Matrix (Fin 3) (Fin 3) K) : K :=
  let J11 := J 0 0
  let J21 := J 1 0
  let J31 := J 2 0
  let J12 := J 0 1
  let J22 := J 1 1
  let J32 := J 2 1
  let J13 := J 0 2
  let J23 := J 1 2
  let J33 := J 2 2
  J11 * (J22 * J33 - J32 * J23) - J21 * (J12 * J33 - J32 * J13) +
    J31 * (J12 * J23 - J22 * J13)

/-- The locals `A11 .. A33` of `PADiffusionSetup3D`, `Aik` in row `i`,
column `k`. -/
def Setup3D_adj (J : Matrix (Fin 3) (Fin 3) K) : Matrix (Fin 3) (Fin 3) K :=
  let J11 := J 0 0
  let J21 := J 1 0
  let J31 := J 2 0
  let J12 := J 0 1
  let J22 := J 1 1
  let J32 := J 2 1
  let J13 := J 0 2
  let J23 := J 1 2
  let J33 := J 2 2
  let A11 := (J22 * J33) - (J23 * J32)
  let A12 := (J32 * J13) - (J12 * J33)
  let A13 := (J12 * J23) - (J22 * J13)
  let A21 := (J31 * J23) - (J21 * J33)
  let A22 := (J11 * J33) - (J13 * J31)
  let A23 := (J21 * J13) - (J11 * J23)
  let A31 := (J21 * J32) - (J31 * J22)
  let A32 := (J31 * J12) - (J11 * J32)
  let A33 := (J11 * J22) - (J12 * J21)
  Matrix.of ![![A11, A12, A13], ![A21, A22, A23], ![A31, A32, A33]]

/-- The kernel `PADiffusionSetup3D`: `j` is viewed as
`Reshape(j, NQ, 3, 3, NE)` and the output as `Reshape(op, NQ, 6, NE)`. -/
def PADiffusionSetup3D (Q1D NE : Nat) (w j : Nat → K) (COEFF : K) (op : Nat → K) :
    Nat → K :=
  let NQ := Q1D * Q1D * Q1D
  forLoop NE (fun e y =>
    forLoop NQ (fun q y =>
      let J := jac3 NQ j q e
      let detJ := Setup3D_detJ J
      let c_detJ := w q * COEFF / detJ
      let A := Setup3D_adj J
      let A11 := A 0 0
      let A12 := A 0 1
      let A13 := A 0 2
      let A21 := A 1 0
      let A22 := A 1 1
      let A23 := A 1 2
      let A31 := A 2 0
      let A32 := A 2 1
      let A33 := A 2 2
      let y := Function.update y (idx3 NQ 6 q 0 e) (c_detJ * (A11 * A11 + A12 * A12 + A13 * A13))
      let y := Function.update y (idx3 NQ 6 q 1 e) (c_detJ * (A11 * A21 + A12 * A22 + A13 * A23))
      let y := Function.update y (idx3 NQ 6 q 2 e) (c_detJ * (A11 * A31 + A12 * A32 + A13 * A33))
      let y := Function.update y (idx3 NQ 6 q 3 e) (c_detJ * (A21 * A21 + A22 * A22 + A23 * A23))
      let y := Function.update y (idx3 NQ 6 q 4 e) (c_detJ * (A21 * A31 + A22 * A32 + A23 * A33))
      Function.update y (idx3 NQ 6 q 5 e) (c_detJ * (A31 * A31 + A32 * A32 + A33 * A33))) y) op

/-- An identity-mapped Jacobian buffer for one 2D point: `J(0,i,j,0)` is 1
on the diagonal. -/
def identityJ2 : Nat → ℚ := fun i => if i = 0 ∨ i = 3 then 1 else 0

/-- An identity-mapped Jacobian buffer for one 3D point. -/
def identityJ3 : Nat → ℚ := fun i => if i = 0 ∨ i = 4 ∨ i = 8 then 1 else 0

end Setup3D

/-! ## Local arrays -/

section LocalArrays

variable {K : Type*}

/-- The store `A[i][j] = v` into a local two-dimensional array. -/
def set2 (A : Nat → Nat → K) (i j : Nat) (v : K) : Nat → Nat → K :=
  fun a b => if a = i ∧ b = j then v else A a b

/-- The store `A[i][j][k] = v` into a local three-dimensional array. -/
def set3 (A : Nat → Nat → Nat → K) (i j k : Nat) (v : K) : Nat → Nat → Nat → K :=
  fun a b c => if a = i ∧ b = j ∧ c = k then v else A a b c

/-- The store `A[i][j][k][l] = v` into a local four-dimensional array. -/
def set4 (A : Nat → Nat → Nat → Nat → K) (i j k l : Nat) (v : K) :
    Nat → Nat → Nat → Nat → K :=
  fun a b c d => if a = i ∧ b = j ∧ c = k ∧ d = l then v else A a b c d

end LocalArrays

/-! ## Generic 2D Apply kernel -/

section Apply2D

variable {K : Type*} [CommRing K]

/-- Lines 355-362 of `PADiffusionApply2D`: the local array
`grad[max_Q1D][max_Q1D][2]`, declared without initializer (initial contents
`grad0`), is cleared for `qy, qx < Q1D`. -/
def apply2D_clear (Q1D : Nat) (grad0 : Nat → Nat → Nat → K) : Nat → Nat → Nat → K :=
  forLoop Q1D (fun qy grad =>
    forLoop Q1D (fun qx grad =>
      let grad := set3 grad qy qx 0 0
      set3 grad qy qx 1 0) grad) grad0

/-- Lines 365-379: the local `gradX[max_Q1D][2]` of iteration `dy` (initial
contents `gradXq0`), cleared and then filled by the contraction over `dx`. -/
def apply2D_gradXq (D1D Q1D : Nat) (B G x : Nat → K) (gradXq0 : Nat → Nat → K)
    (e dy : Nat) : Nat → Nat → K :=
  let gradX := forLoop Q1D (fun qx gradX =>
    let gradX := set2 gradX qx 0 0
    set2 gradX qx 1 0) gradXq0
  forLoop D1D (fun dx gradX =>
    let s := x (idx3 D1D D1D dx dy e)
    forLoop Q1D (fun qx gradX =>
      let gradX := set2 gradX qx 0 (gradX qx 0 + s * B (idx2 Q1D qx dx))
      set2 gradX qx 1 (gradX qx 1 + s * G (idx2 Q1D qx dx))) gradX) gradX

/-- Lines 363-390: the loop over `dy` accumulating the reference gradient at
the quadrature points into `grad`. -/
def apply2D_forward (D1D Q1D : Nat) (B G x : Nat → K) (gradXq0 : Nat → Nat → K)
    (e : Nat) (grad : Nat → Nat → Nat → K) : Nat → Nat → Nat → K :=
  forLoop D1D (fun dy grad =>
    let gradX := apply2D_gradXq D1D Q1D B G x gradXq0 e dy
    forLoop Q1D (fun qy grad =>
      let wy := B (idx2 Q1D qy dy)
      let wDy := G (idx2 Q1D qy dy)
      forLoop Q1D (fun qx grad =>
        let grad := set3 grad qy qx 0 (grad qy qx 0 + gradX qx 1 * wy)
        set3 grad qy qx 1 (grad qy qx 1 + gradX qx 0 * wDy)) grad) grad) grad

/-- Lines 392-408: the metric tensor is applied in place at every quadrature
point. -/
def apply2D_metric (Q1D : Nat) (op : Nat → K) (e : Nat) (grad : Nat → Nat → Nat → K) :
    Nat → Nat → Nat → K :=
  forLoop Q1D (fun qy grad =>
    forLoop Q1D (fun qx grad =>
      let q := qx + qy * Q1D
      let O11 := op (idx3 (Q1D * Q1D) 3 q 0 e)
      let O12 := op (idx3 (Q1D * Q1D) 3 q 1 e)
      let O22 := op (idx3 (Q1D * Q1D) 3 q 2 e)
      let gradX := grad qy qx 0
      let gradY := grad qy qx 1
      let grad := set3 grad qy qx 0 ((O11 * gradX) + (O12 * gradY))
      set3 grad qy qx 1 ((O12 * gradX) + (O22 * gradY))) grad) grad

/-- Lines 411-428: the local `gradX[max_D1D][2]` of iteration `qy` (initial
contents `gradXd0`), cleared and then filled by the contraction over `qx`. -/
def apply2D_gradXd (D1D Q1D : Nat) (Bt Gt : Nat → K) (gradXd0 : Nat → Nat → K)
    (grad : Nat → Nat → Nat → K) (qy : Nat) : Nat → Nat → K :=
  let gradX := forLoop D1D (fun dx gradX =>
    let gradX := set2 gradX dx 0 0
    set2 gradX dx 1 0) gradXd0
  forLoop Q1D (fun qx gradX =>
    let gX := grad qy qx 0
    let gY := grad qy qx 1
    forLoop D1D (fun dx gradX =>
      let wx := Bt (idx2 D1D dx qx)
      let wDx := Gt (idx2 D1D dx qx)
      let gradX := set2 gradX dx 0 (gradX dx 0 + gX * wDx)
      set2 gradX dx 1 (gradX dx 1 + gY * wx)) gradX) gradX

/-- Lines 409-438: the loop over `qy` contracting back to the nodes and
accumulating into `y`. -/
def apply2D_backward (D1D Q1D : Nat) (Bt Gt : Nat → K) (gradXd0 : Nat → Nat → K)
    (grad : Nat → Nat → Nat → K) (e : Nat) (y : Nat → K) : Nat → K :=
  forLoop Q1D (fun qy y =>
    let gradX := apply2D_gradXd D1D Q1D Bt Gt gradXd0 grad qy
    forLoop D1D (fun dy y =>
      let wy := Bt (idx2 D1D dy qy)
      let wDy := Gt (idx2 D1D dy qy)
      forLoop D1D (fun dx y =>
        Function.update y (idx3 D1D D1D dx dy e)
          (y (idx3 D1D D1D dx dy e) + ((gradX dx 0 * wy) + (gradX dx 1 * wDy)))) y) y) y

/-- The body of `MFEM_FORALL(e, NE, ...)` in `PADiffusionApply2D`, for element
`e`.  `B`, `G` are viewed as `Reshape(., Q1D, D1D)`, `Bt`, `Gt` as
`Reshape(., D1D, Q1D)`, `op` as `Reshape(., Q1D*Q1D, 3, NE)`, `x` and `y` as
`Reshape(., D1D, D1D, NE)`. -/
def PADiffusionApply2D_body (D1D Q1D : Nat) (B G Bt Gt op x : Nat → K)
    (grad0 : Nat → Nat → Nat → K) (gradXq0 gradXd0 : Nat → Nat → K)
    (e : Nat) (y : Nat → K) : Nat → K :=
  let grad := apply2D_clear Q1D grad0
  let grad := apply2D_forward D1D Q1D B G x gradXq0 e grad
  let grad := apply2D_metric Q1D op e grad
  apply2D_backward D1D Q1D Bt Gt gradXd0 grad e y

/-- The kernel `PADiffusionApply2D<T_D1D,T_Q1D>(NE,b,g,bt,gt,op,x,y,d1d,q1d)`.
`MAX_D1D` and `MAX_Q1D` are the compile-time limits of the library; a failed
`MFEM_VERIFY` is `none`, otherwise the result is the output buffer. -/
def PADiffusionApply2D (MAX_D1D MAX_Q1D T_D1D T_Q1D NE : Nat) (b g bt gt op x : Nat → K)
    (grad0 : Nat → Nat → Nat → K) (gradXq0 gradXd0 : Nat → Nat → K)
    (y : Nat → K) (d1d q1d : Nat) : Option (Nat → K) :=
  let D1D := if T_D1D ≠ 0 then T_D1D else d1d
  let Q1D := if T_Q1D ≠ 0 then T_Q1D else q1d
  if ¬ D1D ≤ MAX_D1D then none
  else if ¬ Q1D ≤ MAX_Q1D then none
  else some (forLoop NE
    (fun e y => PADiffusionApply2D_body D1D Q1D b g bt gt op x grad0 gradXq0 gradXd0 e y) y)

/-- The direct dense contraction in 2D: entry `(dx,dy)` of the stiffness
action on element `e`, the sum over `qx, qy, dx', dy'` of
`g(dx,dy)ᵀ O(q,e) g(dx',dy') x(dx',dy',e)` with `q = qx + qy*Q1D`,
`g(a,b) = (G(qx,a) B(qy,b), B(qx,a) G(qy,b))` and
`O = [[op(q,0,e), op(q,1,e)], [op(q,1,e), op(q,2,e)]]`. -/
def denseAction2D (D1D Q1D : Nat) (B G op x : Nat → K) (e dx dy : Nat) : K :=
  ∑ qx in Finset.range Q1D, ∑ qy in Finset.range Q1D,
    ∑ dx' in Finset.range D1D, ∑ dy' in Finset.range D1D,
      let q := qx + qy * Q1D
      let O11 := op (idx3 (Q1D * Q1D) 3 q 0 e)
      let O12 := op (idx3 (Q1D * Q1D) 3 q 1 e)
      let O22 := op (idx3 (Q1D * Q1D) 3 q 2 e)
      let g1 := G (idx2 Q1D qx dx) * B (idx2 Q1D qy dy)
      let g2 := B (idx2 Q1D qx dx) * G (idx2 Q1D qy dy)
      let h1 := G (idx2 Q1D qx dx') * B (idx2 Q1D qy dy')
      let h2 := B (idx2 Q1D qx dx') * G (idx2 Q1D qy dy')
      (g1 * (O11 * h1 + O12 * h2) + g2 * (O12 * h1 + O22 * h2)) * x (idx3 D1D D1D dx' dy' e)

end Apply2D

/-! ## Generic 3D Apply kernel -/

section Apply3D

variable {K : Type*} [CommRing K]

/-- Lines 637-648 of `PADiffusionApply3D`: the local array
`grad[max_Q1D][max_Q1D][max_Q1D][3]` (initial contents `grad0`) is cleared for
`qz, qy, qx < Q1D`. -/
def apply3D_clear (Q1D : Nat) (grad0 : Nat → Nat → Nat → Nat → K) :
    Nat → Nat → Nat → Nat → K :=
  forLoop Q1D (fun qz grad =>
    forLoop Q1D (fun qy grad =>
      forLoop Q1D (fun qx grad =>
        let grad := set4 grad qz qy qx 0 0
        let grad := set4 grad qz qy qx 1 0
        set4 grad qz qy qx 2 0) grad) grad) grad0

/-- Lines 663-677: the local `gradX[max_Q1D][2]` of iteration `(dz,dy)`
(initial contents `gradXq0`), cleared and then filled by the contraction over
`dx`. -/
def apply3D_gradXq (D1D Q1D : Nat) (B G x : Nat → K) (gradXq0 : Nat → Nat → K)
    (e dz dy : Nat) : Nat → Nat → K :=
  let gradX := forLoop Q1D (fun qx gradX =>
    let gradX := set2 gradX qx 0 0
    set2 gradX qx 1 0) gradXq0
  forLoop D1D (fun dx gradX =>
    let s := x (idx4 D1D D1D D1D dx dy dz e)
    forLoop Q1D (fun qx gradX =>
      let gradX := set2 gradX qx 0 (gradX qx 0 + s * B (idx2 Q1D qx dx))
      set2 gradX qx 1 (gradX qx 1 + s * G (idx2 Q1D qx dx))) gradX) gradX

/-- Lines 651-691: the local `gradXY[max_Q1D][max_Q1D][3]` of iteration `dz`
(initial contents `gradXYq0`), cleared and then filled by the loop over
`dy`. -/
def apply3D_gradXYq (D1D Q1D : Nat) (B G x : Nat → K) (gradXYq0 : Nat → Nat → Nat → K)
    (gradXq0 : Nat → Nat → K) (e dz : Nat) : Nat → Nat → Nat → K :=
  let gradXY := forLoop Q1D (fun qy gradXY =>
    forLoop Q1D (fun qx gradXY =>
      let gradXY := set3 gradXY qy qx 0 0
      let gradXY := set3 gradXY qy qx 1 0
      set3 gradXY qy qx 2 0) gradXY) gradXYq0
  forLoop D1D (fun dy gradXY =>
    let gradX := apply3D_gradXq D1D Q1D B G x gradXq0 e dz dy
    forLoop Q1D (fun qy gradXY =>
      let wy := B (idx2 Q1D qy dy)
      let wDy := G (idx2 Q1D qy dy)
      forLoop Q1D (fun qx gradXY =>
        let wx := gradX qx 0
        let wDx := gradX qx 1
        let gradXY := set3 gradXY qy qx 0 (gradXY qy qx 0 + wDx * wy)
        let gradXY := set3 gradXY qy qx 1 (gradXY qy qx 1 + wx * wDy)
        set3 gradXY qy qx 2 (gradXY qy qx 2 + wx * wy)) gradXY) gradXY) gradXY

/-- Lines 649-706: the loop over `dz` accumulating the reference gradient at
the quadrature points into `grad`. -/
def apply3D_forward (D1D Q1D : Nat) (B G x : Nat → K) (gradXYq0 : Nat → Nat → Nat → K)
    (gradXq0 : Nat → Nat → K) (e : Nat) (grad : Nat → Nat → Nat → Nat → K) :
    Nat → Nat → Nat → Nat → K :=
  forLoop D1D (fun dz grad =>
    let gradXY := apply3D_gradXYq D1D Q1D B G x gradXYq0 gradXq0 e dz
    forLoop Q1D (fun qz grad =>
      let wz := B (idx2 Q1D qz dz)
      let wDz := G (idx2 Q1D qz dz)
      forLoop Q1D (fun qy grad =>
        forLoop Q1D (fun qx grad =>
          let grad := set4 grad qz qy qx 0 (grad qz qy qx 0 + gradXY qy qx 0 * wz)
          let grad := set4 grad qz qy qx 1 (grad qz qy qx 1 + gradXY qy qx 1 * wz)
          set4 grad qz qy qx 2 (grad qz qy qx 2 + gradXY qy qx 2 * wDz)) grad) grad) grad) grad

/-- Lines 708-729: the metric tensor is applied in place at every quadrature
point; slot `0..5` of `op` is read as `O11, O12, O13, O22, O23, O33`. -/
def apply3D_metric (Q1D : Nat) (op : Nat → K) (e : Nat)
    (grad : Nat → Nat → Nat → Nat → K) : Nat → Nat → Nat → Nat → K :=
  forLoop Q1D (fun qz grad =>
    forLoop Q1D (fun qy grad =>
      forLoop Q1D (fun qx grad =>
        let q := qx + (qy + qz * Q1D) * Q1D
        let O11 := op (idx3 (Q1D * Q1D * Q1D) 6 q 0 e)
        let O12 := op (idx3 (Q1D * Q1D * Q1D) 6 q 1 e)
        let O13 := op (idx3 (Q1D * Q1D * Q1D) 6 q 2 e)
        let O22 := op (idx3 (Q1D * Q1D * Q1D) 6 q 3 e)
        let O23 := op (idx3 (Q1D * Q1D * Q1D) 6 q 4 e)
        let O33 := op (idx3 (Q1D * Q1D * Q1D) 6 q 5 e)
        let gradX := grad qz qy qx 0
        let gradY := grad qz qy qx 1
        let gradZ := grad qz qy qx 2
        let grad := set4 grad qz qy qx 0 ((O11 * gradX) + (O12 * gradY) + (O13 * gradZ))
        let grad := set4 grad qz qy qx 1 ((O12 * gradX) + (O22 * gradY) + (O23 * gradZ))
        set4 grad qz qy qx 2 ((O13 * gradX) + (O23 * gradY) + (O33 * gradZ))) grad) grad) grad

/-- Lines 744-764: the local `gradX[max_D1D][3]` of iteration `(qz,qy)`
(initial contents `gradXd0`), cleared and then filled by the contraction over
`qx`. -/
def apply3D_gradXd (D1D Q1D : Nat) (Bt Gt : Nat → K) (gradXd0 : Nat → Nat → K)
    (grad : Nat → Nat → Nat → Nat → K) (qz qy : Nat) : Nat → Nat → K :=
  let gradX := forLoop D1D (fun dx gradX =>
    let gradX := set2 gradX dx 0 0
    let gradX := set2 gradX dx 1 0
    set2 gradX dx 2 0) gradXd0
  forLoop Q1D (fun qx gradX =>
    let gX := grad qz qy qx 0
    let gY := grad qz qy qx 1
    let gZ := grad qz qy qx 2
    forLoop D1D (fun dx gradX =>
      let wx := Bt (idx2 D1D dx qx)
      let wDx := Gt (idx2 D1D dx qx)
      let gradX := set2 gradX dx 0 (gradX dx 0 + gX * wDx)
      let gradX := set2 gradX dx 1 (gradX dx 1 + gY * wx)
      set2 gradX dx 2 (gradX dx 2 + gZ * wx)) gradX) gradX

/-- Lines 732-776: the local `gradXY[max_D1D][max_D1D][3]` of iteration `qz`
(initial contents `gradXYd0`), cleared and then filled by the loop over
`qy`. -/
def apply3D_gradXYd (D1D Q1D : Nat) (Bt Gt : Nat → K) (gradXYd0 : Nat → Nat → Nat → K)
    (gradXd0 : Nat → Nat → K) (grad : Nat → Nat → Nat → Nat → K) (qz : Nat) :
    Nat → Nat → Nat → K :=
  let gradXY := forLoop D1D (fun dy gradXY =>
    forLoop D1D (fun dx gradXY =>
      let gradXY := set3 gradXY dy dx 0 0
      let gradXY := set3 gradXY dy dx 1 0
      set3 gradXY dy dx 2 0) gradXY) gradXYd0
  forLoop Q1D (fun qy gradXY =>
    let gradX := apply3D_gradXd D1D Q1D Bt Gt gradXd0 grad qz qy
    forLoop D1D (fun dy gradXY =>
      let wy := Bt (idx2 D1D dy qy)
      let wDy := Gt (idx2 D1D dy qy)
      forLoop D1D (fun dx gradXY =>
        let gradXY := set3 gradXY dy dx 0 (gradXY dy dx 0 + gradX dx 0 * wy)
        let gradXY := set3 gradXY dy dx 1 (gradXY dy dx 1 + gradX dx 1 * wDy)
        set3 gradXY dy dx 2 (gradXY dy dx 2 + gradX dx 2 * wy)) gradXY) gradXY) gradXY

/-- Lines 730-792: the loop over `qz` contracting back to the nodes and
accumulating into `y`. -/
def apply3D_backward (D1D Q1D : Nat) (Bt Gt : Nat → K) (gradXYd0 : Nat → Nat → Nat → K)
    (gradXd0 : Nat → Nat → K) (grad : Nat → Nat → Nat → Nat → K) (e : Nat) (y : Nat → K) :
    Nat → K :=
  forLoop Q1D (fun qz y =>
    let gradXY := apply3D_gradXYd D1D Q1D Bt Gt gradXYd0 gradXd0 grad qz
    forLoop D1D (fun dz y =>
      let wz := Bt (idx2 D1D dz qz)
      let wDz := Gt (idx2 D1D dz qz)
      forLoop D1D (fun dy y =>
        forLoop D1D (fun dx y =>
          Function.update y (idx4 D1D D1D D1D dx dy dz e)
            (y (idx4 D1D D1D D1D dx dy dz e) +
              ((gradXY dy dx 0 * wz) + (gradXY dy dx 1 * wz) + (gradXY dy dx 2 * wDz)))) y) y) y) y

/-- Initial contents of the uninitialized local arrays of `PADiffusionApply3D`:
`grad`, the two `gradXY` and the two `gradX`. -/
structure Scratch3D (K : Type*) where
  /-- Array `grad[max_Q1D][max_Q1D][max_Q1D][3]`. -/
  grad : Nat → Nat → Nat → Nat → K
  /-- Array `gradXY[max_Q1D][max_Q1D][3]` of the forward sweep. -/
  gradXYq : Nat → Nat → Nat → K
  /-- Array `gradX[max_Q1D][2]` of the forward sweep. -/
  gradXq : Nat → Nat → K
  /-- Array `gradXY[max_D1D][max_D1D][3]` of the backward sweep. -/
  gradXYd : Nat → Nat → Nat → K
  /-- Array `gradX[max_D1D][3]` of the backward sweep. -/
  gradXd : Nat → Nat → K

/-- The body of `MFEM_FORALL(e, NE, ...)` in `PADiffusionApply3D`, for element
`e`.  `B`, `G` are viewed as `Reshape(., Q1D, D1D)`, `Bt`, `Gt` as
`Reshape(., D1D, Q1D)`, `op` as `Reshape(., Q1D*Q1D*Q1D, 6, NE)`, `x` and `y`
as `Reshape(., D1D, D1D, D1D, NE)`. -/
def PADiffusionApply3D_body (D1D Q1D : Nat) (B G Bt Gt op x : Nat → K)
    (s0 : Scratch3D K) (e : Nat) (y : Nat → K) : Nat → K :=
  let grad := apply3D_clear Q1D s0.grad
  let grad := apply3D_forward D1D Q1D B G x s0.gradXYq s0.gradXq e grad
  let grad := apply3D_metric Q1D op e grad
  apply3D_backward D1D Q1D Bt Gt s0.gradXYd s0.gradXd grad e y

/-- The kernel `PADiffusionApply3D<T_D1D,T_Q1D>(NE,b,g,bt,gt,op,x,y,d1d,q1d)`.
`MAX_D1D` and `MAX_Q1D` are the compile-time limits of the library; a failed
`MFEM_VERIFY` is `none`, otherwise the result is the output buffer. -/
def PADiffusionApply3D (MAX_D1D MAX_Q1D T_D1D T_Q1D NE : Nat) (b g bt gt op x : Nat → K)
    (s0 : Scratch3D K) (y : Nat → K) (d1d q1d : Nat) : Option (Nat → K) :=
  let D1D := if T_D1D ≠ 0 then T_D1D else d1d
  let Q1D := if T_Q1D ≠ 0 then T_Q1D else q1d
  if ¬ D1D ≤ MAX_D1D then none
  else if ¬ Q1D ≤ MAX_Q1D then none
  else some (forLoop NE (fun e y => PADiffusionApply3D_body D1D Q1D b g bt gt op x s0 e y) y)

/-- The symmetric matrix `O(q,e)` whose (1,1), (1,2), (1,3), (2,2), (2,3),
(3,3) entries are `op(q,0..5,e)`. -/
def metricO3 (NQ : Nat) (op : Nat → K) (q e : Nat) : Matrix (Fin 3) (Fin 3) K :=
  Matrix.of ![![op (idx3 NQ 6 q 0 e), op (idx3 NQ 6 q 1 e), op (idx3 NQ 6 q 2 e)],
    ![op (idx3 NQ 6 q 1 e), op (idx3 NQ 6 q 3 e), op (idx3 NQ 6 q 4 e)],
    ![op (idx3 NQ 6 q 2 e), op (idx3 NQ 6 q 4 e), op (idx3 NQ 6 q 5 e)]]

/-- The reference gradient `g(a,b,c)` of the tensor-product basis function
`(a,b,c)` at the quadrature point `(qx,qy,qz)`. -/
def refGrad3 (Q1D : Nat) (B G : Nat → K) (qx qy qz a b c : Nat) : Fin 3 → K :=
  ![G (idx2 Q1D qx a) * B (idx2 Q1D qy b) * B (idx2 Q1D qz c),
    B (idx2 Q1D qx a) * G (idx2 Q1D qy b) * B (idx2 Q1D qz c),
    B (idx2 Q1D qx a) * B (idx2 Q1D qy b) * G (idx2 Q1D qz c)]

/-- The direct dense contraction in 3D: entry `(dx,dy,dz)` of the stiffness
action on element `e`, the sum over `qx, qy, qz, dx', dy', dz'` of
`g(dx,dy,dz)ᵀ O(q,e) g(dx',dy',dz') x(dx',dy',dz',e)` with
`q = qx + (qy + qz*Q1D)*Q1D`. -/
def denseAction3D (D1D Q1D : Nat) (B G op x : Nat → K) (e dx dy dz : Nat) : K :=
  ∑ qx in Finset.range Q1D, ∑ qy in Finset.range Q1D, ∑ qz in Finset.range Q1D,
    ∑ dx' in Finset.range D1D, ∑ dy' in Finset.range D1D, ∑ dz' in Finset.range D1D,
      Matrix.dotProduct (refGrad3 Q1D B G qx qy qz dx dy dz)
        (Matrix.mulVec (metricO3 (Q1D * Q1D * Q1D) op (qx + (qy + qz * Q1D) * Q1D) e)
          (refGrad3 Q1D B G qx qy qz dx' dy' dz')) * x (idx4 D1D D1D D1D dx' dy' dz' e)

end Apply3D

/-! ## The sum-factorized form of the 3D stiffness action -/

section SumFact3D

variable {K : Type*} [CommRing K]

/-- The reference gradient of the field `x` of element `e` at the quadrature
point `(qx,qy,qz)`, by successive 1D contractions: interpolation along the
inactive axes, differentiation along the active one. -/
def sumfact3D_grad (D1D Q1D : Nat) (B G x : Nat → K) (e qz qy qx : Nat) : Fin 3 → K :=
  ![∑ dz in Finset.range D1D, (∑ dy in Finset.range D1D,
      (∑ dx in Finset.range D1D, x (idx4 D1D D1D D1D dx dy dz e) * G (idx2 Q1D qx dx)) *
        B (idx2 Q1D qy dy)) * B (idx2 Q1D qz dz),
    ∑ dz in Finset.range D1D, (∑ dy in Finset.range D1D,
      (∑ dx in Finset.range D1D, x (idx4 D1D D1D D1D dx dy dz e) * B (idx2 Q1D qx dx)) *
        G (idx2 Q1D qy dy)) * B (idx2 Q1D qz dz),
    ∑ dz in Finset.range D1D, (∑ dy in Finset.range D1D,
      (∑ dx in Finset.range D1D, x (idx4 D1D D1D D1D dx dy dz e) * B (idx2 Q1D qx dx)) *
        B (idx2 Q1D qy dy)) * G (idx2 Q1D qz dz)]

/-- The reference gradient multiplied by the metric tensor of the point. -/
def sumfact3D_flux (D1D Q1D : Nat) (B G op x : Nat → K) (e qz qy qx : Nat) : Fin 3 → K :=
  Matrix.mulVec (metricO3 (Q1D * Q1D * Q1D) op (qx + (qy + qz * Q1D) * Q1D) e)
    (sumfact3D_grad D1D Q1D B G x e qz qy qx)

/-- The flux contracted back to the node `(dx,dy,dz)` with the transposed 1D
tables, axis by axis. -/
def sumfact3D_action (D1D Q1D : Nat) (B G op x : Nat → K) (e dx dy dz : Nat) : K :=
  ∑ qz in Finset.range Q1D,
    ((∑ qy in Finset.range Q1D,
        (∑ qx in Finset.range Q1D,
          sumfact3D_flux D1D Q1D B G op x e qz qy qx 0 * G (idx2 Q1D qx dx)) *
          B (idx2 Q1D qy dy)) * B (idx2 Q1D qz dz) +
     (∑ qy in Finset.range Q1D,
        (∑ qx in Finset.range Q1D,
          sumfact3D_flux D1D Q1D B G op x e qz qy qx 1 * B (idx2 Q1D qx dx)) *
          G (idx2 Q1D qy dy)) * B (idx2 Q1D qz dz) +
     (∑ qy in Finset.range Q1D,
        (∑ qx in Finset.range Q1D,
          sumfact3D_flux D1D Q1D B G op x e qz qy qx 2 * B (idx2 Q1D qx dx)) *
          B (idx2 Q1D qy dy)) * G (idx2 Q1D qz dz))

end SumFact3D

/-! ## Shared-memory tiled 3D Apply kernel

The macros of `general/forall.hpp` are not part of this file; they are taken
with their host meaning, which is also the phase-by-phase meaning on a device:
`MFEM_FORALL_3D(e, NE, X, Y, Z, body)` runs `body` for `e = 0 .. NE-1`,
`MFEM_FOREACH_THREAD(i, k, N)` is the loop `for (i = 0; i < N; ++i)` (on a
device its iterations are distributed over the workers of the group),
`MFEM_THREAD_ID(z)` is `0` (a block guarded by `tidz == 0` runs once per group),
`MFEM_SYNC_THREAD` ends a phase, and `MFEM_SHARED` arrays are per-group scratch
without initializer. -/

section Smem3D

variable {K : Type*} [CommRing K]

/-- Offset of `A[a][b]` through a view `double (*A)[n1]`. -/
def row2 (n1 a b : Nat) : Nat := a * n1 + b

/-- Offset of `A[a][b][c]` through a view `double (*A)[n1][n2]`. -/
def row3 (n1 n2 a b c : Nat) : Nat := (a * n1 + b) * n2 + c

/-- Offset of `A[a][b]` for a view `A = (double (*)[n1]) (s + k)` into an
array `s[..][M]`. -/
def view2 (M k n1 a b : Nat) : Nat := k * M + row2 n1 a b

/-- Offset of `A[a][b][c]` for a view `A = (double (*)[n1][n2]) (s + k)` into
an array `s[..][M]`. -/
def view3 (M k n1 n2 a b c : Nat) : Nat := k * M + row3 n1 n2 a b c

/-- Initial contents of the `MFEM_SHARED` arrays `sBG[2][MQ1*MD1]`,
`sm0[3][MDQ*MDQ*MDQ]` and `sm1[3][MDQ*MDQ*MDQ]`. -/
structure Shared3D (K : Type*) where
  /-- Array `sBG`. -/
  sBG : Nat → K
  /-- Array `sm0`. -/
  sm0 : Nat → K
  /-- Array `sm1`. -/
  sm1 : Nat → K

/-- Lines 851-860: `X[dz][dy][dx] = x(dx,dy,dz,e)` with `X = sm0+2` viewed as
`[MD1][MD1]`. -/
def smem3D_loadX (D1D MD1 MDQ : Nat) (x : Nat → K) (e : Nat) (sm0 : Nat → K) : Nat → K :=
  forLoop D1D (fun dz sm0 =>
    forLoop D1D (fun dy sm0 =>
      forLoop D1D (fun dx sm0 =>
        Function.update sm0 (view3 (MDQ * MDQ * MDQ) 2 MD1 MD1 dz dy dx)
          (x (idx4 D1D D1D D1D dx dy dz e))) sm0) sm0) sm0

/-- Lines 861-871: `B[q][d] = b(q,d); G[q][d] = g(q,d)` with `B = sBG+0`,
`G = sBG+1` viewed as `[MD1]`, under the guard `tidz == 0`. -/
def smem3D_loadBG (D1D Q1D MD1 MQ1 : Nat) (b g : Nat → K) (tidz : Nat) (sBG : Nat → K) :
    Nat → K :=
  if tidz = 0 then
    forLoop D1D (fun d sBG =>
      forLoop Q1D (fun q sBG =>
        let sBG := Function.update sBG (view2 (MQ1 * MD1) 0 MD1 q d) (b (idx2 Q1D q d))
        Function.update sBG (view2 (MQ1 * MD1) 1 MD1 q d) (g (idx2 Q1D q d))) sBG) sBG
  else sBG

/-- Lines 873-891: contraction over `dx`, from `X` to `DDQ0 = sm0+0`,
`DDQ1 = sm0+1` viewed as `[MD1][MQ1]`. -/
def smem3D_phaseDDQ (D1D Q1D MD1 MQ1 MDQ : Nat) (sBG : Nat → K) (sm0 : Nat → K) : Nat → K :=
  forLoop D1D (fun dz sm0 =>
    forLoop D1D (fun dy sm0 =>
      forLoop Q1D (fun qx sm0 =>
        let uv := forLoop D1D (fun dx (uv : K × K) =>
          let coords := sm0 (view3 (MDQ * MDQ * MDQ) 2 MD1 MD1 dz dy dx)
          (uv.1 + coords * sBG (view2 (MQ1 * MD1) 0 MD1 qx dx),
           uv.2 + coords * sBG (view2 (MQ1 * MD1) 1 MD1 qx dx))) (0, 0)
        let sm0 := Function.update sm0 (view3 (MDQ * MDQ * MDQ) 0 MD1 MQ1 dz dy qx) uv.1
        Function.update sm0 (view3 (MDQ * MDQ * MDQ) 1 MD1 MQ1 dz dy qx) uv.2) sm0) sm0) sm0

/-- Lines 893-913: contraction over `dy`, from `DDQ0`, `DDQ1` (in `sm0`) to
`DQQ0..2 = sm1+0..2` viewed as `[MQ1][MQ1]`. -/
def smem3D_phaseDQQ (D1D Q1D MD1 MQ1 MDQ : Nat) (sBG sm0 : Nat → K) (sm1 : Nat → K) :
    Nat → K :=
  forLoop D1D (fun dz sm1 =>
    forLoop Q1D (fun qy sm1 =>
      forLoop Q1D (fun qx sm1 =>
        let uvw := forLoop D1D (fun dy (uvw : K × K × K) =>
          (uvw.1 + sm0 (view3 (MDQ * MDQ * MDQ) 1 MD1 MQ1 dz dy qx) *
              sBG (view2 (MQ1 * MD1) 0 MD1 qy dy),
           uvw.2.1 + sm0 (view3 (MDQ * MDQ * MDQ) 0 MD1 MQ1 dz dy qx) *
              sBG (view2 (MQ1 * MD1) 1 MD1 qy dy),
           uvw.2.2 + sm0 (view3 (MDQ * MDQ * MDQ) 0 MD1 MQ1 dz dy qx) *
              sBG (view2 (MQ1 * MD1) 0 MD1 qy dy))) (0, 0, 0)
        let sm1 := Function.update sm1 (view3 (MDQ * MDQ * MDQ) 0 MQ1 MQ1 dz qy qx) uvw.1
        let sm1 := Function.update sm1 (view3 (MDQ * MDQ * MDQ) 1 MQ1 MQ1 dz qy qx) uvw.2.1
        Function.update sm1 (view3 (MDQ * MDQ * MDQ) 2 MQ1 MQ1 dz qy qx) uvw.2.2) sm1) sm1) sm1

/-- Lines 915-935: contraction over `dz`, from `DQQ0..2` (in `sm1`) to
`QQQ0..2 = sm0+0..2` viewed as `[MQ1][MQ1]`. -/
def smem3D_phaseQQQ (D1D Q1D MD1 MQ1 MDQ : Nat) (sBG sm1 : Nat → K) (sm0 : Nat → K) :
    Nat → K :=
  forLoop Q1D (fun qz sm0 =>
    forLoop Q1D (fun qy sm0 =>
      forLoop Q1D (fun qx sm0 =>
        let uvw := forLoop D1D (fun dz (uvw : K × K × K) =>
          (uvw.1 + sm1 (view3 (MDQ * MDQ * MDQ) 0 MQ1 MQ1 dz qy qx) *
              sBG (view2 (MQ1 * MD1) 0 MD1 qz dz),
           uvw.2.1 + sm1 (view3 (MDQ * MDQ * MDQ) 1 MQ1 MQ1 dz qy qx) *
              sBG (view2 (MQ1 * MD1) 0 MD1 qz dz),
           uvw.2.2 + sm1 (view3 (MDQ * MDQ * MDQ) 2 MQ1 MQ1 dz qy qx) *
              sBG (view2 (MQ1 * MD1) 1 MD1 qz dz))) (0, 0, 0)
        let sm0 := Function.update sm0 (view3 (MDQ * MDQ * MDQ) 0 MQ1 MQ1 qz qy qx) uvw.1
        let sm0 := Function.update sm0 (view3 (MDQ * MDQ * MDQ) 1 MQ1 MQ1 qz qy qx) uvw.2.1
        Function.update sm0 (view3 (MDQ * MDQ * MDQ) 2 MQ1 MQ1 qz qy qx) uvw.2.2) sm0) sm0) sm0

/-- Lines 937-958: the metric tensor applied in place to `QQQ0..2`. -/
def smem3D_phaseMetric (Q1D MQ1 MDQ : Nat) (op : Nat → K) (e : Nat) (sm0 : Nat → K) :
    Nat → K :=
  forLoop Q1D (fun qz sm0 =>
    forLoop Q1D (fun qy sm0 =>
      forLoop Q1D (fun qx sm0 =>
        let q := qx + ((qy * Q1D) + (qz * Q1D * Q1D))
        let O11 := op (idx3 (Q1D * Q1D * Q1D) 6 q 0 e)
        let O12 := op (idx3 (Q1D * Q1D * Q1D) 6 q 1 e)
        let O13 := op (idx3 (Q1D * Q1D * Q1D) 6 q 2 e)
        let O22 := op (idx3 (Q1D * Q1D * Q1D) 6 q 3 e)
        let O23 := op (idx3 (Q1D * Q1D * Q1D) 6 q 4 e)
        let O33 := op (idx3 (Q1D * Q1D * Q1D) 6 q 5 e)
        let gX := sm0 (view3 (MDQ * MDQ * MDQ) 0 MQ1 MQ1 qz qy qx)
        let gY := sm0 (view3 (MDQ * MDQ * MDQ) 1 MQ1 MQ1 qz qy qx)
        let gZ := sm0 (view3 (MDQ * MDQ * MDQ) 2 MQ1 MQ1 qz qy qx)
        let sm0 := Function.update sm0 (view3 (MDQ * MDQ * MDQ) 0 MQ1 MQ1 qz qy qx)
          ((O11 * gX) + (O12 * gY) + (O13 * gZ))
        let sm0 := Function.update sm0 (view3 (MDQ * MDQ * MDQ) 1 MQ1 MQ1 qz qy qx)
          ((O12 * gX) + (O22 * gY) + (O23 * gZ))
        Function.update sm0 (view3 (MDQ * MDQ * MDQ) 2 MQ1 MQ1 qz qy qx)
          ((O13 * gX) + (O23 * gY) + (O33 * gZ))) sm0) sm0) sm0

/-- Lines 960-970: `Bt[d][q] = b(q,d); Gt[d][q] = g(q,d)` with `Bt = sBG+0`,
`Gt = sBG+1` viewed as `[MQ1]`, under the guard `tidz == 0`. -/
def smem3D_loadBGt (D1D Q1D MD1 MQ1 : Nat) (b g : Nat → K) (tidz : Nat) (sBG : Nat → K) :
    Nat → K :=
  if tidz = 0 then
    forLoop D1D (fun d sBG =>
      forLoop Q1D (fun q sBG =>
        let sBG := Function.update sBG (view2 (MQ1 * MD1) 0 MQ1 d q) (b (idx2 Q1D q d))
        Function.update sBG (view2 (MQ1 * MD1) 1 MQ1 d q) (g (idx2 Q1D q d))) sBG) sBG
  else sBG

/-- Lines 972-992: contraction over `qx`, from `QQQ0..2` (in `sm0`) to
`QQD0..2 = sm1+0..2` viewed as `[MQ1][MD1]`. -/
def smem3D_phaseQQD (D1D Q1D MD1 MQ1 MDQ : Nat) (sBG sm0 : Nat → K) (sm1 : Nat → K) :
    Nat → K :=
  forLoop Q1D (fun qz sm1 =>
    forLoop Q1D (fun qy sm1 =>
      forLoop D1D (fun dx sm1 =>
        let uvw := forLoop Q1D (fun qx (uvw : K × K × K) =>
          (uvw.1 + sm0 (view3 (MDQ * MDQ * MDQ) 0 MQ1 MQ1 qz qy qx) *
              sBG (view2 (MQ1 * MD1) 1 MQ1 dx qx),
           uvw.2.1 + sm0 (view3 (MDQ * MDQ * MDQ) 1 MQ1 MQ1 qz qy qx) *
              sBG (view2 (MQ1 * MD1) 0 MQ1 dx qx),
           uvw.2.2 + sm0 (view3 (MDQ * MDQ * MDQ) 2 MQ1 MQ1 qz qy qx) *
              sBG (view2 (MQ1 * MD1) 0 MQ1 dx qx))) (0, 0, 0)
        let sm1 := Function.update sm1 (view3 (MDQ * MDQ * MDQ) 0 MQ1 MD1 qz qy dx) uvw.1
        let sm1 := Function.update sm1 (view3 (MDQ * MDQ * MDQ) 1 MQ1 MD1 qz qy dx) uvw.2.1
        Function.update sm1 (view3 (MDQ * MDQ * MDQ) 2 MQ1 MD1 qz qy dx) uvw.2.2) sm1) sm1) sm1

/-- Lines 994-1014: contraction over `qy`, from `QQD0..2` (in `sm1`) to
`QDD0..2 = sm0+0..2` viewed as `[MD1][MD1]`. -/
def smem3D_phaseQDD (D1D Q1D MD1 MQ1 MDQ : Nat) (sBG sm1 : Nat → K) (sm0 : Nat → K) :
    Nat → K :=
  forLoop Q1D (fun qz sm0 =>
    forLoop D1D (fun dy sm0 =>
      forLoop D1D (fun dx sm0 =>
        let uvw := forLoop Q1D (fun qy (uvw : K × K × K) =>
          (uvw.1 + sm1 (view3 (MDQ * MDQ * MDQ) 0 MQ1 MD1 qz qy dx) *
              sBG (view2 (MQ1 * MD1) 0 MQ1 dy qy),
           uvw.2.1 + sm1 (view3 (MDQ * MDQ * MDQ) 1 MQ1 MD1 qz qy dx) *
              sBG (view2 (MQ1 * MD1) 1 MQ1 dy qy),
           uvw.2.2 + sm1 (view3 (MDQ * MDQ * MDQ) 2 MQ1 MD1 qz qy dx) *
              sBG (view2 (MQ1 * MD1) 0 MQ1 dy qy))) (0, 0, 0)
        let sm0 := Function.update sm0 (view3 (MDQ * MDQ * MDQ) 0 MD1 MD1 qz dy dx) uvw.1
        let sm0 := Function.update sm0 (view3 (MDQ * MDQ * MDQ) 1 MD1 MD1 qz dy dx) uvw.2.1
        Function.update sm0 (view3 (MDQ * MDQ * MDQ) 2 MD1 MD1 qz dy dx) uvw.2.2) sm0) sm0) sm0

/-- Lines 1016-1034: contraction over `qz`, from `QDD0..2` (in `sm0`),
accumulated into `y`. -/
def smem3D_phaseY (D1D Q1D MD1 MQ1 MDQ : Nat) (sBG sm0 : Nat → K) (e : Nat) (y : Nat → K) :
    Nat → K :=
  forLoop D1D (fun dz y =>
    forLoop D1D (fun dy y =>
      forLoop D1D (fun dx y =>
        let uvw := forLoop Q1D (fun qz (uvw : K × K × K) =>
          (uvw.1 + sm0 (view3 (MDQ * MDQ * MDQ) 0 MD1 MD1 qz dy dx) *
              sBG (view2 (MQ1 * MD1) 0 MQ1 dz qz),
           uvw.2.1 + sm0 (view3 (MDQ * MDQ * MDQ) 1 MD1 MD1 qz dy dx) *
              sBG (view2 (MQ1 * MD1) 0 MQ1 dz qz),
           uvw.2.2 + sm0 (view3 (MDQ * MDQ * MDQ) 2 MD1 MD1 qz dy dx) *
              sBG (view2 (MQ1 * MD1) 1 MQ1 dz qz))) (0, 0, 0)
        Function.update y (idx4 D1D D1D D1D dx dy dz e)
          (y (idx4 D1D D1D D1D dx dy dz e) + (uvw.1 + uvw.2.1 + uvw.2.2))) y) y) y

/-- The body of `MFEM_FORALL_3D(e, NE, Q1D, Q1D, Q1D, ...)` in
`SmemPADiffusionApply3D`, for element `e`: the phases in source order, each
run to completion before the next one starts. -/
def SmemPADiffusionApply3D_body (D1D Q1D MD1 MQ1 : Nat) (b g op x : Nat → K)
    (sh : Shared3D K) (e : Nat) (y : Nat → K) : Nat → K :=
  let tidz := 0
  let MDQ := if MQ1 > MD1 then MQ1 else MD1
  let sm0 := smem3D_loadX D1D MD1 MDQ x e sh.sm0
  let sBG := smem3D_loadBG D1D Q1D MD1 MQ1 b g tidz sh.sBG
  let sm0 := smem3D_phaseDDQ D1D Q1D MD1 MQ1 MDQ sBG sm0
  let sm1 := smem3D_phaseDQQ D1D Q1D MD1 MQ1 MDQ sBG sm0 sh.sm1
  let sm0 := smem3D_phaseQQQ D1D Q1D MD1 MQ1 MDQ sBG sm1 sm0
  let sm0 := smem3D_phaseMetric Q1D MQ1 MDQ op e sm0
  let sBG := smem3D_loadBGt D1D Q1D MD1 MQ1 b g tidz sBG
  let sm1 := smem3D_phaseQQD D1D Q1D MD1 MQ1 MDQ sBG sm0 sm1
  let sm0 := smem3D_phaseQDD D1D Q1D MD1 MQ1 MDQ sBG sm1 sm0
  smem3D_phaseY D1D Q1D MD1 MQ1 MDQ sBG sm0 e y

/-- The kernel `SmemPADiffusionApply3D<T_D1D,T_Q1D>(NE,b,g,op,x,y,d1d,q1d)`;
a failed `MFEM_VERIFY` is `none`. -/
def SmemPADiffusionApply3D (MAX_D1D MAX_Q1D T_D1D T_Q1D NE : Nat) (b g op x : Nat → K)
    (sh : Shared3D K) (y : Nat → K) (d1d q1d : Nat) : Option (Nat → K) :=
  let D1D := if T_D1D ≠ 0 then T_D1D else d1d
  let Q1D := if T_Q1D ≠ 0 then T_Q1D else q1d
  let MQ1 := if T_Q1D ≠ 0 then T_Q1D else MAX_Q1D
  let MD1 := if T_D1D ≠ 0 then T_D1D else MAX_D1D
  if ¬ D1D ≤ MD1 then none
  else if ¬ Q1D ≤ MQ1 then none
  else some (forLoop NE
    (fun e y => SmemPADiffusionApply3D_body D1D Q1D MD1 MQ1 b g op x sh e y) y)

end Smem3D

/-! ## Shared-memory tiled 2D Apply kernel -/

section Smem2D

variable {K : Type*} [CommRing K]

/-- Initial contents of the `MFEM_SHARED` arrays `sBG[2][MQ1*MD1]`,
`Xz[NBZ][MD1][MD1]`, `GD[2][NBZ][MD1][MQ1]` and `GQ[2][NBZ][MD1][MQ1]`.  Each
array is a flat buffer; an offset past the declared extent addresses the cells
that follow it. -/
structure Shared2D (K : Type*) where
  /-- Array `sBG`. -/
  sBG : Nat → K
  /-- Array `Xz`. -/
  Xz : Nat → K
  /-- Array `GD`. -/
  GD : Nat → K
  /-- Array `GQ`. -/
  GQ : Nat → K

/-- Lines 491-497: `X[dy][dx] = x(dx,dy,e)` with `X = Xz + tidz` viewed as
`[MD1]`. -/
def smem2D_loadX (D1D MD1 tidz : Nat) (x : Nat → K) (e : Nat) (Xz : Nat → K) : Nat → K :=
  forLoop D1D (fun dy Xz =>
    forLoop D1D (fun dx Xz =>
      Function.update Xz (view2 (MD1 * MD1) tidz MD1 dy dx) (x (idx3 D1D D1D dx dy e))) Xz) Xz

/-- Lines 498-508: `B[q][d] = b(q,d); G[q][d] = g(q,d)` with `B = sBG+0`,
`G = sBG+1` viewed as `[MD1]`, under the guard `tidz == 0`. -/
def smem2D_loadBG (D1D Q1D MD1 MQ1 : Nat) (b g : Nat → K) (tidz : Nat) (sBG : Nat → K) :
    Nat → K :=
  if tidz = 0 then
    forLoop D1D (fun d sBG =>
      forLoop Q1D (fun q sBG =>
        let sBG := Function.update sBG (view2 (MQ1 * MD1) 0 MD1 q d) (b (idx2 Q1D q d))
        Function.update sBG (view2 (MQ1 * MD1) 1 MD1 q d) (g (idx2 Q1D q d))) sBG) sBG
  else sBG

/-- Lines 510-525: contraction over `dx`, from `X` to `DQ0 = GD[0] + tidz`,
`DQ1 = GD[1] + tidz`, both viewed as `[MD1]`: `DQk[dy][qx]` is the cell
`(k*NBZ + tidz)*(MD1*MQ1) + dy*MD1 + qx` of `GD`. -/
def smem2D_phaseDQ (D1D Q1D MD1 MQ1 NBZ tidz : Nat) (sBG Xz : Nat → K) (GD : Nat → K) :
    Nat → K :=
  forLoop D1D (fun dy GD =>
    forLoop Q1D (fun qx GD =>
      let uv := forLoop D1D (fun dx (uv : K × K) =>
        let coords := Xz (view2 (MD1 * MD1) tidz MD1 dy dx)
        (uv.1 + sBG (view2 (MQ1 * MD1) 0 MD1 qx dx) * coords,
         uv.2 + sBG (view2 (MQ1 * MD1) 1 MD1 qx dx) * coords)) (0, 0)
      let GD := Function.update GD (view2 (MD1 * MQ1) (0 * NBZ + tidz) MD1 dy qx) uv.1
      Function.update GD (view2 (MD1 * MQ1) (1 * NBZ + tidz) MD1 dy qx) uv.2) GD) GD

/-- Lines 527-541: contraction over `dy`, from `DQ0`, `DQ1` to
`QQ0 = GQ[0] + tidz`, `QQ1 = GQ[1] + tidz`, both viewed as `[MD1]`. -/
def smem2D_phaseQQ (D1D Q1D MD1 MQ1 NBZ tidz : Nat) (sBG GD : Nat → K) (GQ : Nat → K) :
    Nat → K :=
  forLoop Q1D (fun qy GQ =>
    forLoop Q1D (fun qx GQ =>
      let uv := forLoop D1D (fun dy (uv : K × K) =>
        (uv.1 + GD (view2 (MD1 * MQ1) (1 * NBZ + tidz) MD1 dy qx) *
            sBG (view2 (MQ1 * MD1) 0 MD1 qy dy),
         uv.2 + GD (view2 (MD1 * MQ1) (0 * NBZ + tidz) MD1 dy qx) *
            sBG (view2 (MQ1 * MD1) 1 MD1 qy dy))) (0, 0)
      let GQ := Function.update GQ (view2 (MD1 * MQ1) (0 * NBZ + tidz) MD1 qy qx) uv.1
      Function.update GQ (view2 (MD1 * MQ1) (1 * NBZ + tidz) MD1 qy qx) uv.2) GQ) GQ

/-- Lines 543-556: the metric tensor applied in place to `QQ0`, `QQ1`. -/
def smem2D_phaseMetric (Q1D MD1 MQ1 NBZ tidz : Nat) (op : Nat → K) (e : Nat)
    (GQ : Nat → K) : Nat → K :=
  forLoop Q1D (fun qy GQ =>
    forLoop Q1D (fun qx GQ =>
      let q := (qx + ((qy) * Q1D))
      let O11 := op (idx3 (Q1D * Q1D) 3 q 0 e)
      let O12 := op (idx3 (Q1D * Q1D) 3 q 1 e)
      let O22 := op (idx3 (Q1D * Q1D) 3 q 2 e)
      let gX := GQ (view2 (MD1 * MQ1) (0 * NBZ + tidz) MD1 qy qx)
      let gY := GQ (view2 (MD1 * MQ1) (1 * NBZ + tidz) MD1 qy qx)
      let GQ := Function.update GQ (view2 (MD1 * MQ1) (0 * NBZ + tidz) MD1 qy qx)
        ((O11 * gX) + (O12 * gY))
      Function.update GQ (view2 (MD1 * MQ1) (1 * NBZ + tidz) MD1 qy qx)
        ((O12 * gX) + (O22 * gY))) GQ) GQ

/-- Lines 558-568: `Bt[d][q] = b(q,d); Gt[d][q] = g(q,d)` with `Bt = sBG+0`,
`Gt = sBG+1` viewed as `[MQ1]`, under the guard `tidz == 0`. -/
def smem2D_loadBGt (D1D Q1D MD1 MQ1 : Nat) (b g : Nat → K) (tidz : Nat) (sBG : Nat → K) :
    Nat → K :=
  if tidz = 0 then
    forLoop D1D (fun d sBG =>
      forLoop Q1D (fun q sBG =>
        let sBG := Function.update sBG (view2 (MQ1 * MD1) 0 MQ1 d q) (b (idx2 Q1D q d))
        Function.update sBG (view2 (MQ1 * MD1) 1 MQ1 d q) (g (idx2 Q1D q d))) sBG) sBG
  else sBG

/-- Lines 570-584: contraction over `qx`, from `QQ0`, `QQ1` back to `DQ0`,
`DQ1` (now indexed `[qy][dx]`). -/
def smem2D_phaseQD (D1D Q1D MD1 MQ1 NBZ tidz : Nat) (sBG GQ : Nat → K) (GD : Nat → K) :
    Nat → K :=
  forLoop Q1D (fun qy GD =>
    forLoop D1D (fun dx GD =>
      let uv := forLoop Q1D (fun qx (uv : K × K) =>
        (uv.1 + sBG (view2 (MQ1 * MD1) 1 MQ1 dx qx) *
            GQ (view2 (MD1 * MQ1) (0 * NBZ + tidz) MD1 qy qx),
         uv.2 + sBG (view2 (MQ1 * MD1) 0 MQ1 dx qx) *
            GQ (view2 (MD1 * MQ1) (1 * NBZ + tidz) MD1 qy qx))) (0, 0)
      let GD := Function.update GD (view2 (MD1 * MQ1) (0 * NBZ + tidz) MD1 qy dx) uv.1
      Function.update GD (view2 (MD1 * MQ1) (1 * NBZ + tidz) MD1 qy dx) uv.2) GD) GD

/-- Lines 586-599: contraction over `qy`, accumulated into `y`. -/
def smem2D_phaseY (D1D Q1D MD1 MQ1 NBZ tidz : Nat) (sBG GD : Nat → K) (e : Nat)
    (y : Nat → K) : Nat → K :=
  forLoop D1D (fun dy y =>
    forLoop D1D (fun dx y =>
      let uv := forLoop Q1D (fun qy (uv : K × K) =>
        (uv.1 + GD (view2 (MD1 * MQ1) (0 * NBZ + tidz) MD1 qy dx) *
            sBG (view2 (MQ1 * MD1) 0 MQ1 dy qy),
         uv.2 + GD (view2 (MD1 * MQ1) (1 * NBZ + tidz) MD1 qy dx) *
            sBG (view2 (MQ1 * MD1) 1 MQ1 dy qy))) (0, 0)
      Function.update y (idx3 D1D D1D dx dy e)
        (y (idx3 D1D D1D dx dy e) + (uv.1 + uv.2))) y) y

/-- The body of `MFEM_FORALL_2D(e, NE, Q1D, Q1D, NBZ, ...)` in
`SmemPADiffusionApply2D`, for element `e`: the phases in source order, each run
to completion before the next one starts. -/
def SmemPADiffusionApply2D_body (D1D Q1D MD1 MQ1 NBZ : Nat) (b g op x : Nat → K)
    (sh : Shared2D K) (e : Nat) (y : Nat → K) : Nat → K :=
  let tidz := 0
  let Xz := smem2D_loadX D1D MD1 tidz x e sh.Xz
  let sBG := smem2D_loadBG D1D Q1D MD1 MQ1 b g tidz sh.sBG
  let GD := smem2D_phaseDQ D1D Q1D MD1 MQ1 NBZ tidz sBG Xz sh.GD
  let GQ := smem2D_phaseQQ D1D Q1D MD1 MQ1 NBZ tidz sBG GD sh.GQ
  let GQ := smem2D_phaseMetric Q1D MD1 MQ1 NBZ tidz op e GQ
  let sBG := smem2D_loadBGt D1D Q1D MD1 MQ1 b g tidz sBG
  let GD := smem2D_phaseQD D1D Q1D MD1 MQ1 NBZ tidz sBG GQ GD
  smem2D_phaseY D1D Q1D MD1 MQ1 NBZ tidz sBG GD e y

/-- The kernel
`SmemPADiffusionApply2D<T_D1D,T_Q1D,T_NBZ>(NE,b,g,op,x,y,d1d,q1d,nbz)`; a failed
`MFEM_VERIFY` is `none`.  The run-time argument `nbz` is not used by the
source. -/
def SmemPADiffusionApply2D (MAX_D1D MAX_Q1D T_D1D T_Q1D T_NBZ NE : Nat) (b g op x : Nat → K)
    (sh : Shared2D K) (y : Nat → K) (d1d q1d : Nat) : Option (Nat → K) :=
  let D1D := if T_D1D ≠ 0 then T_D1D else d1d
  let Q1D := if T_Q1D ≠ 0 then T_Q1D else q1d
  let NBZ := if T_NBZ ≠ 0 then T_NBZ else 1
  let MQ1 := if T_Q1D ≠ 0 then T_Q1D else MAX_Q1D
  let MD1 := if T_D1D ≠ 0 then T_D1D else MAX_D1D
  if ¬ D1D ≤ MD1 then none
  else if ¬ Q1D ≤ MQ1 then none
  else some (forLoop NE
    (fun e y => SmemPADiffusionApply2D_body D1D Q1D MD1 MQ1 NBZ b g op x sh e y) y)

end Smem2D

/-! ## A concrete 2D input: one element, `D1D = 2`, `Q1D = 3` -/

section Tiled2DInput

/-- Interpolation table, `b(q,d)` stored at `q + 3*d`. -/
def tiled2D_b : Nat → ℤ := fun i => (i : ℤ) + 1

/-- Derivative table, `g(q,d)` stored at `q + 3*d`. -/
def tiled2D_g : Nat → ℤ := fun i => 2 * (i : ℤ) - 3

/-- The transpose of `tiled2D_b`, `bt(d,q)` stored at `d + 2*q`. -/
def tiled2D_bt : Nat → ℤ := fun i => tiled2D_b (idx2 3 (i / 2) (i % 2))

/-- The transpose of `tiled2D_g`, `gt(d,q)` stored at `d + 2*q`. -/
def tiled2D_gt : Nat → ℤ := fun i => tiled2D_g (idx2 3 (i / 2) (i % 2))

/-- Metric buffer: the identity tensor at each of the nine points. -/
def tiled2D_op : Nat → ℤ := fun i => if i < 9 then 1 else if i < 18 then 0 else 1

/-- Input field: the first nodal basis function. -/
def tiled2D_x : Nat → ℤ := fun i => if i = 0 then 1 else 0

/-- Shared scratch, initially zero. -/
def tiled2D_shared : Shared2D ℤ := ⟨fun _ => 0, fun _ => 0, fun _ => 0, fun _ => 0⟩

end Tiled2DInput

/-! ## Global (collocated-gradient) 3D Apply kernel

`MFEM_EXCLUSIVE(v)` declares storage private to each worker of the group,
`MFEM_EXCLUSIVE_GET(v)` is the storage of the current worker and
`MFEM_EXCLUSIVE_INC` moves on to the next worker; these macros are not part of
this file.  An exclusive variable is modelled as an array indexed by the
worker coordinates `(y,x)` of the two `MFEM_FOREACH_THREAD` loops. -/

section BP3Global

variable {K : Type*} [CommRing K]

/-- Initial contents of the scratch of `BP3Global_v0`: the `MFEM_SHARED` arrays
`s_Iq[Q1D][Q1D][Q1D]`, `s_D[Q1D][Q1D]`, `s_I[Q1D][D1D]`, `s_Gqr[Q1D][Q1D]`,
`s_Gqs[Q1D][Q1D]` and the exclusive `r_qt`, `r_q[Q1D]`, `r_Aq[Q1D]`, the
latter three indexed by the worker `(y,x)` first. -/
structure BP3Scratch (K : Type*) where
  /-- Array `s_Iq`. -/
  s_Iq : Nat → Nat → Nat → K
  /-- Array `s_D`. -/
  s_D : Nat → Nat → K
  /-- Array `s_I`. -/
  s_I : Nat → Nat → K
  /-- Array `s_Gqr`. -/
  s_Gqr : Nat → Nat → K
  /-- Array `s_Gqs`. -/
  s_Gqs : Nat → Nat → K
  /-- Exclusive `r_qt` of worker `(y,x)`. -/
  r_qt : Nat → Nat → K
  /-- Exclusive `r_q[k]` of worker `(y,x)`. -/
  r_q : Nat → Nat → Nat → K
  /-- Exclusive `r_Aq[k]` of worker `(y,x)`. -/
  r_Aq : Nat → Nat → Nat → K

/-- Lines 1132-1150: load the collocated operator into `s_D`, the
interpolation table into `s_I` and the nodal values into `r_q`.  The state is
`(s_D, s_I, r_q)`; `g` is viewed as `Reshape(g_, Q1D, Q1D)`, `b` as
`Reshape(b_, Q1D, D1D)`. -/
def bp3_load (D1D Q1D : Nat) (b g x : Nat → K) (e : Nat)
    (s : (Nat → Nat → K) × (Nat → Nat → K) × (Nat → Nat → Nat → K)) :
    (Nat → Nat → K) × (Nat → Nat → K) × (Nat → Nat → Nat → K) :=
  forLoop Q1D (fun j s =>
    forLoop Q1D (fun i s =>
      let s_D := set2 s.1 j i (g (idx2 Q1D i j))
      let s_I := if i < D1D then set2 s.2.1 j i (b (idx2 Q1D j i)) else s.2.1
      let r_q := if i < D1D ∧ j < D1D then
          forLoop D1D (fun k r_q => set3 r_q j i k (x (idx4 D1D D1D D1D i j k e))) s.2.2
        else s.2.2
      (s_D, s_I, r_q)) s) s

/-- Lines 1153-1171: interpolation along `z`, from `r_q` to `s_Iq[k][b][a]`. -/
def bp3_interpZ (D1D Q1D : Nat) (s_I : Nat → Nat → K) (r_q : Nat → Nat → Nat → K)
    (s_Iq : Nat → Nat → Nat → K) : Nat → Nat → Nat → K :=
  forLoop Q1D (fun b s_Iq =>
    forLoop Q1D (fun a s_Iq =>
      if a < D1D ∧ b < D1D then
        forLoop Q1D (fun k s_Iq =>
          let res := forLoop D1D (fun c res => res + s_I k c * r_q b a c) 0
          set3 s_Iq k b a res) s_Iq
      else s_Iq) s_Iq) s_Iq

/-- Lines 1174-1196: interpolation along `y` in place, through the exclusive
`r_Aq` of worker `(k,a)`.  The state is `(r_Aq, s_Iq)`. -/
def bp3_interpY (D1D Q1D : Nat) (s_I : Nat → Nat → K)
    (s : (Nat → Nat → Nat → K) × (Nat → Nat → Nat → K)) :
    (Nat → Nat → Nat → K) × (Nat → Nat → Nat → K) :=
  forLoop Q1D (fun k s =>
    forLoop Q1D (fun a s =>
      if a < D1D then
        let r_Aq := forLoop D1D (fun b r_Aq => set3 r_Aq k a b (s.2 k b a)) s.1
        let s_Iq := forLoop Q1D (fun j s_Iq =>
          let res := forLoop D1D (fun b res => res + s_I j b * r_Aq k a b) 0
          set3 s_Iq k j a res) s.2
        (r_Aq, s_Iq)
      else s) s) s

/-- Lines 1199-1218: interpolation along `x` in place, through the exclusive
`r_Aq` of worker `(k,j)`.  The state is `(r_Aq, s_Iq)`. -/
def bp3_interpX (D1D Q1D : Nat) (s_I : Nat → Nat → K)
    (s : (Nat → Nat → Nat → K) × (Nat → Nat → Nat → K)) :
    (Nat → Nat → Nat → K) × (Nat → Nat → Nat → K) :=
  forLoop Q1D (fun k s =>
    forLoop Q1D (fun j s =>
      let r_Aq := forLoop D1D (fun a r_Aq => set3 r_Aq k j a (s.2 k j a)) s.1
      let s_Iq := forLoop Q1D (fun i s_Iq =>
        let res := forLoop D1D (fun a res => res + s_I i a * r_Aq k j a) 0
        set3 s_Iq k j i res) s.2
      (r_Aq, s_Iq)) s) s

/-- Lines 1222-1232: the exclusive `r_Aq` of every worker is cleared. -/
def bp3_clear (Q1D : Nat) (r_Aq : Nat → Nat → Nat → K) : Nat → Nat → Nat → K :=
  forLoop Q1D (fun j r_Aq =>
    forLoop Q1D (fun i r_Aq =>
      forLoop Q1D (fun k r_Aq => set3 r_Aq j i k 0) r_Aq) r_Aq) r_Aq

/-- Lines 1248-1278: in layer `k`, the three directional derivatives with the
collocated operator and the metric tensor.  The state is
`(s_Gqr, s_Gqs, r_qt)`; `d` is viewed as `Reshape(d_, Q1D*Q1D*Q1D, 6, NE)`. -/
def bp3_layerGrad (Q1D : Nat) (d : Nat → K) (e : Nat) (s_D : Nat → Nat → K)
    (s_Iq : Nat → Nat → Nat → K) (k : Nat)
    (s : (Nat → Nat → K) × (Nat → Nat → K) × (Nat → Nat → K)) :
    (Nat → Nat → K) × (Nat → Nat → K) × (Nat → Nat → K) :=
  forLoop Q1D (fun j s =>
    forLoop Q1D (fun i s =>
      let r_qt := set2 s.2.2 j i 0
      let acc := forLoop Q1D (fun m (acc : K × K × (Nat → Nat → K)) =>
        let Dim := s_D i m
        let Djm := s_D j m
        let Dkm := s_D k m
        (acc.1 + Dim * s_Iq k j m, acc.2.1 + Djm * s_Iq k m i,
          set2 acc.2.2 j i (acc.2.2 j i + Dkm * s_Iq m j i))) (0, 0, r_qt)
      let qr := acc.1
      let qs := acc.2.1
      let r_qt := acc.2.2
      let qt := r_qt j i
      let q := i + ((j * Q1D) + (k * Q1D * Q1D))
      let G00 := d (idx3 (Q1D * Q1D * Q1D) 6 q 0 e)
      let G01 := d (idx3 (Q1D * Q1D * Q1D) 6 q 1 e)
      let G02 := d (idx3 (Q1D * Q1D * Q1D) 6 q 2 e)
      let G11 := d (idx3 (Q1D * Q1D * Q1D) 6 q 3 e)
      let G12 := d (idx3 (Q1D * Q1D * Q1D) 6 q 4 e)
      let G22 := d (idx3 (Q1D * Q1D * Q1D) 6 q 5 e)
      let s_Gqr := set2 s.1 j i (G00 * qr + G01 * qs + G02 * qt)
      let s_Gqs := set2 s.2.1 j i (G01 * qr + G11 * qs + G12 * qt)
      let r_qt := set2 r_qt j i (G02 * qr + G12 * qs + G22 * qt)
      (s_Gqr, s_Gqs, r_qt)) s) s

/-- Lines 1281-1299: in layer `k`, the transposed derivatives accumulated into
the exclusive `r_Aq`. -/
def bp3_layerDiv (Q1D : Nat) (s_D s_Gqr s_Gqs r_qt : Nat → Nat → K) (k : Nat)
    (r_Aq : Nat → Nat → Nat → K) : Nat → Nat → Nat → K :=
  forLoop Q1D (fun j r_Aq =>
    forLoop Q1D (fun i r_Aq =>
      let acc := forLoop Q1D (fun m (acc : K × (Nat → Nat → Nat → K)) =>
        let Dmi := s_D m i
        let Dmj := s_D m j
        let Dkm := s_D k m
        let Aqtmp := acc.1 + Dmi * s_Gqr j m
        let Aqtmp := Aqtmp + Dmj * s_Gqs m i
        (Aqtmp, set3 acc.2 j i m (acc.2 j i m + Dkm * r_qt j i))) (0, r_Aq)
      let Aqtmp := acc.1
      let r_Aq := acc.2
      set3 r_Aq j i k (r_Aq j i k + Aqtmp)) r_Aq) r_Aq

/-- Lines 1245-1301: the loop over the layers `k`.  The state is
`(s_Gqr, s_Gqs, r_qt, r_Aq)`. -/
def bp3_layers (Q1D : Nat) (d : Nat → K) (e : Nat) (s_D : Nat → Nat → K)
    (s_Iq : Nat → Nat → Nat → K)
    (s : (Nat → Nat → K) × (Nat → Nat → K) × (Nat → Nat → K) × (Nat → Nat → Nat → K)) :
    (Nat → Nat → K) × (Nat → Nat → K) × (Nat → Nat → K) × (Nat → Nat → Nat → K) :=
  forLoop Q1D (fun k s =>
    let g := bp3_layerGrad Q1D d e s_D s_Iq k (s.1, s.2.1, s.2.2.1)
    let r_Aq := bp3_layerDiv Q1D s_D g.1 g.2.1 g.2.2 k s.2.2.2
    (g.1, g.2.1, g.2.2, r_Aq)) s

/-- Lines 1303-1318: contraction over `k` back to the nodes along `z`, from
`r_Aq` to `s_Iq[c][j][i]`. -/
def bp3_backZ (D1D Q1D : Nat) (s_I : Nat → Nat → K) (r_Aq : Nat → Nat → Nat → K)
    (s_Iq : Nat → Nat → Nat → K) : Nat → Nat → Nat → K :=
  forLoop Q1D (fun j s_Iq =>
    forLoop Q1D (fun i s_Iq =>
      forLoop D1D (fun c s_Iq =>
        let res := forLoop Q1D (fun k res => res + s_I k c * r_Aq j i k) 0
        set3 s_Iq c j i res) s_Iq) s_Iq) s_Iq

/-- Lines 1321-1344: contraction over `j` in place, through the exclusive
`r_Aq` of worker `(c,i)`.  The state is `(r_Aq, s_Iq)`. -/
def bp3_backY (D1D Q1D : Nat) (s_I : Nat → Nat → K)
    (s : (Nat → Nat → Nat → K) × (Nat → Nat → Nat → K)) :
    (Nat → Nat → Nat → K) × (Nat → Nat → Nat → K) :=
  forLoop Q1D (fun c s =>
    forLoop Q1D (fun i s =>
      if c < D1D then
        let r_Aq := forLoop Q1D (fun j r_Aq => set3 r_Aq c i j (s.2 c j i)) s.1
        let s_Iq := forLoop D1D (fun b s_Iq =>
          let res := forLoop Q1D (fun j res => res + s_I j b * r_Aq c i j) 0
          set3 s_Iq c b i res) s.2
        (r_Aq, s_Iq)
      else s) s) s

/-- Lines 1347-1369: contraction over `i` in place, through the exclusive
`r_Aq` of worker `(c,b)`.  The state is `(r_Aq, s_Iq)`. -/
def bp3_backX (D1D Q1D : Nat) (s_I : Nat → Nat → K)
    (s : (Nat → Nat → Nat → K) × (Nat → Nat → Nat → K)) :
    (Nat → Nat → Nat → K) × (Nat → Nat → Nat → K) :=
  forLoop Q1D (fun c s =>
    forLoop Q1D (fun b s =>
      if b < D1D ∧ c < D1D then
        let r_Aq := forLoop Q1D (fun i r_Aq => set3 r_Aq c b i (s.2 c b i)) s.1
        let s_Iq := forLoop D1D (fun a s_Iq =>
          let res := forLoop Q1D (fun i res => res + s_I i a * r_Aq c b i) 0
          set3 s_Iq c b a res) s.2
        (r_Aq, s_Iq)
      else s) s) s

/-- Lines 1372-1389: the result is stored, `y(i,j,k,e) = s_Iq[k][j][i]`. -/
def bp3_store (D1D Q1D : Nat) (s_Iq : Nat → Nat → Nat → K) (e : Nat) (y : Nat → K) : Nat → K :=
  forLoop Q1D (fun j y =>
    forLoop Q1D (fun i y =>
      if i < D1D ∧ j < D1D then
        forLoop D1D (fun k y =>
          let res := s_Iq k j i
          Function.update y (idx4 D1D D1D D1D i j k e) res) y
      else y) y) y

/-- The body of `MFEM_FORALL_3D(e, NE, Q1D, Q1D, 1, ...)` in `BP3Global_v0`,
for element `e`: the phases in source order. -/
def BP3Global_v0_body (D1D Q1D : Nat) (b g d x : Nat → K) (sc : BP3Scratch K) (e : Nat)
    (y : Nat → K) : Nat → K :=
  let l := bp3_load D1D Q1D b g x e (sc.s_D, sc.s_I, sc.r_q)
  let s_D := l.1
  let s_I := l.2.1
  let r_q := l.2.2
  let s_Iq := bp3_interpZ D1D Q1D s_I r_q sc.s_Iq
  let t := bp3_interpY D1D Q1D s_I (sc.r_Aq, s_Iq)
  let t := bp3_interpX D1D Q1D s_I t
  let s_Iq := t.2
  let r_Aq := bp3_clear Q1D t.1
  let u := bp3_layers Q1D d e s_D s_Iq (sc.s_Gqr, sc.s_Gqs, sc.r_qt, r_Aq)
  let r_Aq := u.2.2.2
  let s_Iq := bp3_backZ D1D Q1D s_I r_Aq s_Iq
  let t := bp3_backY D1D Q1D s_I (r_Aq, s_Iq)
  let t := bp3_backX D1D Q1D s_I t
  bp3_store D1D Q1D t.2 e y

/-- The kernel `BP3Global_v0<T_D1D,T_Q1D>(NE,b_,g_,d_,x_,y_,d1d,q1d)`: the sizes
come from the template arguments alone (`1` when an argument is `0`); a
failed `MFEM_VERIFY` is `none`. -/
def BP3Global_v0 (T_D1D T_Q1D NE : Nat) (b_ g_ d_ x_ : Nat → K) (sc : BP3Scratch K)
    (y_ : Nat → K) : Option (Nat → K) :=
  let D1D := if T_D1D ≠ 0 then T_D1D else 1
  let Q1D := if T_Q1D ≠ 0 then T_Q1D else 1
  let MQ1 := if T_Q1D ≠ 0 then T_Q1D else 1
  let MD1 := if T_D1D ≠ 0 then T_D1D else 1
  if ¬ D1D ≤ MD1 then none
  else if ¬ Q1D ≤ MQ1 then none
  else some (forLoop NE (fun e y => BP3Global_v0_body D1D Q1D b_ g_ d_ x_ sc e y) y_)

end BP3Global

/-! ## Collocated-gradient builder (Householder QR) -/

section QR

variable {K : Type*} [LinearOrderedField K]

/-- The loop `for (int i = lo; i < hi; ++i) s = body i s`. -/
def forLoopFrom {σ : Type*} (lo hi : Nat) (body : Nat → σ → σ) (s : σ) : σ :=
  forLoop (hi - lo) (fun k s => body (lo + k) s) s

/-- The library function `copysign(a, b)`: the magnitude of `a` with the sign
of `b`; in exact arithmetic zero carries the sign `+`. -/
def copysign (a b : K) : K := if b < 0 then -|a| else |a|

/-- `CeedHouseholderReflect(&A[aoff], &v[voff], b, m, n, row, col)`: applies
`I - b v vᵀ` (with `v[0]` taken as 1) to the `n` columns of the block of `A`
that starts at `aoff`, with row stride `row` and column stride `col`. -/
def CeedHouseholderReflect (A : Nat → K) (aoff : Nat) (v : Nat → K) (voff : Nat) (b : K)
    (m n row col : Nat) : Nat → K :=
  forLoop n (fun j A =>
    let w := A (aoff + (0 * row + j * col))
    let w := forLoopFrom 1 m (fun i w => w + v (voff + i) * A (aoff + (i * row + j * col))) w
    let A := Function.update A (aoff + (0 * row + j * col))
      (A (aoff + (0 * row + j * col)) - b * w)
    forLoopFrom 1 m (fun i A =>
      Function.update A (aoff + (i * row + j * col))
        (A (aoff + (i * row + j * col)) - b * w * v (voff + i))) A) A

/-- `CeedHouseholderApplyQ(A, Q, tau, tmode, m, n, k, row, col)`; `v0` is the
initial content of the local `v[m]`. -/
def CeedHouseholderApplyQ (A Q tau v0 : Nat → K) (tmode : Bool) (m n k row col : Nat) :
    Nat → K :=
  (forLoop k (fun ii (s : (Nat → K) × (Nat → K)) =>
    let i := if tmode then ii else k - 1 - ii
    let v := forLoopFrom (i + 1) m (fun j v => Function.update v j (Q (j * k + i))) s.2
    let A := CeedHouseholderReflect s.1 (i * row) v i (tau i) (m - i) n row col
    (A, v)) (A, v0)).1

/-- One pass of the column loop of `CeedQRFactorization`, for column `i`.  The
state is `(mat, tau, v)`. -/
def CeedQRFactorization_step (sqrt : K → K) (m n i : Nat)
    (s : (Nat → K) × (Nat → K) × (Nat → K)) : (Nat → K) × (Nat → K) × (Nat → K) :=
  let mat := s.1
  let tau := s.2.1
  let v := s.2.2
  let sigma : K := 0
  let v := Function.update v i (mat (i + n * i))
  let vs := forLoopFrom (i + 1) m (fun j (vs : (Nat → K) × K) =>
    let v := Function.update vs.1 j (mat (i + n * j))
    (v, vs.2 + v j * v j)) (v, sigma)
  let v := vs.1
  let sigma := vs.2
  let norm := sqrt (v i * v i + sigma)
  let Rii := -copysign norm (v i)
  let v := Function.update v i (v i - Rii)
  let tau := Function.update tau i (2 * v i * v i / (v i * v i + sigma))
  let v := forLoopFrom (i + 1) m (fun j v => Function.update v j (v j / v i)) v
  let mat := CeedHouseholderReflect mat (i * n + i + 1) v i (tau i) (m - i) (n - i - 1) n 1
  let mat := Function.update mat (i + n * i) Rii
  let mat := forLoopFrom (i + 1) m (fun j mat => Function.update mat (i + n * j) (v j)) mat
  (mat, tau, v)

/-- `CeedQRFactorization(mat, tau, m, n)`: returns the factored `mat` and
`tau`, or `none` when the check `m >= n` fails.  `sqrt` is the library square
root and `v0` the initial content of the local `v[m]`. -/
def CeedQRFactorization (sqrt : K → K) (mat tau v0 : Nat → K) (m n : Nat) :
    Option ((Nat → K) × (Nat → K)) :=
  if n > m then none
  else
    let s := forLoop n (fun i s => CeedQRFactorization_step sqrt m n i s) (mat, tau, v0)
    some (s.1, s.2.1)

/-- Initial contents of the uninitialized locals of
`CeedBasisGetCollocatedGrad` and of the functions it calls: `tau[Q1d]`,
`interp1d`, `grad1d`, and the `v[m]` of the factorization and of
`CeedHouseholderApplyQ`. -/
structure QRScratch (K : Type*) where
  /-- Array `tau`. -/
  tau : Nat → K
  /-- Array `interp1d`. -/
  interp1d : Nat → K
  /-- Array `grad1d`. -/
  grad1d : Nat → K
  /-- Local `v` of `CeedQRFactorization`. -/
  vQR : Nat → K
  /-- Local `v` of `CeedHouseholderApplyQ`. -/
  vQ : Nat → K

/-- Lines 1482-1489 of `CeedBasisGetCollocatedGrad`: `B` and `G` are copied
into the row-major `interp1d` and `grad1d`.  The state is
`(interp1d, grad1d)`. -/
def collocated_copy (P1d Q1d : Nat) (B G : Nat → K) (s : (Nat → K) × (Nat → K)) :
    (Nat → K) × (Nat → K) :=
  forLoop P1d (fun d s =>
    forLoop Q1d (fun q s =>
      (Function.update s.1 (d + P1d * q) (B (q + Q1d * d)),
       Function.update s.2 (d + P1d * q) (G (q + Q1d * d)))) s) s

/-- Lines 1492-1508: `colograd1d = grad1d R⁻¹`, row by row, padded with zero
columns. -/
def collocated_solve (P1d Q1d : Nat) (interp1d grad1d : Nat → K) (colograd1d : Nat → K) :
    Nat → K :=
  forLoop Q1d (fun i c =>
    let c := Function.update c (Q1d * i) (grad1d (P1d * i) / interp1d 0)
    let c := forLoopFrom 1 P1d (fun j c =>
      let c := Function.update c (j + Q1d * i) (grad1d (j + P1d * i))
      let c := forLoop j (fun k c =>
        Function.update c (j + Q1d * i)
          (c (j + Q1d * i) - interp1d (j + P1d * k) * c (k + Q1d * i))) c
      Function.update c (j + Q1d * i) (c (j + Q1d * i) / interp1d (j + P1d * j))) c
    forLoopFrom P1d Q1d (fun j c => Function.update c (j + Q1d * i) 0) c) colograd1d

/-- `CeedBasisGetCollocatedGrad(P1d, Q1d, B, G, colograd1d)`: the resulting
`colograd1d`, or `none` when the factorization rejects the sizes. -/
def CeedBasisGetCollocatedGrad (sqrt : K → K) (P1d Q1d : Nat) (B G : Nat → K)
    (sc : QRScratch K) (colograd1d : Nat → K) : Option (Nat → K) :=
  let ig := collocated_copy P1d Q1d B G (sc.interp1d, sc.grad1d)
  let interp1d := ig.1
  let grad1d := ig.2
  match CeedQRFactorization sqrt interp1d sc.tau sc.vQR Q1d P1d with
  | none => none
  | some (interp1d, tau) =>
    let colograd1d := collocated_solve P1d Q1d interp1d grad1d colograd1d
    some (CeedHouseholderApplyQ colograd1d interp1d tau sc.vQ false Q1d Q1d P1d 1 Q1d)

end QR

/-! ## Apply dispatcher -/

section Dispatch

variable {K : Type*} [LinearOrderedField K]

/-- Initial contents of every scratch array a call of `PADiffusionApply` may
touch: the locals of the collocated-gradient builder, the array `coG`, and
the scratch of the kernels. -/
structure ApplyScratch (K : Type*) where
  /-- Locals of `CeedBasisGetCollocatedGrad`. -/
  qr : QRScratch K
  /-- Array `coG(Q1D*Q1D)`. -/
  coG : Nat → K
  /-- Scratch of `BP3Global_v0`. -/
  bp3 : BP3Scratch K
  /-- Scratch of `SmemPADiffusionApply3D`. -/
  smem : Shared3D K

/-- The outcome of a kernel call inside the dispatcher: a failed
`MFEM_VERIFY` aborts with its (empty) message. -/
def kernelResult (r : Option (Nat → K)) : Except String (Nat → K) :=
  match r with
  | some y => Except.ok y
  | none => Except.error ""

/-- The dispatcher `PADiffusionApply` of a build without `MFEM_USE_OCCA` and
without `MFEM_USE_JIT`.  `LBP` tells whether the environment variable `LBP` is
set; the result is the output buffer, or the message of the abort.  `D1D` and
`Q1D` are nonnegative values of the 32-bit `int`; the key
`(D1D << 4) | Q1D` of the `switch` is computed on 32 bits, and since every
`case` label is positive the key equals a label exactly when its 32-bit
pattern `((D1D <<< 4) ||| Q1D) % 2 ^ 32` does. -/
def PADiffusionApply (MAX_D1D MAX_Q1D : Nat) (sqrt : K → K) (LBP : Bool)
    (dim D1D Q1D NE : Nat) (B G Bt Gt op x : Nat → K) (sc : ApplyScratch K) (y : Nat → K) :
    Except String (Nat → K) :=
  let BP3Global := LBP
  if BP3Global then
    match CeedBasisGetCollocatedGrad sqrt D1D Q1D B G sc.qr sc.coG with
    | none => Except.error ""
    | some coG =>
      if dim = 3 then
        let key := ((D1D <<< 4) ||| Q1D) % 2 ^ 32
        if key = 0x23 then kernelResult (BP3Global_v0 2 3 NE B coG op x sc.bp3 y)
        else if key = 0x34 then kernelResult (BP3Global_v0 3 4 NE B coG op x sc.bp3 y)
        else if key = 0x45 then kernelResult (BP3Global_v0 4 5 NE B coG op x sc.bp3 y)
        else if key = 0x56 then kernelResult (BP3Global_v0 5 6 NE B coG op x sc.bp3 y)
        else if key = 0x67 then kernelResult (BP3Global_v0 6 7 NE B coG op x sc.bp3 y)
        else if key = 0x78 then kernelResult (BP3Global_v0 7 8 NE B coG op x sc.bp3 y)
        else if key = 0x89 then kernelResult (BP3Global_v0 8 9 NE B coG op x sc.bp3 y)
        else if key = 0xEF then kernelResult (BP3Global_v0 14 15 NE B coG op x sc.bp3 y)
        else Except.error "Unknown kernel."
      else Except.error "Unknown kernel."
  else
    if dim = 3 then
      let key := ((D1D <<< 4) ||| Q1D) % 2 ^ 32
      if key = 0x23 then
        kernelResult (SmemPADiffusionApply3D MAX_D1D MAX_Q1D 2 3 NE B G op x sc.smem y 0 0)
      else if key = 0x34 then
        kernelResult (SmemPADiffusionApply3D MAX_D1D MAX_Q1D 3 4 NE B G op x sc.smem y 0 0)
      else if key = 0x45 then
        kernelResult (SmemPADiffusionApply3D MAX_D1D MAX_Q1D 4 5 NE B G op x sc.smem y 0 0)
      else if key = 0x56 then
        kernelResult (SmemPADiffusionApply3D MAX_D1D MAX_Q1D 5 6 NE B G op x sc.smem y 0 0)
      else if key = 0x67 then
        kernelResult (SmemPADiffusionApply3D MAX_D1D MAX_Q1D 6 7 NE B G op x sc.smem y 0 0)
      else if key = 0x78 then
        kernelResult (SmemPADiffusionApply3D MAX_D1D MAX_Q1D 7 8 NE B G op x sc.smem y 0 0)
      else if key = 0x89 then
        kernelResult (SmemPADiffusionApply3D MAX_D1D MAX_Q1D 8 9 NE B G op x sc.smem y 0 0)
      else Except.error "Unknown kernel."
    else Except.error "Unknown kernel."

end Dispatch

section ZeroScratch

variable {K : Type*} [Zero K]

/-- Scratch arrays of the dispatcher with every cell zero, used to run the
dispatcher on concrete inputs. -/
def zeroApplyScratch : ApplyScratch K :=
  ⟨⟨fun _ => 0, fun _ => 0, fun _ => 0, fun _ => 0, fun _ => 0⟩,
   fun _ => 0,
   ⟨fun _ _ _ => 0, fun _ _ => 0, fun _ _ => 0, fun _ _ => 0, fun _ _ => 0, fun _ _ => 0,
    fun _ _ _ => 0, fun _ _ _ => 0⟩,
   ⟨fun _ => 0, fun _ => 0, fun _ => 0⟩⟩

end ZeroScratch

/-! ## The collocated form of the 3D stiffness action

Closed forms of the values the phases of `BP3Global_v0` leave, with the
factors in the order in which the kernel multiplies them.  `C` is the table
the kernel reads as `g`, so that `s_D[r][c] = C (idx2 Q1D c r)`. -/

section Colloc3D

variable {K : Type*} [CommRing K]

/-- The value of `s_Iq[k][j][i]` after the three interpolation phases (lines
1153-1218): the field at the quadrature point `(i,j,k)`. -/
def colloc3D_interp (D1D Q1D : Nat) (B x : Nat → K) (e k j i : Nat) : K :=
  ∑ a in Finset.range D1D, B (idx2 Q1D i a) *
    ∑ b in Finset.range D1D, B (idx2 Q1D j b) *
      ∑ c in Finset.range D1D, B (idx2 Q1D k c) * x (idx4 D1D D1D D1D a b c e)

/-- The values `qr`, `qs`, `qt` of lines 1253-1265 at the point `(i,j,k)`. -/
def colloc3D_grad (D1D Q1D : Nat) (B C x : Nat → K) (e k j i : Nat) : Fin 3 → K :=
  ![∑ m in Finset.range Q1D, C (idx2 Q1D m i) * colloc3D_interp D1D Q1D B x e k j m,
    ∑ m in Finset.range Q1D, C (idx2 Q1D m j) * colloc3D_interp D1D Q1D B x e k m i,
    ∑ m in Finset.range Q1D, C (idx2 Q1D m k) * colloc3D_interp D1D Q1D B x e m j i]

/-- The values of `s_Gqr[j][i]`, `s_Gqs[j][i]` and `r_qt` of lines 1266-1276 in
layer `k`. -/
def colloc3D_flux (D1D Q1D : Nat) (B C d x : Nat → K) (e k j i : Nat) : Fin 3 → K :=
  Matrix.mulVec (metricO3 (Q1D * Q1D * Q1D) d (i + ((j * Q1D) + (k * Q1D * Q1D))) e)
    (colloc3D_grad D1D Q1D B C x e k j i)

/-- The value of `r_Aq[n]` of worker `(j,i)` after the loop over the layers
(lines 1245-1301), started from zero. -/
def colloc3D_Aq (D1D Q1D : Nat) (B C d x : Nat → K) (e j i n : Nat) : K :=
  ∑ k in Finset.range Q1D, (C (idx2 Q1D n k) * colloc3D_flux D1D Q1D B C d x e k j i 2 +
    if n = k then ∑ m in Finset.range Q1D,
      (C (idx2 Q1D i m) * colloc3D_flux D1D Q1D B C d x e k j m 0 +
        C (idx2 Q1D j m) * colloc3D_flux D1D Q1D B C d x e k m i 1)
    else 0)

/-- The value stored in `y(a,b,c,e)` (lines 1303-1389). -/
def colloc3D_action (D1D Q1D : Nat) (B C d x : Nat → K) (e a b c : Nat) : K :=
  ∑ i in Finset.range Q1D, B (idx2 Q1D i a) *
    ∑ j in Finset.range Q1D, B (idx2 Q1D j b) *
      ∑ k in Finset.range Q1D, B (idx2 Q1D k c) * colloc3D_Aq D1D Q1D B C d x e j i k

end Colloc3D

/-! ## A concrete input of the collocated kernel

One element with `D1D = 2`, `Q1D = 3` over the integers, on which the kernels
are evaluated. -/

section CollocInput

/-- Interpolation table `b(q,d) = q + 3*d + 1`. -/
def collocIn_b : Nat → ℤ := fun i => (i : ℤ) + 1

/-- Square table read by `BP3Global_v0` as `g`: entry `i` is `i - 4`. -/
def collocIn_coG : Nat → ℤ := fun i => (i : ℤ) - 4

/-- Derivative table `G = coG * B`: `G(q,d)`, stored at `q + 3*d`, is the sum
over `m` of `coG[m + 3*q] * b(m,d)`. -/
def collocIn_G : Nat → ℤ := fun n =>
  ∑ m in Finset.range 3, collocIn_coG (idx2 3 m (n % 3)) * collocIn_b (idx2 3 m (n / 3))

/-- The transpose of `collocIn_b`, `bt(d,q)` stored at `d + 2*q`. -/
def collocIn_bt : Nat → ℤ := fun i => collocIn_b (idx2 3 (i / 2) (i % 2))

/-- The transpose of `collocIn_G`, `gt(d,q)` stored at `d + 2*q`. -/
def collocIn_Gt : Nat → ℤ := fun i => collocIn_G (idx2 3 (i / 2) (i % 2))

/-- Operator data with the identity as metric tensor at every point: the
components 0, 3 and 5 are `1`, the others `0`. -/
def collocIn_op : Nat → ℤ := fun i =>
  if (i / 27) % 6 = 0 ∨ (i / 27) % 6 = 3 ∨ (i / 27) % 6 = 5 then 1 else 0

/-- Input field: the first nodal basis function. -/
def collocIn_x : Nat → ℤ := fun i => if i = 0 then 1 else 0

/-- Scratch of `BP3Global_v0` with every cell zero. -/
def collocIn_scratch : BP3Scratch ℤ :=
  ⟨fun _ _ _ => 0, fun _ _ => 0, fun _ _ => 0, fun _ _ => 0, fun _ _ => 0, fun _ _ => 0,
    fun _ _ _ => 0, fun _ _ _ => 0⟩

end CollocInput

/-! ## Householder reflectors as maps on vectors

The reflectors that `CeedQRFactorization` stores in `mat` and `tau`, read
back as maps on vectors of length `m`; they are used to state what the loops
of the collocated-gradient builder compute. -/

section Reflectors

variable {K : Type*} [LinearOrderedField K]

/-- The map `y ↦ y - t (u · y) u` on vectors of length `m`. -/
def reflector (m : Nat) (u : Nat → K) (t : K) (y : Nat → K) : Nat → K :=
  fun r => y r - t * (∑ q in Finset.range m, u q * y q) * u r

/-- Column `d` of the row-major matrix `mat` with `n` columns: entry `r` is
`mat[d + n*r]`. -/
def colOf (n : Nat) (mat : Nat → K) (d : Nat) : Nat → K := fun r => mat (d + n * r)

/-- Row `j` of the row-major matrix `A` with `n` columns: entry `r` is
`A[r + n*j]`. -/
def rowOf (n : Nat) (A : Nat → K) (j : Nat) : Nat → K := fun r => A (r + n * j)

/-- The Householder vector of column `i`, as `CeedHouseholderReflect` reads it
from the entries `col` stored below the diagonal: `0` above row `i`, `1` in
row `i` (the implicit `v[0] = 1`), `col r` in the rows `i < r < m`. -/
def householderU (m i : Nat) (col : Nat → K) : Nat → K :=
  fun r => if r = i then 1 else if i < r ∧ r < m then col r else 0

/-- The reflector of column `i` stored in the factored `mat` (with `n` columns)
and `tau`. -/
def qrReflector (m n : Nat) (mat tau : Nat → K) (i : Nat) (y : Nat → K) : Nat → K :=
  reflector m (householderU m i (colOf n mat i)) (tau i) y

end Reflectors

section QRInvariants

variable {K : Type*} [LinearOrderedField K]

/-- Column `d` of the matrix `M0` after the first `k` reflectors stored in
`mat` and `tau` have been applied to it, reflector `0` first. -/
def qrColumn (m n : Nat) (mat tau : Nat → K) (k : Nat) (M0 : Nat → K) (d : Nat) : Nat → K :=
  forLoop k (fun i y => qrReflector m n mat tau i y) (colOf n M0 d)

/-- The state of `CeedQRFactorization` after `i` passes of its column loop, in
terms of the matrix `M0` it started from: the columns `d ≥ i` of `mat` are the
columns of `M0` with the first `i` reflectors applied; for `d < i`, `mat` holds
that column on and above the diagonal, the column is zero below the
diagonal, the diagonal entry is nonzero, and reflector `d` satisfies
`tau (u · u) = 2`. -/
def QRInvariant (m n : Nat) (M0 : Nat → K) (i : Nat) (mat tau : Nat → K) : Prop :=
  (∀ d r, d < n → r < m → i ≤ d → mat (d + n * r) = qrColumn m n mat tau i M0 d r) ∧
  (∀ d r, d < i → r < m → r ≤ d → mat (d + n * r) = qrColumn m n mat tau i M0 d r) ∧
  (∀ d r, d < i → r < m → d < r → qrColumn m n mat tau i M0 d r = 0) ∧
  (∀ k, k < i → tau k * ∑ q in Finset.range m,
    householderU m k (colOf n mat k) q * householderU m k (colOf n mat k) q = 2) ∧
  (∀ d, d < i → mat (d + n * d) ≠ 0)

end QRInvariants

/-! ## Setup dispatcher -/

section SetupDispatch

variable {K : Type*} [Field K]

/-- `PADiffusionSetup(dim, D1D, Q1D, NE, W, J, COEFF, op)` (lines 158-190) in a
build without OCCA: `dim == 1` aborts before anything is stored; otherwise the
2D kernel runs when `dim == 2`, the 3D kernel when `dim == 3`, and the call
returns.  The result is the abort message or the final `op`. -/
def PADiffusionSetup (dim D1D Q1D NE : Nat) (W J : Nat → K) (COEFF : K) (op : Nat → K) :
    Except String (Nat → K) :=
  if dim = 1 then Except.error "dim==1 not supported in PADiffusionSetup"
  else
    let op := if dim = 2 then PADiffusionSetup2D Q1D NE W J COEFF op else op
    let op := if dim = 3 then PADiffusionSetup3D Q1D NE W J COEFF op else op
    Except.ok op

/-- The contents of the caller's output buffer after a dispatcher call that
found it holding `y0`: the buffer a completed call returns, and `y0` itself
after an abort, since the dispatchers store to the buffer only through the
kernel they launch and every abort is raised instead of a launch. -/
def bufferAfter (y0 : Nat → K) (r : Except String (Nat → K)) : Nat → K :=
  match r with
  | Except.ok y => y
  | Except.error _ => y0

/-- The Jacobian buffer `J(q,i,j,e)` of one identity-mapped 2D element with
`Q1D = 4` (16 points): `J(q,0,0,0) = J(q,1,1,0) = 1`, the rest `0`. -/
def identityJ2Q4 : Nat → ℚ := fun i => if i / 16 = 0 ∨ i / 16 = 3 then 1 else 0

end SetupDispatch

/-! ## The `switch` statements of the Apply dispatcher -/

section DispatchCases

/-- The `switch ((D1D << 4) | Q1D)` of the branch taken without the toggle
(lines 1570-1580): the template arguments `<d,q>` of the
`SmemPADiffusionApply3D` instance whose `case` label equals the key, `none`
when no label does.  The key is an `int`: its 32-bit pattern is
`((D1D <<< 4) ||| Q1D) % 2 ^ 32`, the high bits of `D1D` being shifted out. -/
def smemCase (D1D Q1D : Nat) : Option (Nat × Nat) :=
  let key := ((D1D <<< 4) ||| Q1D) % 2 ^ 32
  if key = 0x23 then some (2, 3)
  else if key = 0x34 then some (3, 4)
  else if key = 0x45 then some (4, 5)
  else if key = 0x56 then some (5, 6)
  else if key = 0x67 then some (6, 7)
  else if key = 0x78 then some (7, 8)
  else if key = 0x89 then some (8, 9)
  else none

/-- The `switch ((D1D << 4) | Q1D)` of the branch taken with the toggle (lines
1552-1563): the template arguments `<d,q>` of the `BP3Global_v0` instance whose
`case` label equals the key, `none` when no label does.  The key is an `int`,
with the 32-bit pattern `((D1D <<< 4) ||| Q1D) % 2 ^ 32`. -/
def bp3Case (D1D Q1D : Nat) : Option (Nat × Nat) :=
  let key := ((D1D <<< 4) ||| Q1D) % 2 ^ 32
  if key = 0x23 then some (2, 3)
  else if key = 0x34 then some (3, 4)
  else if key = 0x45 then some (4, 5)
  else if key = 0x56 then some (5, 6)
  else if key = 0x67 then some (6, 7)
  else if key = 0x78 then some (7, 8)
  else if key = 0x89 then some (8, 9)
  else if key = 0xEF then some (14, 15)
  else none

end DispatchCases

/-! ## The sum-factorized action with independent backward tables

The forward sweep of the generic kernels reads `B`, `G` and the backward sweep
reads `Bt`, `Gt`; nothing in the kernels relates the two pairs of tables. -/

section SumFactBack

variable {K : Type*} [CommRing K]

/-- The reference gradient of the field `x` of element `e` at the quadrature
point `(qx,qy)`, by successive 1D contractions. -/
def sumfact2D_grad (D1D Q1D : Nat) (B G x : Nat → K) (e qy qx : Nat) : Fin 2 → K :=
  ![∑ dy in Finset.range D1D,
      (∑ dx in Finset.range D1D, x (idx3 D1D D1D dx dy e) * G (idx2 Q1D qx dx)) *
        B (idx2 Q1D qy dy),
    ∑ dy in Finset.range D1D,
      (∑ dx in Finset.range D1D, x (idx3 D1D D1D dx dy e) * B (idx2 Q1D qx dx)) *
        G (idx2 Q1D qy dy)]

/-- The reference gradient multiplied by the metric tensor
`[[op(q,0,e), op(q,1,e)], [op(q,1,e), op(q,2,e)]]` of the point
`q = qx + qy*Q1D`. -/
def sumfact2D_flux (D1D Q1D : Nat) (B G op x : Nat → K) (e qy qx : Nat) : Fin 2 → K :=
  ![op (idx3 (Q1D * Q1D) 3 (qx + qy * Q1D) 0 e) * sumfact2D_grad D1D Q1D B G x e qy qx 0 +
      op (idx3 (Q1D * Q1D) 3 (qx + qy * Q1D) 1 e) * sumfact2D_grad D1D Q1D B G x e qy qx 1,
    op (idx3 (Q1D * Q1D) 3 (qx + qy * Q1D) 1 e) * sumfact2D_grad D1D Q1D B G x e qy qx 0 +
      op (idx3 (Q1D * Q1D) 3 (qx + qy * Q1D) 2 e) * sumfact2D_grad D1D Q1D B G x e qy qx 1]

/-- The backward sweep of `PADiffusionApply2D`: the values `F(qy,qx,.)` at the
quadrature points contracted to the node `(dx,dy)` with the tables `Bt`, `Gt`
viewed as `Reshape(., D1D, Q1D)`. -/
def sumfact2D_back (D1D Q1D : Nat) (Bt Gt : Nat → K) (F : Nat → Nat → Fin 2 → K)
    (dx dy : Nat) : K :=
  ∑ qy in Finset.range Q1D,
    ((∑ qx in Finset.range Q1D, F qy qx 0 * Gt (idx2 D1D dx qx)) * Bt (idx2 D1D dy qy) +
     (∑ qx in Finset.range Q1D, F qy qx 1 * Bt (idx2 D1D dx qx)) * Gt (idx2 D1D dy qy))

/-- The backward sweep of `PADiffusionApply3D`: the values `F(qz,qy,qx,.)` at
the quadrature points contracted to the node `(dx,dy,dz)` with the tables
`Bt`, `Gt` viewed as `Reshape(., D1D, Q1D)`. -/
def sumfact3D_back (D1D Q1D : Nat) (Bt Gt : Nat → K) (F : Nat → Nat → Nat → Fin 3 → K)
    (dx dy dz : Nat) : K :=
  ∑ qz in Finset.range Q1D,
    ((∑ qy in Finset.range Q1D,
        (∑ qx in Finset.range Q1D, F qz qy qx 0 * Gt (idx2 D1D dx qx)) *
          Bt (idx2 D1D dy qy)) * Bt (idx2 D1D dz qz) +
     (∑ qy in Finset.range Q1D,
        (∑ qx in Finset.range Q1D, F qz qy qx 1 * Bt (idx2 D1D dx qx)) *
          Gt (idx2 D1D dy qy)) * Bt (idx2 D1D dz qz) +
     (∑ qy in Finset.range Q1D,
        (∑ qx in Finset.range Q1D, F qz qy qx 2 * Bt (idx2 D1D dx qx)) *
          Bt (idx2 D1D dy qy)) * Gt (idx2 D1D dz qz))

end SumFactBack

/-! ## `DiffusionIntegrator::Setup` -/

section IntegratorSetup

variable {K : Type*} [Field K]

/-- The local `symmDims` of `DiffusionIntegrator::Setup` (line 199). -/
def symmDims (dims : Nat) : Nat := (dims * (dims + 1)) / 2

/-- `DiffusionIntegrator::Setup` (lines 192-217) from the point where the
sizes are known.  The classes of the library are not part of this file, so
what the method reads from them is a parameter: `dims = el.GetDim()`,
`nq = ir->GetNPoints()`, `dim = mesh->Dimension()`, `ne = fes.GetNE()`,
`dofs1D = maps->ndof`, `quad1D = maps->nqpt`, `W = ir->GetWeights()`,
`J = geom->J`, the coefficient pointer `Q` (`none` is the null pointer) and
`dynamic_cast`, the outcome of `dynamic_cast<ConstantCoefficient*>(Q)`
followed by `->constant` (`none` is a null result).  `pa_data` is the content
of the buffer after `SetSize`.  The result is the abort or verification
message, or the size given to `pa_data` and its final content. -/
def DiffusionIntegrator.Setup {Coefficient : Type*} (dynamic_cast : Coefficient → Option K)
    (dims nq dim ne dofs1D quad1D : Nat) (W J : Nat → K) (Q : Option Coefficient)
    (pa_data : Nat → K) : Except String (Nat × (Nat → K)) :=
  let symmDims := (dims * (dims + 1)) / 2
  let size := symmDims * nq * ne
  let coeff : Except String K :=
    match Q with
    | none => Except.ok 1
    | some Q =>
      match dynamic_cast Q with
      | none => Except.error "only ConstantCoefficient is supported!"
      | some constant => Except.ok constant
  match coeff with
  | Except.error msg => Except.error msg
  | Except.ok coeff =>
    match PADiffusionSetup dim dofs1D quad1D ne W J coeff pa_data with
    | Except.error msg => Except.error msg
    | Except.ok pa_data => Except.ok (size, pa_data)

end IntegratorSetup

/-! ## Setup kernels with a log of their stores -/

section SetupTrace

variable {K : Type*} [Field K]

/-- The kernel `PADiffusionSetup2D` run with a log: the same statements as
`PADiffusionSetup2D`, every store `y(q,s,e) = v` also appending the flat index
it writes to the list of stores made so far. -/
def PADiffusionSetup2D_traced (Q1D NE : Nat) (w j : Nat → K) (COEFF : K) (op : Nat → K) :
    (Nat → K) × List Nat :=
  let NQ := Q1D * Q1D
  forLoop NE (fun e y =>
    forLoop NQ (fun q y =>
      let J11 := j (idx4 NQ 2 2 q 0 0 e)
      let J21 := j (idx4 NQ 2 2 q 1 0 e)
      let J12 := j (idx4 NQ 2 2 q 0 1 e)
      let J22 := j (idx4 NQ 2 2 q 1 1 e)
      let c_detJ := w q * COEFF / ((J11 * J22) - (J21 * J12))
      let y := (Function.update y.1 (idx3 NQ 3 q 0 e) (c_detJ * (J12 * J12 + J22 * J22)),
        y.2 ++ [idx3 NQ 3 q 0 e])
      let y := (Function.update y.1 (idx3 NQ 3 q 1 e) (-c_detJ * (J12 * J11 + J22 * J21)),
        y.2 ++ [idx3 NQ 3 q 1 e])
      (Function.update y.1 (idx3 NQ 3 q 2 e) (c_detJ * (J11 * J11 + J21 * J21)),
        y.2 ++ [idx3 NQ 3 q 2 e])) y) (op, [])

/-- The kernel `PADiffusionSetup3D` run with a log: the same statements as
`PADiffusionSetup3D`, every store `y(q,s,e) = v` also appending the flat index
it writes to the list of stores made so far. -/
def PADiffusionSetup3D_traced (Q1D NE : Nat) (w j : Nat → K) (COEFF : K) (op : Nat → K) :
    (Nat → K) × List Nat :=
  let NQ := Q1D * Q1D * Q1D
  forLoop NE (fun e y =>
    forLoop NQ (fun q y =>
      let J := jac3 NQ j q e
      let detJ := Setup3D_detJ J
      let c_detJ := w q * COEFF / detJ
      let A := Setup3D_adj J
      let A11 := A 0 0
      let A12 := A 0 1
      let A13 := A 0 2
      let A21 := A 1 0
      let A22 := A 1 1
      let A23 := A 1 2
      let A31 := A 2 0
      let A32 := A 2 1
      let A33 := A 2 2
      let y := (Function.update y.1 (idx3 NQ 6 q 0 e)
        (c_detJ * (A11 * A11 + A12 * A12 + A13 * A13)), y.2 ++ [idx3 NQ 6 q 0 e])
      let y := (Function.update y.1 (idx3 NQ 6 q 1 e)
        (c_detJ * (A11 * A21 + A12 * A22 + A13 * A23)), y.2 ++ [idx3 NQ 6 q 1 e])
      let y := (Function.update y.1 (idx3 NQ 6 q 2 e)
        (c_detJ * (A11 * A31 + A12 * A32 + A13 * A33)), y.2 ++ [idx3 NQ 6 q 2 e])
      let y := (Function.update y.1 (idx3 NQ 6 q 3 e)
        (c_detJ * (A21 * A21 + A22 * A22 + A23 * A23)), y.2 ++ [idx3 NQ 6 q 3 e])
      let y := (Function.update y.1 (idx3 NQ 6 q 4 e)
        (c_detJ * (A21 * A31 + A22 * A32 + A23 * A33)), y.2 ++ [idx3 NQ 6 q 4 e])
      (Function.update y.1 (idx3 NQ 6 q 5 e)
        (c_detJ * (A31 * A31 + A32 * A32 + A33 * A33)), y.2 ++ [idx3 NQ 6 q 5 e])) y) (op, [])

/-- The flat indices of the entries `op(q,s,e)`, `s < S`, of a
`Reshape(op, NQ, S, NE)` view, listed element by element, point by point. -/
def opEntries (NQ S NE : Nat) : List Nat :=
  (List.range NE).flatMap (fun e => (List.range NQ).flatMap (fun q =>
    (List.range S).map (fun s => idx3 NQ S q s e)))

end SetupTrace

/-! ## One reflector of `CeedHouseholderApplyQ` -/

section ApplyQReflector

variable {K : Type*} [LinearOrderedField K]

/-- The body of the loop of `CeedHouseholderApplyQ` (lines 1418-1424) once the
reflector index `i` is chosen: `v[i+1..m-1]` is read from column `i` of `Q` and
`CeedHouseholderReflect(&A[i*row], &v[i], tau[i], m-i, n, row, col)` is
applied.  The state is `(A, v)`. -/
def CeedHouseholderApplyQ_reflector (Q tau : Nat → K) (m n k row col i : Nat)
    (s : (Nat → K) × (Nat → K)) : (Nat → K) × (Nat → K) :=
  let v := forLoopFrom (i + 1) m (fun j v => Function.update v j (Q (j * k + i))) s.2
  let A := CeedHouseholderReflect s.1 (i * row) v i (tau i) (m - i) n row col
  (A, v)

/-- A 2 x 2 buffer whose first row (entries `0`, `1`) is `(1, 1)`. -/
def applyQIn_A : Nat → ℚ := fun i => if i < 2 then 1 else 0

/-- Stored reflectors for `m = k = 2`: the entry `Q[1*2+0]` below the diagonal
is `1`. -/
def applyQIn_Q : Nat → ℚ := fun i => if i = 2 then 1 else 0

end ApplyQReflector

/-! ## Loop lemmas -/

theorem forLoop_succ {σ : Type*} (n : Nat) (body : Nat → σ → σ) (s : σ) :
    forLoop (n + 1) body s = body n (forLoop n body s) := rfl

theorem forLoop_zero {σ : Type*} (body : Nat → σ → σ) (s : σ) :
    forLoop 0 body s = s := rfl

/-- A property preserved by every iteration holds after the loop. -/
theorem forLoop_inv {σ : Type*} (P : σ → Prop) (n : Nat) (body : Nat → σ → σ) (s0 : σ)
    (h0 : P s0) (hstep : ∀ i, i < n → ∀ s, P s → P (body i s)) :
    P (forLoop n body s0) := by
  induction n with
  | zero => exact h0
  | succ n ih =>
    rw [forLoop_succ]
    exact hstep n (Nat.lt_succ_self n) _
      (ih (fun i hi s hs => hstep i (Nat.lt_succ_of_lt hi) s hs))

/-- An observation that no iteration changes is unchanged by the loop. -/
theorem forLoop_untouched {σ β : Type*} (obs : σ → β) (n : Nat) (body : Nat → σ → σ)
    (s0 : σ) (h : ∀ i, i < n → ∀ s, obs (body i s) = obs s) :
    obs (forLoop n body s0) = obs s0 :=
  forLoop_inv (fun s => obs s = obs s0) n body s0 rfl
    (fun i hi s hs => (h i hi s).trans hs)

/-- An observation written by iteration `i` alone: if the state before
iteration `i` satisfies the invariant `P`, under which iteration `i` leaves
the value `v`, and no later iteration touches it, the loop leaves `v`. -/
theorem forLoop_single {σ β : Type*} (obs : σ → β) (P : σ → Prop) (n i : Nat)
    (body : Nat → σ → σ) (s0 : σ) (v : β) (hi : i < n) (hP0 : P s0)
    (hP : ∀ k, k < i → ∀ s, P s → P (body k s))
    (hw : ∀ s, P s → obs (body i s) = v)
    (hother : ∀ k, i < k → k < n → ∀ s, obs (body k s) = obs s) :
    obs (forLoop n body s0) = v := by
  induction n with
  | zero => exact absurd hi (Nat.not_lt_zero i)
  | succ n ih =>
    rw [forLoop_succ]
    rcases Nat.lt_succ_iff_lt_or_eq.mp hi with hlt | heq
    · rw [hother n hlt (Nat.lt_succ_self n)]
      exact ih hlt (fun k hk hkn s => hother k hk (Nat.lt_succ_of_lt hkn) s)
    · subst heq
      exact hw _ (forLoop_inv P i body s0 hP0 hP)

/-- An observation to which every iteration adds a term. -/
theorem forLoop_accum {σ β : Type*} [AddCommMonoid β] (obs : σ → β) (P : σ → Prop)
    (n : Nat) (body : Nat → σ → σ) (s0 : σ) (t : Nat → β) (hP0 : P s0)
    (hP : ∀ k, k < n → ∀ s, P s → P (body k s))
    (hadd : ∀ k, k < n → ∀ s, P s → obs (body k s) = obs s + t k) :
    obs (forLoop n body s0) = obs s0 + ∑ k in Finset.range n, t k := by
  induction n with
  | zero => simp [forLoop_zero]
  | succ n ih =>
    have hPn : P (forLoop n body s0) :=
      forLoop_inv P n body s0 hP0 (fun k hk s hs => hP k (Nat.lt_succ_of_lt hk) s hs)
    rw [forLoop_succ, hadd n (Nat.lt_succ_self n) _ hPn,
      ih (fun k hk s hs => hP k (Nat.lt_succ_of_lt hk) s hs)
        (fun k hk s hs => hadd k (Nat.lt_succ_of_lt hk) s hs),
      Finset.sum_range_succ, add_assoc]

/-! ## Strided views are injective on in-range indices -/

theorem idx2_inj {n a b a' b' : Nat} (ha : a < n) (ha' : a' < n)
    (h : idx2 n a b = idx2 n a' b') : a = a' ∧ b = b' := by
  unfold idx2 at h
  have hn : 0 < n := Nat.lt_of_le_of_lt (Nat.zero_le a) ha
  have h1 : (a + n * b) % n = a := by
    rw [Nat.add_mul_mod_self_left, Nat.mod_eq_of_lt ha]
  have h2 : (a' + n * b') % n = a' := by
    rw [Nat.add_mul_mod_self_left, Nat.mod_eq_of_lt ha']
  have h3 : (a + n * b) / n = b := by
    rw [Nat.add_mul_div_left _ _ hn, Nat.div_eq_of_lt ha, Nat.zero_add]
  have h4 : (a' + n * b') / n = b' := by
    rw [Nat.add_mul_div_left _ _ hn, Nat.div_eq_of_lt ha', Nat.zero_add]
  constructor
  · rw [← h1, ← h2, h]
  · rw [← h3, ← h4, h]

theorem idx3_inj {n0 n1 a b c a' b' c' : Nat} (ha : a < n0) (ha' : a' < n0)
    (hb : b < n1) (hb' : b' < n1)
    (h : idx3 n0 n1 a b c = idx3 n0 n1 a' b' c') : a = a' ∧ b = b' ∧ c = c' := by
  have h1 := @idx2_inj n0 a (idx2 n1 b c) a' (idx2 n1 b' c') ha ha' h
  have h2 := idx2_inj hb hb' h1.2
  exact ⟨h1.1, h2.1, h2.2⟩

theorem idx3_ne {n0 n1 a b c a' b' c' : Nat} (ha : a < n0) (ha' : a' < n0)
    (hb : b < n1) (hb' : b' < n1) (hne : ¬ (a = a' ∧ b = b' ∧ c = c')) :
    idx3 n0 n1 a b c ≠ idx3 n0 n1 a' b' c' :=
  fun h => hne (idx3_inj ha ha' hb hb' h)

theorem idx4_inj {n0 n1 n2 a b c d a' b' c' d' : Nat} (ha : a < n0) (ha' : a' < n0)
    (hb : b < n1) (hb' : b' < n1) (hc : c < n2) (hc' : c' < n2)
    (h : idx4 n0 n1 n2 a b c d = idx4 n0 n1 n2 a' b' c' d') :
    a = a' ∧ b = b' ∧ c = c' ∧ d = d' := by
  have h1 := @idx2_inj n0 a (idx3 n1 n2 b c d) a' (idx3 n1 n2 b' c' d') ha ha' h
  have h2 := idx3_inj hb hb' hc hc' h1.2
  exact ⟨h1.1, h2.1, h2.2.1, h2.2.2⟩

theorem idx4_ne {n0 n1 n2 a b c d a' b' c' d' : Nat} (ha : a < n0) (ha' : a' < n0)
    (hb : b < n1) (hb' : b' < n1) (hc : c < n2) (hc' : c' < n2)
    (hne : ¬ (a = a' ∧ b = b' ∧ c = c' ∧ d = d')) :
    idx4 n0 n1 n2 a b c d ≠ idx4 n0 n1 n2 a' b' c' d' :=
  fun h => hne (idx4_inj ha ha' hb hb' hc hc' h)

theorem sum_rev3 {M : Type*} [AddCommMonoid M] (A B C : Finset Nat) (f : Nat → Nat → Nat → M) :
    ∑ a in A, ∑ b in B, ∑ c in C, f a b c = ∑ c in C, ∑ b in B, ∑ a in A, f a b c := by
  rw [Finset.sum_comm]
  rw [Finset.sum_congr rfl (fun b _ => Finset.sum_comm)]
  rw [Finset.sum_comm]

/-! ## Views into shared scratch -/

theorem idx3_lt {n0 n1 n2 a b c : Nat} (ha : a < n0) (hb : b < n1) (hc : c < n2) :
    idx3 n0 n1 a b c < n0 * n1 * n2 := by
  unfold idx3
  have h1 : b + n1 * c + 1 ≤ n1 * n2 := by
    have : n1 * (c + 1) ≤ n1 * n2 := Nat.mul_le_mul_left n1 hc
    rw [Nat.mul_add, Nat.mul_one] at this
    omega
  have h2 : n0 * (b + n1 * c + 1) ≤ n0 * (n1 * n2) := Nat.mul_le_mul_left n0 h1
  rw [Nat.mul_add, Nat.mul_one] at h2
  rw [Nat.mul_assoc]
  omega

theorem idx2_lt {n0 n1 a b : Nat} (ha : a < n0) (hb : b < n1) : idx2 n0 a b < n0 * n1 := by
  unfold idx2
  have h2 : n0 * (b + 1) ≤ n0 * n1 := Nat.mul_le_mul_left n0 hb
  rw [Nat.mul_add, Nat.mul_one] at h2
  omega

theorem row2_eq_idx2 (n a b : Nat) : row2 n a b = idx2 n b a := by
  unfold row2 idx2
  rw [Nat.mul_comm, Nat.add_comm]

theorem row3_eq_idx3 (n1 n2 a b c : Nat) : row3 n1 n2 a b c = idx3 n2 n1 c b a := by
  unfold row3 idx3
  rw [Nat.mul_comm a n1, Nat.mul_comm _ n2, Nat.add_comm _ c, Nat.add_comm _ b]

theorem row2_inj {n a b a' b' : Nat} (hb : b < n) (hb' : b' < n)
    (h : row2 n a b = row2 n a' b') : a = a' ∧ b = b' := by
  rw [row2_eq_idx2, row2_eq_idx2] at h
  have := idx2_inj hb hb' h
  exact ⟨this.2, this.1⟩

theorem row3_inj {n1 n2 a b c a' b' c' : Nat} (hb : b < n1) (hb' : b' < n1)
    (hc : c < n2) (hc' : c' < n2) (h : row3 n1 n2 a b c = row3 n1 n2 a' b' c') :
    a = a' ∧ b = b' ∧ c = c' := by
  rw [row3_eq_idx3, row3_eq_idx3] at h
  have := idx3_inj hc hc' hb hb' h
  exact ⟨this.2.2, this.2.1, this.1⟩

theorem row2_lt {n0 n1 a b : Nat} (ha : a < n0) (hb : b < n1) : row2 n1 a b < n0 * n1 := by
  rw [row2_eq_idx2, Nat.mul_comm]
  exact idx2_lt hb ha

/-- An in-range offset of a view `[n1][n2]` with `n0` planes lies inside any
cube that bounds the three extents. -/
theorem row3_lt_cube {n0 n1 n2 M a b c : Nat} (ha : a < n0) (hb : b < n1) (hc : c < n2)
    (h0 : n0 ≤ M) (h1 : n1 ≤ M) (h2 : n2 ≤ M) : row3 n1 n2 a b c < M * M * M := by
  rw [row3_eq_idx3]
  refine Nat.lt_of_lt_of_le (idx3_lt hc hb ha) ?_
  exact Nat.mul_le_mul (Nat.mul_le_mul h2 h1) h0

/-- Cells of different blocks, or of the same block at different offsets, are
distinct. -/
theorem blk_inj {M k off k' off' : Nat} (h : off < M) (h' : off' < M)
    (heq : k * M + off = k' * M + off') : k = k' ∧ off = off' := by
  have := @idx2_inj M off k off' k' h h' (by unfold idx2; rw [Nat.mul_comm M k,
    Nat.mul_comm M k', Nat.add_comm off, Nat.add_comm off']; exact heq)
  exact ⟨this.2, this.1⟩

theorem view3_inj {M k n1 n2 a b c k' a' b' c' : Nat} (hb : b < n1) (hb' : b' < n1)
    (hc : c < n2) (hc' : c' < n2) (h : row3 n1 n2 a b c < M) (h' : row3 n1 n2 a' b' c' < M)
    (heq : view3 M k n1 n2 a b c = view3 M k' n1 n2 a' b' c') :
    k = k' ∧ a = a' ∧ b = b' ∧ c = c' := by
  have h1 := blk_inj h h' heq
  exact ⟨h1.1, row3_inj hb hb' hc hc' h1.2⟩

theorem view3_ne_blk {M k n1 n2 a b c k' m1 m2 a' b' c' : Nat}
    (h : row3 n1 n2 a b c < M) (h' : row3 m1 m2 a' b' c' < M) (hk : k ≠ k') :
    view3 M k n1 n2 a b c ≠ view3 M k' m1 m2 a' b' c' :=
  fun heq => hk (blk_inj h h' heq).1

theorem view2_inj {M k n1 a b k' a' b' : Nat} (hb : b < n1) (hb' : b' < n1)
    (h : row2 n1 a b < M) (h' : row2 n1 a' b' < M)
    (heq : view2 M k n1 a b = view2 M k' n1 a' b') : k = k' ∧ a = a' ∧ b = b' := by
  have h1 := blk_inj h h' heq
  exact ⟨h1.1, row2_inj hb hb' h1.2⟩

/-! ## Nested loops -/

theorem forLoop2_inv {σ : Type*} (P : σ → Prop) (n1 n2 : Nat) (body : Nat → Nat → σ → σ)
    (s0 : σ) (h0 : P s0)
    (hstep : ∀ a b, a < n1 → b < n2 → ∀ s, P s → P (body a b s)) :
    P (forLoop n1 (fun a s => forLoop n2 (fun b s => body a b s) s) s0) :=
  forLoop_inv P n1 _ s0 h0 (fun a ha s hs =>
    forLoop_inv P n2 _ s hs (fun b hb s hs => hstep a b ha hb s hs))

theorem forLoop3_inv {σ : Type*} (P : σ → Prop) (n1 n2 n3 : Nat)
    (body : Nat → Nat → Nat → σ → σ) (s0 : σ) (h0 : P s0)
    (hstep : ∀ a b c, a < n1 → b < n2 → c < n3 → ∀ s, P s → P (body a b c s)) :
    P (forLoop n1 (fun a s => forLoop n2 (fun b s =>
      forLoop n3 (fun c s => body a b c s) s) s) s0) :=
  forLoop_inv P n1 _ s0 h0 (fun a ha s hs =>
    forLoop2_inv P n2 n3 _ s hs (fun b c hb hc s hs => hstep a b c ha hb hc s hs))

theorem forLoop2_untouched {σ β : Type*} (obs : σ → β) (n1 n2 : Nat)
    (body : Nat → Nat → σ → σ) (s0 : σ)
    (h : ∀ a b, a < n1 → b < n2 → ∀ s, obs (body a b s) = obs s) :
    obs (forLoop n1 (fun a s => forLoop n2 (fun b s => body a b s) s) s0) = obs s0 :=
  forLoop2_inv (fun s => obs s = obs s0) n1 n2 body s0 rfl
    (fun a b ha hb s hs => (h a b ha hb s).trans hs)

theorem forLoop3_untouched {σ β : Type*} (obs : σ → β) (n1 n2 n3 : Nat)
    (body : Nat → Nat → Nat → σ → σ) (s0 : σ)
    (h : ∀ a b c, a < n1 → b < n2 → c < n3 → ∀ s, obs (body a b c s) = obs s) :
    obs (forLoop n1 (fun a s => forLoop n2 (fun b s =>
      forLoop n3 (fun c s => body a b c s) s) s) s0) = obs s0 :=
  forLoop3_inv (fun s => obs s = obs s0) n1 n2 n3 body s0 rfl
    (fun a b c ha hb hc s hs => (h a b c ha hb hc s).trans hs)

/-- Two nested loops in which the observation is written by iteration
`(i1,i2)` alone; `P` holds initially and is preserved by every other
iteration. -/
theorem forLoop2_single {σ β : Type*} (obs : σ → β) (P : σ → Prop) (n1 n2 i1 i2 : Nat)
    (body : Nat → Nat → σ → σ) (s0 : σ) (v : β) (h1 : i1 < n1) (h2 : i2 < n2)
    (hP0 : P s0)
    (hP : ∀ a b, a < n1 → b < n2 → ¬ (a = i1 ∧ b = i2) → ∀ s, P s → P (body a b s))
    (hw : ∀ s, P s → obs (body i1 i2 s) = v)
    (hother : ∀ a b, a < n1 → b < n2 → ¬ (a = i1 ∧ b = i2) →
      ∀ s, obs (body a b s) = obs s) :
    obs (forLoop n1 (fun a s => forLoop n2 (fun b s => body a b s) s) s0) = v := by
  refine forLoop_single obs P n1 i1 _ s0 v h1 hP0 ?_ ?_ ?_
  · intro a ha s hs
    exact forLoop_inv P n2 _ s hs (fun b hb s hs =>
      hP a b (Nat.lt_trans ha h1) hb (fun h => absurd h.1 (Nat.ne_of_lt ha)) s hs)
  · intro s hs
    refine forLoop_single obs P n2 i2 _ s v h2 hs ?_ hw ?_
    · intro b hb s hs
      exact hP i1 b h1 (Nat.lt_trans hb h2) (fun h => absurd h.2 (Nat.ne_of_lt hb)) s hs
    · intro b hb hbn s
      exact hother i1 b h1 hbn (fun h => absurd h.2 (Nat.ne_of_gt hb)) s
  · intro a ha han s
    exact forLoop_untouched obs n2 _ s (fun b hb s =>
      hother a b han hb (fun h => absurd h.1 (Nat.ne_of_gt ha)) s)

/-- Three nested loops in which the observation is written by iteration
`(i1,i2,i3)` alone. -/
theorem forLoop3_single {σ β : Type*} (obs : σ → β) (P : σ → Prop)
    (n1 n2 n3 i1 i2 i3 : Nat) (body : Nat → Nat → Nat → σ → σ) (s0 : σ) (v : β)
    (h1 : i1 < n1) (h2 : i2 < n2) (h3 : i3 < n3) (hP0 : P s0)
    (hP : ∀ a b c, a < n1 → b < n2 → c < n3 → ¬ (a = i1 ∧ b = i2 ∧ c = i3) →
      ∀ s, P s → P (body a b c s))
    (hw : ∀ s, P s → obs (body i1 i2 i3 s) = v)
    (hother : ∀ a b c, a < n1 → b < n2 → c < n3 → ¬ (a = i1 ∧ b = i2 ∧ c = i3) →
      ∀ s, obs (body a b c s) = obs s) :
    obs (forLoop n1 (fun a s => forLoop n2 (fun b s =>
      forLoop n3 (fun c s => body a b c s) s) s) s0) = v := by
  refine forLoop_single obs P n1 i1 _ s0 v h1 hP0 ?_ ?_ ?_
  · intro a ha s hs
    exact forLoop2_inv P n2 n3 _ s hs (fun b c hb hc s hs =>
      hP a b c (Nat.lt_trans ha h1) hb hc (fun h => absurd h.1 (Nat.ne_of_lt ha)) s hs)
  · intro s hs
    refine forLoop2_single obs P n2 n3 i2 i3 _ s v h2 h3 hs ?_ hw ?_
    · intro b c hb hc hne s hs
      exact hP i1 b c h1 hb hc (fun h => hne h.2) s hs
    · intro b c hb hc hne s
      exact hother i1 b c h1 hb hc (fun h => hne h.2) s
  · intro a ha han s
    exact forLoop2_untouched obs n2 n3 _ s (fun b c hb hc s =>
      hother a b c han hb hc (fun h => absurd h.1 (Nat.ne_of_gt ha)) s)

/-- A scalar reduction `u = 0; for (i < n) u += t i`. -/
theorem forLoop_sum {β : Type*} [AddCommMonoid β] (n : Nat) (t : Nat → β) (u0 : β) :
    forLoop n (fun i u => u + t i) u0 = u0 + ∑ i in Finset.range n, t i :=
  forLoop_accum (fun u => u) (fun _ => True) n _ u0 t trivial
    (fun _ _ _ _ => trivial) (fun _ _ _ _ => rfl)

section LocalArrayLemmas

variable {K : Type*}

theorem set2_same (A : Nat → Nat → K) (i j : Nat) (v : K) : set2 A i j v i j = v := by
  simp [set2]

theorem set2_ne (A : Nat → Nat → K) (i j a b : Nat) (v : K) (h : ¬ (a = i ∧ b = j)) :
    set2 A i j v a b = A a b := by
  simp [set2, h]

theorem set3_same (A : Nat → Nat → Nat → K) (i j k : Nat) (v : K) :
    set3 A i j k v i j k = v := by
  simp [set3]

theorem set3_ne (A : Nat → Nat → Nat → K) (i j k a b c : Nat) (v : K)
    (h : ¬ (a = i ∧ b = j ∧ c = k)) : set3 A i j k v a b c = A a b c := by
  simp [set3, h]

theorem set4_same (A : Nat → Nat → Nat → Nat → K) (i j k l : Nat) (v : K) :
    set4 A i j k l v i j k l = v := by
  simp [set4]

theorem set4_ne (A : Nat → Nat → Nat → Nat → K) (i j k l a b c d : Nat) (v : K)
    (h : ¬ (a = i ∧ b = j ∧ c = k ∧ d = l)) : set4 A i j k l v a b c d = A a b c d := by
  simp [set4, h]

/-- A store to row `(i,j)` does not change row `(a,b)`. -/
theorem set3_row_ne (A : Nat → Nat → Nat → K) (i j k a b c : Nat) (v : K)
    (h : ¬ (i = a ∧ j = b)) : set3 A i j k v a b c = A a b c :=
  set3_ne A i j k a b c v (fun h' => h ⟨h'.1.symm, h'.2.1.symm⟩)

theorem set2_row_ne (A : Nat → Nat → K) (i j a b : Nat) (v : K)
    (h : i ≠ a) : set2 A i j v a b = A a b :=
  set2_ne A i j a b v (fun h' => h h'.1.symm)

/-- Cells outside every slot are unchanged by the loop over elements. -/
theorem forLoop_elements_frame {ι : Type*} (NE : Nat) (body : Nat → (Nat → K) → (Nat → K))
    (cell : Nat → ι → Nat) (valid : ι → Prop) (y0 : Nat → K)
    (hframe : ∀ e y a, (∀ i, valid i → a ≠ cell e i) → body e y a = y a)
    (a : Nat) (ha : ∀ e, e < NE → ∀ i, valid i → a ≠ cell e i) :
    forLoop NE body y0 a = y0 a :=
  forLoop_untouched (fun y : Nat → K => y a) NE body y0 (fun e he s => hframe e s a (ha e he))

theorem set4_row_ne (A : Nat → Nat → Nat → Nat → K) (i j k l a b c d : Nat) (v : K)
    (h : ¬ (i = a ∧ j = b ∧ k = c)) : set4 A i j k l v a b c d = A a b c d :=
  set4_ne A i j k l a b c d v (fun h' => h ⟨h'.1.symm, h'.2.1.symm, h'.2.2.1.symm⟩)

end LocalArrayLemmas

/-! ## Setup kernels: the values written -/

section SetupProofs

variable {K : Type*} [Field K]

/-- The three values `PADiffusionSetup2D` leaves at `op(q,0..2,e)`. -/
theorem PADiffusionSetup2D_val (Q1D NE : Nat) (w j : Nat → K) (COEFF : K) (op : Nat → K)
    (e q : Nat) (he : e < NE) (hq : q < Q1D * Q1D) :
    let NQ := Q1D * Q1D
    let J11 := j (idx4 NQ 2 2 q 0 0 e)
    let J21 := j (idx4 NQ 2 2 q 1 0 e)
    let J12 := j (idx4 NQ 2 2 q 0 1 e)
    let J22 := j (idx4 NQ 2 2 q 1 1 e)
    let c_detJ := w q * COEFF / ((J11 * J22) - (J21 * J12))
    let y := PADiffusionSetup2D Q1D NE w j COEFF op
    y (idx3 NQ 3 q 0 e) = c_detJ * (J12 * J12 + J22 * J22) ∧
    y (idx3 NQ 3 q 1 e) = -c_detJ * (J12 * J11 + J22 * J21) ∧
    y (idx3 NQ 3 q 2 e) = c_detJ * (J11 * J11 + J21 * J21) := by
  intro NQ J11 J21 J12 J22 c_detJ y
  have key : ∀ s, s < 3 → ∀ v : K,
      (∀ y0 : Nat → K,
        (Function.update (Function.update (Function.update y0 (idx3 NQ 3 q 0 e)
          (c_detJ * (J12 * J12 + J22 * J22))) (idx3 NQ 3 q 1 e)
          (-c_detJ * (J12 * J11 + J22 * J21))) (idx3 NQ 3 q 2 e)
          (c_detJ * (J11 * J11 + J21 * J21))) (idx3 NQ 3 q s e) = v) →
      y (idx3 NQ 3 q s e) = v := by
    intro s hs v hv
    refine forLoop_single (fun y : Nat → K => y (idx3 NQ 3 q s e)) (fun _ => True)
      NE e _ op v he trivial (fun _ _ _ _ => trivial) ?_ ?_
    · intro y1 _
      refine forLoop_single (fun y : Nat → K => y (idx3 NQ 3 q s e)) (fun _ => True)
        NQ q _ y1 v hq trivial (fun _ _ _ _ => trivial) (fun y2 _ => hv y2) ?_
      intro q' hq' hq'n y2
      have hne : ∀ s', s' < 3 → idx3 NQ 3 q s e ≠ idx3 NQ 3 q' s' e :=
        fun s' hs' => idx3_ne hq hq'n hs hs' (fun h => absurd h.1 (Nat.ne_of_lt hq'))
      simp only [Function.update_noteq (hne 0 (by decide)),
        Function.update_noteq (hne 1 (by decide)), Function.update_noteq (hne 2 (by decide))]
    · intro e' he' _ y1
      refine forLoop_untouched (fun y : Nat → K => y (idx3 NQ 3 q s e)) NQ _ y1 ?_
      intro q' hq'n y2
      have hne : ∀ s', s' < 3 → idx3 NQ 3 q s e ≠ idx3 NQ 3 q' s' e' :=
        fun s' hs' => idx3_ne hq hq'n hs hs' (fun h => absurd h.2.2 (Nat.ne_of_lt he'))
      simp only [Function.update_noteq (hne 0 (by decide)),
        Function.update_noteq (hne 1 (by decide)), Function.update_noteq (hne 2 (by decide))]
  have h01 : idx3 NQ 3 q 0 e ≠ idx3 NQ 3 q 1 e :=
    idx3_ne hq hq (by decide) (by decide) (by simp)
  have h02 : idx3 NQ 3 q 0 e ≠ idx3 NQ 3 q 2 e :=
    idx3_ne hq hq (by decide) (by decide) (by simp)
  have h12 : idx3 NQ 3 q 1 e ≠ idx3 NQ 3 q 2 e :=
    idx3_ne hq hq (by decide) (by decide) (by simp)
  refine ⟨key 0 (by decide) _ (fun y0 => ?_), key 1 (by decide) _ (fun y0 => ?_),
    key 2 (by decide) _ (fun y0 => ?_)⟩
  · rw [Function.update_noteq h02, Function.update_noteq h01, Function.update_same]
  · rw [Function.update_noteq h12, Function.update_same]
  · rw [Function.update_same]

/-- **C1.** For every element `e < NE` and point `q < Q1D^2` whose Jacobian `J`
is invertible, the three values `PADiffusionSetup2D` writes to `op(q,0..2,e)`
are the (1,1), (1,2) and (2,2) entries of `W[q] * COEFF * det(J) * J⁻¹ * J⁻ᵀ`,
that is `c*(J12²+J22²)`, `-c*(J12*J11+J22*J21)`, `c*(J11²+J21²)` with
`c = W[q]*COEFF/(J11*J22 - J21*J12)`. -/
theorem PADiffusionSetup2D_metric (Q1D NE : Nat) (w j : Nat → K) (COEFF : K)
    (op : Nat → K) (e q : Nat) (he : e < NE) (hq : q < Q1D * Q1D)
    (hdet : (jac2 (Q1D * Q1D) j q e).det ≠ 0) :
    let J := jac2 (Q1D * Q1D) j q e
    let M := (w q * COEFF * J.det) • (J⁻¹ * J⁻¹.transpose)
    let c := w q * COEFF / (J 0 0 * J 1 1 - J 1 0 * J 0 1)
    let y := PADiffusionSetup2D Q1D NE w j COEFF op
    (y (idx3 (Q1D * Q1D) 3 q 0 e) = M 0 0 ∧
     y (idx3 (Q1D * Q1D) 3 q 1 e) = M 0 1 ∧
     y (idx3 (Q1D * Q1D) 3 q 2 e) = M 1 1) ∧
    (M 0 0 = c * (J 0 1 ^ 2 + J 1 1 ^ 2) ∧
     M 0 1 = -c * (J 0 1 * J 0 0 + J 1 1 * J 1 0) ∧
     M 1 1 = c * (J 0 0 ^ 2 + J 1 0 ^ 2) ∧
     M 1 0 = M 0 1) := by
  intro J M c y
  have hval := PADiffusionSetup2D_val Q1D NE w j COEFF op e q he hq
  have hd : J.det = J 0 0 * J 1 1 - J 1 0 * J 0 1 := by
    rw [Matrix.det_fin_two]; ring
  have hd0 : J 0 0 * J 1 1 - J 1 0 * J 0 1 ≠ 0 := hd ▸ hdet
  have hinv : J⁻¹ = (J.det)⁻¹ • J.adjugate := by
    rw [Matrix.inv_def, Ring.inverse_eq_inv]
  have hJ : ∀ r c : Fin 2, J r c = j (idx4 (Q1D * Q1D) 2 2 q r.val c.val e) := fun _ _ => rfl
  have hM00 : M 0 0 = c * (J 0 1 ^ 2 + J 1 1 ^ 2) := by
    simp only [M, c, hinv, Matrix.adjugate_fin_two, Matrix.smul_apply, Matrix.mul_apply,
      Matrix.transpose_apply, Fin.sum_univ_two, Matrix.of_apply, Matrix.cons_val_zero,
      Matrix.cons_val_one, Matrix.head_cons, smul_eq_mul, hd, Matrix.cons_val', Matrix.empty_val',
      Matrix.cons_val_fin_one]
    field_simp
    ring
  have hM01 : M 0 1 = -c * (J 0 1 * J 0 0 + J 1 1 * J 1 0) := by
    simp only [M, c, hinv, Matrix.adjugate_fin_two, Matrix.smul_apply, Matrix.mul_apply,
      Matrix.transpose_apply, Fin.sum_univ_two, Matrix.of_apply, Matrix.cons_val_zero,
      Matrix.cons_val_one, Matrix.head_cons, smul_eq_mul, hd, Matrix.cons_val', Matrix.empty_val',
      Matrix.cons_val_fin_one]
    field_simp
    ring
  have hM10 : M 1 0 = M 0 1 := by
    simp only [M, c, hinv, Matrix.adjugate_fin_two, Matrix.smul_apply, Matrix.mul_apply,
      Matrix.transpose_apply, Fin.sum_univ_two, Matrix.of_apply, Matrix.cons_val_zero,
      Matrix.cons_val_one, Matrix.head_cons, smul_eq_mul, hd, Matrix.cons_val', Matrix.empty_val',
      Matrix.cons_val_fin_one]
    ring
  have hM11 : M 1 1 = c * (J 0 0 ^ 2 + J 1 0 ^ 2) := by
    simp only [M, c, hinv, Matrix.adjugate_fin_two, Matrix.smul_apply, Matrix.mul_apply,
      Matrix.transpose_apply, Fin.sum_univ_two, Matrix.of_apply, Matrix.cons_val_zero,
      Matrix.cons_val_one, Matrix.head_cons, smul_eq_mul, hd, Matrix.cons_val', Matrix.empty_val',
      Matrix.cons_val_fin_one]
    field_simp
    ring
  refine ⟨⟨?_, ?_, ?_⟩, hM00, hM01, hM11, hM10⟩
  · rw [hM00]; refine hval.1.trans ?_
    simp only [c, hJ, Fin.val_zero, Fin.val_one]; ring
  · rw [hM01]; refine hval.2.1.trans ?_
    simp only [c, hJ, Fin.val_zero, Fin.val_one]
  · rw [hM11]; refine hval.2.2.trans ?_
    simp only [c, hJ, Fin.val_zero, Fin.val_one]; ring

end SetupProofs

section Setup3DProofs

variable {K : Type*} [Field K]

/-- The six values `PADiffusionSetup3D` leaves at `op(q,0..5,e)`. -/
theorem PADiffusionSetup3D_val (Q1D NE : Nat) (w j : Nat → K) (COEFF : K) (op : Nat → K)
    (e q : Nat) (he : e < NE) (hq : q < Q1D * Q1D * Q1D) :
    let NQ := Q1D * Q1D * Q1D
    let A := Setup3D_adj (jac3 NQ j q e)
    let c_detJ := w q * COEFF / Setup3D_detJ (jac3 NQ j q e)
    let y := PADiffusionSetup3D Q1D NE w j COEFF op
    y (idx3 NQ 6 q 0 e) = c_detJ * (A 0 0 * A 0 0 + A 0 1 * A 0 1 + A 0 2 * A 0 2) ∧
    y (idx3 NQ 6 q 1 e) = c_detJ * (A 0 0 * A 1 0 + A 0 1 * A 1 1 + A 0 2 * A 1 2) ∧
    y (idx3 NQ 6 q 2 e) = c_detJ * (A 0 0 * A 2 0 + A 0 1 * A 2 1 + A 0 2 * A 2 2) ∧
    y (idx3 NQ 6 q 3 e) = c_detJ * (A 1 0 * A 1 0 + A 1 1 * A 1 1 + A 1 2 * A 1 2) ∧
    y (idx3 NQ 6 q 4 e) = c_detJ * (A 1 0 * A 2 0 + A 1 1 * A 2 1 + A 1 2 * A 2 2) ∧
    y (idx3 NQ 6 q 5 e) = c_detJ * (A 2 0 * A 2 0 + A 2 1 * A 2 1 + A 2 2 * A 2 2) := by
  intro NQ A c_detJ y
  have key : ∀ s, s < 6 → ∀ v : K,
      (∀ y0 : Nat → K,
        (Function.update (Function.update (Function.update (Function.update
          (Function.update (Function.update y0
          (idx3 NQ 6 q 0 e) (c_detJ * (A 0 0 * A 0 0 + A 0 1 * A 0 1 + A 0 2 * A 0 2)))
          (idx3 NQ 6 q 1 e) (c_detJ * (A 0 0 * A 1 0 + A 0 1 * A 1 1 + A 0 2 * A 1 2)))
          (idx3 NQ 6 q 2 e) (c_detJ * (A 0 0 * A 2 0 + A 0 1 * A 2 1 + A 0 2 * A 2 2)))
          (idx3 NQ 6 q 3 e) (c_detJ * (A 1 0 * A 1 0 + A 1 1 * A 1 1 + A 1 2 * A 1 2)))
          (idx3 NQ 6 q 4 e) (c_detJ * (A 1 0 * A 2 0 + A 1 1 * A 2 1 + A 1 2 * A 2 2)))
          (idx3 NQ 6 q 5 e) (c_detJ * (A 2 0 * A 2 0 + A 2 1 * A 2 1 + A 2 2 * A 2 2)))
          (idx3 NQ 6 q s e) = v) →
      y (idx3 NQ 6 q s e) = v := by
    intro s hs v hv
    refine forLoop_single (fun y : Nat → K => y (idx3 NQ 6 q s e)) (fun _ => True)
      NE e _ op v he trivial (fun _ _ _ _ => trivial) ?_ ?_
    · intro y1 _
      refine forLoop_single (fun y : Nat → K => y (idx3 NQ 6 q s e)) (fun _ => True)
        NQ q _ y1 v hq trivial (fun _ _ _ _ => trivial) (fun y2 _ => hv y2) ?_
      intro q' hq' hq'n y2
      have hne : ∀ s', s' < 6 → idx3 NQ 6 q s e ≠ idx3 NQ 6 q' s' e :=
        fun s' hs' => idx3_ne hq hq'n hs hs' (fun h => absurd h.1 (Nat.ne_of_lt hq'))
      simp only [Function.update_noteq (hne 0 (by decide)),
        Function.update_noteq (hne 1 (by decide)), Function.update_noteq (hne 2 (by decide)),
        Function.update_noteq (hne 3 (by decide)), Function.update_noteq (hne 4 (by decide)),
        Function.update_noteq (hne 5 (by decide))]
    · intro e' he' _ y1
      refine forLoop_untouched (fun y : Nat → K => y (idx3 NQ 6 q s e)) NQ _ y1 ?_
      intro q' hq'n y2
      have hne : ∀ s', s' < 6 → idx3 NQ 6 q s e ≠ idx3 NQ 6 q' s' e' :=
        fun s' hs' => idx3_ne hq hq'n hs hs' (fun h => absurd h.2.2 (Nat.ne_of_lt he'))
      simp only [Function.update_noteq (hne 0 (by decide)),
        Function.update_noteq (hne 1 (by decide)), Function.update_noteq (hne 2 (by decide)),
        Function.update_noteq (hne 3 (by decide)), Function.update_noteq (hne 4 (by decide)),
        Function.update_noteq (hne 5 (by decide))]
  have hss : ∀ s s', s < 6 → s' < 6 → s ≠ s' → idx3 NQ 6 q s e ≠ idx3 NQ 6 q s' e :=
    fun s s' hs hs' h => idx3_ne hq hq hs hs' (fun h' => h h'.2.1)
  refine ⟨key 0 (by decide) _ (fun y0 => ?_), key 1 (by decide) _ (fun y0 => ?_),
    key 2 (by decide) _ (fun y0 => ?_), key 3 (by decide) _ (fun y0 => ?_),
    key 4 (by decide) _ (fun y0 => ?_), key 5 (by decide) _ (fun y0 => ?_)⟩
  · rw [Function.update_noteq (hss 0 5 (by decide) (by decide) (by decide)),
      Function.update_noteq (hss 0 4 (by decide) (by decide) (by decide)),
      Function.update_noteq (hss 0 3 (by decide) (by decide) (by decide)),
      Function.update_noteq (hss 0 2 (by decide) (by decide) (by decide)),
      Function.update_noteq (hss 0 1 (by decide) (by decide) (by decide)),
      Function.update_same]
  · rw [Function.update_noteq (hss 1 5 (by decide) (by decide) (by decide)),
      Function.update_noteq (hss 1 4 (by decide) (by decide) (by decide)),
      Function.update_noteq (hss 1 3 (by decide) (by decide) (by decide)),
      Function.update_noteq (hss 1 2 (by decide) (by decide) (by decide)),
      Function.update_same]
  · rw [Function.update_noteq (hss 2 5 (by decide) (by decide) (by decide)),
      Function.update_noteq (hss 2 4 (by decide) (by decide) (by decide)),
      Function.update_noteq (hss 2 3 (by decide) (by decide) (by decide)),
      Function.update_same]
  · rw [Function.update_noteq (hss 3 5 (by decide) (by decide) (by decide)),
      Function.update_noteq (hss 3 4 (by decide) (by decide) (by decide)),
      Function.update_same]
  · rw [Function.update_noteq (hss 4 5 (by decide) (by decide) (by decide)),
      Function.update_same]
  · rw [Function.update_same]

/-- The kernel's `detJ` is the determinant. -/
theorem Setup3D_detJ_eq (J : Matrix (Fin 3) (Fin 3) K) : Setup3D_detJ J = J.det := by
  rw [Matrix.det_fin_three]
  simp only [Setup3D_detJ]
  ring

/-- The kernel's `A11..A33` are the entries of the adjugate. -/
theorem Setup3D_adj_eq (J : Matrix (Fin 3) (Fin 3) K) : Setup3D_adj J = J.adjugate := by
  rw [Matrix.adjugate_fin_three]
  ext r c
  fin_cases r <;> fin_cases c <;> simp [Setup3D_adj] <;> ring

end Setup3DProofs

section MetricProofs

variable {K : Type*} [Field K]

/-- Entries of `s * det(J) * J⁻¹ * J⁻ᵀ` through the adjugate. -/
theorem metric_entry {n : Type*} [Fintype n] [DecidableEq n] (J : Matrix n n K)
    (hdet : J.det ≠ 0) (s : K) (r c : n) :
    ((s * J.det) • (J⁻¹ * J⁻¹.transpose)) r c =
      s / J.det * ∑ k, J.adjugate r k * J.adjugate c k := by
  have hinv : J⁻¹ = (J.det)⁻¹ • J.adjugate := by
    rw [Matrix.inv_def, Ring.inverse_eq_inv]
  rw [hinv]
  simp only [Matrix.smul_apply, Matrix.mul_apply, Matrix.transpose_apply, smul_eq_mul]
  rw [Finset.mul_sum, Finset.mul_sum]
  refine Finset.sum_congr rfl (fun k _ => ?_)
  field_simp
  ring

/-- The six values `PADiffusionSetup3D` writes for the point `(q,e)` are the
upper-triangle entries of `W[q] * COEFF * det(J) * J⁻¹ * J⁻ᵀ`, which is
symmetric. -/
theorem PADiffusionSetup3D_entries (Q1D NE : Nat) (w j : Nat → K) (COEFF : K)
    (op : Nat → K) (e q : Nat) (he : e < NE) (hq : q < Q1D * Q1D * Q1D)
    (hdet : (jac3 (Q1D * Q1D * Q1D) j q e).det ≠ 0) :
    let NQ := Q1D * Q1D * Q1D
    let J := jac3 NQ j q e
    let M := (w q * COEFF * J.det) • (J⁻¹ * J⁻¹.transpose)
    let y := PADiffusionSetup3D Q1D NE w j COEFF op
    (y (idx3 NQ 6 q 0 e) = M 0 0 ∧ y (idx3 NQ 6 q 1 e) = M 0 1 ∧
      y (idx3 NQ 6 q 2 e) = M 0 2 ∧ y (idx3 NQ 6 q 3 e) = M 1 1 ∧
      y (idx3 NQ 6 q 4 e) = M 1 2 ∧ y (idx3 NQ 6 q 5 e) = M 2 2) ∧
    M.transpose = M := by
  intro NQ J M y
  have hval := PADiffusionSetup3D_val Q1D NE w j COEFF op e q he hq
  have hM : ∀ r c : Fin 3, M r c = w q * COEFF / Setup3D_detJ J *
      (Setup3D_adj J r 0 * Setup3D_adj J c 0 + Setup3D_adj J r 1 * Setup3D_adj J c 1 +
        Setup3D_adj J r 2 * Setup3D_adj J c 2) := by
    intro r c
    rw [Setup3D_detJ_eq, Setup3D_adj_eq]
    exact (metric_entry J hdet (w q * COEFF) r c).trans (by rw [Fin.sum_univ_three])
  refine ⟨⟨?_, ?_, ?_, ?_, ?_, ?_⟩, ?_⟩
  · rw [hM]; exact hval.1
  · rw [hM]; exact hval.2.1
  · rw [hM]; exact hval.2.2.1
  · rw [hM]; exact hval.2.2.2.1
  · rw [hM]; exact hval.2.2.2.2.1
  · rw [hM]; exact hval.2.2.2.2.2
  · ext r c
    rw [Matrix.transpose_apply, hM, hM]
    ring

/-- **C2.** For every element `e < NE` and point `q < Q1D^3` whose Jacobian `J`
is invertible: the kernel's `detJ` is `det(J)`, its `A11..A33` are the entries
of `adj(J)` (so `J * A = det(J) * I`), and the six values written to
`op(q,0..5,e)` are the (1,1), (1,2), (1,3), (2,2), (2,3), (3,3) entries of the
symmetric matrix `W[q] * COEFF * det(J) * J⁻¹ * J⁻ᵀ`. -/
theorem PADiffusionSetup3D_metric (Q1D NE : Nat) (w j : Nat → K) (COEFF : K)
    (op : Nat → K) (e q : Nat) (he : e < NE) (hq : q < Q1D * Q1D * Q1D)
    (hdet : (jac3 (Q1D * Q1D * Q1D) j q e).det ≠ 0) :
    let NQ := Q1D * Q1D * Q1D
    let J := jac3 NQ j q e
    let M := (w q * COEFF * J.det) • (J⁻¹ * J⁻¹.transpose)
    let y := PADiffusionSetup3D Q1D NE w j COEFF op
    (Setup3D_detJ J = J.det ∧ Setup3D_adj J = J.adjugate ∧
      J * Setup3D_adj J = J.det • (1 : Matrix (Fin 3) (Fin 3) K)) ∧
    (y (idx3 NQ 6 q 0 e) = M 0 0 ∧ y (idx3 NQ 6 q 1 e) = M 0 1 ∧
      y (idx3 NQ 6 q 2 e) = M 0 2 ∧ y (idx3 NQ 6 q 3 e) = M 1 1 ∧
      y (idx3 NQ 6 q 4 e) = M 1 2 ∧ y (idx3 NQ 6 q 5 e) = M 2 2) ∧
    M.transpose = M := by
  intro NQ J M y
  obtain ⟨hent, hsym⟩ := PADiffusionSetup3D_entries Q1D NE w j COEFF op e q he hq hdet
  refine ⟨⟨Setup3D_detJ_eq J, Setup3D_adj_eq J, ?_⟩, hent, hsym⟩
  rw [Setup3D_adj_eq, Matrix.mul_adjugate]

/-- Witness for C1: one identity-mapped point. -/
theorem PADiffusionSetup2D_metric_witness :
    ((0 : Nat) < 1 ∧ (0 : Nat) < 1 * 1 ∧ (jac2 (1 * 1) identityJ2 0 0).det ≠ 0) ∧
    PADiffusionSetup2D 1 1 (fun _ => (1 : ℚ)) identityJ2 1 (fun _ => 0)
        (idx3 (1 * 1) 3 0 0 0) =
      ((1 * 1 * (jac2 (1 * 1) identityJ2 0 0).det) •
        ((jac2 (1 * 1) identityJ2 0 0)⁻¹ * (jac2 (1 * 1) identityJ2 0 0)⁻¹.transpose)) 0 0 := by
  have hdet : (jac2 (1 * 1) identityJ2 0 0).det ≠ 0 := by
    simp [Matrix.det_fin_two, jac2, idx4, identityJ2]
  exact ⟨⟨by decide, by decide, hdet⟩,
    (PADiffusionSetup2D_metric 1 1 (fun _ => (1 : ℚ)) identityJ2 1 (fun _ => 0) 0 0
      (by decide) (by decide) hdet).1.1⟩

/-- Witness for C2: one identity-mapped point. -/
theorem PADiffusionSetup3D_metric_witness :
    ((0 : Nat) < 1 ∧ (0 : Nat) < 1 * 1 * 1 ∧ (jac3 (1 * 1 * 1) identityJ3 0 0).det ≠ 0) ∧
    Setup3D_detJ (jac3 (1 * 1 * 1) identityJ3 0 0) = (jac3 (1 * 1 * 1) identityJ3 0 0).det := by
  have hdet : (jac3 (1 * 1 * 1) identityJ3 0 0).det ≠ 0 := by
    simp [Matrix.det_fin_three, jac3, idx4, identityJ3]
  exact ⟨⟨by decide, by decide, hdet⟩,
    (PADiffusionSetup3D_metric 1 1 (fun _ => (1 : ℚ)) identityJ3 1 (fun _ => 0) 0 0
      (by decide) (by decide) hdet).1.1⟩

end MetricProofs

section Apply2DProofs

variable {K : Type*} [CommRing K]

theorem apply2D_clear_spec (Q1D : Nat) (grad0 : Nat → Nat → Nat → K) (qy qx c : Nat)
    (hqy : qy < Q1D) (hqx : qx < Q1D) (hc : c < 2) :
    apply2D_clear Q1D grad0 qy qx c = 0 := by
  unfold apply2D_clear
  refine forLoop2_single (fun g : Nat → Nat → Nat → K => g qy qx c) (fun _ => True)
    Q1D Q1D qy qx _ grad0 0 hqy hqx trivial (fun _ _ _ _ _ _ _ => trivial) ?_ ?_
  · intro s _
    interval_cases c <;> simp [set3]
  · intro a b _ _ hne s
    simp only [set3_row_ne _ _ _ _ _ _ _ _ hne]

theorem apply2D_gradXq_spec (D1D Q1D : Nat) (B G x : Nat → K) (gradXq0 : Nat → Nat → K)
    (e dy qx : Nat) (hqx : qx < Q1D) :
    apply2D_gradXq D1D Q1D B G x gradXq0 e dy qx 0 =
      ∑ dx in Finset.range D1D, x (idx3 D1D D1D dx dy e) * B (idx2 Q1D qx dx) ∧
    apply2D_gradXq D1D Q1D B G x gradXq0 e dy qx 1 =
      ∑ dx in Finset.range D1D, x (idx3 D1D D1D dx dy e) * G (idx2 Q1D qx dx) := by
  unfold apply2D_gradXq
  have hz : ∀ c, c < 2 → forLoop Q1D (fun qx gradX =>
      let gradX := set2 gradX qx 0 0
      set2 gradX qx 1 0) gradXq0 qx c = 0 := by
    intro c hc
    refine forLoop_single (fun g : Nat → Nat → K => g qx c) (fun _ => True)
      Q1D qx _ gradXq0 0 hqx trivial (fun _ _ _ _ => trivial) ?_ ?_
    · intro s _
      interval_cases c <;> simp [set2]
    · intro a ha _ s
      simp only [set2_row_ne _ _ _ _ _ _ (Nat.ne_of_gt ha)]
  have hacc : ∀ c, c < 2 → ∀ T : Nat → K, (∀ dx, T dx = if c = 0 then B (idx2 Q1D qx dx) else G (idx2 Q1D qx dx)) →
      ∀ g0 : Nat → Nat → K, forLoop D1D (fun dx gradX =>
      let s := x (idx3 D1D D1D dx dy e)
      forLoop Q1D (fun qx gradX =>
        let gradX := set2 gradX qx 0 (gradX qx 0 + s * B (idx2 Q1D qx dx))
        set2 gradX qx 1 (gradX qx 1 + s * G (idx2 Q1D qx dx))) gradX) g0 qx c =
      g0 qx c + ∑ dx in Finset.range D1D, x (idx3 D1D D1D dx dy e) * T dx := by
    intro c hc T hT g0
    refine forLoop_accum (fun g : Nat → Nat → K => g qx c) (fun _ => True) D1D _ g0 _
      trivial (fun _ _ _ _ => trivial) ?_
    intro dx _ s _
    refine forLoop_single (fun g : Nat → Nat → K => g qx c) (fun g => g qx c = s qx c)
      Q1D qx _ s _ hqx rfl ?_ ?_ ?_
    · intro a ha g hg
      simp only [set2_row_ne _ _ _ _ _ _ (Nat.ne_of_lt ha)]
      exact hg
    · intro g hg
      rw [hT]
      interval_cases c
      · simp [set2, hg]
      · simp [set2, hg]
    · intro a ha _ g
      simp only [set2_row_ne _ _ _ _ _ _ (Nat.ne_of_gt ha)]
  constructor
  · rw [hacc 0 (by decide) (fun dx => B (idx2 Q1D qx dx)) (fun _ => by simp), hz 0 (by decide),
      zero_add]
  · rw [hacc 1 (by decide) (fun dx => G (idx2 Q1D qx dx)) (fun _ => by simp), hz 1 (by decide),
      zero_add]

theorem apply2D_forward_spec (D1D Q1D : Nat) (B G x : Nat → K) (gradXq0 : Nat → Nat → K)
    (e : Nat) (grad : Nat → Nat → Nat → K) (qy qx : Nat) (hqy : qy < Q1D) (hqx : qx < Q1D) :
    apply2D_forward D1D Q1D B G x gradXq0 e grad qy qx 0 = grad qy qx 0 +
      ∑ dy in Finset.range D1D,
        (∑ dx in Finset.range D1D, x (idx3 D1D D1D dx dy e) * G (idx2 Q1D qx dx)) *
          B (idx2 Q1D qy dy) ∧
    apply2D_forward D1D Q1D B G x gradXq0 e grad qy qx 1 = grad qy qx 1 +
      ∑ dy in Finset.range D1D,
        (∑ dx in Finset.range D1D, x (idx3 D1D D1D dx dy e) * B (idx2 Q1D qx dx)) *
          G (idx2 Q1D qy dy) := by
  unfold apply2D_forward
  have hacc : ∀ c, c < 2 → ∀ T : Nat → K,
      (∀ dy, T dy = if c = 0 then
        apply2D_gradXq D1D Q1D B G x gradXq0 e dy qx 1 * B (idx2 Q1D qy dy)
        else apply2D_gradXq D1D Q1D B G x gradXq0 e dy qx 0 * G (idx2 Q1D qy dy)) →
      forLoop D1D (fun dy grad =>
        let gradX := apply2D_gradXq D1D Q1D B G x gradXq0 e dy
        forLoop Q1D (fun qy grad =>
          let wy := B (idx2 Q1D qy dy)
          let wDy := G (idx2 Q1D qy dy)
          forLoop Q1D (fun qx grad =>
            let grad := set3 grad qy qx 0 (grad qy qx 0 + gradX qx 1 * wy)
            set3 grad qy qx 1 (grad qy qx 1 + gradX qx 0 * wDy)) grad) grad) grad qy qx c =
      grad qy qx c + ∑ dy in Finset.range D1D, T dy := by
    intro c hc T hT
    refine forLoop_accum (fun g : Nat → Nat → Nat → K => g qy qx c) (fun _ => True) D1D _
      grad _ trivial (fun _ _ _ _ => trivial) ?_
    intro dy _ s _
    refine forLoop2_single (fun g : Nat → Nat → Nat → K => g qy qx c)
      (fun g => g qy qx c = s qy qx c) Q1D Q1D qy qx _ s _ hqy hqx rfl ?_ ?_ ?_
    · intro a b _ _ hne g hg
      simp only [set3_row_ne _ _ _ _ _ _ _ _ hne]
      exact hg
    · intro g hg
      rw [hT]
      interval_cases c
      · simp [set3, hg]
      · simp [set3, hg]
    · intro a b _ _ hne g
      simp only [set3_row_ne _ _ _ _ _ _ _ _ hne]
  constructor
  · exact hacc 0 (by decide) _ (fun dy => by
      simp only [if_true, (apply2D_gradXq_spec D1D Q1D B G x gradXq0 e dy qx hqx).2])
  · exact hacc 1 (by decide) _ (fun dy => by
      simp only [one_ne_zero, if_false,
        (apply2D_gradXq_spec D1D Q1D B G x gradXq0 e dy qx hqx).1])

theorem apply2D_metric_spec (Q1D : Nat) (op : Nat → K) (e : Nat)
    (grad : Nat → Nat → Nat → K) (qy qx : Nat) (hqy : qy < Q1D) (hqx : qx < Q1D) :
    apply2D_metric Q1D op e grad qy qx 0 =
      op (idx3 (Q1D * Q1D) 3 (qx + qy * Q1D) 0 e) * grad qy qx 0 +
        op (idx3 (Q1D * Q1D) 3 (qx + qy * Q1D) 1 e) * grad qy qx 1 ∧
    apply2D_metric Q1D op e grad qy qx 1 =
      op (idx3 (Q1D * Q1D) 3 (qx + qy * Q1D) 1 e) * grad qy qx 0 +
        op (idx3 (Q1D * Q1D) 3 (qx + qy * Q1D) 2 e) * grad qy qx 1 := by
  unfold apply2D_metric
  have h : ∀ c, c < 2 → ∀ v : K,
      (v = if c = 0 then op (idx3 (Q1D * Q1D) 3 (qx + qy * Q1D) 0 e) * grad qy qx 0 +
          op (idx3 (Q1D * Q1D) 3 (qx + qy * Q1D) 1 e) * grad qy qx 1
        else op (idx3 (Q1D * Q1D) 3 (qx + qy * Q1D) 1 e) * grad qy qx 0 +
          op (idx3 (Q1D * Q1D) 3 (qx + qy * Q1D) 2 e) * grad qy qx 1) →
      forLoop Q1D (fun qy grad =>
        forLoop Q1D (fun qx grad =>
          let q := qx + qy * Q1D
          let O11 := op (idx3 (Q1D * Q1D) 3 q 0 e)
          let O12 := op (idx3 (Q1D * Q1D) 3 q 1 e)
          let O22 := op (idx3 (Q1D * Q1D) 3 q 2 e)
          let gradX := grad qy qx 0
          let gradY := grad qy qx 1
          let grad := set3 grad qy qx 0 ((O11 * gradX) + (O12 * gradY))
          set3 grad qy qx 1 ((O12 * gradX) + (O22 * gradY))) grad) grad qy qx c = v := by
    intro c hc v hv
    refine forLoop2_single (fun g : Nat → Nat → Nat → K => g qy qx c)
      (fun g => g qy qx 0 = grad qy qx 0 ∧ g qy qx 1 = grad qy qx 1) Q1D Q1D qy qx _ grad _
      hqy hqx ⟨rfl, rfl⟩ ?_ ?_ ?_
    · intro a b _ _ hne g hg
      simp only [set3_row_ne _ _ _ _ _ _ _ _ hne]
      exact hg
    · intro g hg
      rw [hv]
      interval_cases c
      · simp [set3, hg.1, hg.2]
      · simp [set3, hg.1, hg.2]
    · intro a b _ _ hne g
      simp only [set3_row_ne _ _ _ _ _ _ _ _ hne]
  exact ⟨h 0 (by decide) _ (by simp only [if_true]),
    h 1 (by decide) _ (by simp only [one_ne_zero, if_false])⟩

theorem apply2D_gradXd_spec (D1D Q1D : Nat) (Bt Gt : Nat → K) (gradXd0 : Nat → Nat → K)
    (grad : Nat → Nat → Nat → K) (qy dx : Nat) (hdx : dx < D1D) :
    apply2D_gradXd D1D Q1D Bt Gt gradXd0 grad qy dx 0 =
      ∑ qx in Finset.range Q1D, grad qy qx 0 * Gt (idx2 D1D dx qx) ∧
    apply2D_gradXd D1D Q1D Bt Gt gradXd0 grad qy dx 1 =
      ∑ qx in Finset.range Q1D, grad qy qx 1 * Bt (idx2 D1D dx qx) := by
  unfold apply2D_gradXd
  have hz : ∀ c, c < 2 → forLoop D1D (fun dx gradX =>
      let gradX := set2 gradX dx 0 0
      set2 gradX dx 1 0) gradXd0 dx c = 0 := by
    intro c hc
    refine forLoop_single (fun g : Nat → Nat → K => g dx c) (fun _ => True)
      D1D dx _ gradXd0 0 hdx trivial (fun _ _ _ _ => trivial) ?_ ?_
    · intro s _
      interval_cases c <;> simp [set2]
    · intro a ha _ s
      simp only [set2_row_ne _ _ _ _ _ _ (Nat.ne_of_gt ha)]
  have hacc : ∀ c, c < 2 → ∀ T : Nat → K,
      (∀ qx, T qx = if c = 0 then grad qy qx 0 * Gt (idx2 D1D dx qx)
        else grad qy qx 1 * Bt (idx2 D1D dx qx)) →
      ∀ g0 : Nat → Nat → K, forLoop Q1D (fun qx gradX =>
        let gX := grad qy qx 0
        let gY := grad qy qx 1
        forLoop D1D (fun dx gradX =>
          let wx := Bt (idx2 D1D dx qx)
          let wDx := Gt (idx2 D1D dx qx)
          let gradX := set2 gradX dx 0 (gradX dx 0 + gX * wDx)
          set2 gradX dx 1 (gradX dx 1 + gY * wx)) gradX) g0 dx c =
      g0 dx c + ∑ qx in Finset.range Q1D, T qx := by
    intro c hc T hT g0
    refine forLoop_accum (fun g : Nat → Nat → K => g dx c) (fun _ => True) Q1D _ g0 _
      trivial (fun _ _ _ _ => trivial) ?_
    intro qx _ s _
    refine forLoop_single (fun g : Nat → Nat → K => g dx c) (fun g => g dx c = s dx c)
      D1D dx _ s _ hdx rfl ?_ ?_ ?_
    · intro a ha g hg
      simp only [set2_row_ne _ _ _ _ _ _ (Nat.ne_of_lt ha)]
      exact hg
    · intro g hg
      rw [hT]
      interval_cases c
      · simp [set2, hg]
      · simp [set2, hg]
    · intro a ha _ g
      simp only [set2_row_ne _ _ _ _ _ _ (Nat.ne_of_gt ha)]
  constructor
  · rw [hacc 0 (by decide) (fun qx => grad qy qx 0 * Gt (idx2 D1D dx qx))
      (fun _ => by simp only [if_true]), hz 0 (by decide), zero_add]
  · rw [hacc 1 (by decide) (fun qx => grad qy qx 1 * Bt (idx2 D1D dx qx))
      (fun _ => by simp only [one_ne_zero, if_false]), hz 1 (by decide), zero_add]

theorem apply2D_backward_spec (D1D Q1D : Nat) (Bt Gt : Nat → K) (gradXd0 : Nat → Nat → K)
    (grad : Nat → Nat → Nat → K) (e : Nat) (y : Nat → K) (dx dy : Nat)
    (hdx : dx < D1D) (hdy : dy < D1D) :
    apply2D_backward D1D Q1D Bt Gt gradXd0 grad e y (idx3 D1D D1D dx dy e) =
      y (idx3 D1D D1D dx dy e) + ∑ qy in Finset.range Q1D,
        ((∑ qx in Finset.range Q1D, grad qy qx 0 * Gt (idx2 D1D dx qx)) * Bt (idx2 D1D dy qy) +
         (∑ qx in Finset.range Q1D, grad qy qx 1 * Bt (idx2 D1D dx qx)) *
            Gt (idx2 D1D dy qy)) := by
  unfold apply2D_backward
  refine forLoop_accum (fun y : Nat → K => y (idx3 D1D D1D dx dy e)) (fun _ => True) Q1D _
    y _ trivial (fun _ _ _ _ => trivial) ?_
  intro qy _ s _
  refine forLoop2_single (fun y : Nat → K => y (idx3 D1D D1D dx dy e))
    (fun g => g (idx3 D1D D1D dx dy e) = s (idx3 D1D D1D dx dy e)) D1D D1D dy dx _ s _
    hdy hdx rfl ?_ ?_ ?_
  · intro a b ha hb hne g hg
    rw [Function.update_noteq (idx3_ne hdx hb hdy ha (fun h => hne ⟨h.2.1.symm, h.1.symm⟩))]
    exact hg
  · intro g hg
    simp only [Function.update_same, hg,
      (apply2D_gradXd_spec D1D Q1D Bt Gt gradXd0 grad qy dx hdx).1,
      (apply2D_gradXd_spec D1D Q1D Bt Gt gradXd0 grad qy dx hdx).2]
  · intro a b ha hb hne g
    beta_reduce
    rw [Function.update_noteq (idx3_ne hdx hb hdy ha (fun h => hne ⟨h.2.1.symm, h.1.symm⟩))]

/-- Cells outside the slot of element `e` are not written. -/
theorem apply2D_backward_frame (D1D Q1D : Nat) (Bt Gt : Nat → K) (gradXd0 : Nat → Nat → K)
    (grad : Nat → Nat → Nat → K) (e : Nat) (y : Nat → K) (a : Nat)
    (ha : ∀ dx dy, dx < D1D → dy < D1D → a ≠ idx3 D1D D1D dx dy e) :
    apply2D_backward D1D Q1D Bt Gt gradXd0 grad e y a = y a := by
  unfold apply2D_backward
  refine forLoop_untouched (fun y : Nat → K => y a) Q1D _ y ?_
  intro qy _ s
  refine forLoop2_untouched (fun y : Nat → K => y a) D1D D1D _ s ?_
  intro dy dx hdy hdx g
  beta_reduce
  rw [Function.update_noteq (ha dx dy hdx hdy)]

/-- The sum-factorized value equals the dense contraction. -/
theorem sumfact2D_eq_dense (D1D Q1D : Nat) (B G op x : Nat → K) (e dx dy : Nat) :
    (∑ qy in Finset.range Q1D,
      ((∑ qx in Finset.range Q1D,
          (op (idx3 (Q1D * Q1D) 3 (qx + qy * Q1D) 0 e) *
              (∑ dy' in Finset.range D1D,
                (∑ dx' in Finset.range D1D, x (idx3 D1D D1D dx' dy' e) * G (idx2 Q1D qx dx')) *
                  B (idx2 Q1D qy dy')) +
            op (idx3 (Q1D * Q1D) 3 (qx + qy * Q1D) 1 e) *
              (∑ dy' in Finset.range D1D,
                (∑ dx' in Finset.range D1D, x (idx3 D1D D1D dx' dy' e) * B (idx2 Q1D qx dx')) *
                  G (idx2 Q1D qy dy'))) * G (idx2 Q1D qx dx)) * B (idx2 Q1D qy dy) +
       (∑ qx in Finset.range Q1D,
          (op (idx3 (Q1D * Q1D) 3 (qx + qy * Q1D) 1 e) *
              (∑ dy' in Finset.range D1D,
                (∑ dx' in Finset.range D1D, x (idx3 D1D D1D dx' dy' e) * G (idx2 Q1D qx dx')) *
                  B (idx2 Q1D qy dy')) +
            op (idx3 (Q1D * Q1D) 3 (qx + qy * Q1D) 2 e) *
              (∑ dy' in Finset.range D1D,
                (∑ dx' in Finset.range D1D, x (idx3 D1D D1D dx' dy' e) * B (idx2 Q1D qx dx')) *
                  G (idx2 Q1D qy dy'))) * B (idx2 Q1D qx dx)) * G (idx2 Q1D qy dy))) =
    denseAction2D D1D Q1D B G op x e dx dy := by
  unfold denseAction2D
  rw [Finset.sum_comm]
  refine Finset.sum_congr rfl (fun qy _ => ?_)
  rw [Finset.sum_mul, Finset.sum_mul, ← Finset.sum_add_distrib]
  refine Finset.sum_congr rfl (fun qx _ => ?_)
  rw [Finset.sum_comm (s := Finset.range D1D) (t := Finset.range D1D)]
  simp only [Finset.mul_sum, Finset.sum_mul, ← Finset.sum_add_distrib]
  refine Finset.sum_congr rfl (fun dy' _ => Finset.sum_congr rfl (fun dx' _ => ?_))
  ring

theorem PADiffusionApply2D_body_spec (D1D Q1D : Nat) (B G Bt Gt op x : Nat → K)
    (grad0 : Nat → Nat → Nat → K) (gradXq0 gradXd0 : Nat → Nat → K)
    (e : Nat) (y : Nat → K) (dx dy : Nat) (hdx : dx < D1D) (hdy : dy < D1D)
    (hBt : ∀ d q, d < D1D → q < Q1D → Bt (idx2 D1D d q) = B (idx2 Q1D q d))
    (hGt : ∀ d q, d < D1D → q < Q1D → Gt (idx2 D1D d q) = G (idx2 Q1D q d)) :
    PADiffusionApply2D_body D1D Q1D B G Bt Gt op x grad0 gradXq0 gradXd0 e y
      (idx3 D1D D1D dx dy e) =
    y (idx3 D1D D1D dx dy e) + denseAction2D D1D Q1D B G op x e dx dy := by
  unfold PADiffusionApply2D_body
  rw [apply2D_backward_spec _ _ _ _ _ _ _ _ _ _ hdx hdy, ← sumfact2D_eq_dense]
  congr 1
  refine Finset.sum_congr rfl (fun qy hqy => ?_)
  have hqy' := Finset.mem_range.mp hqy
  rw [hBt dy qy hdy hqy', hGt dy qy hdy hqy']
  congr 1
  · congr 1
    refine Finset.sum_congr rfl (fun qx hqx => ?_)
    have hqx' := Finset.mem_range.mp hqx
    rw [hGt dx qx hdx hqx', (apply2D_metric_spec Q1D op e _ qy qx hqy' hqx').1,
      (apply2D_forward_spec D1D Q1D B G x gradXq0 e _ qy qx hqy' hqx').1,
      (apply2D_forward_spec D1D Q1D B G x gradXq0 e _ qy qx hqy' hqx').2,
      apply2D_clear_spec Q1D grad0 qy qx 0 hqy' hqx' (by decide),
      apply2D_clear_spec Q1D grad0 qy qx 1 hqy' hqx' (by decide), zero_add, zero_add]
  · congr 1
    refine Finset.sum_congr rfl (fun qx hqx => ?_)
    have hqx' := Finset.mem_range.mp hqx
    rw [hBt dx qx hdx hqx', (apply2D_metric_spec Q1D op e _ qy qx hqy' hqx').2,
      (apply2D_forward_spec D1D Q1D B G x gradXq0 e _ qy qx hqy' hqx').1,
      (apply2D_forward_spec D1D Q1D B G x gradXq0 e _ qy qx hqy' hqx').2,
      apply2D_clear_spec Q1D grad0 qy qx 0 hqy' hqx' (by decide),
      apply2D_clear_spec Q1D grad0 qy qx 1 hqy' hqx' (by decide), zero_add, zero_add]

theorem PADiffusionApply2D_body_frame (D1D Q1D : Nat) (B G Bt Gt op x : Nat → K)
    (grad0 : Nat → Nat → Nat → K) (gradXq0 gradXd0 : Nat → Nat → K)
    (e : Nat) (y : Nat → K) (a : Nat)
    (ha : ∀ dx dy, dx < D1D → dy < D1D → a ≠ idx3 D1D D1D dx dy e) :
    PADiffusionApply2D_body D1D Q1D B G Bt Gt op x grad0 gradXq0 gradXd0 e y a = y a := by
  unfold PADiffusionApply2D_body
  exact apply2D_backward_frame _ _ _ _ _ _ _ _ _ ha

/-- The loop over elements: when every element body adds `act e i` to the
cell `cell e i` of its own slot and leaves all other cells alone, and the
cells of distinct elements are distinct, the loop adds `act e i` to every cell
of every slot. -/
theorem forLoop_elements {ι : Type*} (NE : Nat) (body : Nat → (Nat → K) → (Nat → K))
    (cell : Nat → ι → Nat) (valid : ι → Prop) (act : Nat → ι → K) (y0 : Nat → K)
    (hdisj : ∀ e e' i i', valid i → valid i' → cell e i = cell e' i' → e = e')
    (hframe : ∀ e y a, (∀ i, valid i → a ≠ cell e i) → body e y a = y a)
    (hspec : ∀ e y i, valid i → body e y (cell e i) = y (cell e i) + act e i)
    (e : Nat) (i : ι) (he : e < NE) (hi : valid i) :
    forLoop NE body y0 (cell e i) = y0 (cell e i) + act e i := by
  have hne : ∀ e', e' ≠ e → ∀ i', valid i' → cell e i ≠ cell e' i' :=
    fun e' h i' hi' h' => h (hdisj e e' i i' hi hi' h').symm
  refine forLoop_single (fun y : Nat → K => y (cell e i)) (fun y => y (cell e i) = y0 (cell e i))
    NE e body y0 _ he rfl ?_ ?_ ?_
  · intro k hk s hs
    rw [hframe k s _ (hne k (Nat.ne_of_lt hk))]
    exact hs
  · intro s hs
    show body e s (cell e i) = _
    rw [hspec e s i hi, hs]
  · intro k hk _ s
    exact hframe k s _ (hne k (Nat.ne_of_gt hk))

/-- **C3.** `PADiffusionApply2D` equals the direct dense contraction: whenever
`D1D <= MAX_D1D`, `Q1D <= MAX_Q1D`, `Bt = Bᵀ` and `Gt = Gᵀ`, the call succeeds
and the final `y(dx,dy,e)` is `y0(dx,dy,e)` plus the sum over `qx,qy,dx',dy'`
of `g(dx,dy)ᵀ O(q,e) g(dx',dy') x(dx',dy',e)`. -/
theorem PADiffusionApply2D_dense (MAX_D1D MAX_Q1D T_D1D T_Q1D NE : Nat)
    (b g bt gt op x : Nat → K) (grad0 : Nat → Nat → Nat → K)
    (gradXq0 gradXd0 : Nat → Nat → K) (y0 : Nat → K) (d1d q1d D1D Q1D : Nat)
    (hD1D : D1D = if T_D1D ≠ 0 then T_D1D else d1d)
    (hQ1D : Q1D = if T_Q1D ≠ 0 then T_Q1D else q1d)
    (hD : D1D ≤ MAX_D1D) (hQ : Q1D ≤ MAX_Q1D)
    (hbt : ∀ d q, d < D1D → q < Q1D → bt (idx2 D1D d q) = b (idx2 Q1D q d))
    (hgt : ∀ d q, d < D1D → q < Q1D → gt (idx2 D1D d q) = g (idx2 Q1D q d)) :
    ∃ y, PADiffusionApply2D MAX_D1D MAX_Q1D T_D1D T_Q1D NE b g bt gt op x
        grad0 gradXq0 gradXd0 y0 d1d q1d = some y ∧
      ∀ e dx dy, e < NE → dx < D1D → dy < D1D →
        y (idx3 D1D D1D dx dy e) =
          y0 (idx3 D1D D1D dx dy e) + denseAction2D D1D Q1D b g op x e dx dy := by
  refine ⟨forLoop NE (fun e y =>
    PADiffusionApply2D_body D1D Q1D b g bt gt op x grad0 gradXq0 gradXd0 e y) y0, ?_, ?_⟩
  · simp only [PADiffusionApply2D]
    rw [← hD1D, ← hQ1D, if_neg (not_not.mpr hD), if_neg (not_not.mpr hQ)]
  · intro e dx dy he hdx hdy
    refine forLoop_elements NE _ (fun e (i : Nat × Nat) => idx3 D1D D1D i.1 i.2 e)
      (fun i => i.1 < D1D ∧ i.2 < D1D)
      (fun e i => denseAction2D D1D Q1D b g op x e i.1 i.2) y0 ?_ ?_ ?_ e (dx, dy) he
      ⟨hdx, hdy⟩
    · intro e e' i i' hi hi' h
      exact (idx3_inj hi.1 hi'.1 hi.2 hi'.2 h).2.2
    · intro e y a ha
      exact PADiffusionApply2D_body_frame _ _ _ _ _ _ _ _ _ _ _ _ _ _
        (fun dx dy hdx hdy => ha (dx, dy) ⟨hdx, hdy⟩)
    · intro e y i hi
      exact PADiffusionApply2D_body_spec _ _ _ _ _ _ _ _ _ _ _ _ _ _ _ hi.1 hi.2 hbt hgt

/-- Witness for C3: one element with `D1D = 2`, `Q1D = 3`. -/
theorem PADiffusionApply2D_dense_witness :
    ((2 : Nat) ≤ 14 ∧ (3 : Nat) ≤ 14) ∧
    ∃ y, PADiffusionApply2D 14 14 0 0 1 (fun i => (i : ℤ) + 1) (fun i => 2 * (i : ℤ))
        (fun i => ((idx2 3 (i / 2) (i % 2) : Nat) : ℤ) + 1)
        (fun i => 2 * ((idx2 3 (i / 2) (i % 2) : Nat) : ℤ))
        (fun i => (i : ℤ)) (fun i => (i : ℤ)) (fun _ _ _ => 7) (fun _ _ => 7) (fun _ _ => 7)
        (fun _ => 5) 2 3 = some y ∧
      y (idx3 2 2 1 1 0) = 5 + denseAction2D 2 3 (fun i => (i : ℤ) + 1) (fun i => 2 * (i : ℤ))
        (fun i => (i : ℤ)) (fun i => (i : ℤ)) 0 1 1 := by
  have hidx : ∀ d q, d < 2 → q < 3 → idx2 3 (idx2 2 d q / 2) (idx2 2 d q % 2) = idx2 3 q d := by
    intro d q hd hq
    interval_cases d <;> interval_cases q <;> rfl
  refine ⟨⟨by decide, by decide⟩, ?_⟩
  obtain ⟨y, hy, h⟩ := PADiffusionApply2D_dense 14 14 0 0 1 (fun i => (i : ℤ) + 1)
    (fun i => 2 * (i : ℤ)) (fun i => ((idx2 3 (i / 2) (i % 2) : Nat) : ℤ) + 1)
    (fun i => 2 * ((idx2 3 (i / 2) (i % 2) : Nat) : ℤ))
    (fun i => (i : ℤ)) (fun i => (i : ℤ)) (fun _ _ _ => 7) (fun _ _ => 7) (fun _ _ => 7)
    (fun _ => 5) 2 3 2 3 rfl rfl (by decide) (by decide)
    (fun d q hd hq => by simp only [hidx d q hd hq])
    (fun d q hd hq => by simp only [hidx d q hd hq])
  exact ⟨y, hy, h 0 1 1 (by decide) (by decide) (by decide)⟩

end Apply2DProofs

section Apply3DProofs

variable {K : Type*} [CommRing K]

theorem sumfact3D_eq_dense (D1D Q1D : Nat) (B G op x : Nat → K) (e dx dy dz : Nat) :
    sumfact3D_action D1D Q1D B G op x e dx dy dz = denseAction3D D1D Q1D B G op x e dx dy dz := by
  unfold sumfact3D_action denseAction3D
  rw [sum_rev3]
  refine Finset.sum_congr rfl (fun qz _ => ?_)
  simp only [Finset.sum_mul, ← Finset.sum_add_distrib]
  refine Finset.sum_congr rfl (fun qy _ => Finset.sum_congr rfl (fun qx _ => ?_))
  rw [sum_rev3]
  simp only [sumfact3D_flux, sumfact3D_grad, metricO3, refGrad3, Matrix.mulVec, Matrix.dotProduct,
    Fin.sum_univ_three, Matrix.of_apply, Matrix.cons_val_zero, Matrix.cons_val_one,
    Matrix.cons_val_two, Matrix.head_cons, Matrix.tail_cons,
    Finset.mul_sum, Finset.sum_mul, ← Finset.sum_add_distrib]
  refine Finset.sum_congr rfl (fun dz' _ => Finset.sum_congr rfl (fun dy' _ =>
    Finset.sum_congr rfl (fun dx' _ => ?_)))
  ring

theorem apply3D_clear_spec (Q1D : Nat) (grad0 : Nat → Nat → Nat → Nat → K) (qz qy qx c : Nat)
    (hqz : qz < Q1D) (hqy : qy < Q1D) (hqx : qx < Q1D) (hc : c < 3) :
    apply3D_clear Q1D grad0 qz qy qx c = 0 := by
  unfold apply3D_clear
  refine forLoop3_single (fun g : Nat → Nat → Nat → Nat → K => g qz qy qx c) (fun _ => True)
    Q1D Q1D Q1D qz qy qx _ grad0 0 hqz hqy hqx trivial (fun _ _ _ _ _ _ _ _ _ => trivial) ?_ ?_
  · intro s _
    interval_cases c <;> simp [set4]
  · intro a b c' _ _ _ hne s
    simp only [set4_row_ne _ _ _ _ _ _ _ _ _ _ hne]

theorem apply3D_gradXq_spec (D1D Q1D : Nat) (B G x : Nat → K) (gradXq0 : Nat → Nat → K)
    (e dz dy qx : Nat) (hqx : qx < Q1D) :
    apply3D_gradXq D1D Q1D B G x gradXq0 e dz dy qx 0 =
      ∑ dx in Finset.range D1D, x (idx4 D1D D1D D1D dx dy dz e) * B (idx2 Q1D qx dx) ∧
    apply3D_gradXq D1D Q1D B G x gradXq0 e dz dy qx 1 =
      ∑ dx in Finset.range D1D, x (idx4 D1D D1D D1D dx dy dz e) * G (idx2 Q1D qx dx) := by
  unfold apply3D_gradXq
  have hz : ∀ c, c < 2 → forLoop Q1D (fun qx gradX =>
      let gradX := set2 gradX qx 0 0
      set2 gradX qx 1 0) gradXq0 qx c = 0 := by
    intro c hc
    refine forLoop_single (fun g : Nat → Nat → K => g qx c) (fun _ => True)
      Q1D qx _ gradXq0 0 hqx trivial (fun _ _ _ _ => trivial) ?_ ?_
    · intro s _
      interval_cases c <;> simp [set2]
    · intro a ha _ s
      simp only [set2_row_ne _ _ _ _ _ _ (Nat.ne_of_gt ha)]
  have hacc : ∀ c, c < 2 → ∀ T : Nat → K,
      (∀ dx, T dx = if c = 0 then B (idx2 Q1D qx dx) else G (idx2 Q1D qx dx)) →
      ∀ g0 : Nat → Nat → K, forLoop D1D (fun dx gradX =>
      let s := x (idx4 D1D D1D D1D dx dy dz e)
      forLoop Q1D (fun qx gradX =>
        let gradX := set2 gradX qx 0 (gradX qx 0 + s * B (idx2 Q1D qx dx))
        set2 gradX qx 1 (gradX qx 1 + s * G (idx2 Q1D qx dx))) gradX) g0 qx c =
      g0 qx c + ∑ dx in Finset.range D1D, x (idx4 D1D D1D D1D dx dy dz e) * T dx := by
    intro c hc T hT g0
    refine forLoop_accum (fun g : Nat → Nat → K => g qx c) (fun _ => True) D1D _ g0 _
      trivial (fun _ _ _ _ => trivial) ?_
    intro dx _ s _
    refine forLoop_single (fun g : Nat → Nat → K => g qx c) (fun g => g qx c = s qx c)
      Q1D qx _ s _ hqx rfl ?_ ?_ ?_
    · intro a ha g hg
      simp only [set2_row_ne _ _ _ _ _ _ (Nat.ne_of_lt ha)]
      exact hg
    · intro g hg
      rw [hT]
      interval_cases c
      · simp [set2, hg]
      · simp [set2, hg]
    · intro a ha _ g
      simp only [set2_row_ne _ _ _ _ _ _ (Nat.ne_of_gt ha)]
  constructor
  · rw [hacc 0 (by decide) (fun dx => B (idx2 Q1D qx dx)) (fun _ => by simp), hz 0 (by decide),
      zero_add]
  · rw [hacc 1 (by decide) (fun dx => G (idx2 Q1D qx dx)) (fun _ => by simp), hz 1 (by decide),
      zero_add]

theorem apply3D_gradXYq_spec (D1D Q1D : Nat) (B G x : Nat → K)
    (gradXYq0 : Nat → Nat → Nat → K) (gradXq0 : Nat → Nat → K)
    (e dz qy qx : Nat) (hqy : qy < Q1D) (hqx : qx < Q1D) :
    apply3D_gradXYq D1D Q1D B G x gradXYq0 gradXq0 e dz qy qx 0 =
      ∑ dy in Finset.range D1D,
        apply3D_gradXq D1D Q1D B G x gradXq0 e dz dy qx 1 * B (idx2 Q1D qy dy) ∧
    apply3D_gradXYq D1D Q1D B G x gradXYq0 gradXq0 e dz qy qx 1 =
      ∑ dy in Finset.range D1D,
        apply3D_gradXq D1D Q1D B G x gradXq0 e dz dy qx 0 * G (idx2 Q1D qy dy) ∧
    apply3D_gradXYq D1D Q1D B G x gradXYq0 gradXq0 e dz qy qx 2 =
      ∑ dy in Finset.range D1D,
        apply3D_gradXq D1D Q1D B G x gradXq0 e dz dy qx 0 * B (idx2 Q1D qy dy) := by
  unfold apply3D_gradXYq
  have hz : ∀ c, c < 3 → forLoop Q1D (fun qy gradXY =>
      forLoop Q1D (fun qx gradXY =>
        let gradXY := set3 gradXY qy qx 0 0
        let gradXY := set3 gradXY qy qx 1 0
        set3 gradXY qy qx 2 0) gradXY) gradXYq0 qy qx c = 0 := by
    intro c hc
    refine forLoop2_single (fun g : Nat → Nat → Nat → K => g qy qx c) (fun _ => True)
      Q1D Q1D qy qx _ gradXYq0 0 hqy hqx trivial (fun _ _ _ _ _ _ _ => trivial) ?_ ?_
    · intro s _
      interval_cases c <;> simp [set3]
    · intro a b _ _ hne s
      simp only [set3_row_ne _ _ _ _ _ _ _ _ hne]
  have hacc : ∀ c, c < 3 → ∀ T : Nat → K,
      (∀ dy, T dy = if c = 0 then
          apply3D_gradXq D1D Q1D B G x gradXq0 e dz dy qx 1 * B (idx2 Q1D qy dy)
        else if c = 1 then
          apply3D_gradXq D1D Q1D B G x gradXq0 e dz dy qx 0 * G (idx2 Q1D qy dy)
        else apply3D_gradXq D1D Q1D B G x gradXq0 e dz dy qx 0 * B (idx2 Q1D qy dy)) →
      ∀ g0 : Nat → Nat → Nat → K, forLoop D1D (fun dy gradXY =>
        let gradX := apply3D_gradXq D1D Q1D B G x gradXq0 e dz dy
        forLoop Q1D (fun qy gradXY =>
          let wy := B (idx2 Q1D qy dy)
          let wDy := G (idx2 Q1D qy dy)
          forLoop Q1D (fun qx gradXY =>
            let wx := gradX qx 0
            let wDx := gradX qx 1
            let gradXY := set3 gradXY qy qx 0 (gradXY qy qx 0 + wDx * wy)
            let gradXY := set3 gradXY qy qx 1 (gradXY qy qx 1 + wx * wDy)
            set3 gradXY qy qx 2 (gradXY qy qx 2 + wx * wy)) gradXY) gradXY) g0 qy qx c =
      g0 qy qx c + ∑ dy in Finset.range D1D, T dy := by
    intro c hc T hT g0
    refine forLoop_accum (fun g : Nat → Nat → Nat → K => g qy qx c) (fun _ => True) D1D _
      g0 _ trivial (fun _ _ _ _ => trivial) ?_
    intro dy _ s _
    refine forLoop2_single (fun g : Nat → Nat → Nat → K => g qy qx c)
      (fun g => g qy qx c = s qy qx c) Q1D Q1D qy qx _ s _ hqy hqx rfl ?_ ?_ ?_
    · intro a b _ _ hne g hg
      simp only [set3_row_ne _ _ _ _ _ _ _ _ hne]
      exact hg
    · intro g hg
      rw [hT]
      interval_cases c
      · simp [set3, hg]
      · simp [set3, hg]
      · simp [set3, hg]
    · intro a b _ _ hne g
      simp only [set3_row_ne _ _ _ _ _ _ _ _ hne]
  refine ⟨?_, ?_, ?_⟩
  · rw [hacc 0 (by decide) (fun dy =>
      apply3D_gradXq D1D Q1D B G x gradXq0 e dz dy qx 1 * B (idx2 Q1D qy dy))
      (fun _ => by simp), hz 0 (by decide), zero_add]
  · rw [hacc 1 (by decide) (fun dy =>
      apply3D_gradXq D1D Q1D B G x gradXq0 e dz dy qx 0 * G (idx2 Q1D qy dy))
      (fun _ => by simp), hz 1 (by decide), zero_add]
  · rw [hacc 2 (by decide) (fun dy =>
      apply3D_gradXq D1D Q1D B G x gradXq0 e dz dy qx 0 * B (idx2 Q1D qy dy))
      (fun _ => by simp), hz 2 (by decide), zero_add]

theorem apply3D_forward_spec (D1D Q1D : Nat) (B G x : Nat → K)
    (gradXYq0 : Nat → Nat → Nat → K) (gradXq0 : Nat → Nat → K) (e : Nat)
    (grad : Nat → Nat → Nat → Nat → K) (qz qy qx : Nat)
    (hqz : qz < Q1D) (hqy : qy < Q1D) (hqx : qx < Q1D) :
    apply3D_forward D1D Q1D B G x gradXYq0 gradXq0 e grad qz qy qx 0 = grad qz qy qx 0 +
      ∑ dz in Finset.range D1D,
        apply3D_gradXYq D1D Q1D B G x gradXYq0 gradXq0 e dz qy qx 0 * B (idx2 Q1D qz dz) ∧
    apply3D_forward D1D Q1D B G x gradXYq0 gradXq0 e grad qz qy qx 1 = grad qz qy qx 1 +
      ∑ dz in Finset.range D1D,
        apply3D_gradXYq D1D Q1D B G x gradXYq0 gradXq0 e dz qy qx 1 * B (idx2 Q1D qz dz) ∧
    apply3D_forward D1D Q1D B G x gradXYq0 gradXq0 e grad qz qy qx 2 = grad qz qy qx 2 +
      ∑ dz in Finset.range D1D,
        apply3D_gradXYq D1D Q1D B G x gradXYq0 gradXq0 e dz qy qx 2 * G (idx2 Q1D qz dz) := by
  unfold apply3D_forward
  have hacc : ∀ c, c < 3 → ∀ T : Nat → K,
      (∀ dz, T dz = if c = 0 then
          apply3D_gradXYq D1D Q1D B G x gradXYq0 gradXq0 e dz qy qx 0 * B (idx2 Q1D qz dz)
        else if c = 1 then
          apply3D_gradXYq D1D Q1D B G x gradXYq0 gradXq0 e dz qy qx 1 * B (idx2 Q1D qz dz)
        else apply3D_gradXYq D1D Q1D B G x gradXYq0 gradXq0 e dz qy qx 2 *
          G (idx2 Q1D qz dz)) →
      forLoop D1D (fun dz grad =>
        let gradXY := apply3D_gradXYq D1D Q1D B G x gradXYq0 gradXq0 e dz
        forLoop Q1D (fun qz grad =>
          let wz := B (idx2 Q1D qz dz)
          let wDz := G (idx2 Q1D qz dz)
          forLoop Q1D (fun qy grad =>
            forLoop Q1D (fun qx grad =>
              let grad := set4 grad qz qy qx 0 (grad qz qy qx 0 + gradXY qy qx 0 * wz)
              let grad := set4 grad qz qy qx 1 (grad qz qy qx 1 + gradXY qy qx 1 * wz)
              set4 grad qz qy qx 2 (grad qz qy qx 2 + gradXY qy qx 2 * wDz)) grad) grad) grad)
        grad qz qy qx c = grad qz qy qx c + ∑ dz in Finset.range D1D, T dz := by
    intro c hc T hT
    refine forLoop_accum (fun g : Nat → Nat → Nat → Nat → K => g qz qy qx c) (fun _ => True)
      D1D _ grad _ trivial (fun _ _ _ _ => trivial) ?_
    intro dz _ s _
    refine forLoop3_single (fun g : Nat → Nat → Nat → Nat → K => g qz qy qx c)
      (fun g => g qz qy qx c = s qz qy qx c) Q1D Q1D Q1D qz qy qx _ s _ hqz hqy hqx rfl
      ?_ ?_ ?_
    · intro a b c' _ _ _ hne g hg
      simp only [set4_row_ne _ _ _ _ _ _ _ _ _ _ hne]
      exact hg
    · intro g hg
      rw [hT]
      interval_cases c
      · simp [set4, hg]
      · simp [set4, hg]
      · simp [set4, hg]
    · intro a b c' _ _ _ hne g
      simp only [set4_row_ne _ _ _ _ _ _ _ _ _ _ hne]
  exact ⟨hacc 0 (by decide) (fun dz =>
      apply3D_gradXYq D1D Q1D B G x gradXYq0 gradXq0 e dz qy qx 0 * B (idx2 Q1D qz dz))
      (fun _ => by simp),
    hacc 1 (by decide) (fun dz =>
      apply3D_gradXYq D1D Q1D B G x gradXYq0 gradXq0 e dz qy qx 1 * B (idx2 Q1D qz dz))
      (fun _ => by simp),
    hacc 2 (by decide) (fun dz =>
      apply3D_gradXYq D1D Q1D B G x gradXYq0 gradXq0 e dz qy qx 2 * G (idx2 Q1D qz dz))
      (fun _ => by simp)⟩

theorem apply3D_metric_spec (Q1D : Nat) (op : Nat → K) (e : Nat)
    (grad : Nat → Nat → Nat → Nat → K) (qz qy qx : Nat)
    (hqz : qz < Q1D) (hqy : qy < Q1D) (hqx : qx < Q1D) (c : Fin 3) :
    apply3D_metric Q1D op e grad qz qy qx c.val =
      Matrix.mulVec (metricO3 (Q1D * Q1D * Q1D) op (qx + (qy + qz * Q1D) * Q1D) e)
        ![grad qz qy qx 0, grad qz qy qx 1, grad qz qy qx 2] c := by
  unfold apply3D_metric
  refine forLoop3_single (fun g : Nat → Nat → Nat → Nat → K => g qz qy qx c.val)
    (fun g => g qz qy qx 0 = grad qz qy qx 0 ∧ g qz qy qx 1 = grad qz qy qx 1 ∧
      g qz qy qx 2 = grad qz qy qx 2) Q1D Q1D Q1D qz qy qx _ grad _ hqz hqy hqx
    ⟨rfl, rfl, rfl⟩ ?_ ?_ ?_
  · intro a b c' _ _ _ hne g hg
    simp only [set4_row_ne _ _ _ _ _ _ _ _ _ _ hne]
    exact hg
  · intro g hg
    fin_cases c <;>
      simp [set4, hg.1, hg.2.1, hg.2.2, metricO3, Matrix.mulVec, Matrix.dotProduct,
        Fin.sum_univ_three]
  · intro a b c' _ _ _ hne g
    simp only [set4_row_ne _ _ _ _ _ _ _ _ _ _ hne]

theorem apply3D_gradXd_spec (D1D Q1D : Nat) (Bt Gt : Nat → K) (gradXd0 : Nat → Nat → K)
    (grad : Nat → Nat → Nat → Nat → K) (qz qy dx : Nat) (hdx : dx < D1D) :
    apply3D_gradXd D1D Q1D Bt Gt gradXd0 grad qz qy dx 0 =
      ∑ qx in Finset.range Q1D, grad qz qy qx 0 * Gt (idx2 D1D dx qx) ∧
    apply3D_gradXd D1D Q1D Bt Gt gradXd0 grad qz qy dx 1 =
      ∑ qx in Finset.range Q1D, grad qz qy qx 1 * Bt (idx2 D1D dx qx) ∧
    apply3D_gradXd D1D Q1D Bt Gt gradXd0 grad qz qy dx 2 =
      ∑ qx in Finset.range Q1D, grad qz qy qx 2 * Bt (idx2 D1D dx qx) := by
  unfold apply3D_gradXd
  have hz : ∀ c, c < 3 → forLoop D1D (fun dx gradX =>
      let gradX := set2 gradX dx 0 0
      let gradX := set2 gradX dx 1 0
      set2 gradX dx 2 0) gradXd0 dx c = 0 := by
    intro c hc
    refine forLoop_single (fun g : Nat → Nat → K => g dx c) (fun _ => True)
      D1D dx _ gradXd0 0 hdx trivial (fun _ _ _ _ => trivial) ?_ ?_
    · intro s _
      interval_cases c <;> simp [set2]
    · intro a ha _ s
      simp only [set2_row_ne _ _ _ _ _ _ (Nat.ne_of_gt ha)]
  have hacc : ∀ c, c < 3 → ∀ T : Nat → K,
      (∀ qx, T qx = if c = 0 then grad qz qy qx 0 * Gt (idx2 D1D dx qx)
        else if c = 1 then grad qz qy qx 1 * Bt (idx2 D1D dx qx)
        else grad qz qy qx 2 * Bt (idx2 D1D dx qx)) →
      ∀ g0 : Nat → Nat → K, forLoop Q1D (fun qx gradX =>
        let gX := grad qz qy qx 0
        let gY := grad qz qy qx 1
        let gZ := grad qz qy qx 2
        forLoop D1D (fun dx gradX =>
          let wx := Bt (idx2 D1D dx qx)
          let wDx := Gt (idx2 D1D dx qx)
          let gradX := set2 gradX dx 0 (gradX dx 0 + gX * wDx)
          let gradX := set2 gradX dx 1 (gradX dx 1 + gY * wx)
          set2 gradX dx 2 (gradX dx 2 + gZ * wx)) gradX) g0 dx c =
      g0 dx c + ∑ qx in Finset.range Q1D, T qx := by
    intro c hc T hT g0
    refine forLoop_accum (fun g : Nat → Nat → K => g dx c) (fun _ => True) Q1D _ g0 _
      trivial (fun _ _ _ _ => trivial) ?_
    intro qx _ s _
    refine forLoop_single (fun g : Nat → Nat → K => g dx c) (fun g => g dx c = s dx c)
      D1D dx _ s _ hdx rfl ?_ ?_ ?_
    · intro a ha g hg
      simp only [set2_row_ne _ _ _ _ _ _ (Nat.ne_of_lt ha)]
      exact hg
    · intro g hg
      rw [hT]
      interval_cases c
      · simp [set2, hg]
      · simp [set2, hg]
      · simp [set2, hg]
    · intro a ha _ g
      simp only [set2_row_ne _ _ _ _ _ _ (Nat.ne_of_gt ha)]
  refine ⟨?_, ?_, ?_⟩
  · rw [hacc 0 (by decide) (fun qx => grad qz qy qx 0 * Gt (idx2 D1D dx qx))
      (fun _ => by simp), hz 0 (by decide), zero_add]
  · rw [hacc 1 (by decide) (fun qx => grad qz qy qx 1 * Bt (idx2 D1D dx qx))
      (fun _ => by simp), hz 1 (by decide), zero_add]
  · rw [hacc 2 (by decide) (fun qx => grad qz qy qx 2 * Bt (idx2 D1D dx qx))
      (fun _ => by simp), hz 2 (by decide), zero_add]

theorem apply3D_gradXYd_spec (D1D Q1D : Nat) (Bt Gt : Nat → K)
    (gradXYd0 : Nat → Nat → Nat → K) (gradXd0 : Nat → Nat → K)
    (grad : Nat → Nat → Nat → Nat → K) (qz dy dx : Nat) (hdy : dy < D1D) (hdx : dx < D1D) :
    apply3D_gradXYd D1D Q1D Bt Gt gradXYd0 gradXd0 grad qz dy dx 0 =
      ∑ qy in Finset.range Q1D,
        apply3D_gradXd D1D Q1D Bt Gt gradXd0 grad qz qy dx 0 * Bt (idx2 D1D dy qy) ∧
    apply3D_gradXYd D1D Q1D Bt Gt gradXYd0 gradXd0 grad qz dy dx 1 =
      ∑ qy in Finset.range Q1D,
        apply3D_gradXd D1D Q1D Bt Gt gradXd0 grad qz qy dx 1 * Gt (idx2 D1D dy qy) ∧
    apply3D_gradXYd D1D Q1D Bt Gt gradXYd0 gradXd0 grad qz dy dx 2 =
      ∑ qy in Finset.range Q1D,
        apply3D_gradXd D1D Q1D Bt Gt gradXd0 grad qz qy dx 2 * Bt (idx2 D1D dy qy) := by
  unfold apply3D_gradXYd
  have hz : ∀ c, c < 3 → forLoop D1D (fun dy gradXY =>
      forLoop D1D (fun dx gradXY =>
        let gradXY := set3 gradXY dy dx 0 0
        let gradXY := set3 gradXY dy dx 1 0
        set3 gradXY dy dx 2 0) gradXY) gradXYd0 dy dx c = 0 := by
    intro c hc
    refine forLoop2_single (fun g : Nat → Nat → Nat → K => g dy dx c) (fun _ => True)
      D1D D1D dy dx _ gradXYd0 0 hdy hdx trivial (fun _ _ _ _ _ _ _ => trivial) ?_ ?_
    · intro s _
      interval_cases c <;> simp [set3]
    · intro a b _ _ hne s
      simp only [set3_row_ne _ _ _ _ _ _ _ _ hne]
  have hacc : ∀ c, c < 3 → ∀ T : Nat → K,
      (∀ qy, T qy = if c = 0 then
          apply3D_gradXd D1D Q1D Bt Gt gradXd0 grad qz qy dx 0 * Bt (idx2 D1D dy qy)
        else if c = 1 then
          apply3D_gradXd D1D Q1D Bt Gt gradXd0 grad qz qy dx 1 * Gt (idx2 D1D dy qy)
        else apply3D_gradXd D1D Q1D Bt Gt gradXd0 grad qz qy dx 2 * Bt (idx2 D1D dy qy)) →
      ∀ g0 : Nat → Nat → Nat → K, forLoop Q1D (fun qy gradXY =>
        let gradX := apply3D_gradXd D1D Q1D Bt Gt gradXd0 grad qz qy
        forLoop D1D (fun dy gradXY =>
          let wy := Bt (idx2 D1D dy qy)
          let wDy := Gt (idx2 D1D dy qy)
          forLoop D1D (fun dx gradXY =>
            let gradXY := set3 gradXY dy dx 0 (gradXY dy dx 0 + gradX dx 0 * wy)
            let gradXY := set3 gradXY dy dx 1 (gradXY dy dx 1 + gradX dx 1 * wDy)
            set3 gradXY dy dx 2 (gradXY dy dx 2 + gradX dx 2 * wy)) gradXY) gradXY) g0
        dy dx c = g0 dy dx c + ∑ qy in Finset.range Q1D, T qy := by
    intro c hc T hT g0
    refine forLoop_accum (fun g : Nat → Nat → Nat → K => g dy dx c) (fun _ => True) Q1D _
      g0 _ trivial (fun _ _ _ _ => trivial) ?_
    intro qy _ s _
    refine forLoop2_single (fun g : Nat → Nat → Nat → K => g dy dx c)
      (fun g => g dy dx c = s dy dx c) D1D D1D dy dx _ s _ hdy hdx rfl ?_ ?_ ?_
    · intro a b _ _ hne g hg
      simp only [set3_row_ne _ _ _ _ _ _ _ _ hne]
      exact hg
    · intro g hg
      rw [hT]
      interval_cases c
      · simp [set3, hg]
      · simp [set3, hg]
      · simp [set3, hg]
    · intro a b _ _ hne g
      simp only [set3_row_ne _ _ _ _ _ _ _ _ hne]
  refine ⟨?_, ?_, ?_⟩
  · rw [hacc 0 (by decide) (fun qy =>
      apply3D_gradXd D1D Q1D Bt Gt gradXd0 grad qz qy dx 0 * Bt (idx2 D1D dy qy))
      (fun _ => by simp), hz 0 (by decide), zero_add]
  · rw [hacc 1 (by decide) (fun qy =>
      apply3D_gradXd D1D Q1D Bt Gt gradXd0 grad qz qy dx 1 * Gt (idx2 D1D dy qy))
      (fun _ => by simp), hz 1 (by decide), zero_add]
  · rw [hacc 2 (by decide) (fun qy =>
      apply3D_gradXd D1D Q1D Bt Gt gradXd0 grad qz qy dx 2 * Bt (idx2 D1D dy qy))
      (fun _ => by simp), hz 2 (by decide), zero_add]

theorem apply3D_backward_spec (D1D Q1D : Nat) (Bt Gt : Nat → K)
    (gradXYd0 : Nat → Nat → Nat → K) (gradXd0 : Nat → Nat → K)
    (grad : Nat → Nat → Nat → Nat → K) (e : Nat) (y : Nat → K) (dx dy dz : Nat)
    (hdx : dx < D1D) (hdy : dy < D1D) (hdz : dz < D1D) :
    apply3D_backward D1D Q1D Bt Gt gradXYd0 gradXd0 grad e y (idx4 D1D D1D D1D dx dy dz e) =
      y (idx4 D1D D1D D1D dx dy dz e) + ∑ qz in Finset.range Q1D,
        (apply3D_gradXYd D1D Q1D Bt Gt gradXYd0 gradXd0 grad qz dy dx 0 * Bt (idx2 D1D dz qz) +
         apply3D_gradXYd D1D Q1D Bt Gt gradXYd0 gradXd0 grad qz dy dx 1 * Bt (idx2 D1D dz qz) +
         apply3D_gradXYd D1D Q1D Bt Gt gradXYd0 gradXd0 grad qz dy dx 2 *
            Gt (idx2 D1D dz qz)) := by
  unfold apply3D_backward
  refine forLoop_accum (fun y : Nat → K => y (idx4 D1D D1D D1D dx dy dz e)) (fun _ => True)
    Q1D _ y _ trivial (fun _ _ _ _ => trivial) ?_
  intro qz _ s _
  refine forLoop3_single (fun y : Nat → K => y (idx4 D1D D1D D1D dx dy dz e))
    (fun g => g (idx4 D1D D1D D1D dx dy dz e) = s (idx4 D1D D1D D1D dx dy dz e))
    D1D D1D D1D dz dy dx _ s _ hdz hdy hdx rfl ?_ ?_ ?_
  · intro a b c ha hb hc hne g hg
    beta_reduce
    rw [Function.update_noteq (idx4_ne hdx hc hdy hb hdz ha
      (fun h => hne ⟨h.2.2.1.symm, h.2.1.symm, h.1.symm⟩))]
    exact hg
  · intro g hg
    simp only [Function.update_same, hg]
  · intro a b c ha hb hc hne g
    beta_reduce
    rw [Function.update_noteq (idx4_ne hdx hc hdy hb hdz ha
      (fun h => hne ⟨h.2.2.1.symm, h.2.1.symm, h.1.symm⟩))]

theorem apply3D_backward_frame (D1D Q1D : Nat) (Bt Gt : Nat → K)
    (gradXYd0 : Nat → Nat → Nat → K) (gradXd0 : Nat → Nat → K)
    (grad : Nat → Nat → Nat → Nat → K) (e : Nat) (y : Nat → K) (a : Nat)
    (ha : ∀ dx dy dz, dx < D1D → dy < D1D → dz < D1D → a ≠ idx4 D1D D1D D1D dx dy dz e) :
    apply3D_backward D1D Q1D Bt Gt gradXYd0 gradXd0 grad e y a = y a := by
  unfold apply3D_backward
  refine forLoop_untouched (fun y : Nat → K => y a) Q1D _ y ?_
  intro qz _ s
  refine forLoop3_untouched (fun y : Nat → K => y a) D1D D1D D1D _ s ?_
  intro dz dy dx hdz hdy hdx g
  beta_reduce
  rw [Function.update_noteq (ha dx dy dz hdx hdy hdz)]

/-- After the forward sweep the local `grad` holds the reference gradient. -/
theorem apply3D_forward_grad (D1D Q1D : Nat) (B G x : Nat → K) (s0 : Scratch3D K)
    (e qz qy qx : Nat) (hqz : qz < Q1D) (hqy : qy < Q1D) (hqx : qx < Q1D) (c : Fin 3) :
    apply3D_forward D1D Q1D B G x s0.gradXYq s0.gradXq e (apply3D_clear Q1D s0.grad)
      qz qy qx c.val = sumfact3D_grad D1D Q1D B G x e qz qy qx c := by
  have hf := apply3D_forward_spec D1D Q1D B G x s0.gradXYq s0.gradXq e
    (apply3D_clear Q1D s0.grad) qz qy qx hqz hqy hqx
  have hXY := fun dz => apply3D_gradXYq_spec D1D Q1D B G x s0.gradXYq s0.gradXq e dz qy qx hqy hqx
  have hX := fun dz dy => apply3D_gradXq_spec D1D Q1D B G x s0.gradXq e dz dy qx hqx
  fin_cases c
  · show apply3D_forward _ _ _ _ _ _ _ _ _ qz qy qx 0 = _
    rw [hf.1, apply3D_clear_spec Q1D s0.grad qz qy qx 0 hqz hqy hqx (by decide), zero_add]
    simp only [fun dz => (hXY dz).1, fun dz dy => (hX dz dy).2, sumfact3D_grad]
    rfl
  · show apply3D_forward _ _ _ _ _ _ _ _ _ qz qy qx 1 = _
    rw [hf.2.1, apply3D_clear_spec Q1D s0.grad qz qy qx 1 hqz hqy hqx (by decide), zero_add]
    simp only [fun dz => (hXY dz).2.1, fun dz dy => (hX dz dy).1, sumfact3D_grad]
    rfl
  · show apply3D_forward _ _ _ _ _ _ _ _ _ qz qy qx 2 = _
    rw [hf.2.2, apply3D_clear_spec Q1D s0.grad qz qy qx 2 hqz hqy hqx (by decide), zero_add]
    simp only [fun dz => (hXY dz).2.2, fun dz dy => (hX dz dy).1, sumfact3D_grad]
    rfl

/-- After the metric phase the local `grad` holds the flux. -/
theorem apply3D_metric_flux (D1D Q1D : Nat) (B G op x : Nat → K) (s0 : Scratch3D K)
    (e qz qy qx : Nat) (hqz : qz < Q1D) (hqy : qy < Q1D) (hqx : qx < Q1D) (c : Fin 3) :
    apply3D_metric Q1D op e
      (apply3D_forward D1D Q1D B G x s0.gradXYq s0.gradXq e (apply3D_clear Q1D s0.grad))
      qz qy qx c.val = sumfact3D_flux D1D Q1D B G op x e qz qy qx c := by
  rw [apply3D_metric_spec Q1D op e _ qz qy qx hqz hqy hqx c, sumfact3D_flux]
  congr 1
  have h := apply3D_forward_grad D1D Q1D B G x s0 e qz qy qx hqz hqy hqx
  funext i
  fin_cases i
  · exact h 0
  · exact h 1
  · exact h 2

theorem PADiffusionApply3D_body_spec (D1D Q1D : Nat) (B G Bt Gt op x : Nat → K)
    (s0 : Scratch3D K) (e : Nat) (y : Nat → K) (dx dy dz : Nat)
    (hdx : dx < D1D) (hdy : dy < D1D) (hdz : dz < D1D)
    (hBt : ∀ d q, d < D1D → q < Q1D → Bt (idx2 D1D d q) = B (idx2 Q1D q d))
    (hGt : ∀ d q, d < D1D → q < Q1D → Gt (idx2 D1D d q) = G (idx2 Q1D q d)) :
    PADiffusionApply3D_body D1D Q1D B G Bt Gt op x s0 e y (idx4 D1D D1D D1D dx dy dz e) =
      y (idx4 D1D D1D D1D dx dy dz e) + denseAction3D D1D Q1D B G op x e dx dy dz := by
  unfold PADiffusionApply3D_body
  rw [apply3D_backward_spec _ _ _ _ _ _ _ _ _ _ _ _ hdx hdy hdz, ← sumfact3D_eq_dense,
    sumfact3D_action]
  congr 1
  have hXYd := fun qz => apply3D_gradXYd_spec D1D Q1D Bt Gt s0.gradXYd s0.gradXd
    (apply3D_metric Q1D op e
      (apply3D_forward D1D Q1D B G x s0.gradXYq s0.gradXq e (apply3D_clear Q1D s0.grad)))
    qz dy dx hdy hdx
  have hXd := fun qz qy => apply3D_gradXd_spec D1D Q1D Bt Gt s0.gradXd
    (apply3D_metric Q1D op e
      (apply3D_forward D1D Q1D B G x s0.gradXYq s0.gradXq e (apply3D_clear Q1D s0.grad)))
    qz qy dx hdx
  simp only [fun qz => (hXYd qz).1, fun qz => (hXYd qz).2.1, fun qz => (hXYd qz).2.2,
    fun qz qy => (hXd qz qy).1, fun qz qy => (hXd qz qy).2.1, fun qz qy => (hXd qz qy).2.2]
  refine Finset.sum_congr rfl (fun qz hqz => ?_)
  have hqz' := Finset.mem_range.mp hqz
  rw [hBt dz qz hdz hqz', hGt dz qz hdz hqz']
  have hflux := fun qy qx hqy hqx c =>
    apply3D_metric_flux D1D Q1D B G op x s0 e qz qy qx hqz' hqy hqx c
  congr 1
  · congr 1
    · congr 1
      refine Finset.sum_congr rfl (fun qy hqy => ?_)
      have hqy' := Finset.mem_range.mp hqy
      rw [hBt dy qy hdy hqy']
      congr 1
      refine Finset.sum_congr rfl (fun qx hqx => ?_)
      have hqx' := Finset.mem_range.mp hqx
      rw [hGt dx qx hdx hqx']
      exact congrArg (· * _) (hflux qy qx hqy' hqx' 0)
    · congr 1
      refine Finset.sum_congr rfl (fun qy hqy => ?_)
      have hqy' := Finset.mem_range.mp hqy
      rw [hGt dy qy hdy hqy']
      congr 1
      refine Finset.sum_congr rfl (fun qx hqx => ?_)
      have hqx' := Finset.mem_range.mp hqx
      rw [hBt dx qx hdx hqx']
      exact congrArg (· * _) (hflux qy qx hqy' hqx' 1)
  · congr 1
    refine Finset.sum_congr rfl (fun qy hqy => ?_)
    have hqy' := Finset.mem_range.mp hqy
    rw [hBt dy qy hdy hqy']
    congr 1
    refine Finset.sum_congr rfl (fun qx hqx => ?_)
    have hqx' := Finset.mem_range.mp hqx
    rw [hBt dx qx hdx hqx']
    exact congrArg (· * _) (hflux qy qx hqy' hqx' 2)

theorem PADiffusionApply3D_body_frame (D1D Q1D : Nat) (B G Bt Gt op x : Nat → K)
    (s0 : Scratch3D K) (e : Nat) (y : Nat → K) (a : Nat)
    (ha : ∀ dx dy dz, dx < D1D → dy < D1D → dz < D1D → a ≠ idx4 D1D D1D D1D dx dy dz e) :
    PADiffusionApply3D_body D1D Q1D B G Bt Gt op x s0 e y a = y a := by
  unfold PADiffusionApply3D_body
  exact apply3D_backward_frame _ _ _ _ _ _ _ _ _ _ ha

/-- Within the limits the kernel runs the element loop. -/
theorem PADiffusionApply3D_eq_some (MAX_D1D MAX_Q1D T_D1D T_Q1D NE : Nat)
    (b g bt gt op x : Nat → K) (s0 : Scratch3D K) (y0 : Nat → K) (d1d q1d D1D Q1D : Nat)
    (hD1D : D1D = if T_D1D ≠ 0 then T_D1D else d1d)
    (hQ1D : Q1D = if T_Q1D ≠ 0 then T_Q1D else q1d)
    (hD : D1D ≤ MAX_D1D) (hQ : Q1D ≤ MAX_Q1D) :
    PADiffusionApply3D MAX_D1D MAX_Q1D T_D1D T_Q1D NE b g bt gt op x s0 y0 d1d q1d =
      some (forLoop NE (fun e y => PADiffusionApply3D_body D1D Q1D b g bt gt op x s0 e y) y0) := by
  simp only [PADiffusionApply3D]
  rw [← hD1D, ← hQ1D, if_neg (not_not.mpr hD), if_neg (not_not.mpr hQ)]

/-- The element loop of the generic 3D kernel adds the dense contraction to
every cell of every element. -/
theorem PADiffusionApply3D_loop_spec (D1D Q1D NE : Nat) (b g bt gt op x : Nat → K)
    (s0 : Scratch3D K) (y0 : Nat → K)
    (hbt : ∀ d q, d < D1D → q < Q1D → bt (idx2 D1D d q) = b (idx2 Q1D q d))
    (hgt : ∀ d q, d < D1D → q < Q1D → gt (idx2 D1D d q) = g (idx2 Q1D q d))
    (e dx dy dz : Nat) (he : e < NE) (hdx : dx < D1D) (hdy : dy < D1D) (hdz : dz < D1D) :
    forLoop NE (fun e y => PADiffusionApply3D_body D1D Q1D b g bt gt op x s0 e y) y0
      (idx4 D1D D1D D1D dx dy dz e) =
    y0 (idx4 D1D D1D D1D dx dy dz e) + denseAction3D D1D Q1D b g op x e dx dy dz := by
  refine forLoop_elements NE _ (fun e (i : Nat × Nat × Nat) => idx4 D1D D1D D1D i.1 i.2.1 i.2.2 e)
    (fun i => i.1 < D1D ∧ i.2.1 < D1D ∧ i.2.2 < D1D)
    (fun e i => denseAction3D D1D Q1D b g op x e i.1 i.2.1 i.2.2) y0 ?_ ?_ ?_ e (dx, dy, dz) he
    ⟨hdx, hdy, hdz⟩
  · intro e e' i i' hi hi' h
    exact (idx4_inj hi.1 hi'.1 hi.2.1 hi'.2.1 hi.2.2 hi'.2.2 h).2.2.2
  · intro e y a ha
    exact PADiffusionApply3D_body_frame _ _ _ _ _ _ _ _ _ _ _ _
      (fun dx dy dz hdx hdy hdz => ha (dx, dy, dz) ⟨hdx, hdy, hdz⟩)
  · intro e y i hi
    exact PADiffusionApply3D_body_spec _ _ _ _ _ _ _ _ _ _ _ _ _ _ hi.1 hi.2.1 hi.2.2 hbt hgt

/-- The element loop of the generic 3D kernel leaves every cell outside the
element slots unchanged. -/
theorem PADiffusionApply3D_loop_frame (D1D Q1D NE : Nat) (b g bt gt op x : Nat → K)
    (s0 : Scratch3D K) (y0 : Nat → K) (a : Nat)
    (ha : ∀ e dx dy dz, e < NE → dx < D1D → dy < D1D → dz < D1D →
      a ≠ idx4 D1D D1D D1D dx dy dz e) :
    forLoop NE (fun e y => PADiffusionApply3D_body D1D Q1D b g bt gt op x s0 e y) y0 a =
      y0 a := by
  refine forLoop_elements_frame NE _
    (fun e (i : Nat × Nat × Nat) => idx4 D1D D1D D1D i.1 i.2.1 i.2.2 e)
    (fun i => i.1 < D1D ∧ i.2.1 < D1D ∧ i.2.2 < D1D) y0 ?_ a
    (fun e he i hi => ha e i.1 i.2.1 i.2.2 he hi.1 hi.2.1 hi.2.2)
  intro e y a ha
  exact PADiffusionApply3D_body_frame _ _ _ _ _ _ _ _ _ _ _ _
    (fun dx dy dz hdx hdy hdz => ha (dx, dy, dz) ⟨hdx, hdy, hdz⟩)

end Apply3DProofs

section Apply3DDense

variable {K : Type*} [Field K]

/-- The matrix `O(q,e)` read by the Apply kernels from the buffer written by
`PADiffusionSetup3D` is `W[q] * COEFF * det(J) * J⁻¹ * J⁻ᵀ`. -/
theorem metricO3_Setup3D (Q1D NE : Nat) (w j : Nat → K) (COEFF : K) (op0 : Nat → K)
    (e q : Nat) (he : e < NE) (hq : q < Q1D * Q1D * Q1D)
    (hdet : (jac3 (Q1D * Q1D * Q1D) j q e).det ≠ 0) :
    metricO3 (Q1D * Q1D * Q1D) (PADiffusionSetup3D Q1D NE w j COEFF op0) q e =
      (w q * COEFF * (jac3 (Q1D * Q1D * Q1D) j q e).det) •
        ((jac3 (Q1D * Q1D * Q1D) j q e)⁻¹ * (jac3 (Q1D * Q1D * Q1D) j q e)⁻¹.transpose) := by
  obtain ⟨⟨h0, h1, h2, h3, h4, h5⟩, hsym⟩ :=
    PADiffusionSetup3D_entries Q1D NE w j COEFF op0 e q he hq hdet
  have h10 := congrFun (congrFun hsym 0) 1
  have h20 := congrFun (congrFun hsym 0) 2
  have h21 := congrFun (congrFun hsym 1) 2
  simp only [Matrix.transpose_apply] at h10 h20 h21
  ext r c
  fin_cases r <;> fin_cases c <;>
    simp only [metricO3, Matrix.of_apply, Matrix.cons_val_zero, Matrix.cons_val_one,
      Matrix.cons_val_two, Matrix.head_cons, Matrix.tail_cons, Fin.zero_eta, Fin.mk_one,
      Fin.reduceFinMk]
  · exact h0
  · exact h1
  · exact h2
  · exact h1.trans h10.symm
  · exact h3
  · exact h4
  · exact h2.trans h20.symm
  · exact h4.trans h21.symm
  · exact h5

/-- **C4.** `PADiffusionApply3D` equals the direct dense contraction: whenever
`D1D <= MAX_D1D`, `Q1D <= MAX_Q1D`, `Bt = Bᵀ` and `Gt = Gᵀ`, the call succeeds
and the final `y(dx,dy,dz,e)` is `y0(dx,dy,dz,e)` plus the sum over
`qx,qy,qz,dx',dy',dz'` of `g(dx,dy,dz)ᵀ O(q,e) g(dx',dy',dz') x(dx',dy',dz',e)`,
where `O(q,e)` has `op(q,0..5,e)` as its (1,1), (1,2), (1,3), (2,2), (2,3),
(3,3) entries; this is the slot order `PADiffusionSetup3D` writes, so that on a
buffer produced by Setup `O(q,e)` is the metric tensor of the point. -/
theorem PADiffusionApply3D_dense (MAX_D1D MAX_Q1D T_D1D T_Q1D NE : Nat)
    (b g bt gt op x : Nat → K) (s0 : Scratch3D K) (y0 : Nat → K) (d1d q1d D1D Q1D : Nat)
    (hD1D : D1D = if T_D1D ≠ 0 then T_D1D else d1d)
    (hQ1D : Q1D = if T_Q1D ≠ 0 then T_Q1D else q1d)
    (hD : D1D ≤ MAX_D1D) (hQ : Q1D ≤ MAX_Q1D)
    (hbt : ∀ d q, d < D1D → q < Q1D → bt (idx2 D1D d q) = b (idx2 Q1D q d))
    (hgt : ∀ d q, d < D1D → q < Q1D → gt (idx2 D1D d q) = g (idx2 Q1D q d)) :
    (∃ y, PADiffusionApply3D MAX_D1D MAX_Q1D T_D1D T_Q1D NE b g bt gt op x s0 y0 d1d q1d =
        some y ∧
      ∀ e dx dy dz, e < NE → dx < D1D → dy < D1D → dz < D1D →
        y (idx4 D1D D1D D1D dx dy dz e) =
          y0 (idx4 D1D D1D D1D dx dy dz e) + denseAction3D D1D Q1D b g op x e dx dy dz) ∧
    (∀ (w j : Nat → K) (COEFF : K) (op0 : Nat → K) (e q : Nat), e < NE →
      q < Q1D * Q1D * Q1D → (jac3 (Q1D * Q1D * Q1D) j q e).det ≠ 0 →
      metricO3 (Q1D * Q1D * Q1D) (PADiffusionSetup3D Q1D NE w j COEFF op0) q e =
        (w q * COEFF * (jac3 (Q1D * Q1D * Q1D) j q e).det) •
          ((jac3 (Q1D * Q1D * Q1D) j q e)⁻¹ *
            (jac3 (Q1D * Q1D * Q1D) j q e)⁻¹.transpose)) := by
  refine ⟨⟨_, PADiffusionApply3D_eq_some MAX_D1D MAX_Q1D T_D1D T_Q1D NE b g bt gt op x s0 y0
    d1d q1d D1D Q1D hD1D hQ1D hD hQ, ?_⟩, ?_⟩
  · intro e dx dy dz he hdx hdy hdz
    exact PADiffusionApply3D_loop_spec D1D Q1D NE b g bt gt op x s0 y0 hbt hgt e dx dy dz
      he hdx hdy hdz
  · intro w j COEFF op0 e q he hq hdet
    exact metricO3_Setup3D Q1D NE w j COEFF op0 e q he hq hdet

/-- Witness for C4: one element with `D1D = 2`, `Q1D = 3` over the rationals. -/
theorem PADiffusionApply3D_dense_witness :
    ((2 : Nat) ≤ 14 ∧ (3 : Nat) ≤ 14) ∧
    ∃ y, PADiffusionApply3D 14 14 0 0 1 (fun i => (i : ℚ) + 1) (fun i => 2 * (i : ℚ))
        (fun i => ((idx2 3 (i / 2) (i % 2) : Nat) : ℚ) + 1)
        (fun i => 2 * ((idx2 3 (i / 2) (i % 2) : Nat) : ℚ))
        (fun i => (i : ℚ)) (fun i => (i : ℚ))
        ⟨fun _ _ _ _ => 7, fun _ _ _ => 7, fun _ _ => 7, fun _ _ _ => 7, fun _ _ => 7⟩
        (fun _ => 5) 2 3 = some y ∧
      y (idx4 2 2 2 1 1 1 0) = 5 + denseAction3D 2 3 (fun i => (i : ℚ) + 1)
        (fun i => 2 * (i : ℚ)) (fun i => (i : ℚ)) (fun i => (i : ℚ)) 0 1 1 1 := by
  have hidx : ∀ d q, d < 2 → q < 3 → idx2 3 (idx2 2 d q / 2) (idx2 2 d q % 2) = idx2 3 q d := by
    intro d q hd hq
    interval_cases d <;> interval_cases q <;> rfl
  refine ⟨⟨by decide, by decide⟩, ?_⟩
  obtain ⟨y, hy, h⟩ := (PADiffusionApply3D_dense 14 14 0 0 1 (fun i => (i : ℚ) + 1)
    (fun i => 2 * (i : ℚ)) (fun i => ((idx2 3 (i / 2) (i % 2) : Nat) : ℚ) + 1)
    (fun i => 2 * ((idx2 3 (i / 2) (i % 2) : Nat) : ℚ))
    (fun i => (i : ℚ)) (fun i => (i : ℚ))
    ⟨fun _ _ _ _ => 7, fun _ _ _ => 7, fun _ _ => 7, fun _ _ _ => 7, fun _ _ => 7⟩
    (fun _ => 5) 2 3 2 3 rfl rfl (by decide) (by decide)
    (fun d q hd hq => by simp only [hidx d q hd hq])
    (fun d q hd hq => by simp only [hidx d q hd hq])).1
  exact ⟨y, hy, h 0 1 1 1 (by decide) (by decide) (by decide) (by decide)⟩

end Apply3DDense

section Smem3DProofs

variable {K : Type*} [CommRing K]

/-- Three scalar reductions carried in one loop. -/
theorem forLoop_sum3 (n : Nat) (f g h : Nat → K) :
    forLoop n (fun i (uvw : K × K × K) => (uvw.1 + f i, uvw.2.1 + g i, uvw.2.2 + h i))
      (0, 0, 0) =
    (∑ i in Finset.range n, f i, ∑ i in Finset.range n, g i, ∑ i in Finset.range n, h i) := by
  induction n with
  | zero => simp [forLoop_zero]
  | succ n ih => rw [forLoop_succ, ih]; simp only [Finset.sum_range_succ]

/-- Two scalar reductions carried in one loop. -/
theorem forLoop_sum2 (n : Nat) (f g : Nat → K) :
    forLoop n (fun i (uv : K × K) => (uv.1 + f i, uv.2 + g i)) (0, 0) =
    (∑ i in Finset.range n, f i, ∑ i in Finset.range n, g i) := by
  induction n with
  | zero => simp [forLoop_zero]
  | succ n ih => rw [forLoop_succ, ih]; simp only [Finset.sum_range_succ]

/-- A phase in which worker `(a,b,c)` stores three values, computed from data
the phase does not write, at the same offset of the blocks 0, 1, 2 of a
shared array. -/
theorem smem_write3 (n1 n2 n3 M : Nat) (addr : Nat → Nat → Nat → Nat)
    (v0 v1 v2 : Nat → Nat → Nat → K) (s0 : Nat → K)
    (hoff : ∀ a b c, a < n1 → b < n2 → c < n3 → addr a b c < M)
    (hinj : ∀ a b c a' b' c', a < n1 → b < n2 → c < n3 → a' < n1 → b' < n2 → c' < n3 →
      addr a b c = addr a' b' c' → a = a' ∧ b = b' ∧ c = c')
    (i j l : Nat) (hi : i < n1) (hj : j < n2) (hl : l < n3) :
    let out := forLoop n1 (fun a s => forLoop n2 (fun b s => forLoop n3 (fun c s =>
      Function.update (Function.update (Function.update s (0 * M + addr a b c) (v0 a b c))
        (1 * M + addr a b c) (v1 a b c)) (2 * M + addr a b c) (v2 a b c)) s) s) s0
    out (0 * M + addr i j l) = v0 i j l ∧ out (1 * M + addr i j l) = v1 i j l ∧
      out (2 * M + addr i j l) = v2 i j l := by
  intro out
  have key : ∀ k, k < 3 → ∀ v : K,
      (∀ s : Nat → K, Function.update (Function.update (Function.update s
        (0 * M + addr i j l) (v0 i j l)) (1 * M + addr i j l) (v1 i j l))
        (2 * M + addr i j l) (v2 i j l) (k * M + addr i j l) = v) →
      out (k * M + addr i j l) = v := by
    intro k hk v hv
    refine forLoop3_single (fun s : Nat → K => s (k * M + addr i j l)) (fun _ => True)
      n1 n2 n3 i j l _ s0 v hi hj hl trivial (fun _ _ _ _ _ _ _ _ _ => trivial)
      (fun s _ => hv s) ?_
    intro a b c ha hb hc hne s
    have hne' : ∀ k', k * M + addr i j l ≠ k' * M + addr a b c := by
      intro k' heq
      have h1 := (blk_inj (hoff i j l hi hj hl) (hoff a b c ha hb hc) heq).2
      have h2 := hinj i j l a b c hi hj hl ha hb hc h1
      exact hne ⟨h2.1.symm, h2.2.1.symm, h2.2.2.symm⟩
    beta_reduce
    rw [Function.update_noteq (hne' 2), Function.update_noteq (hne' 1),
      Function.update_noteq (hne' 0)]
  have hb : ∀ k k', k ≠ k' → k * M + addr i j l ≠ k' * M + addr i j l :=
    fun k k' hk heq => hk (blk_inj (hoff i j l hi hj hl) (hoff i j l hi hj hl) heq).1
  refine ⟨key 0 (by decide) _ (fun s => ?_), key 1 (by decide) _ (fun s => ?_),
    key 2 (by decide) _ (fun s => ?_)⟩
  · rw [Function.update_noteq (hb 0 2 (by decide)), Function.update_noteq (hb 0 1 (by decide)),
      Function.update_same]
  · rw [Function.update_noteq (hb 1 2 (by decide)), Function.update_same]
  · rw [Function.update_same]

/-- The cells a three-block phase does not address keep their value. -/
theorem smem_write3_frame (n1 n2 n3 M : Nat) (addr : Nat → Nat → Nat → Nat)
    (v0 v1 v2 : Nat → Nat → Nat → (Nat → K) → K) (s0 : Nat → K) (p : Nat)
    (hp : ∀ k a b c, k < 3 → a < n1 → b < n2 → c < n3 → p ≠ k * M + addr a b c) :
    forLoop n1 (fun a s => forLoop n2 (fun b s => forLoop n3 (fun c s =>
      Function.update (Function.update (Function.update s (0 * M + addr a b c) (v0 a b c s))
        (1 * M + addr a b c) (v1 a b c s)) (2 * M + addr a b c) (v2 a b c s)) s) s) s0 p =
      s0 p := by
  refine forLoop3_untouched (fun s : Nat → K => s p) n1 n2 n3 _ s0 ?_
  intro a b c ha hb hc s
  beta_reduce
  rw [Function.update_noteq (hp 2 a b c (by decide) ha hb hc),
    Function.update_noteq (hp 1 a b c (by decide) ha hb hc),
    Function.update_noteq (hp 0 a b c (by decide) ha hb hc)]

/-- The three accumulators of a reduction whose terms are known in range. -/
theorem forLoop_sum3_congr (n : Nat) (f g h f' g' h' : Nat → K)
    (hf : ∀ i, i < n → f i = f' i) (hg : ∀ i, i < n → g i = g' i)
    (hh : ∀ i, i < n → h i = h' i) :
    forLoop n (fun i (uvw : K × K × K) => (uvw.1 + f i, uvw.2.1 + g i, uvw.2.2 + h i))
      (0, 0, 0) =
    (∑ i in Finset.range n, f' i, ∑ i in Finset.range n, g' i, ∑ i in Finset.range n, h' i) := by
  rw [forLoop_sum3]
  rw [Finset.sum_congr rfl (fun i hi => hf i (Finset.mem_range.mp hi)),
    Finset.sum_congr rfl (fun i hi => hg i (Finset.mem_range.mp hi)),
    Finset.sum_congr rfl (fun i hi => hh i (Finset.mem_range.mp hi))]

theorem forLoop_sum2_congr (n : Nat) (f g f' g' : Nat → K)
    (hf : ∀ i, i < n → f i = f' i) (hg : ∀ i, i < n → g i = g' i) :
    forLoop n (fun i (uv : K × K) => (uv.1 + f i, uv.2 + g i)) (0, 0) =
    (∑ i in Finset.range n, f' i, ∑ i in Finset.range n, g' i) := by
  rw [forLoop_sum2]
  rw [Finset.sum_congr rfl (fun i hi => hf i (Finset.mem_range.mp hi)),
    Finset.sum_congr rfl (fun i hi => hg i (Finset.mem_range.mp hi))]

theorem smem3D_loadX_spec (D1D MD1 MDQ : Nat) (x : Nat → K) (e : Nat) (sm0 : Nat → K)
    (hD : D1D ≤ MD1) (hMD : MD1 ≤ MDQ) (dz dy dx : Nat)
    (hdz : dz < D1D) (hdy : dy < D1D) (hdx : dx < D1D) :
    smem3D_loadX D1D MD1 MDQ x e sm0 (view3 (MDQ * MDQ * MDQ) 2 MD1 MD1 dz dy dx) =
      x (idx4 D1D D1D D1D dx dy dz e) := by
  unfold smem3D_loadX
  have hlt : ∀ a b c, a < D1D → b < D1D → c < D1D →
      row3 MD1 MD1 a b c < MDQ * MDQ * MDQ := fun a b c ha hb hc =>
    row3_lt_cube ha (Nat.lt_of_lt_of_le hb hD) (Nat.lt_of_lt_of_le hc hD)
      (Nat.le_trans hD hMD) hMD hMD
  refine forLoop3_single (fun s : Nat → K => s (view3 (MDQ * MDQ * MDQ) 2 MD1 MD1 dz dy dx))
    (fun _ => True) D1D D1D D1D dz dy dx _ sm0 _ hdz hdy hdx trivial
    (fun _ _ _ _ _ _ _ _ _ => trivial) (fun s _ => Function.update_same _ _ _) ?_
  intro a b c ha hb hc hne s
  beta_reduce
  refine Function.update_noteq (fun heq => hne ?_) _ _
  have h := view3_inj (Nat.lt_of_lt_of_le hdy hD) (Nat.lt_of_lt_of_le hb hD)
    (Nat.lt_of_lt_of_le hdx hD) (Nat.lt_of_lt_of_le hc hD) (hlt dz dy dx hdz hdy hdx)
    (hlt a b c ha hb hc) heq
  exact ⟨h.2.1.symm, h.2.2.1.symm, h.2.2.2.symm⟩

/-- A phase that loads a table into the blocks 0 and 1 of `sBG` through a view
with row length `n1`: worker `(d,q)` stores at row `r d q`, column `c d q`. -/
theorem smem_load2 (D1D Q1D M n1 : Nat) (r c : Nat → Nat → Nat) (b g : Nat → Nat → K)
    (sBG : Nat → K)
    (hc : ∀ d q, d < D1D → q < Q1D → c d q < n1)
    (hoff : ∀ d q, d < D1D → q < Q1D → row2 n1 (r d q) (c d q) < M)
    (hinj : ∀ d q d' q', d < D1D → q < Q1D → d' < D1D → q' < Q1D →
      r d q = r d' q' → c d q = c d' q' → d = d' ∧ q = q')
    (d q : Nat) (hd : d < D1D) (hq : q < Q1D) :
    let out := forLoop D1D (fun d sBG => forLoop Q1D (fun q sBG =>
      let sBG := Function.update sBG (view2 M 0 n1 (r d q) (c d q)) (b d q)
      Function.update sBG (view2 M 1 n1 (r d q) (c d q)) (g d q)) sBG) sBG
    out (view2 M 0 n1 (r d q) (c d q)) = b d q ∧
      out (view2 M 1 n1 (r d q) (c d q)) = g d q := by
  intro out
  have key : ∀ k, k < 2 → ∀ v : K,
      (∀ s : Nat → K, Function.update (Function.update s
        (view2 M 0 n1 (r d q) (c d q)) (b d q)) (view2 M 1 n1 (r d q) (c d q)) (g d q)
        (view2 M k n1 (r d q) (c d q)) = v) →
      out (view2 M k n1 (r d q) (c d q)) = v := by
    intro k hk v hv
    refine forLoop2_single (fun s : Nat → K => s (view2 M k n1 (r d q) (c d q)))
      (fun _ => True) D1D Q1D d q _ sBG v hd hq trivial (fun _ _ _ _ _ _ _ => trivial)
      (fun s _ => hv s) ?_
    intro a b' ha hb hne s
    have hne' : ∀ k', view2 M k n1 (r d q) (c d q) ≠ view2 M k' n1 (r a b') (c a b') := by
      intro k' heq
      have h1 := view2_inj (hc d q hd hq) (hc a b' ha hb) (hoff d q hd hq) (hoff a b' ha hb) heq
      have h2 := hinj d q a b' hd hq ha hb h1.2.1 h1.2.2
      exact hne ⟨h2.1.symm, h2.2.symm⟩
    beta_reduce
    rw [Function.update_noteq (hne' 1), Function.update_noteq (hne' 0)]
  have h01 : view2 M 0 n1 (r d q) (c d q) ≠ view2 M 1 n1 (r d q) (c d q) :=
    fun heq => absurd (blk_inj (hoff d q hd hq) (hoff d q hd hq) heq).1 (by decide)
  refine ⟨key 0 (by decide) _ (fun s => ?_), key 1 (by decide) _ (fun s => ?_)⟩
  · rw [Function.update_noteq h01, Function.update_same]
  · rw [Function.update_same]

theorem smem3D_loadBG_spec (D1D Q1D MD1 MQ1 : Nat) (b g : Nat → K) (sBG : Nat → K)
    (hD : D1D ≤ MD1) (hQ : Q1D ≤ MQ1) (q d : Nat) (hq : q < Q1D) (hd : d < D1D) :
    smem3D_loadBG D1D Q1D MD1 MQ1 b g 0 sBG (view2 (MQ1 * MD1) 0 MD1 q d) = b (idx2 Q1D q d) ∧
    smem3D_loadBG D1D Q1D MD1 MQ1 b g 0 sBG (view2 (MQ1 * MD1) 1 MD1 q d) =
      g (idx2 Q1D q d) := by
  unfold smem3D_loadBG
  rw [if_pos rfl]
  exact smem_load2 D1D Q1D (MQ1 * MD1) MD1 (fun _ q => q) (fun d _ => d)
    (fun d q => b (idx2 Q1D q d)) (fun d q => g (idx2 Q1D q d)) sBG
    (fun d _ hd _ => Nat.lt_of_lt_of_le hd hD)
    (fun d q hd hq => row2_lt (Nat.lt_of_lt_of_le hq hQ) (Nat.lt_of_lt_of_le hd hD))
    (fun _ _ _ _ _ _ _ _ h1 h2 => ⟨h2, h1⟩) d q hd hq

theorem smem3D_loadBGt_spec (D1D Q1D MD1 MQ1 : Nat) (b g : Nat → K) (sBG : Nat → K)
    (hD : D1D ≤ MD1) (hQ : Q1D ≤ MQ1) (d q : Nat) (hd : d < D1D) (hq : q < Q1D) :
    smem3D_loadBGt D1D Q1D MD1 MQ1 b g 0 sBG (view2 (MQ1 * MD1) 0 MQ1 d q) =
      b (idx2 Q1D q d) ∧
    smem3D_loadBGt D1D Q1D MD1 MQ1 b g 0 sBG (view2 (MQ1 * MD1) 1 MQ1 d q) =
      g (idx2 Q1D q d) := by
  unfold smem3D_loadBGt
  rw [if_pos rfl]
  exact smem_load2 D1D Q1D (MQ1 * MD1) MQ1 (fun d _ => d) (fun _ q => q)
    (fun d q => b (idx2 Q1D q d)) (fun d q => g (idx2 Q1D q d)) sBG
    (fun _ q _ hq => Nat.lt_of_lt_of_le hq hQ)
    (fun d q hd hq => by
      rw [Nat.mul_comm]
      exact row2_lt (Nat.lt_of_lt_of_le hd hD) (Nat.lt_of_lt_of_le hq hQ))
    (fun _ _ _ _ _ _ _ _ h1 h2 => ⟨h1, h2⟩) d q hd hq

theorem smem3D_phaseDDQ_spec (D1D Q1D MD1 MQ1 MDQ : Nat) (b g : Nat → K) (sBG sm0 : Nat → K)
    (FX : Nat → Nat → Nat → K)
    (hD : D1D ≤ MD1) (hQ : Q1D ≤ MQ1) (hMD : MD1 ≤ MDQ) (hMQ : MQ1 ≤ MDQ)
    (hX : ∀ dz dy dx, dz < D1D → dy < D1D → dx < D1D →
      sm0 (view3 (MDQ * MDQ * MDQ) 2 MD1 MD1 dz dy dx) = FX dz dy dx)
    (hB : ∀ q d, q < Q1D → d < D1D → sBG (view2 (MQ1 * MD1) 0 MD1 q d) = b (idx2 Q1D q d))
    (hG : ∀ q d, q < Q1D → d < D1D → sBG (view2 (MQ1 * MD1) 1 MD1 q d) = g (idx2 Q1D q d))
    (dz dy qx : Nat) (hdz : dz < D1D) (hdy : dy < D1D) (hqx : qx < Q1D) :
    smem3D_phaseDDQ D1D Q1D MD1 MQ1 MDQ sBG sm0 (view3 (MDQ * MDQ * MDQ) 0 MD1 MQ1 dz dy qx) =
      ∑ dx in Finset.range D1D, FX dz dy dx * b (idx2 Q1D qx dx) ∧
    smem3D_phaseDDQ D1D Q1D MD1 MQ1 MDQ sBG sm0 (view3 (MDQ * MDQ * MDQ) 1 MD1 MQ1 dz dy qx) =
      ∑ dx in Finset.range D1D, FX dz dy dx * g (idx2 Q1D qx dx) := by
  unfold smem3D_phaseDDQ
  have hltX : ∀ a b c, a < D1D → b < D1D → c < D1D →
      row3 MD1 MD1 a b c < MDQ * MDQ * MDQ := fun a b c ha hb hc =>
    row3_lt_cube ha (Nat.lt_of_lt_of_le hb hD) (Nat.lt_of_lt_of_le hc hD)
      (Nat.le_trans hD hMD) hMD hMD
  have hlt : ∀ a b c, a < D1D → b < D1D → c < Q1D →
      row3 MD1 MQ1 a b c < MDQ * MDQ * MDQ := fun a b c ha hb hc =>
    row3_lt_cube ha (Nat.lt_of_lt_of_le hb hD) (Nat.lt_of_lt_of_le hc hQ)
      (Nat.le_trans hD hMD) hMD hMQ
  have key : ∀ k, k < 2 → ∀ v : K,
      (v = if k = 0 then ∑ dx in Finset.range D1D, FX dz dy dx * b (idx2 Q1D qx dx)
        else ∑ dx in Finset.range D1D, FX dz dy dx * g (idx2 Q1D qx dx)) →
      forLoop D1D (fun dz sm0 =>
        forLoop D1D (fun dy sm0 =>
          forLoop Q1D (fun qx sm0 =>
            let uv := forLoop D1D (fun dx (uv : K × K) =>
              let coords := sm0 (view3 (MDQ * MDQ * MDQ) 2 MD1 MD1 dz dy dx)
              (uv.1 + coords * sBG (view2 (MQ1 * MD1) 0 MD1 qx dx),
               uv.2 + coords * sBG (view2 (MQ1 * MD1) 1 MD1 qx dx))) (0, 0)
            let sm0 := Function.update sm0 (view3 (MDQ * MDQ * MDQ) 0 MD1 MQ1 dz dy qx) uv.1
            Function.update sm0 (view3 (MDQ * MDQ * MDQ) 1 MD1 MQ1 dz dy qx) uv.2) sm0) sm0)
        sm0 (view3 (MDQ * MDQ * MDQ) k MD1 MQ1 dz dy qx) = v := by
    intro k hk v hv
    refine forLoop3_single
      (fun s : Nat → K => s (view3 (MDQ * MDQ * MDQ) k MD1 MQ1 dz dy qx))
      (fun s => ∀ dz dy dx, dz < D1D → dy < D1D → dx < D1D →
        s (view3 (MDQ * MDQ * MDQ) 2 MD1 MD1 dz dy dx) = FX dz dy dx)
      D1D D1D Q1D dz dy qx _ sm0 v hdz hdy hqx hX ?_ ?_ ?_
    · intro a b' c ha hb hc _ s hs dz' dy' dx' hdz' hdy' hdx'
      rw [Function.update_noteq (view3_ne_blk (hltX dz' dy' dx' hdz' hdy' hdx')
          (hlt a b' c ha hb hc) (by decide)),
        Function.update_noteq (view3_ne_blk (hltX dz' dy' dx' hdz' hdy' hdx')
          (hlt a b' c ha hb hc) (by decide))]
      exact hs dz' dy' dx' hdz' hdy' hdx'
    · intro s hs
      have huv := forLoop_sum2_congr D1D
        (fun dx => s (view3 (MDQ * MDQ * MDQ) 2 MD1 MD1 dz dy dx) *
          sBG (view2 (MQ1 * MD1) 0 MD1 qx dx))
        (fun dx => s (view3 (MDQ * MDQ * MDQ) 2 MD1 MD1 dz dy dx) *
          sBG (view2 (MQ1 * MD1) 1 MD1 qx dx))
        (fun dx => FX dz dy dx * b (idx2 Q1D qx dx))
        (fun dx => FX dz dy dx * g (idx2 Q1D qx dx))
        (fun dx hdx => by beta_reduce; rw [hs dz dy dx hdz hdy hdx, hB qx dx hqx hdx])
        (fun dx hdx => by beta_reduce; rw [hs dz dy dx hdz hdy hdx, hG qx dx hqx hdx])
      have h01 : view3 (MDQ * MDQ * MDQ) 0 MD1 MQ1 dz dy qx ≠
          view3 (MDQ * MDQ * MDQ) 1 MD1 MQ1 dz dy qx :=
        view3_ne_blk (hlt dz dy qx hdz hdy hqx) (hlt dz dy qx hdz hdy hqx) (by decide)
      beta_reduce
      rw [hv]
      interval_cases k
      · rw [if_pos rfl, Function.update_noteq h01, Function.update_same]
        exact congrArg Prod.fst huv
      · rw [if_neg (by decide), Function.update_same]
        exact congrArg Prod.snd huv
    · intro a b' c ha hb hc hne s
      have hne' : ∀ k', view3 (MDQ * MDQ * MDQ) k MD1 MQ1 dz dy qx ≠
          view3 (MDQ * MDQ * MDQ) k' MD1 MQ1 a b' c := by
        intro k' heq
        have h := view3_inj (Nat.lt_of_lt_of_le hdy hD) (Nat.lt_of_lt_of_le hb hD)
          (Nat.lt_of_lt_of_le hqx hQ) (Nat.lt_of_lt_of_le hc hQ) (hlt dz dy qx hdz hdy hqx)
          (hlt a b' c ha hb hc) heq
        exact hne ⟨h.2.1.symm, h.2.2.1.symm, h.2.2.2.symm⟩
      beta_reduce
      rw [Function.update_noteq (hne' 1), Function.update_noteq (hne' 0)]
  exact ⟨key 0 (by decide) _ (by rw [if_pos rfl]), key 1 (by decide) _ (by rw [if_neg (by decide)])⟩

/-- The three-block write phase with the values carried as a triple. -/
theorem smem_write3_tuple (n1 n2 n3 M : Nat) (addr : Nat → Nat → Nat → Nat)
    (v : Nat → Nat → Nat → K × K × K) (s0 : Nat → K)
    (hoff : ∀ a b c, a < n1 → b < n2 → c < n3 → addr a b c < M)
    (hinj : ∀ a b c a' b' c', a < n1 → b < n2 → c < n3 → a' < n1 → b' < n2 → c' < n3 →
      addr a b c = addr a' b' c' → a = a' ∧ b = b' ∧ c = c')
    (i j l : Nat) (hi : i < n1) (hj : j < n2) (hl : l < n3) :
    let out := forLoop n1 (fun a s => forLoop n2 (fun b s => forLoop n3 (fun c s =>
      let uvw := v a b c
      let s := Function.update s (0 * M + addr a b c) uvw.1
      let s := Function.update s (1 * M + addr a b c) uvw.2.1
      Function.update s (2 * M + addr a b c) uvw.2.2) s) s) s0
    out (0 * M + addr i j l) = (v i j l).1 ∧ out (1 * M + addr i j l) = (v i j l).2.1 ∧
      out (2 * M + addr i j l) = (v i j l).2.2 :=
  smem_write3 n1 n2 n3 M addr (fun a b c => (v a b c).1) (fun a b c => (v a b c).2.1)
    (fun a b c => (v a b c).2.2) s0 hoff hinj i j l hi hj hl

theorem smem3D_phaseDQQ_spec (D1D Q1D MD1 MQ1 MDQ : Nat) (b g : Nat → K)
    (sBG sm0 sm1 : Nat → K) (F0 F1 : Nat → Nat → Nat → K)
    (hD : D1D ≤ MD1) (hQ : Q1D ≤ MQ1) (hMD : MD1 ≤ MDQ) (hMQ : MQ1 ≤ MDQ)
    (h0 : ∀ dz dy qx, dz < D1D → dy < D1D → qx < Q1D →
      sm0 (view3 (MDQ * MDQ * MDQ) 0 MD1 MQ1 dz dy qx) = F0 dz dy qx)
    (h1 : ∀ dz dy qx, dz < D1D → dy < D1D → qx < Q1D →
      sm0 (view3 (MDQ * MDQ * MDQ) 1 MD1 MQ1 dz dy qx) = F1 dz dy qx)
    (hB : ∀ q d, q < Q1D → d < D1D → sBG (view2 (MQ1 * MD1) 0 MD1 q d) = b (idx2 Q1D q d))
    (hG : ∀ q d, q < Q1D → d < D1D → sBG (view2 (MQ1 * MD1) 1 MD1 q d) = g (idx2 Q1D q d))
    (dz qy qx : Nat) (hdz : dz < D1D) (hqy : qy < Q1D) (hqx : qx < Q1D) :
    smem3D_phaseDQQ D1D Q1D MD1 MQ1 MDQ sBG sm0 sm1
        (view3 (MDQ * MDQ * MDQ) 0 MQ1 MQ1 dz qy qx) =
      ∑ dy in Finset.range D1D, F1 dz dy qx * b (idx2 Q1D qy dy) ∧
    smem3D_phaseDQQ D1D Q1D MD1 MQ1 MDQ sBG sm0 sm1
        (view3 (MDQ * MDQ * MDQ) 1 MQ1 MQ1 dz qy qx) =
      ∑ dy in Finset.range D1D, F0 dz dy qx * g (idx2 Q1D qy dy) ∧
    smem3D_phaseDQQ D1D Q1D MD1 MQ1 MDQ sBG sm0 sm1
        (view3 (MDQ * MDQ * MDQ) 2 MQ1 MQ1 dz qy qx) =
      ∑ dy in Finset.range D1D, F0 dz dy qx * b (idx2 Q1D qy dy) := by
  have hval := forLoop_sum3_congr D1D
    (fun dy => sm0 (view3 (MDQ * MDQ * MDQ) 1 MD1 MQ1 dz dy qx) *
          sBG (view2 (MQ1 * MD1) 0 MD1 qy dy))
    (fun dy => sm0 (view3 (MDQ * MDQ * MDQ) 0 MD1 MQ1 dz dy qx) *
          sBG (view2 (MQ1 * MD1) 1 MD1 qy dy))
    (fun dy => sm0 (view3 (MDQ * MDQ * MDQ) 0 MD1 MQ1 dz dy qx) *
          sBG (view2 (MQ1 * MD1) 0 MD1 qy dy))
    (fun dy => F1 dz dy qx * b (idx2 Q1D qy dy))
    (fun dy => F0 dz dy qx * g (idx2 Q1D qy dy))
    (fun dy => F0 dz dy qx * b (idx2 Q1D qy dy))
    (fun dy hdy => by beta_reduce; rw [h1 dz dy qx hdz hdy hqx, hB qy dy hqy hdy])
    (fun dy hdy => by beta_reduce; rw [h0 dz dy qx hdz hdy hqx, hG qy dy hqy hdy])
    (fun dy hdy => by beta_reduce; rw [h0 dz dy qx hdz hdy hqx, hB qy dy hqy hdy])
  obtain ⟨e0, e1, e2⟩ := smem_write3_tuple D1D Q1D Q1D (MDQ * MDQ * MDQ)
    (row3 MQ1 MQ1)
    (fun dz qy qx => forLoop D1D (fun dy (uvw : K × K × K) =>
      (uvw.1 + sm0 (view3 (MDQ * MDQ * MDQ) 1 MD1 MQ1 dz dy qx) *
          sBG (view2 (MQ1 * MD1) 0 MD1 qy dy),
       uvw.2.1 + sm0 (view3 (MDQ * MDQ * MDQ) 0 MD1 MQ1 dz dy qx) *
          sBG (view2 (MQ1 * MD1) 1 MD1 qy dy),
       uvw.2.2 + sm0 (view3 (MDQ * MDQ * MDQ) 0 MD1 MQ1 dz dy qx) *
          sBG (view2 (MQ1 * MD1) 0 MD1 qy dy))) (0, 0, 0))
    sm1
    (fun a b c ha hb hc => row3_lt_cube ha (Nat.lt_of_lt_of_le hb hQ)
      (Nat.lt_of_lt_of_le hc hQ) (Nat.le_trans hD hMD) hMQ hMQ)
    (fun a b c a' b' c' _ hb hc _ hb' hc' h => row3_inj (Nat.lt_of_lt_of_le hb hQ)
      (Nat.lt_of_lt_of_le hb' hQ) (Nat.lt_of_lt_of_le hc hQ)
      (Nat.lt_of_lt_of_le hc' hQ) h)
    dz qy qx hdz hqy hqx
  exact ⟨e0.trans (congrArg (fun t => t.1) hval), e1.trans (congrArg (fun t => t.2.1) hval),
    e2.trans (congrArg (fun t => t.2.2) hval)⟩

theorem smem3D_phaseQQQ_spec (D1D Q1D MD1 MQ1 MDQ : Nat) (b g : Nat → K)
    (sBG sm1 sm0 : Nat → K) (F0 F1 F2 : Nat → Nat → Nat → K)
    (hD : D1D ≤ MD1) (hQ : Q1D ≤ MQ1) (hMD : MD1 ≤ MDQ) (hMQ : MQ1 ≤ MDQ)
    (h0 : ∀ dz qy qx, dz < D1D → qy < Q1D → qx < Q1D →
      sm1 (view3 (MDQ * MDQ * MDQ) 0 MQ1 MQ1 dz qy qx) = F0 dz qy qx)
    (h1 : ∀ dz qy qx, dz < D1D → qy < Q1D → qx < Q1D →
      sm1 (view3 (MDQ * MDQ * MDQ) 1 MQ1 MQ1 dz qy qx) = F1 dz qy qx)
    (h2 : ∀ dz qy qx, dz < D1D → qy < Q1D → qx < Q1D →
      sm1 (view3 (MDQ * MDQ * MDQ) 2 MQ1 MQ1 dz qy qx) = F2 dz qy qx)
    (hB : ∀ q d, q < Q1D → d < D1D → sBG (view2 (MQ1 * MD1) 0 MD1 q d) = b (idx2 Q1D q d))
    (hG : ∀ q d, q < Q1D → d < D1D → sBG (view2 (MQ1 * MD1) 1 MD1 q d) = g (idx2 Q1D q d))
    (qz qy qx : Nat) (hqz : qz < Q1D) (hqy : qy < Q1D) (hqx : qx < Q1D) :
    smem3D_phaseQQQ D1D Q1D MD1 MQ1 MDQ sBG sm1 sm0
        (view3 (MDQ * MDQ * MDQ) 0 MQ1 MQ1 qz qy qx) =
      ∑ dz in Finset.range D1D, F0 dz qy qx * b (idx2 Q1D qz dz) ∧
    smem3D_phaseQQQ D1D Q1D MD1 MQ1 MDQ sBG sm1 sm0
        (view3 (MDQ * MDQ * MDQ) 1 MQ1 MQ1 qz qy qx) =
      ∑ dz in Finset.range D1D, F1 dz qy qx * b (idx2 Q1D qz dz) ∧
    smem3D_phaseQQQ D1D Q1D MD1 MQ1 MDQ sBG sm1 sm0
        (view3 (MDQ * MDQ * MDQ) 2 MQ1 MQ1 qz qy qx) =
      ∑ dz in Finset.range D1D, F2 dz qy qx * g (idx2 Q1D qz dz) := by
  have hval := forLoop_sum3_congr D1D
    (fun dz => sm1 (view3 (MDQ * MDQ * MDQ) 0 MQ1 MQ1 dz qy qx) *
          sBG (view2 (MQ1 * MD1) 0 MD1 qz dz))
    (fun dz => sm1 (view3 (MDQ * MDQ * MDQ) 1 MQ1 MQ1 dz qy qx) *
          sBG (view2 (MQ1 * MD1) 0 MD1 qz dz))
    (fun dz => sm1 (view3 (MDQ * MDQ * MDQ) 2 MQ1 MQ1 dz qy qx) *
          sBG (view2 (MQ1 * MD1) 1 MD1 qz dz))
    (fun dz => F0 dz qy qx * b (idx2 Q1D qz dz))
    (fun dz => F1 dz qy qx * b (idx2 Q1D qz dz))
    (fun dz => F2 dz qy qx * g (idx2 Q1D qz dz))
    (fun dz hdz => by beta_reduce; rw [h0 dz qy qx hdz hqy hqx, hB qz dz hqz hdz])
    (fun dz hdz => by beta_reduce; rw [h1 dz qy qx hdz hqy hqx, hB qz dz hqz hdz])
    (fun dz hdz => by beta_reduce; rw [h2 dz qy qx hdz hqy hqx, hG qz dz hqz hdz])
  obtain ⟨e0, e1, e2⟩ := smem_write3_tuple Q1D Q1D Q1D (MDQ * MDQ * MDQ)
    (row3 MQ1 MQ1)
    (fun qz qy qx => forLoop D1D (fun dz (uvw : K × K × K) =>
      (uvw.1 + sm1 (view3 (MDQ * MDQ * MDQ) 0 MQ1 MQ1 dz qy qx) *
          sBG (view2 (MQ1 * MD1) 0 MD1 qz dz),
       uvw.2.1 + sm1 (view3 (MDQ * MDQ * MDQ) 1 MQ1 MQ1 dz qy qx) *
          sBG (view2 (MQ1 * MD1) 0 MD1 qz dz),
       uvw.2.2 + sm1 (view3 (MDQ * MDQ * MDQ) 2 MQ1 MQ1 dz qy qx) *
          sBG (view2 (MQ1 * MD1) 1 MD1 qz dz))) (0, 0, 0))
    sm0
    (fun a b c ha hb hc => row3_lt_cube ha (Nat.lt_of_lt_of_le hb hQ)
      (Nat.lt_of_lt_of_le hc hQ) (Nat.le_trans hQ hMQ) hMQ hMQ)
    (fun a b c a' b' c' _ hb hc _ hb' hc' h => row3_inj (Nat.lt_of_lt_of_le hb hQ)
      (Nat.lt_of_lt_of_le hb' hQ) (Nat.lt_of_lt_of_le hc hQ)
      (Nat.lt_of_lt_of_le hc' hQ) h)
    qz qy qx hqz hqy hqx
  exact ⟨e0.trans (congrArg (fun t => t.1) hval), e1.trans (congrArg (fun t => t.2.1) hval),
    e2.trans (congrArg (fun t => t.2.2) hval)⟩

theorem smem3D_phaseQQD_spec (D1D Q1D MD1 MQ1 MDQ : Nat) (b g : Nat → K)
    (sBG sm0 sm1 : Nat → K) (F0 F1 F2 : Nat → Nat → Nat → K)
    (hD : D1D ≤ MD1) (hQ : Q1D ≤ MQ1) (hMD : MD1 ≤ MDQ) (hMQ : MQ1 ≤ MDQ)
    (h0 : ∀ qz qy qx, qz < Q1D → qy < Q1D → qx < Q1D →
      sm0 (view3 (MDQ * MDQ * MDQ) 0 MQ1 MQ1 qz qy qx) = F0 qz qy qx)
    (h1 : ∀ qz qy qx, qz < Q1D → qy < Q1D → qx < Q1D →
      sm0 (view3 (MDQ * MDQ * MDQ) 1 MQ1 MQ1 qz qy qx) = F1 qz qy qx)
    (h2 : ∀ qz qy qx, qz < Q1D → qy < Q1D → qx < Q1D →
      sm0 (view3 (MDQ * MDQ * MDQ) 2 MQ1 MQ1 qz qy qx) = F2 qz qy qx)
    (hB : ∀ d q, d < D1D → q < Q1D → sBG (view2 (MQ1 * MD1) 0 MQ1 d q) = b (idx2 Q1D q d))
    (hG : ∀ d q, d < D1D → q < Q1D → sBG (view2 (MQ1 * MD1) 1 MQ1 d q) = g (idx2 Q1D q d))
    (qz qy dx : Nat) (hqz : qz < Q1D) (hqy : qy < Q1D) (hdx : dx < D1D) :
    smem3D_phaseQQD D1D Q1D MD1 MQ1 MDQ sBG sm0 sm1
        (view3 (MDQ * MDQ * MDQ) 0 MQ1 MD1 qz qy dx) =
      ∑ qx in Finset.range Q1D, F0 qz qy qx * g (idx2 Q1D qx dx) ∧
    smem3D_phaseQQD D1D Q1D MD1 MQ1 MDQ sBG sm0 sm1
        (view3 (MDQ * MDQ * MDQ) 1 MQ1 MD1 qz qy dx) =
      ∑ qx in Finset.range Q1D, F1 qz qy qx * b (idx2 Q1D qx dx) ∧
    smem3D_phaseQQD D1D Q1D MD1 MQ1 MDQ sBG sm0 sm1
        (view3 (MDQ * MDQ * MDQ) 2 MQ1 MD1 qz qy dx) =
      ∑ qx in Finset.range Q1D, F2 qz qy qx * b (idx2 Q1D qx dx) := by
  have hval := forLoop_sum3_congr Q1D
    (fun qx => sm0 (view3 (MDQ * MDQ * MDQ) 0 MQ1 MQ1 qz qy qx) *
          sBG (view2 (MQ1 * MD1) 1 MQ1 dx qx))
    (fun qx => sm0 (view3 (MDQ * MDQ * MDQ) 1 MQ1 MQ1 qz qy qx) *
          sBG (view2 (MQ1 * MD1) 0 MQ1 dx qx))
    (fun qx => sm0 (view3 (MDQ * MDQ * MDQ) 2 MQ1 MQ1 qz qy qx) *
          sBG (view2 (MQ1 * MD1) 0 MQ1 dx qx))
    (fun qx => F0 qz qy qx * g (idx2 Q1D qx dx))
    (fun qx => F1 qz qy qx * b (idx2 Q1D qx dx))
    (fun qx => F2 qz qy qx * b (idx2 Q1D qx dx))
    (fun qx hqx => by beta_reduce; rw [h0 qz qy qx hqz hqy hqx, hG dx qx hdx hqx])
    (fun qx hqx => by beta_reduce; rw [h1 qz qy qx hqz hqy hqx, hB dx qx hdx hqx])
    (fun qx hqx => by beta_reduce; rw [h2 qz qy qx hqz hqy hqx, hB dx qx hdx hqx])
  obtain ⟨e0, e1, e2⟩ := smem_write3_tuple Q1D Q1D D1D (MDQ * MDQ * MDQ)
    (row3 MQ1 MD1)
    (fun qz qy dx => forLoop Q1D (fun qx (uvw : K × K × K) =>
      (uvw.1 + sm0 (view3 (MDQ * MDQ * MDQ) 0 MQ1 MQ1 qz qy qx) *
          sBG (view2 (MQ1 * MD1) 1 MQ1 dx qx),
       uvw.2.1 + sm0 (view3 (MDQ * MDQ * MDQ) 1 MQ1 MQ1 qz qy qx) *
          sBG (view2 (MQ1 * MD1) 0 MQ1 dx qx),
       uvw.2.2 + sm0 (view3 (MDQ * MDQ * MDQ) 2 MQ1 MQ1 qz qy qx) *
          sBG (view2 (MQ1 * MD1) 0 MQ1 dx qx))) (0, 0, 0))
    sm1
    (fun a b c ha hb hc => row3_lt_cube ha (Nat.lt_of_lt_of_le hb hQ)
      (Nat.lt_of_lt_of_le hc hD) (Nat.le_trans hQ hMQ) hMQ hMD)
    (fun a b c a' b' c' _ hb hc _ hb' hc' h => row3_inj (Nat.lt_of_lt_of_le hb hQ)
      (Nat.lt_of_lt_of_le hb' hQ) (Nat.lt_of_lt_of_le hc hD)
      (Nat.lt_of_lt_of_le hc' hD) h)
    qz qy dx hqz hqy hdx
  exact ⟨e0.trans (congrArg (fun t => t.1) hval), e1.trans (congrArg (fun t => t.2.1) hval),
    e2.trans (congrArg (fun t => t.2.2) hval)⟩

theorem smem3D_phaseQDD_spec (D1D Q1D MD1 MQ1 MDQ : Nat) (b g : Nat → K)
    (sBG sm1 sm0 : Nat → K) (F0 F1 F2 : Nat → Nat → Nat → K)
    (hD : D1D ≤ MD1) (hQ : Q1D ≤ MQ1) (hMD : MD1 ≤ MDQ) (hMQ : MQ1 ≤ MDQ)
    (h0 : ∀ qz qy dx, qz < Q1D → qy < Q1D → dx < D1D →
      sm1 (view3 (MDQ * MDQ * MDQ) 0 MQ1 MD1 qz qy dx) = F0 qz qy dx)
    (h1 : ∀ qz qy dx, qz < Q1D → qy < Q1D → dx < D1D →
      sm1 (view3 (MDQ * MDQ * MDQ) 1 MQ1 MD1 qz qy dx) = F1 qz qy dx)
    (h2 : ∀ qz qy dx, qz < Q1D → qy < Q1D → dx < D1D →
      sm1 (view3 (MDQ * MDQ * MDQ) 2 MQ1 MD1 qz qy dx) = F2 qz qy dx)
    (hB : ∀ d q, d < D1D → q < Q1D → sBG (view2 (MQ1 * MD1) 0 MQ1 d q) = b (idx2 Q1D q d))
    (hG : ∀ d q, d < D1D → q < Q1D → sBG (view2 (MQ1 * MD1) 1 MQ1 d q) = g (idx2 Q1D q d))
    (qz dy dx : Nat) (hqz : qz < Q1D) (hdy : dy < D1D) (hdx : dx < D1D) :
    smem3D_phaseQDD D1D Q1D MD1 MQ1 MDQ sBG sm1 sm0
        (view3 (MDQ * MDQ * MDQ) 0 MD1 MD1 qz dy dx) =
      ∑ qy in Finset.range Q1D, F0 qz qy dx * b (idx2 Q1D qy dy) ∧
    smem3D_phaseQDD D1D Q1D MD1 MQ1 MDQ sBG sm1 sm0
        (view3 (MDQ * MDQ * MDQ) 1 MD1 MD1 qz dy dx) =
      ∑ qy in Finset.range Q1D, F1 qz qy dx * g (idx2 Q1D qy dy) ∧
    smem3D_phaseQDD D1D Q1D MD1 MQ1 MDQ sBG sm1 sm0
        (view3 (MDQ * MDQ * MDQ) 2 MD1 MD1 qz dy dx) =
      ∑ qy in Finset.range Q1D, F2 qz qy dx * b (idx2 Q1D qy dy) := by
  have hval := forLoop_sum3_congr Q1D
    (fun qy => sm1 (view3 (MDQ * MDQ * MDQ) 0 MQ1 MD1 qz qy dx) *
          sBG (view2 (MQ1 * MD1) 0 MQ1 dy qy))
    (fun qy => sm1 (view3 (MDQ * MDQ * MDQ) 1 MQ1 MD1 qz qy dx) *
          sBG (view2 (MQ1 * MD1) 1 MQ1 dy qy))
    (fun qy => sm1 (view3 (MDQ * MDQ * MDQ) 2 MQ1 MD1 qz qy dx) *
          sBG (view2 (MQ1 * MD1) 0 MQ1 dy qy))
    (fun qy => F0 qz qy dx * b (idx2 Q1D qy dy))
    (fun qy => F1 qz qy dx * g (idx2 Q1D qy dy))
    (fun qy => F2 qz qy dx * b (idx2 Q1D qy dy))
    (fun qy hqy => by beta_reduce; rw [h0 qz qy dx hqz hqy hdx, hB dy qy hdy hqy])
    (fun qy hqy => by beta_reduce; rw [h1 qz qy dx hqz hqy hdx, hG dy qy hdy hqy])
    (fun qy hqy => by beta_reduce; rw [h2 qz qy dx hqz hqy hdx, hB dy qy hdy hqy])
  obtain ⟨e0, e1, e2⟩ := smem_write3_tuple Q1D D1D D1D (MDQ * MDQ * MDQ)
    (row3 MD1 MD1)
    (fun qz dy dx => forLoop Q1D (fun qy (uvw : K × K × K) =>
      (uvw.1 + sm1 (view3 (MDQ * MDQ * MDQ) 0 MQ1 MD1 qz qy dx) *
          sBG (view2 (MQ1 * MD1) 0 MQ1 dy qy),
       uvw.2.1 + sm1 (view3 (MDQ * MDQ * MDQ) 1 MQ1 MD1 qz qy dx) *
          sBG (view2 (MQ1 * MD1) 1 MQ1 dy qy),
       uvw.2.2 + sm1 (view3 (MDQ * MDQ * MDQ) 2 MQ1 MD1 qz qy dx) *
          sBG (view2 (MQ1 * MD1) 0 MQ1 dy qy))) (0, 0, 0))
    sm0
    (fun a b c ha hb hc => row3_lt_cube ha (Nat.lt_of_lt_of_le hb hD)
      (Nat.lt_of_lt_of_le hc hD) (Nat.le_trans hQ hMQ) hMD hMD)
    (fun a b c a' b' c' _ hb hc _ hb' hc' h => row3_inj (Nat.lt_of_lt_of_le hb hD)
      (Nat.lt_of_lt_of_le hb' hD) (Nat.lt_of_lt_of_le hc hD)
      (Nat.lt_of_lt_of_le hc' hD) h)
    qz dy dx hqz hdy hdx
  exact ⟨e0.trans (congrArg (fun t => t.1) hval), e1.trans (congrArg (fun t => t.2.1) hval),
    e2.trans (congrArg (fun t => t.2.2) hval)⟩

theorem smem3D_phaseMetric_spec (Q1D MQ1 MDQ : Nat) (op : Nat → K) (e : Nat) (sm0 : Nat → K)
    (F0 F1 F2 : Nat → Nat → Nat → K) (hQ : Q1D ≤ MQ1) (hMQ : MQ1 ≤ MDQ)
    (h0 : ∀ qz qy qx, qz < Q1D → qy < Q1D → qx < Q1D →
      sm0 (view3 (MDQ * MDQ * MDQ) 0 MQ1 MQ1 qz qy qx) = F0 qz qy qx)
    (h1 : ∀ qz qy qx, qz < Q1D → qy < Q1D → qx < Q1D →
      sm0 (view3 (MDQ * MDQ * MDQ) 1 MQ1 MQ1 qz qy qx) = F1 qz qy qx)
    (h2 : ∀ qz qy qx, qz < Q1D → qy < Q1D → qx < Q1D →
      sm0 (view3 (MDQ * MDQ * MDQ) 2 MQ1 MQ1 qz qy qx) = F2 qz qy qx)
    (qz qy qx : Nat) (hqz : qz < Q1D) (hqy : qy < Q1D) (hqx : qx < Q1D) (c : Fin 3) :
    smem3D_phaseMetric Q1D MQ1 MDQ op e sm0 (view3 (MDQ * MDQ * MDQ) c.val MQ1 MQ1 qz qy qx) =
      Matrix.mulVec (metricO3 (Q1D * Q1D * Q1D) op (qx + (qy + qz * Q1D) * Q1D) e)
        ![F0 qz qy qx, F1 qz qy qx, F2 qz qy qx] c := by
  unfold smem3D_phaseMetric
  have hlt : ∀ a b c, a < Q1D → b < Q1D → c < Q1D →
      row3 MQ1 MQ1 a b c < MDQ * MDQ * MDQ := fun a b c ha hb hc =>
    row3_lt_cube ha (Nat.lt_of_lt_of_le hb hQ) (Nat.lt_of_lt_of_le hc hQ)
      (Nat.le_trans hQ hMQ) hMQ hMQ
  have hq : qx + ((qy * Q1D) + (qz * Q1D * Q1D)) = qx + (qy + qz * Q1D) * Q1D := by ring
  have hne : ∀ k k' a b c', a < Q1D → b < Q1D → c' < Q1D → ¬ (a = qz ∧ b = qy ∧ c' = qx) →
      view3 (MDQ * MDQ * MDQ) k MQ1 MQ1 qz qy qx ≠ view3 (MDQ * MDQ * MDQ) k' MQ1 MQ1 a b c' := by
    intro k k' a b c' ha hb hc hne heq
    have h := view3_inj (Nat.lt_of_lt_of_le hqy hQ) (Nat.lt_of_lt_of_le hb hQ)
      (Nat.lt_of_lt_of_le hqx hQ) (Nat.lt_of_lt_of_le hc hQ) (hlt qz qy qx hqz hqy hqx)
      (hlt a b c' ha hb hc) heq
    exact hne ⟨h.2.1.symm, h.2.2.1.symm, h.2.2.2.symm⟩
  have hblk : ∀ k k', k ≠ k' →
      view3 (MDQ * MDQ * MDQ) k MQ1 MQ1 qz qy qx ≠ view3 (MDQ * MDQ * MDQ) k' MQ1 MQ1 qz qy qx :=
    fun k k' hk => view3_ne_blk (hlt qz qy qx hqz hqy hqx) (hlt qz qy qx hqz hqy hqx) hk
  refine forLoop3_single
    (fun s : Nat → K => s (view3 (MDQ * MDQ * MDQ) c.val MQ1 MQ1 qz qy qx))
    (fun s => s (view3 (MDQ * MDQ * MDQ) 0 MQ1 MQ1 qz qy qx) = F0 qz qy qx ∧
      s (view3 (MDQ * MDQ * MDQ) 1 MQ1 MQ1 qz qy qx) = F1 qz qy qx ∧
      s (view3 (MDQ * MDQ * MDQ) 2 MQ1 MQ1 qz qy qx) = F2 qz qy qx)
    Q1D Q1D Q1D qz qy qx _ sm0 _ hqz hqy hqx
    ⟨h0 qz qy qx hqz hqy hqx, h1 qz qy qx hqz hqy hqx, h2 qz qy qx hqz hqy hqx⟩ ?_ ?_ ?_
  · intro a b c' ha hb hc hne' s hs
    simp only [Function.update_noteq (hne _ _ a b c' ha hb hc hne')]
    exact hs
  · intro s hs
    beta_reduce
    rw [hq, hs.1, hs.2.1, hs.2.2]
    fin_cases c
    · show Function.update _ _ _ (view3 _ 0 _ _ _ _ _) = _
      rw [Function.update_noteq (hblk 0 2 (by decide)),
        Function.update_noteq (hblk 0 1 (by decide)), Function.update_same]
      simp [metricO3, Matrix.mulVec, Matrix.dotProduct, Fin.sum_univ_three]
    · show Function.update _ _ _ (view3 _ 1 _ _ _ _ _) = _
      rw [Function.update_noteq (hblk 1 2 (by decide)), Function.update_same]
      simp [metricO3, Matrix.mulVec, Matrix.dotProduct, Fin.sum_univ_three]
    · show Function.update _ _ _ (view3 _ 2 _ _ _ _ _) = _
      rw [Function.update_same]
      simp [metricO3, Matrix.mulVec, Matrix.dotProduct, Fin.sum_univ_three]
  · intro a b c' ha hb hc hne' s
    simp only [Function.update_noteq (hne _ _ a b c' ha hb hc hne')]

theorem smem3D_phaseY_spec (D1D Q1D MD1 MQ1 MDQ : Nat) (b g : Nat → K) (sBG sm0 : Nat → K)
    (e : Nat) (y : Nat → K) (F0 F1 F2 : Nat → Nat → Nat → K)
    (h0 : ∀ qz dy dx, qz < Q1D → dy < D1D → dx < D1D →
      sm0 (view3 (MDQ * MDQ * MDQ) 0 MD1 MD1 qz dy dx) = F0 qz dy dx)
    (h1 : ∀ qz dy dx, qz < Q1D → dy < D1D → dx < D1D →
      sm0 (view3 (MDQ * MDQ * MDQ) 1 MD1 MD1 qz dy dx) = F1 qz dy dx)
    (h2 : ∀ qz dy dx, qz < Q1D → dy < D1D → dx < D1D →
      sm0 (view3 (MDQ * MDQ * MDQ) 2 MD1 MD1 qz dy dx) = F2 qz dy dx)
    (hB : ∀ d q, d < D1D → q < Q1D → sBG (view2 (MQ1 * MD1) 0 MQ1 d q) = b (idx2 Q1D q d))
    (hG : ∀ d q, d < D1D → q < Q1D → sBG (view2 (MQ1 * MD1) 1 MQ1 d q) = g (idx2 Q1D q d))
    (dx dy dz : Nat) (hdx : dx < D1D) (hdy : dy < D1D) (hdz : dz < D1D) :
    smem3D_phaseY D1D Q1D MD1 MQ1 MDQ sBG sm0 e y (idx4 D1D D1D D1D dx dy dz e) =
      y (idx4 D1D D1D D1D dx dy dz e) +
        (∑ qz in Finset.range Q1D, F0 qz dy dx * b (idx2 Q1D qz dz) +
         ∑ qz in Finset.range Q1D, F1 qz dy dx * b (idx2 Q1D qz dz) +
         ∑ qz in Finset.range Q1D, F2 qz dy dx * g (idx2 Q1D qz dz)) := by
  unfold smem3D_phaseY
  have hval := forLoop_sum3_congr Q1D
    (fun qz => sm0 (view3 (MDQ * MDQ * MDQ) 0 MD1 MD1 qz dy dx) *
      sBG (view2 (MQ1 * MD1) 0 MQ1 dz qz))
    (fun qz => sm0 (view3 (MDQ * MDQ * MDQ) 1 MD1 MD1 qz dy dx) *
      sBG (view2 (MQ1 * MD1) 0 MQ1 dz qz))
    (fun qz => sm0 (view3 (MDQ * MDQ * MDQ) 2 MD1 MD1 qz dy dx) *
      sBG (view2 (MQ1 * MD1) 1 MQ1 dz qz))
    (fun qz => F0 qz dy dx * b (idx2 Q1D qz dz))
    (fun qz => F1 qz dy dx * b (idx2 Q1D qz dz))
    (fun qz => F2 qz dy dx * g (idx2 Q1D qz dz))
    (fun qz hqz => by beta_reduce; rw [h0 qz dy dx hqz hdy hdx, hB dz qz hdz hqz])
    (fun qz hqz => by beta_reduce; rw [h1 qz dy dx hqz hdy hdx, hB dz qz hdz hqz])
    (fun qz hqz => by beta_reduce; rw [h2 qz dy dx hqz hdy hdx, hG dz qz hdz hqz])
  refine forLoop3_single (fun y : Nat → K => y (idx4 D1D D1D D1D dx dy dz e))
    (fun s => s (idx4 D1D D1D D1D dx dy dz e) = y (idx4 D1D D1D D1D dx dy dz e))
    D1D D1D D1D dz dy dx _ y _ hdz hdy hdx rfl ?_ ?_ ?_
  · intro a b' c ha hb hc hne s hs
    beta_reduce
    rw [Function.update_noteq (idx4_ne hdx hc hdy hb hdz ha
      (fun h => hne ⟨h.2.2.1.symm, h.2.1.symm, h.1.symm⟩))]
    exact hs
  · intro s hs
    beta_reduce
    rw [Function.update_same, hs, hval]
  · intro a b' c ha hb hc hne s
    beta_reduce
    rw [Function.update_noteq (idx4_ne hdx hc hdy hb hdz ha
      (fun h => hne ⟨h.2.2.1.symm, h.2.1.symm, h.1.symm⟩))]

theorem smem3D_phaseY_frame (D1D Q1D MD1 MQ1 MDQ : Nat) (sBG sm0 : Nat → K)
    (e : Nat) (y : Nat → K) (a : Nat)
    (ha : ∀ dx dy dz, dx < D1D → dy < D1D → dz < D1D → a ≠ idx4 D1D D1D D1D dx dy dz e) :
    smem3D_phaseY D1D Q1D MD1 MQ1 MDQ sBG sm0 e y a = y a := by
  unfold smem3D_phaseY
  refine forLoop3_untouched (fun y : Nat → K => y a) D1D D1D D1D _ y ?_
  intro dz dy dx hdz hdy hdx s
  beta_reduce
  rw [Function.update_noteq (ha dx dy dz hdx hdy hdz)]

theorem vec3_eta (v : Fin 3 → K) : ![v 0, v 1, v 2] = v := by
  funext i
  fin_cases i <;> rfl

theorem SmemPADiffusionApply3D_body_spec (D1D Q1D MD1 MQ1 : Nat) (b g op x : Nat → K)
    (sh : Shared3D K) (e : Nat) (y : Nat → K) (hD : D1D ≤ MD1) (hQ : Q1D ≤ MQ1)
    (dx dy dz : Nat) (hdx : dx < D1D) (hdy : dy < D1D) (hdz : dz < D1D) :
    SmemPADiffusionApply3D_body D1D Q1D MD1 MQ1 b g op x sh e y (idx4 D1D D1D D1D dx dy dz e) =
      y (idx4 D1D D1D D1D dx dy dz e) + sumfact3D_action D1D Q1D b g op x e dx dy dz := by
  unfold SmemPADiffusionApply3D_body
  generalize hMDQ : (if MQ1 > MD1 then MQ1 else MD1) = MDQ
  have hMD : MD1 ≤ MDQ := by rw [← hMDQ]; split_ifs <;> omega
  have hMQ : MQ1 ≤ MDQ := by rw [← hMDQ]; split_ifs <;> omega
  -- phase 1: loads
  have hX := smem3D_loadX_spec D1D MD1 MDQ x e sh.sm0 hD hMD
  have hB := fun q d hq hd => (smem3D_loadBG_spec D1D Q1D MD1 MQ1 b g sh.sBG hD hQ q d hq hd).1
  have hG := fun q d hq hd => (smem3D_loadBG_spec D1D Q1D MD1 MQ1 b g sh.sBG hD hQ q d hq hd).2
  -- phase 2: contraction over dx
  have hDDQ := smem3D_phaseDDQ_spec D1D Q1D MD1 MQ1 MDQ b g
    (smem3D_loadBG D1D Q1D MD1 MQ1 b g 0 sh.sBG) (smem3D_loadX D1D MD1 MDQ x e sh.sm0)
    (fun dz dy dx => x (idx4 D1D D1D D1D dx dy dz e)) hD hQ hMD hMQ hX hB hG
  -- phase 3: contraction over dy
  have hDQQ := smem3D_phaseDQQ_spec D1D Q1D MD1 MQ1 MDQ b g _ _ sh.sm1 _ _ hD hQ hMD hMQ
    (fun dz dy qx h1 h2 h3 => (hDDQ dz dy qx h1 h2 h3).1)
    (fun dz dy qx h1 h2 h3 => (hDDQ dz dy qx h1 h2 h3).2) hB hG
  -- phase 4: contraction over dz
  have hQQQ := smem3D_phaseQQQ_spec D1D Q1D MD1 MQ1 MDQ b g _ _
    (smem3D_phaseDDQ D1D Q1D MD1 MQ1 MDQ (smem3D_loadBG D1D Q1D MD1 MQ1 b g 0 sh.sBG)
      (smem3D_loadX D1D MD1 MDQ x e sh.sm0)) _ _ _ hD hQ hMD hMQ
    (fun dz qy qx h1 h2 h3 => (hDQQ dz qy qx h1 h2 h3).1)
    (fun dz qy qx h1 h2 h3 => (hDQQ dz qy qx h1 h2 h3).2.1)
    (fun dz qy qx h1 h2 h3 => (hDQQ dz qy qx h1 h2 h3).2.2) hB hG
  have hgrad : ∀ (c : Fin 3) qz qy qx, qz < Q1D → qy < Q1D → qx < Q1D →
      smem3D_phaseQQQ D1D Q1D MD1 MQ1 MDQ (smem3D_loadBG D1D Q1D MD1 MQ1 b g 0 sh.sBG)
        (smem3D_phaseDQQ D1D Q1D MD1 MQ1 MDQ (smem3D_loadBG D1D Q1D MD1 MQ1 b g 0 sh.sBG)
          (smem3D_phaseDDQ D1D Q1D MD1 MQ1 MDQ (smem3D_loadBG D1D Q1D MD1 MQ1 b g 0 sh.sBG)
            (smem3D_loadX D1D MD1 MDQ x e sh.sm0)) sh.sm1)
        (smem3D_phaseDDQ D1D Q1D MD1 MQ1 MDQ (smem3D_loadBG D1D Q1D MD1 MQ1 b g 0 sh.sBG)
          (smem3D_loadX D1D MD1 MDQ x e sh.sm0))
        (view3 (MDQ * MDQ * MDQ) c.val MQ1 MQ1 qz qy qx) =
      sumfact3D_grad D1D Q1D b g x e qz qy qx c := by
    intro c qz qy qx h1 h2 h3
    fin_cases c
    · exact (hQQQ qz qy qx h1 h2 h3).1
    · exact (hQQQ qz qy qx h1 h2 h3).2.1
    · exact (hQQQ qz qy qx h1 h2 h3).2.2
  -- phase 5: metric
  have hflux : ∀ (c : Fin 3) qz qy qx, qz < Q1D → qy < Q1D → qx < Q1D → _ =
      sumfact3D_flux D1D Q1D b g op x e qz qy qx c := fun c qz qy qx h1 h2 h3 =>
    (smem3D_phaseMetric_spec Q1D MQ1 MDQ op e _ _ _ _ hQ hMQ (hgrad 0) (hgrad 1) (hgrad 2)
      qz qy qx h1 h2 h3 c).trans (by rw [vec3_eta]; rfl)
  -- phase 6: transposed tables
  have hBt := fun d q hd hq => (smem3D_loadBGt_spec D1D Q1D MD1 MQ1 b g
    (smem3D_loadBG D1D Q1D MD1 MQ1 b g 0 sh.sBG) hD hQ d q hd hq).1
  have hGt := fun d q hd hq => (smem3D_loadBGt_spec D1D Q1D MD1 MQ1 b g
    (smem3D_loadBG D1D Q1D MD1 MQ1 b g 0 sh.sBG) hD hQ d q hd hq).2
  -- phase 7: contraction over qx
  have hQQD := smem3D_phaseQQD_spec D1D Q1D MD1 MQ1 MDQ b g _ _
    (smem3D_phaseDQQ D1D Q1D MD1 MQ1 MDQ (smem3D_loadBG D1D Q1D MD1 MQ1 b g 0 sh.sBG)
      (smem3D_phaseDDQ D1D Q1D MD1 MQ1 MDQ (smem3D_loadBG D1D Q1D MD1 MQ1 b g 0 sh.sBG)
        (smem3D_loadX D1D MD1 MDQ x e sh.sm0)) sh.sm1) _ _ _ hD hQ hMD hMQ
    (hflux 0) (hflux 1) (hflux 2) hBt hGt
  -- phase 8: contraction over qy
  have hQDD := smem3D_phaseQDD_spec D1D Q1D MD1 MQ1 MDQ b g _ _
    (smem3D_phaseMetric Q1D MQ1 MDQ op e
      (smem3D_phaseQQQ D1D Q1D MD1 MQ1 MDQ (smem3D_loadBG D1D Q1D MD1 MQ1 b g 0 sh.sBG)
        (smem3D_phaseDQQ D1D Q1D MD1 MQ1 MDQ (smem3D_loadBG D1D Q1D MD1 MQ1 b g 0 sh.sBG)
          (smem3D_phaseDDQ D1D Q1D MD1 MQ1 MDQ (smem3D_loadBG D1D Q1D MD1 MQ1 b g 0 sh.sBG)
            (smem3D_loadX D1D MD1 MDQ x e sh.sm0)) sh.sm1)
        (smem3D_phaseDDQ D1D Q1D MD1 MQ1 MDQ (smem3D_loadBG D1D Q1D MD1 MQ1 b g 0 sh.sBG)
          (smem3D_loadX D1D MD1 MDQ x e sh.sm0)))) _ _ _ hD hQ hMD hMQ
    (fun qz qy dx h1 h2 h3 => (hQQD qz qy dx h1 h2 h3).1)
    (fun qz qy dx h1 h2 h3 => (hQQD qz qy dx h1 h2 h3).2.1)
    (fun qz qy dx h1 h2 h3 => (hQQD qz qy dx h1 h2 h3).2.2) hBt hGt
  -- phase 9: contraction over qz
  have hY := smem3D_phaseY_spec D1D Q1D MD1 MQ1 MDQ b g _ _ e y _ _ _
    (fun qz dy dx h1 h2 h3 => (hQDD qz dy dx h1 h2 h3).1)
    (fun qz dy dx h1 h2 h3 => (hQDD qz dy dx h1 h2 h3).2.1)
    (fun qz dy dx h1 h2 h3 => (hQDD qz dy dx h1 h2 h3).2.2) hBt hGt dx dy dz hdx hdy hdz
  refine hY.trans ?_
  rw [sumfact3D_action, ← Finset.sum_add_distrib, ← Finset.sum_add_distrib]

theorem SmemPADiffusionApply3D_body_frame (D1D Q1D MD1 MQ1 : Nat) (b g op x : Nat → K)
    (sh : Shared3D K) (e : Nat) (y : Nat → K) (a : Nat)
    (ha : ∀ dx dy dz, dx < D1D → dy < D1D → dz < D1D → a ≠ idx4 D1D D1D D1D dx dy dz e) :
    SmemPADiffusionApply3D_body D1D Q1D MD1 MQ1 b g op x sh e y a = y a := by
  unfold SmemPADiffusionApply3D_body
  exact smem3D_phaseY_frame _ _ _ _ _ _ _ _ _ _ ha

/-- Within its limits the tiled kernel runs the element loop. -/
theorem SmemPADiffusionApply3D_eq_some (MAX_D1D MAX_Q1D T_D1D T_Q1D NE : Nat)
    (b g op x : Nat → K) (sh : Shared3D K) (y0 : Nat → K) (d1d q1d D1D Q1D MD1 MQ1 : Nat)
    (hD1D : D1D = if T_D1D ≠ 0 then T_D1D else d1d)
    (hQ1D : Q1D = if T_Q1D ≠ 0 then T_Q1D else q1d)
    (hMD1 : MD1 = if T_D1D ≠ 0 then T_D1D else MAX_D1D)
    (hMQ1 : MQ1 = if T_Q1D ≠ 0 then T_Q1D else MAX_Q1D)
    (hD : D1D ≤ MD1) (hQ : Q1D ≤ MQ1) :
    SmemPADiffusionApply3D MAX_D1D MAX_Q1D T_D1D T_Q1D NE b g op x sh y0 d1d q1d =
      some (forLoop NE
        (fun e y => SmemPADiffusionApply3D_body D1D Q1D MD1 MQ1 b g op x sh e y) y0) := by
  simp only [SmemPADiffusionApply3D]
  rw [← hD1D, ← hQ1D, ← hMD1, ← hMQ1, if_neg (not_not.mpr hD), if_neg (not_not.mpr hQ)]

/-- The element loop of the tiled 3D kernel adds the sum-factorized action to
every cell of every element. -/
theorem SmemPADiffusionApply3D_loop_spec (D1D Q1D MD1 MQ1 NE : Nat) (b g op x : Nat → K)
    (sh : Shared3D K) (y0 : Nat → K) (hD : D1D ≤ MD1) (hQ : Q1D ≤ MQ1)
    (e dx dy dz : Nat) (he : e < NE) (hdx : dx < D1D) (hdy : dy < D1D) (hdz : dz < D1D) :
    forLoop NE (fun e y => SmemPADiffusionApply3D_body D1D Q1D MD1 MQ1 b g op x sh e y) y0
      (idx4 D1D D1D D1D dx dy dz e) =
    y0 (idx4 D1D D1D D1D dx dy dz e) + denseAction3D D1D Q1D b g op x e dx dy dz := by
  refine forLoop_elements NE _ (fun e (i : Nat × Nat × Nat) => idx4 D1D D1D D1D i.1 i.2.1 i.2.2 e)
    (fun i => i.1 < D1D ∧ i.2.1 < D1D ∧ i.2.2 < D1D)
    (fun e i => denseAction3D D1D Q1D b g op x e i.1 i.2.1 i.2.2) y0 ?_ ?_ ?_ e (dx, dy, dz) he
    ⟨hdx, hdy, hdz⟩
  · intro e e' i i' hi hi' h
    exact (idx4_inj hi.1 hi'.1 hi.2.1 hi'.2.1 hi.2.2 hi'.2.2 h).2.2.2
  · intro e y a ha
    exact SmemPADiffusionApply3D_body_frame _ _ _ _ _ _ _ _ _ _ _ _
      (fun dx dy dz hdx hdy hdz => ha (dx, dy, dz) ⟨hdx, hdy, hdz⟩)
  · intro e y i hi
    beta_reduce
    rw [← sumfact3D_eq_dense]
    exact SmemPADiffusionApply3D_body_spec _ _ _ _ _ _ _ _ _ _ _ hD hQ _ _ _ hi.1 hi.2.1 hi.2.2

theorem SmemPADiffusionApply3D_loop_frame (D1D Q1D MD1 MQ1 NE : Nat) (b g op x : Nat → K)
    (sh : Shared3D K) (y0 : Nat → K) (a : Nat)
    (ha : ∀ e dx dy dz, e < NE → dx < D1D → dy < D1D → dz < D1D →
      a ≠ idx4 D1D D1D D1D dx dy dz e) :
    forLoop NE (fun e y => SmemPADiffusionApply3D_body D1D Q1D MD1 MQ1 b g op x sh e y) y0 a =
      y0 a := by
  refine forLoop_elements_frame NE _
    (fun e (i : Nat × Nat × Nat) => idx4 D1D D1D D1D i.1 i.2.1 i.2.2 e)
    (fun i => i.1 < D1D ∧ i.2.1 < D1D ∧ i.2.2 < D1D) y0 ?_ a
    (fun e he i hi => ha e i.1 i.2.1 i.2.2 he hi.1 hi.2.1 hi.2.2)
  intro e y a ha
  exact SmemPADiffusionApply3D_body_frame _ _ _ _ _ _ _ _ _ _ _ _
    (fun dx dy dz hdx hdy hdz => ha (dx, dy, dz) ⟨hdx, hdy, hdz⟩)

/-- The element loops of the tiled and of the private-scratch 3D kernel leave
the same output buffer. -/
theorem smem3D_loop_eq_generic_loop (D1D Q1D MD1 MQ1 NE : Nat) (b g bt gt op x : Nat → K)
    (sh : Shared3D K) (s0 : Scratch3D K) (y0 : Nat → K) (hD : D1D ≤ MD1) (hQ : Q1D ≤ MQ1)
    (hbt : ∀ d q, d < D1D → q < Q1D → bt (idx2 D1D d q) = b (idx2 Q1D q d))
    (hgt : ∀ d q, d < D1D → q < Q1D → gt (idx2 D1D d q) = g (idx2 Q1D q d)) :
    forLoop NE (fun e y => SmemPADiffusionApply3D_body D1D Q1D MD1 MQ1 b g op x sh e y) y0 =
    forLoop NE (fun e y => PADiffusionApply3D_body D1D Q1D b g bt gt op x s0 e y) y0 := by
  funext a
  by_cases h : ∃ e dx dy dz, e < NE ∧ dx < D1D ∧ dy < D1D ∧ dz < D1D ∧
      a = idx4 D1D D1D D1D dx dy dz e
  · obtain ⟨e, dx, dy, dz, he, hdx, hdy, hdz, rfl⟩ := h
    rw [SmemPADiffusionApply3D_loop_spec D1D Q1D MD1 MQ1 NE b g op x sh y0 hD hQ e dx dy dz
        he hdx hdy hdz,
      PADiffusionApply3D_loop_spec D1D Q1D NE b g bt gt op x s0 y0 hbt hgt e dx dy dz
        he hdx hdy hdz]
  · have h' : ∀ e dx dy dz, e < NE → dx < D1D → dy < D1D → dz < D1D →
        a ≠ idx4 D1D D1D D1D dx dy dz e :=
      fun e dx dy dz he hdx hdy hdz heq => h ⟨e, dx, dy, dz, he, hdx, hdy, hdz, heq⟩
    rw [SmemPADiffusionApply3D_loop_frame D1D Q1D MD1 MQ1 NE b g op x sh y0 a h',
      PADiffusionApply3D_loop_frame D1D Q1D NE b g bt gt op x s0 y0 a h']

/-- **C5.** The cooperative tiled 3D kernel computes the same result as the
private-scratch 3D kernel: for every instantiation with `D1D <= MD1` and
`Q1D <= MQ1`, with each phase between barriers executed for all workers before
the next phase starts, `SmemPADiffusionApply3D(b,g,op,x,y)` succeeds and
leaves in `y` exactly the buffer the element loop of
`PADiffusionApply3D(b,g,bᵀ,gᵀ,op,x,y)` leaves, whatever the initial contents of
the scratch arrays of either kernel; whenever the private-scratch kernel
accepts the sizes the two calls return the same buffer. -/
theorem SmemPADiffusionApply3D_eq_generic (MAX_D1D MAX_Q1D T_D1D T_Q1D NE : Nat)
    (b g bt gt op x : Nat → K) (sh : Shared3D K) (s0 : Scratch3D K) (y0 : Nat → K)
    (d1d q1d D1D Q1D MD1 MQ1 : Nat)
    (hD1D : D1D = if T_D1D ≠ 0 then T_D1D else d1d)
    (hQ1D : Q1D = if T_Q1D ≠ 0 then T_Q1D else q1d)
    (hMD1 : MD1 = if T_D1D ≠ 0 then T_D1D else MAX_D1D)
    (hMQ1 : MQ1 = if T_Q1D ≠ 0 then T_Q1D else MAX_Q1D)
    (hD : D1D ≤ MD1) (hQ : Q1D ≤ MQ1)
    (hbt : ∀ d q, d < D1D → q < Q1D → bt (idx2 D1D d q) = b (idx2 Q1D q d))
    (hgt : ∀ d q, d < D1D → q < Q1D → gt (idx2 D1D d q) = g (idx2 Q1D q d)) :
    SmemPADiffusionApply3D MAX_D1D MAX_Q1D T_D1D T_Q1D NE b g op x sh y0 d1d q1d =
      some (forLoop NE
        (fun e y => PADiffusionApply3D_body D1D Q1D b g bt gt op x s0 e y) y0) ∧
    (D1D ≤ MAX_D1D → Q1D ≤ MAX_Q1D →
      SmemPADiffusionApply3D MAX_D1D MAX_Q1D T_D1D T_Q1D NE b g op x sh y0 d1d q1d =
        PADiffusionApply3D MAX_D1D MAX_Q1D T_D1D T_Q1D NE b g bt gt op x s0 y0 d1d q1d) := by
  have h1 : SmemPADiffusionApply3D MAX_D1D MAX_Q1D T_D1D T_Q1D NE b g op x sh y0 d1d q1d =
      some (forLoop NE
        (fun e y => PADiffusionApply3D_body D1D Q1D b g bt gt op x s0 e y) y0) := by
    rw [SmemPADiffusionApply3D_eq_some MAX_D1D MAX_Q1D T_D1D T_Q1D NE b g op x sh y0 d1d q1d
      D1D Q1D MD1 MQ1 hD1D hQ1D hMD1 hMQ1 hD hQ,
      smem3D_loop_eq_generic_loop D1D Q1D MD1 MQ1 NE b g bt gt op x sh s0 y0 hD hQ hbt hgt]
  refine ⟨h1, fun hDmax hQmax => ?_⟩
  rw [h1, PADiffusionApply3D_eq_some MAX_D1D MAX_Q1D T_D1D T_Q1D NE b g bt gt op x s0 y0
    d1d q1d D1D Q1D hD1D hQ1D hDmax hQmax]

/-- Witness for C5: the instantiation `<2,3>` on one element. -/
theorem SmemPADiffusionApply3D_eq_generic_witness :
    ((2 : Nat) ≤ 2 ∧ (3 : Nat) ≤ 3) ∧
    SmemPADiffusionApply3D 14 14 2 3 1 (fun i => (i : ℤ) + 1) (fun i => 2 * (i : ℤ))
        (fun i => (i : ℤ)) (fun i => (i : ℤ)) ⟨fun _ => 7, fun _ => 8, fun _ => 9⟩
        (fun _ => 5) 0 0 =
      PADiffusionApply3D 14 14 2 3 1 (fun i => (i : ℤ) + 1) (fun i => 2 * (i : ℤ))
        (fun i => ((idx2 3 (i / 2) (i % 2) : Nat) : ℤ) + 1)
        (fun i => 2 * ((idx2 3 (i / 2) (i % 2) : Nat) : ℤ))
        (fun i => (i : ℤ)) (fun i => (i : ℤ))
        ⟨fun _ _ _ _ => 7, fun _ _ _ => 7, fun _ _ => 7, fun _ _ _ => 7, fun _ _ => 7⟩
        (fun _ => 5) 0 0 := by
  have hidx : ∀ d q, d < 2 → q < 3 → idx2 3 (idx2 2 d q / 2) (idx2 2 d q % 2) = idx2 3 q d := by
    intro d q hd hq
    interval_cases d <;> interval_cases q <;> rfl
  exact ⟨⟨by decide, by decide⟩,
    (SmemPADiffusionApply3D_eq_generic 14 14 2 3 1 (fun i => (i : ℤ) + 1)
      (fun i => 2 * (i : ℤ)) (fun i => ((idx2 3 (i / 2) (i % 2) : Nat) : ℤ) + 1)
      (fun i => 2 * ((idx2 3 (i / 2) (i % 2) : Nat) : ℤ))
      (fun i => (i : ℤ)) (fun i => (i : ℤ)) ⟨fun _ => 7, fun _ => 8, fun _ => 9⟩
      ⟨fun _ _ _ _ => 7, fun _ _ _ => 7, fun _ _ => 7, fun _ _ _ => 7, fun _ _ => 7⟩
      (fun _ => 5) 0 0 2 3 2 3 rfl rfl rfl rfl (by decide) (by decide)
      (fun d q hd hq => by simp only [hidx d q hd hq])
      (fun d q hd hq => by simp only [hidx d q hd hq])).2 (by decide) (by decide)⟩

end Smem3DProofs

section Smem2DProofs

variable {K : Type*} [CommRing K]

/-- **C6.** The tiled 2D kernel does not compute what the private-scratch 2D
kernel computes.  On one element with `D1D = 2`, `Q1D = 3`, the instantiation
`<2,3>` (and likewise `<2,0>` with `q1d = 3`, whose scratch accesses all stay
inside the declared arrays) leaves a different `y` than
`PADiffusionApply2D(b,g,bᵀ,gᵀ,op,x,y)`: the views `DQ0`, `DQ1`, `QQ0`, `QQ1`
have row stride `MD1 = 2` while their column index runs to `Q1D = 3`, so
`DQ0[0][2]` and `DQ0[1][0]` are the same cell. -/
theorem SmemPADiffusionApply2D_differs :
    (SmemPADiffusionApply2D 14 14 2 3 0 1 tiled2D_b tiled2D_g tiled2D_op tiled2D_x
        tiled2D_shared (fun _ => 0) 0 0).map (fun y => [y 0, y 1, y 2, y 3]) =
      some [168, -234, 231, -981] ∧
    (SmemPADiffusionApply2D 14 14 2 0 0 1 tiled2D_b tiled2D_g tiled2D_op tiled2D_x
        tiled2D_shared (fun _ => 0) 0 3).map (fun y => [y 0, y 1, y 2, y 3]) =
      some [177, -198, 222, -1017] ∧
    (PADiffusionApply2D 14 14 2 3 1 tiled2D_b tiled2D_g tiled2D_bt tiled2D_gt tiled2D_op
        tiled2D_x (fun _ _ _ => 0) (fun _ _ => 0) (fun _ _ => 0) (fun _ => 0) 0 0).map
        (fun y => [y 0, y 1, y 2, y 3]) =
      some [308, 254, 254, -448] ∧
    view2 (2 * 3) 0 2 0 2 = view2 (2 * 3) 0 2 1 0 := by
  refine ⟨by decide, by decide, by decide, by decide⟩

end Smem2DProofs

section DispatchProofs

variable {K : Type*} [LinearOrderedField K]

/-- The element loop of the tiled 3D kernel is additive in the output buffer:
started on `y0` it leaves `y0` plus what it leaves when started on zero. -/
theorem smem3D_loop_additive (D1D Q1D MD1 MQ1 NE : Nat) (b g op x : Nat → K)
    (sh sh' : Shared3D K) (y0 : Nat → K) (hD : D1D ≤ MD1) (hQ : Q1D ≤ MQ1) :
    forLoop NE (fun e y => SmemPADiffusionApply3D_body D1D Q1D MD1 MQ1 b g op x sh e y) y0 =
    fun i => y0 i + forLoop NE
      (fun e y => SmemPADiffusionApply3D_body D1D Q1D MD1 MQ1 b g op x sh' e y) (fun _ => 0) i := by
  funext a
  by_cases h : ∃ e dx dy dz, e < NE ∧ dx < D1D ∧ dy < D1D ∧ dz < D1D ∧
      a = idx4 D1D D1D D1D dx dy dz e
  · obtain ⟨e, dx, dy, dz, he, hdx, hdy, hdz, rfl⟩ := h
    rw [SmemPADiffusionApply3D_loop_spec D1D Q1D MD1 MQ1 NE b g op x sh y0 hD hQ e dx dy dz
        he hdx hdy hdz,
      SmemPADiffusionApply3D_loop_spec D1D Q1D MD1 MQ1 NE b g op x sh' (fun _ => 0) hD hQ
        e dx dy dz he hdx hdy hdz, zero_add]
  · have h' : ∀ e dx dy dz, e < NE → dx < D1D → dy < D1D → dz < D1D →
        a ≠ idx4 D1D D1D D1D dx dy dz e :=
      fun e dx dy dz he hdx hdy hdz heq => h ⟨e, dx, dy, dz, he, hdx, hdy, hdz, heq⟩
    rw [SmemPADiffusionApply3D_loop_frame D1D Q1D MD1 MQ1 NE b g op x sh y0 a h',
      SmemPADiffusionApply3D_loop_frame D1D Q1D MD1 MQ1 NE b g op x sh' (fun _ => 0) a h',
      add_zero]

/-- With the toggle off and `dim = 3`, each precompiled pair is routed to the
tiled kernel specialized for it. -/
theorem PADiffusionApply_smem (MAX_D1D MAX_Q1D : Nat) (sqrt : K → K) (D1D Q1D NE : Nat)
    (B G Bt Gt op x : Nat → K) (sc : ApplyScratch K) (y : Nat → K)
    (hpair : (D1D, Q1D) ∈ [(2, 3), (3, 4), (4, 5), (5, 6), (6, 7), (7, 8), (8, 9)]) :
    PADiffusionApply MAX_D1D MAX_Q1D sqrt false 3 D1D Q1D NE B G Bt Gt op x sc y =
      Except.ok (forLoop NE
        (fun e y => SmemPADiffusionApply3D_body D1D Q1D D1D Q1D B G op x sc.smem e y) y) := by
  simp only [List.mem_cons, Prod.mk.injEq, List.mem_singleton, List.not_mem_nil, or_false]
    at hpair
  rcases hpair with ⟨rfl, rfl⟩ | ⟨rfl, rfl⟩ | ⟨rfl, rfl⟩ | ⟨rfl, rfl⟩ | ⟨rfl, rfl⟩ |
    ⟨rfl, rfl⟩ | ⟨rfl, rfl⟩ <;>
  · simp only [PADiffusionApply, SmemPADiffusionApply3D, kernelResult]
    rfl

/-- **C10.** Accumulation through the dispatcher: with the toggle off,
`dim = 3` and `(D1D,Q1D)` one of the seven precompiled pairs, a call of
`PADiffusionApply` on an output buffer `y0` leaves `y0 + A(x)`, and a second
call with the same tables, `op` and `x` leaves `y0 + 2*A(x)`, where `A(x)` is
what one call leaves on an all-zero buffer; this holds whatever the scratch
arrays contain at each call. -/
theorem PADiffusionApply_accumulates (MAX_D1D MAX_Q1D : Nat) (sqrt : K → K)
    (D1D Q1D NE : Nat) (B G Bt Gt op x : Nat → K) (sc0 sc1 sc2 : ApplyScratch K)
    (y0 : Nat → K)
    (hpair : (D1D, Q1D) ∈ [(2, 3), (3, 4), (4, 5), (5, 6), (6, 7), (7, 8), (8, 9)]) :
    ∃ A y1 y2 : Nat → K,
      PADiffusionApply MAX_D1D MAX_Q1D sqrt false 3 D1D Q1D NE B G Bt Gt op x sc0
        (fun _ => 0) = Except.ok A ∧
      PADiffusionApply MAX_D1D MAX_Q1D sqrt false 3 D1D Q1D NE B G Bt Gt op x sc1 y0 =
        Except.ok y1 ∧
      PADiffusionApply MAX_D1D MAX_Q1D sqrt false 3 D1D Q1D NE B G Bt Gt op x sc2 y1 =
        Except.ok y2 ∧
      (∀ i, y1 i = y0 i + A i) ∧ (∀ i, y2 i = y0 i + 2 * A i) := by
  refine ⟨_, _, _, PADiffusionApply_smem MAX_D1D MAX_Q1D sqrt D1D Q1D NE B G Bt Gt op x sc0 _
    hpair, PADiffusionApply_smem MAX_D1D MAX_Q1D sqrt D1D Q1D NE B G Bt Gt op x sc1 y0 hpair,
    PADiffusionApply_smem MAX_D1D MAX_Q1D sqrt D1D Q1D NE B G Bt Gt op x sc2 _ hpair, ?_, ?_⟩
  · intro i
    exact congrFun (smem3D_loop_additive D1D Q1D D1D Q1D NE B G op x sc1.smem sc0.smem y0
      (le_refl _) (le_refl _)) i
  · intro i
    rw [congrFun (smem3D_loop_additive D1D Q1D D1D Q1D NE B G op x sc2.smem sc0.smem _
      (le_refl _) (le_refl _)) i,
      congrFun (smem3D_loop_additive D1D Q1D D1D Q1D NE B G op x sc1.smem sc0.smem y0
      (le_refl _) (le_refl _)) i]
    ring

theorem PADiffusionApply_accumulates_witness :
    ((2, 3) ∈ [(2, 3), (3, 4), (4, 5), (5, 6), (6, 7), (7, 8), (8, 9)]) ∧
    ∃ A y1 y2 : Nat → ℚ,
      PADiffusionApply 14 14 (fun t => t) false 3 2 3 1 (fun i => (i : ℚ) + 1)
        (fun i => (i : ℚ) - 2) (fun _ => 0) (fun _ => 0) (fun _ => 1) (fun i => (i : ℚ))
        zeroApplyScratch (fun _ => 0) = Except.ok A ∧
      PADiffusionApply 14 14 (fun t => t) false 3 2 3 1 (fun i => (i : ℚ) + 1)
        (fun i => (i : ℚ) - 2) (fun _ => 0) (fun _ => 0) (fun _ => 1) (fun i => (i : ℚ))
        zeroApplyScratch (fun _ => 5) = Except.ok y1 ∧
      PADiffusionApply 14 14 (fun t => t) false 3 2 3 1 (fun i => (i : ℚ) + 1)
        (fun i => (i : ℚ) - 2) (fun _ => 0) (fun _ => 0) (fun _ => 1) (fun i => (i : ℚ))
        zeroApplyScratch y1 = Except.ok y2 ∧
      (∀ i, y1 i = (fun _ => (5 : ℚ)) i + A i) ∧
      (∀ i, y2 i = (fun _ => (5 : ℚ)) i + 2 * A i) :=
  ⟨by decide, PADiffusionApply_accumulates 14 14 (fun t => t) 2 3 1 (fun i => (i : ℚ) + 1)
    (fun i => (i : ℚ) - 2) (fun _ => 0) (fun _ => 0) (fun _ => 1) (fun i => (i : ℚ))
    zeroApplyScratch zeroApplyScratch zeroApplyScratch (fun _ => 5) (by decide)⟩

end DispatchProofs

section BP3Proofs

variable {K : Type*} [CommRing K]

/-- A loop of stores into a three-index array, the value stored not depending
on the array: the cell stored by iteration `b0` alone holds its value. -/
theorem forLoop_set3_hit (n : Nat) (p q r : Nat → Nat) (f : Nat → K)
    (A0 : Nat → Nat → Nat → K) (b0 : Nat) (hb0 : b0 < n)
    (huniq : ∀ b, b < n → b ≠ b0 → ¬ (p b0 = p b ∧ q b0 = q b ∧ r b0 = r b)) :
    forLoop n (fun b A => set3 A (p b) (q b) (r b) (f b)) A0 (p b0) (q b0) (r b0) = f b0 := by
  refine forLoop_single (fun A : Nat → Nat → Nat → K => A (p b0) (q b0) (r b0)) (fun _ => True)
    n b0 _ A0 _ hb0 trivial (fun _ _ _ _ => trivial) ?_ ?_
  · intro s _
    exact set3_same _ _ _ _ _
  · intro b hb hbn s
    exact set3_ne _ _ _ _ _ _ _ _ (huniq b hbn (Nat.ne_of_gt hb))

/-- A cell that no iteration stores to keeps its value. -/
theorem forLoop_set3_miss (n : Nat) (p q r : Nat → Nat) (f : Nat → K)
    (A0 : Nat → Nat → Nat → K) (i j k : Nat)
    (h : ∀ b, b < n → ¬ (i = p b ∧ j = q b ∧ k = r b)) :
    forLoop n (fun b A => set3 A (p b) (q b) (r b) (f b)) A0 i j k = A0 i j k :=
  forLoop_untouched (fun A : Nat → Nat → Nat → K => A i j k) n _ A0
    (fun b hb s => set3_ne _ _ _ _ _ _ _ _ (h b hb))

theorem bp3_load_spec (D1D Q1D : Nat) (b g x : Nat → K) (e : Nat)
    (s0 : (Nat → Nat → K) × (Nat → Nat → K) × (Nat → Nat → Nat → K)) (hDQ : D1D ≤ Q1D) :
    (∀ j i, j < Q1D → i < Q1D → (bp3_load D1D Q1D b g x e s0).1 j i = g (idx2 Q1D i j)) ∧
    (∀ j i, j < Q1D → i < D1D → (bp3_load D1D Q1D b g x e s0).2.1 j i = b (idx2 Q1D j i)) ∧
    (∀ j i k, j < D1D → i < D1D → k < D1D →
      (bp3_load D1D Q1D b g x e s0).2.2 j i k = x (idx4 D1D D1D D1D i j k e)) := by
  unfold bp3_load
  refine ⟨?_, ?_, ?_⟩
  · intro j i hj hi
    refine forLoop2_single
      (fun s : (Nat → Nat → K) × (Nat → Nat → K) × (Nat → Nat → Nat → K) => s.1 j i)
      (fun _ => True) Q1D Q1D j i _ s0 _ hj hi trivial (fun _ _ _ _ _ _ _ => trivial) ?_ ?_
    · intro s _
      exact set2_same _ _ _ _
    · intro a c _ _ hne s
      exact set2_ne _ _ _ _ _ _ (fun h => hne ⟨h.1.symm, h.2.symm⟩)
  · intro j i hj hi
    refine forLoop2_single
      (fun s : (Nat → Nat → K) × (Nat → Nat → K) × (Nat → Nat → Nat → K) => s.2.1 j i)
      (fun _ => True) Q1D Q1D j i _ s0 _ hj (lt_of_lt_of_le hi hDQ) trivial
      (fun _ _ _ _ _ _ _ => trivial) ?_ ?_
    · intro s _
      show (if i < D1D then set2 s.2.1 j i (b (idx2 Q1D j i)) else s.2.1) j i = _
      rw [if_pos hi]
      exact set2_same _ _ _ _
    · intro a c _ _ hne s
      show (if c < D1D then set2 s.2.1 a c (b (idx2 Q1D a c)) else s.2.1) j i = _
      split
      · exact set2_ne _ _ _ _ _ _ (fun h => hne ⟨h.1.symm, h.2.symm⟩)
      · rfl
  · intro j i k hj hi hk
    refine forLoop2_single
      (fun s : (Nat → Nat → K) × (Nat → Nat → K) × (Nat → Nat → Nat → K) => s.2.2 j i k)
      (fun _ => True) Q1D Q1D j i _ s0 _ (lt_of_lt_of_le hj hDQ) (lt_of_lt_of_le hi hDQ) trivial
      (fun _ _ _ _ _ _ _ => trivial) ?_ ?_
    · intro s _
      show (if i < D1D ∧ j < D1D then
          forLoop D1D (fun k r_q => set3 r_q j i k (x (idx4 D1D D1D D1D i j k e))) s.2.2
        else s.2.2) j i k = _
      rw [if_pos ⟨hi, hj⟩]
      exact forLoop_set3_hit D1D (fun _ => j) (fun _ => i) (fun k => k)
        (fun k => x (idx4 D1D D1D D1D i j k e)) s.2.2 k hk (fun b _ hb h => hb h.2.2.symm)
    · intro a c _ _ hne s
      show (if c < D1D ∧ a < D1D then
          forLoop D1D (fun k r_q => set3 r_q a c k (x (idx4 D1D D1D D1D c a k e))) s.2.2
        else s.2.2) j i k = _
      split
      · exact forLoop_set3_miss D1D (fun _ => a) (fun _ => c) (fun k => k)
          (fun k => x (idx4 D1D D1D D1D c a k e)) s.2.2 j i k
          (fun b _ h => hne ⟨h.1.symm, h.2.1.symm⟩)
      · rfl

theorem bp3_interpZ_spec (D1D Q1D : Nat) (s_I : Nat → Nat → K) (r_q : Nat → Nat → Nat → K)
    (s_Iq0 : Nat → Nat → Nat → K) (hDQ : D1D ≤ Q1D) (k b a : Nat)
    (hk : k < Q1D) (hb : b < D1D) (ha : a < D1D) :
    bp3_interpZ D1D Q1D s_I r_q s_Iq0 k b a =
      ∑ c in Finset.range D1D, s_I k c * r_q b a c := by
  unfold bp3_interpZ
  refine forLoop2_single (fun s : Nat → Nat → Nat → K => s k b a) (fun _ => True) Q1D Q1D b a
    _ s_Iq0 _ (lt_of_lt_of_le hb hDQ) (lt_of_lt_of_le ha hDQ) trivial
    (fun _ _ _ _ _ _ _ => trivial) ?_ ?_
  · intro s _
    beta_reduce
    rw [if_pos ⟨ha, hb⟩]
    have h := forLoop_set3_hit Q1D (fun k => k) (fun _ => b) (fun _ => a)
      (fun k => forLoop D1D (fun c res => res + s_I k c * r_q b a c) 0) s k hk
      (fun b' _ hb' h => hb' h.1.symm)
    refine h.trans ?_
    beta_reduce
    rw [forLoop_sum, zero_add]
  · intro b' a' _ _ hne s
    beta_reduce
    split
    · exact forLoop_set3_miss Q1D (fun k => k) (fun _ => b') (fun _ => a')
        (fun k => forLoop D1D (fun c res => res + s_I k c * r_q b' a' c) 0) s k b a
        (fun _ _ h => hne ⟨h.2.1.symm, h.2.2.symm⟩)
    · rfl

theorem bp3_interpY_spec (D1D Q1D : Nat) (s_I : Nat → Nat → K)
    (s0 : (Nat → Nat → Nat → K) × (Nat → Nat → Nat → K)) (hDQ : D1D ≤ Q1D) (k j a : Nat)
    (hk : k < Q1D) (hj : j < Q1D) (ha : a < D1D) :
    (bp3_interpY D1D Q1D s_I s0).2 k j a =
      ∑ b in Finset.range D1D, s_I j b * s0.2 k b a := by
  unfold bp3_interpY
  have hmiss : ∀ k' a', ¬ (k' = k ∧ a' = a) →
      ∀ (s : (Nat → Nat → Nat → K) × (Nat → Nat → Nat → K)) (b : Nat),
      (if a' < D1D then
        (forLoop D1D (fun b r_Aq => set3 r_Aq k' a' b (s.2 k' b a')) s.1,
          forLoop Q1D (fun j s_Iq => set3 s_Iq k' j a'
            (forLoop D1D (fun b res => res + s_I j b *
              forLoop D1D (fun b r_Aq => set3 r_Aq k' a' b (s.2 k' b a')) s.1 k' a' b) 0)) s.2)
      else s).2 k b a = s.2 k b a := by
    intro k' a' hne s b
    split
    · exact forLoop_set3_miss Q1D (fun _ => k') (fun j => j) (fun _ => a') _ s.2 k b a
        (fun _ _ h => hne ⟨h.1.symm, h.2.2.symm⟩)
    · rfl
  refine forLoop2_single
    (fun s : (Nat → Nat → Nat → K) × (Nat → Nat → Nat → K) => s.2 k j a)
    (fun s => ∀ b, s.2 k b a = s0.2 k b a) Q1D Q1D k a _ s0 _ hk (lt_of_lt_of_le ha hDQ)
    (fun _ => rfl) ?_ ?_ ?_
  · intro k' a' _ _ hne s hs b
    exact (hmiss k' a' hne s b).trans (hs b)
  · intro s hs
    dsimp only
    rw [if_pos ha]
    refine (forLoop_set3_hit Q1D (fun _ => k) (fun j => j) (fun _ => a) _ s.2 j hj
      (fun b _ hb h => hb h.2.1.symm)).trans ?_
    rw [forLoop_sum, zero_add]
    refine Finset.sum_congr rfl (fun b hb => ?_)
    rw [forLoop_set3_hit D1D (fun _ => k) (fun _ => a) (fun b => b) (fun b => s.2 k b a) s.1 b
      (Finset.mem_range.mp hb) (fun b' _ hb' h => hb' h.2.2.symm), hs b]
  · intro k' a' _ _ hne s
    exact hmiss k' a' hne s j

theorem bp3_interpX_spec (D1D Q1D : Nat) (s_I : Nat → Nat → K)
    (s0 : (Nat → Nat → Nat → K) × (Nat → Nat → Nat → K)) (k j i : Nat)
    (hk : k < Q1D) (hj : j < Q1D) (hi : i < Q1D) :
    (bp3_interpX D1D Q1D s_I s0).2 k j i =
      ∑ a in Finset.range D1D, s_I i a * s0.2 k j a := by
  unfold bp3_interpX
  have hmiss : ∀ k' j', ¬ (k' = k ∧ j' = j) →
      ∀ (s : (Nat → Nat → Nat → K) × (Nat → Nat → Nat → K)) (a : Nat),
      (forLoop D1D (fun a r_Aq => set3 r_Aq k' j' a (s.2 k' j' a)) s.1,
        forLoop Q1D (fun i s_Iq => set3 s_Iq k' j' i
          (forLoop D1D (fun a res => res + s_I i a *
            forLoop D1D (fun a r_Aq => set3 r_Aq k' j' a (s.2 k' j' a)) s.1 k' j' a) 0))
          s.2).2 k j a = s.2 k j a := by
    intro k' j' hne s a
    exact forLoop_set3_miss Q1D (fun _ => k') (fun _ => j') (fun i => i) _ s.2 k j a
      (fun _ _ h => hne ⟨h.1.symm, h.2.1.symm⟩)
  refine forLoop2_single
    (fun s : (Nat → Nat → Nat → K) × (Nat → Nat → Nat → K) => s.2 k j i)
    (fun s => ∀ a, s.2 k j a = s0.2 k j a) Q1D Q1D k j _ s0 _ hk hj
    (fun _ => rfl) ?_ ?_ ?_
  · intro k' j' _ _ hne s hs a
    exact (hmiss k' j' hne s a).trans (hs a)
  · intro s hs
    dsimp only
    refine (forLoop_set3_hit Q1D (fun _ => k) (fun _ => j) (fun i => i) _ s.2 i hi
      (fun b _ hb h => hb h.2.2.symm)).trans ?_
    rw [forLoop_sum, zero_add]
    refine Finset.sum_congr rfl (fun a ha => ?_)
    rw [forLoop_set3_hit D1D (fun _ => k) (fun _ => j) (fun a => a) (fun a => s.2 k j a) s.1 a
      (Finset.mem_range.mp ha) (fun b' _ hb' h => hb' h.2.2.symm), hs a]
  · intro k' j' _ _ hne s
    exact hmiss k' j' hne s i

theorem bp3_clear_spec (Q1D : Nat) (r_Aq0 : Nat → Nat → Nat → K) (j i k : Nat)
    (hj : j < Q1D) (hi : i < Q1D) (hk : k < Q1D) :
    bp3_clear Q1D r_Aq0 j i k = 0 := by
  unfold bp3_clear
  refine forLoop3_single (fun s : Nat → Nat → Nat → K => s j i k) (fun _ => True)
    Q1D Q1D Q1D j i k _ r_Aq0 0 hj hi hk trivial (fun _ _ _ _ _ _ _ _ _ => trivial) ?_ ?_
  · intro s _
    exact set3_same _ _ _ _ _
  · intro a b c _ _ _ hne s
    exact set3_ne _ _ _ _ _ _ _ _ (fun h => hne ⟨h.1.symm, h.2.1.symm, h.2.2.symm⟩)

/-- The reduction over `m` of `bp3_layerGrad`: two scalar accumulators and one
accumulated cell of `r_qt`. -/
theorem bp3_layerGrad_inner (Q1D : Nat) (f1 f2 f3 : Nat → K) (j i : Nat) (r0 : Nat → Nat → K) :
    (forLoop Q1D (fun m (acc : K × K × (Nat → Nat → K)) =>
        (acc.1 + f1 m, acc.2.1 + f2 m, set2 acc.2.2 j i (acc.2.2 j i + f3 m))) (0, 0, r0)).1 =
      ∑ m in Finset.range Q1D, f1 m ∧
    (forLoop Q1D (fun m (acc : K × K × (Nat → Nat → K)) =>
        (acc.1 + f1 m, acc.2.1 + f2 m, set2 acc.2.2 j i (acc.2.2 j i + f3 m))) (0, 0, r0)).2.1 =
      ∑ m in Finset.range Q1D, f2 m ∧
    (forLoop Q1D (fun m (acc : K × K × (Nat → Nat → K)) =>
        (acc.1 + f1 m, acc.2.1 + f2 m, set2 acc.2.2 j i (acc.2.2 j i + f3 m))) (0, 0, r0)).2.2
        j i = r0 j i + ∑ m in Finset.range Q1D, f3 m ∧
    ∀ a b, ¬ (a = j ∧ b = i) →
      (forLoop Q1D (fun m (acc : K × K × (Nat → Nat → K)) =>
        (acc.1 + f1 m, acc.2.1 + f2 m, set2 acc.2.2 j i (acc.2.2 j i + f3 m))) (0, 0, r0)).2.2
        a b = r0 a b := by
  refine ⟨?_, ?_, ?_, ?_⟩
  · refine (forLoop_accum (fun acc : K × K × (Nat → Nat → K) => acc.1) (fun _ => True) Q1D _
      (0, 0, r0) f1 trivial (fun _ _ _ _ => trivial) (fun _ _ _ _ => rfl)).trans ?_
    exact zero_add _
  · refine (forLoop_accum (fun acc : K × K × (Nat → Nat → K) => acc.2.1) (fun _ => True) Q1D _
      (0, 0, r0) f2 trivial (fun _ _ _ _ => trivial) (fun _ _ _ _ => rfl)).trans ?_
    exact zero_add _
  · exact forLoop_accum (fun acc : K × K × (Nat → Nat → K) => acc.2.2 j i) (fun _ => True) Q1D _
      (0, 0, r0) f3 trivial (fun _ _ _ _ => trivial) (fun _ _ _ _ => set2_same _ _ _ _)
  · intro a b hne
    exact forLoop_untouched (fun acc : K × K × (Nat → Nat → K) => acc.2.2 a b) Q1D _
      (0, 0, r0) (fun _ _ _ => set2_ne _ _ _ _ _ _ hne)

theorem bp3_layerGrad_spec (Q1D : Nat) (d : Nat → K) (e : Nat) (s_D : Nat → Nat → K)
    (s_Iq : Nat → Nat → Nat → K) (k : Nat)
    (s0 : (Nat → Nat → K) × (Nat → Nat → K) × (Nat → Nat → K)) (j i : Nat)
    (hj : j < Q1D) (hi : i < Q1D) :
    (bp3_layerGrad Q1D d e s_D s_Iq k s0).1 j i =
      d (idx3 (Q1D * Q1D * Q1D) 6 (i + ((j * Q1D) + (k * Q1D * Q1D))) 0 e) *
        (∑ m in Finset.range Q1D, s_D i m * s_Iq k j m) +
      d (idx3 (Q1D * Q1D * Q1D) 6 (i + ((j * Q1D) + (k * Q1D * Q1D))) 1 e) *
        (∑ m in Finset.range Q1D, s_D j m * s_Iq k m i) +
      d (idx3 (Q1D * Q1D * Q1D) 6 (i + ((j * Q1D) + (k * Q1D * Q1D))) 2 e) *
        (∑ m in Finset.range Q1D, s_D k m * s_Iq m j i) ∧
    (bp3_layerGrad Q1D d e s_D s_Iq k s0).2.1 j i =
      d (idx3 (Q1D * Q1D * Q1D) 6 (i + ((j * Q1D) + (k * Q1D * Q1D))) 1 e) *
        (∑ m in Finset.range Q1D, s_D i m * s_Iq k j m) +
      d (idx3 (Q1D * Q1D * Q1D) 6 (i + ((j * Q1D) + (k * Q1D * Q1D))) 3 e) *
        (∑ m in Finset.range Q1D, s_D j m * s_Iq k m i) +
      d (idx3 (Q1D * Q1D * Q1D) 6 (i + ((j * Q1D) + (k * Q1D * Q1D))) 4 e) *
        (∑ m in Finset.range Q1D, s_D k m * s_Iq m j i) ∧
    (bp3_layerGrad Q1D d e s_D s_Iq k s0).2.2 j i =
      d (idx3 (Q1D * Q1D * Q1D) 6 (i + ((j * Q1D) + (k * Q1D * Q1D))) 2 e) *
        (∑ m in Finset.range Q1D, s_D i m * s_Iq k j m) +
      d (idx3 (Q1D * Q1D * Q1D) 6 (i + ((j * Q1D) + (k * Q1D * Q1D))) 4 e) *
        (∑ m in Finset.range Q1D, s_D j m * s_Iq k m i) +
      d (idx3 (Q1D * Q1D * Q1D) 6 (i + ((j * Q1D) + (k * Q1D * Q1D))) 5 e) *
        (∑ m in Finset.range Q1D, s_D k m * s_Iq m j i) := by
  unfold bp3_layerGrad
  refine ⟨?_, ?_, ?_⟩
  · refine forLoop2_single
      (fun s : (Nat → Nat → K) × (Nat → Nat → K) × (Nat → Nat → K) => s.1 j i)
      (fun _ => True) Q1D Q1D j i _ s0 _ hj hi trivial (fun _ _ _ _ _ _ _ => trivial) ?_ ?_
    · intro s _
      obtain ⟨h1, h2, h3, -⟩ := bp3_layerGrad_inner Q1D (fun m => s_D i m * s_Iq k j m)
        (fun m => s_D j m * s_Iq k m i) (fun m => s_D k m * s_Iq m j i) j i (set2 s.2.2 j i 0)
      dsimp only at h1 h2 h3 ⊢
      rw [set2_same, h1, h2, h3, set2_same, zero_add]
    · intro a c _ _ hne s
      exact set2_ne _ _ _ _ _ _ (fun h => hne ⟨h.1.symm, h.2.symm⟩)
  · refine forLoop2_single
      (fun s : (Nat → Nat → K) × (Nat → Nat → K) × (Nat → Nat → K) => s.2.1 j i)
      (fun _ => True) Q1D Q1D j i _ s0 _ hj hi trivial (fun _ _ _ _ _ _ _ => trivial) ?_ ?_
    · intro s _
      obtain ⟨h1, h2, h3, -⟩ := bp3_layerGrad_inner Q1D (fun m => s_D i m * s_Iq k j m)
        (fun m => s_D j m * s_Iq k m i) (fun m => s_D k m * s_Iq m j i) j i (set2 s.2.2 j i 0)
      dsimp only at h1 h2 h3 ⊢
      rw [set2_same, h1, h2, h3, set2_same, zero_add]
    · intro a c _ _ hne s
      exact set2_ne _ _ _ _ _ _ (fun h => hne ⟨h.1.symm, h.2.symm⟩)
  · refine forLoop2_single
      (fun s : (Nat → Nat → K) × (Nat → Nat → K) × (Nat → Nat → K) => s.2.2 j i)
      (fun _ => True) Q1D Q1D j i _ s0 _ hj hi trivial (fun _ _ _ _ _ _ _ => trivial) ?_ ?_
    · intro s _
      obtain ⟨h1, h2, h3, -⟩ := bp3_layerGrad_inner Q1D (fun m => s_D i m * s_Iq k j m)
        (fun m => s_D j m * s_Iq k m i) (fun m => s_D k m * s_Iq m j i) j i (set2 s.2.2 j i 0)
      dsimp only at h1 h2 h3 ⊢
      rw [set2_same, h1, h2, h3, set2_same, zero_add]
    · intro a c _ _ hne s
      obtain ⟨-, -, -, h4⟩ := bp3_layerGrad_inner Q1D (fun m => s_D c m * s_Iq k a m)
        (fun m => s_D a m * s_Iq k m c) (fun m => s_D k m * s_Iq m a c) a c (set2 s.2.2 a c 0)
      dsimp only at h4 ⊢
      rw [set2_ne _ _ _ _ _ _ (fun h => hne ⟨h.1.symm, h.2.symm⟩),
        h4 j i (fun h => hne ⟨h.1.symm, h.2.symm⟩),
        set2_ne _ _ _ _ _ _ (fun h => hne ⟨h.1.symm, h.2.symm⟩)]

/-- The reduction over `m` of `bp3_layerDiv`: a scalar accumulator and one
accumulated row of `r_Aq`. -/
theorem bp3_layerDiv_inner (Q1D : Nat) (f1 f2 g : Nat → K) (j i : Nat)
    (r0 : Nat → Nat → Nat → K) :
    (forLoop Q1D (fun m (acc : K × (Nat → Nat → Nat → K)) =>
        (acc.1 + f1 m + f2 m, set3 acc.2 j i m (acc.2 j i m + g m))) (0, r0)).1 =
      ∑ m in Finset.range Q1D, (f1 m + f2 m) ∧
    (∀ n, n < Q1D →
      (forLoop Q1D (fun m (acc : K × (Nat → Nat → Nat → K)) =>
        (acc.1 + f1 m + f2 m, set3 acc.2 j i m (acc.2 j i m + g m))) (0, r0)).2 j i n =
        r0 j i n + g n) ∧
    ∀ a b c, ¬ (a = j ∧ b = i) →
      (forLoop Q1D (fun m (acc : K × (Nat → Nat → Nat → K)) =>
        (acc.1 + f1 m + f2 m, set3 acc.2 j i m (acc.2 j i m + g m))) (0, r0)).2 a b c =
        r0 a b c := by
  refine ⟨?_, ?_, ?_⟩
  · refine (forLoop_accum (fun acc : K × (Nat → Nat → Nat → K) => acc.1) (fun _ => True) Q1D _
      (0, r0) (fun m => f1 m + f2 m) trivial (fun _ _ _ _ => trivial)
      (fun _ _ _ _ => add_assoc _ _ _)).trans ?_
    exact zero_add _
  · intro n hn
    refine forLoop_single (fun acc : K × (Nat → Nat → Nat → K) => acc.2 j i n)
      (fun acc => acc.2 j i n = r0 j i n) Q1D n _ (0, r0) _ hn rfl ?_ ?_ ?_
    · intro m hm s hs
      exact (set3_ne _ _ _ _ _ _ _ _ (fun h => Nat.ne_of_gt hm h.2.2)).trans hs
    · intro s hs
      show set3 s.2 j i n (s.2 j i n + g n) j i n = _
      rw [set3_same, hs]
    · intro m hm _ s
      exact set3_ne _ _ _ _ _ _ _ _ (fun h => Nat.ne_of_lt hm h.2.2)
  · intro a b c hne
    exact forLoop_untouched (fun acc : K × (Nat → Nat → Nat → K) => acc.2 a b c) Q1D _
      (0, r0) (fun _ _ _ => set3_ne _ _ _ _ _ _ _ _ (fun h => hne ⟨h.1, h.2.1⟩))

theorem bp3_layerDiv_spec (Q1D : Nat) (s_D s_Gqr s_Gqs r_qt : Nat → Nat → K) (k : Nat)
    (r0 : Nat → Nat → Nat → K) (hk : k < Q1D) (j i n : Nat)
    (hj : j < Q1D) (hi : i < Q1D) (hn : n < Q1D) :
    bp3_layerDiv Q1D s_D s_Gqr s_Gqs r_qt k r0 j i n =
      r0 j i n + (s_D k n * r_qt j i +
        if n = k then ∑ m in Finset.range Q1D, (s_D m i * s_Gqr j m + s_D m j * s_Gqs m i)
        else 0) := by
  unfold bp3_layerDiv
  refine forLoop2_single (fun s : Nat → Nat → Nat → K => s j i n)
    (fun s => ∀ c, s j i c = r0 j i c) Q1D Q1D j i _ r0 _ hj hi (fun _ => rfl) ?_ ?_ ?_
  · intro a b _ _ hne s hs c
    obtain ⟨-, -, h3⟩ := bp3_layerDiv_inner Q1D (fun m => s_D m b * s_Gqr a m)
      (fun m => s_D m a * s_Gqs m b) (fun m => s_D k m * r_qt a b) a b s
    dsimp only at h3 ⊢
    rw [set3_ne _ _ _ _ _ _ _ _ (fun h => hne ⟨h.1.symm, h.2.1.symm⟩),
      h3 j i c (fun h => hne ⟨h.1.symm, h.2.symm⟩), hs c]
  · intro s hs
    obtain ⟨h1, h2, -⟩ := bp3_layerDiv_inner Q1D (fun m => s_D m i * s_Gqr j m)
      (fun m => s_D m j * s_Gqs m i) (fun m => s_D k m * r_qt j i) j i s
    dsimp only at h1 h2 ⊢
    by_cases hnk : n = k
    · subst hnk
      rw [set3_same, h1, h2 n hn, hs n, if_pos rfl]
      ring
    · rw [set3_ne _ _ _ _ _ _ _ _ (fun h => hnk h.2.2), h2 n hn, hs n, if_neg hnk, add_zero]
  · intro a b _ _ hne s
    obtain ⟨-, -, h3⟩ := bp3_layerDiv_inner Q1D (fun m => s_D m b * s_Gqr a m)
      (fun m => s_D m a * s_Gqs m b) (fun m => s_D k m * r_qt a b) a b s
    dsimp only at h3 ⊢
    rw [set3_ne _ _ _ _ _ _ _ _ (fun h => hne ⟨h.1.symm, h.2.1.symm⟩),
      h3 j i n (fun h => hne ⟨h.1.symm, h.2.symm⟩)]

/-- The loop over the layers: every layer `k` adds its term to `r_Aq[n]` of
worker `(j,i)`, the terms being computed from the values `Fr`, `Fs`, `Ft`
that `bp3_layerGrad` leaves in layer `k`. -/
theorem bp3_layers_spec (Q1D : Nat) (d : Nat → K) (e : Nat) (s_D : Nat → Nat → K)
    (s_Iq : Nat → Nat → Nat → K)
    (s0 : (Nat → Nat → K) × (Nat → Nat → K) × (Nat → Nat → K) × (Nat → Nat → Nat → K))
    (Fr Fs Ft : Nat → Nat → Nat → K)
    (hFr : ∀ k j i z, k < Q1D → j < Q1D → i < Q1D →
      (bp3_layerGrad Q1D d e s_D s_Iq k z).1 j i = Fr k j i)
    (hFs : ∀ k j i z, k < Q1D → j < Q1D → i < Q1D →
      (bp3_layerGrad Q1D d e s_D s_Iq k z).2.1 j i = Fs k j i)
    (hFt : ∀ k j i z, k < Q1D → j < Q1D → i < Q1D →
      (bp3_layerGrad Q1D d e s_D s_Iq k z).2.2 j i = Ft k j i)
    (j i n : Nat) (hj : j < Q1D) (hi : i < Q1D) (hn : n < Q1D) :
    (bp3_layers Q1D d e s_D s_Iq s0).2.2.2 j i n =
      s0.2.2.2 j i n + ∑ k in Finset.range Q1D, (s_D k n * Ft k j i +
        if n = k then ∑ m in Finset.range Q1D, (s_D m i * Fr k j m + s_D m j * Fs k m i)
        else 0) := by
  unfold bp3_layers
  refine forLoop_accum
    (fun s : (Nat → Nat → K) × (Nat → Nat → K) × (Nat → Nat → K) × (Nat → Nat → Nat → K) =>
      s.2.2.2 j i n) (fun _ => True) Q1D _ s0 _ trivial (fun _ _ _ _ => trivial) ?_
  intro k hk s _
  dsimp only
  rw [bp3_layerDiv_spec Q1D s_D _ _ _ k _ hk j i n hj hi hn, hFt k j i _ hk hj hi]
  congr 2
  split
  · refine Finset.sum_congr rfl (fun m hm => ?_)
    rw [hFr k j m _ hk hj (Finset.mem_range.mp hm), hFs k m i _ hk (Finset.mem_range.mp hm) hi]
  · rfl

theorem bp3_backZ_spec (D1D Q1D : Nat) (s_I : Nat → Nat → K) (r_Aq : Nat → Nat → Nat → K)
    (s_Iq0 : Nat → Nat → Nat → K) (c j i : Nat) (hc : c < D1D) (hj : j < Q1D) (hi : i < Q1D) :
    bp3_backZ D1D Q1D s_I r_Aq s_Iq0 c j i =
      ∑ k in Finset.range Q1D, s_I k c * r_Aq j i k := by
  unfold bp3_backZ
  refine forLoop2_single (fun s : Nat → Nat → Nat → K => s c j i) (fun _ => True) Q1D Q1D j i
    _ s_Iq0 _ hj hi trivial (fun _ _ _ _ _ _ _ => trivial) ?_ ?_
  · intro s _
    refine (forLoop_set3_hit D1D (fun c => c) (fun _ => j) (fun _ => i)
      (fun c => forLoop Q1D (fun k res => res + s_I k c * r_Aq j i k) 0) s c hc
      (fun b' _ hb' h => hb' h.1.symm)).trans ?_
    beta_reduce
    rw [forLoop_sum, zero_add]
  · intro j' i' _ _ hne s
    exact forLoop_set3_miss D1D (fun c => c) (fun _ => j') (fun _ => i')
      (fun c => forLoop Q1D (fun k res => res + s_I k c * r_Aq j' i' k) 0) s c j i
      (fun _ _ h => hne ⟨h.2.1.symm, h.2.2.symm⟩)

theorem bp3_backY_spec (D1D Q1D : Nat) (s_I : Nat → Nat → K)
    (s0 : (Nat → Nat → Nat → K) × (Nat → Nat → Nat → K)) (hDQ : D1D ≤ Q1D) (c b i : Nat)
    (hc : c < D1D) (hb : b < D1D) (hi : i < Q1D) :
    (bp3_backY D1D Q1D s_I s0).2 c b i =
      ∑ j in Finset.range Q1D, s_I j b * s0.2 c j i := by
  unfold bp3_backY
  have hmiss : ∀ c' i', ¬ (c' = c ∧ i' = i) →
      ∀ (s : (Nat → Nat → Nat → K) × (Nat → Nat → Nat → K)) (j : Nat),
      (if c' < D1D then
        (forLoop Q1D (fun j r_Aq => set3 r_Aq c' i' j (s.2 c' j i')) s.1,
          forLoop D1D (fun b s_Iq => set3 s_Iq c' b i'
            (forLoop Q1D (fun j res => res + s_I j b *
              forLoop Q1D (fun j r_Aq => set3 r_Aq c' i' j (s.2 c' j i')) s.1 c' i' j) 0)) s.2)
      else s).2 c j i = s.2 c j i := by
    intro c' i' hne s j
    split
    · exact forLoop_set3_miss D1D (fun _ => c') (fun b => b) (fun _ => i') _ s.2 c j i
        (fun _ _ h => hne ⟨h.1.symm, h.2.2.symm⟩)
    · rfl
  refine forLoop2_single
    (fun s : (Nat → Nat → Nat → K) × (Nat → Nat → Nat → K) => s.2 c b i)
    (fun s => ∀ j, s.2 c j i = s0.2 c j i) Q1D Q1D c i _ s0 _ (lt_of_lt_of_le hc hDQ) hi
    (fun _ => rfl) ?_ ?_ ?_
  · intro c' i' _ _ hne s hs j
    exact (hmiss c' i' hne s j).trans (hs j)
  · intro s hs
    dsimp only
    rw [if_pos hc]
    refine (forLoop_set3_hit D1D (fun _ => c) (fun b => b) (fun _ => i) _ s.2 b hb
      (fun b' _ hb' h => hb' h.2.1.symm)).trans ?_
    rw [forLoop_sum, zero_add]
    refine Finset.sum_congr rfl (fun j hj => ?_)
    rw [forLoop_set3_hit Q1D (fun _ => c) (fun _ => i) (fun j => j) (fun j => s.2 c j i) s.1 j
      (Finset.mem_range.mp hj) (fun b' _ hb' h => hb' h.2.2.symm), hs j]
  · intro c' i' _ _ hne s
    exact hmiss c' i' hne s b

theorem bp3_backX_spec (D1D Q1D : Nat) (s_I : Nat → Nat → K)
    (s0 : (Nat → Nat → Nat → K) × (Nat → Nat → Nat → K)) (hDQ : D1D ≤ Q1D) (c b a : Nat)
    (hc : c < D1D) (hb : b < D1D) (ha : a < D1D) :
    (bp3_backX D1D Q1D s_I s0).2 c b a =
      ∑ i in Finset.range Q1D, s_I i a * s0.2 c b i := by
  unfold bp3_backX
  have hmiss : ∀ c' b', ¬ (c' = c ∧ b' = b) →
      ∀ (s : (Nat → Nat → Nat → K) × (Nat → Nat → Nat → K)) (i : Nat),
      (if b' < D1D ∧ c' < D1D then
        (forLoop Q1D (fun i r_Aq => set3 r_Aq c' b' i (s.2 c' b' i)) s.1,
          forLoop D1D (fun a s_Iq => set3 s_Iq c' b' a
            (forLoop Q1D (fun i res => res + s_I i a *
              forLoop Q1D (fun i r_Aq => set3 r_Aq c' b' i (s.2 c' b' i)) s.1 c' b' i) 0)) s.2)
      else s).2 c b i = s.2 c b i := by
    intro c' b' hne s i
    split
    · exact forLoop_set3_miss D1D (fun _ => c') (fun _ => b') (fun a => a) _ s.2 c b i
        (fun _ _ h => hne ⟨h.1.symm, h.2.1.symm⟩)
    · rfl
  refine forLoop2_single
    (fun s : (Nat → Nat → Nat → K) × (Nat → Nat → Nat → K) => s.2 c b a)
    (fun s => ∀ i, s.2 c b i = s0.2 c b i) Q1D Q1D c b _ s0 _ (lt_of_lt_of_le hc hDQ)
    (lt_of_lt_of_le hb hDQ) (fun _ => rfl) ?_ ?_ ?_
  · intro c' b' _ _ hne s hs i
    exact (hmiss c' b' hne s i).trans (hs i)
  · intro s hs
    dsimp only
    rw [if_pos ⟨hb, hc⟩]
    refine (forLoop_set3_hit D1D (fun _ => c) (fun _ => b) (fun a => a) _ s.2 a ha
      (fun b' _ hb' h => hb' h.2.2.symm)).trans ?_
    rw [forLoop_sum, zero_add]
    refine Finset.sum_congr rfl (fun i hi => ?_)
    rw [forLoop_set3_hit Q1D (fun _ => c) (fun _ => b) (fun i => i) (fun i => s.2 c b i) s.1 i
      (Finset.mem_range.mp hi) (fun b' _ hb' h => hb' h.2.2.symm), hs i]
  · intro c' b' _ _ hne s
    exact hmiss c' b' hne s a

/-- The final store overwrites the cell with the computed value; the value the
cell held before is not read. -/
theorem bp3_store_spec (D1D Q1D : Nat) (s_Iq : Nat → Nat → Nat → K) (e : Nat) (y : Nat → K)
    (hDQ : D1D ≤ Q1D) (i j k : Nat) (hi : i < D1D) (hj : j < D1D) (hk : k < D1D) :
    bp3_store D1D Q1D s_Iq e y (idx4 D1D D1D D1D i j k e) = s_Iq k j i := by
  unfold bp3_store
  refine forLoop2_single (fun y : Nat → K => y (idx4 D1D D1D D1D i j k e)) (fun _ => True)
    Q1D Q1D j i _ y _ (lt_of_lt_of_le hj hDQ) (lt_of_lt_of_le hi hDQ) trivial
    (fun _ _ _ _ _ _ _ => trivial) ?_ ?_
  · intro s _
    beta_reduce
    rw [if_pos ⟨hi, hj⟩]
    refine forLoop_single (fun y : Nat → K => y (idx4 D1D D1D D1D i j k e)) (fun _ => True)
      D1D k _ s _ hk trivial (fun _ _ _ _ => trivial) ?_ ?_
    · intro t _
      exact Function.update_same _ _ _
    · intro k' hk' hk'n t
      exact Function.update_noteq (idx4_ne hi hi hj hj hk hk'n
        (fun h => Nat.ne_of_lt hk' h.2.2.1)) _ _
  · intro j' i' _ _ hne s
    beta_reduce
    split
    · rename_i h
      refine forLoop_untouched (fun y : Nat → K => y (idx4 D1D D1D D1D i j k e)) D1D _ s ?_
      intro k' hk' t
      exact Function.update_noteq (idx4_ne hi h.1 hj h.2 hk hk'
        (fun h' => hne ⟨h'.2.1.symm, h'.1.symm⟩)) _ _
    · rfl

theorem bp3_store_frame (D1D Q1D : Nat) (s_Iq : Nat → Nat → Nat → K) (e : Nat) (y : Nat → K)
    (a : Nat)
    (ha : ∀ i j k, i < D1D → j < D1D → k < D1D → a ≠ idx4 D1D D1D D1D i j k e) :
    bp3_store D1D Q1D s_Iq e y a = y a := by
  unfold bp3_store
  refine forLoop2_untouched (fun y : Nat → K => y a) Q1D Q1D _ y ?_
  intro j i _ _ s
  beta_reduce
  split
  · rename_i h
    refine forLoop_untouched (fun y : Nat → K => y a) D1D _ s ?_
    intro k hk t
    exact Function.update_noteq (ha i j k h.1 h.2 hk) _ _
  · rfl

/-- One element of `BP3Global_v0`: the cell `y(a,b,c,e)` is overwritten with
the collocated form of the action. -/
theorem BP3Global_v0_body_spec (D1D Q1D : Nat) (b g d x : Nat → K) (sc : BP3Scratch K)
    (e : Nat) (y : Nat → K) (hDQ : D1D ≤ Q1D) (a' b' c' : Nat)
    (ha : a' < D1D) (hb : b' < D1D) (hc : c' < D1D) :
    BP3Global_v0_body D1D Q1D b g d x sc e y (idx4 D1D D1D D1D a' b' c' e) =
      colloc3D_action D1D Q1D b g d x e a' b' c' := by
  unfold BP3Global_v0_body
  obtain ⟨hsD, hsI, hrq⟩ := bp3_load_spec D1D Q1D b g x e (sc.s_D, sc.s_I, sc.r_q) hDQ
  generalize bp3_load D1D Q1D b g x e (sc.s_D, sc.s_I, sc.r_q) = L at hsD hsI hrq ⊢
  -- interpolation to the quadrature points
  have hU : ∀ k j i, k < Q1D → j < Q1D → i < Q1D →
      (bp3_interpX D1D Q1D L.2.1 (bp3_interpY D1D Q1D L.2.1
        (sc.r_Aq, bp3_interpZ D1D Q1D L.2.1 L.2.2 sc.s_Iq))).2 k j i =
      colloc3D_interp D1D Q1D b x e k j i := by
    intro k j i hk hj hi
    rw [bp3_interpX_spec D1D Q1D _ _ k j i hk hj hi]
    unfold colloc3D_interp
    refine Finset.sum_congr rfl (fun a ha => ?_)
    rw [hsI i a hi (Finset.mem_range.mp ha),
      bp3_interpY_spec D1D Q1D _ _ hDQ k j a hk hj (Finset.mem_range.mp ha)]
    congr 1
    refine Finset.sum_congr rfl (fun b hb => ?_)
    rw [hsI j b hj (Finset.mem_range.mp hb)]
    show _ * bp3_interpZ D1D Q1D L.2.1 L.2.2 sc.s_Iq k b a = _
    rw [bp3_interpZ_spec D1D Q1D _ _ _ hDQ k b a hk (Finset.mem_range.mp hb)
      (Finset.mem_range.mp ha)]
    congr 1
    refine Finset.sum_congr rfl (fun c hc => ?_)
    rw [hsI k c hk (Finset.mem_range.mp hc),
      hrq b a c (Finset.mem_range.mp hb) (Finset.mem_range.mp ha) (Finset.mem_range.mp hc)]
  generalize bp3_interpX D1D Q1D L.2.1 (bp3_interpY D1D Q1D L.2.1
    (sc.r_Aq, bp3_interpZ D1D Q1D L.2.1 L.2.2 sc.s_Iq)) = S at hU ⊢
  -- the layers
  have hgrad : ∀ k j i, k < Q1D → j < Q1D → i < Q1D →
      (∑ m in Finset.range Q1D, L.1 i m * S.2 k j m) =
        colloc3D_grad D1D Q1D b g x e k j i 0 ∧
      (∑ m in Finset.range Q1D, L.1 j m * S.2 k m i) =
        colloc3D_grad D1D Q1D b g x e k j i 1 ∧
      (∑ m in Finset.range Q1D, L.1 k m * S.2 m j i) =
        colloc3D_grad D1D Q1D b g x e k j i 2 := by
    intro k j i hk hj hi
    refine ⟨?_, ?_, ?_⟩
    · refine Finset.sum_congr rfl (fun m hm => ?_)
      rw [hsD i m hi (Finset.mem_range.mp hm), hU k j m hk hj (Finset.mem_range.mp hm)]
    · refine Finset.sum_congr rfl (fun m hm => ?_)
      rw [hsD j m hj (Finset.mem_range.mp hm), hU k m i hk (Finset.mem_range.mp hm) hi]
    · refine Finset.sum_congr rfl (fun m hm => ?_)
      rw [hsD k m hk (Finset.mem_range.mp hm), hU m j i (Finset.mem_range.mp hm) hj hi]
  have hflux : ∀ k j i z, k < Q1D → j < Q1D → i < Q1D →
      (bp3_layerGrad Q1D d e L.1 S.2 k z).1 j i = colloc3D_flux D1D Q1D b g d x e k j i 0 ∧
      (bp3_layerGrad Q1D d e L.1 S.2 k z).2.1 j i = colloc3D_flux D1D Q1D b g d x e k j i 1 ∧
      (bp3_layerGrad Q1D d e L.1 S.2 k z).2.2 j i = colloc3D_flux D1D Q1D b g d x e k j i 2 := by
    intro k j i z hk hj hi
    obtain ⟨h1, h2, h3⟩ := bp3_layerGrad_spec Q1D d e L.1 S.2 k z j i hj hi
    obtain ⟨g1, g2, g3⟩ := hgrad k j i hk hj hi
    rw [h1, h2, h3, g1, g2, g3]
    simp only [colloc3D_flux, metricO3, Matrix.mulVec, Matrix.dotProduct, Fin.sum_univ_three,
      Matrix.of_apply, Matrix.cons_val_zero, Matrix.cons_val_one, Matrix.cons_val_two,
      Matrix.head_cons, Matrix.tail_cons, and_self]
  have hR : ∀ j i n, j < Q1D → i < Q1D → n < Q1D →
      (bp3_layers Q1D d e L.1 S.2 (sc.s_Gqr, sc.s_Gqs, sc.r_qt, bp3_clear Q1D S.1)).2.2.2 j i n =
      colloc3D_Aq D1D Q1D b g d x e j i n := by
    intro j i n hj hi hn
    rw [bp3_layers_spec Q1D d e L.1 S.2 _
      (fun k j i => colloc3D_flux D1D Q1D b g d x e k j i 0)
      (fun k j i => colloc3D_flux D1D Q1D b g d x e k j i 1)
      (fun k j i => colloc3D_flux D1D Q1D b g d x e k j i 2)
      (fun k j i z hk hj hi => (hflux k j i z hk hj hi).1)
      (fun k j i z hk hj hi => (hflux k j i z hk hj hi).2.1)
      (fun k j i z hk hj hi => (hflux k j i z hk hj hi).2.2) j i n hj hi hn]
    show bp3_clear Q1D S.1 j i n + _ = _
    rw [bp3_clear_spec Q1D S.1 j i n hj hi hn, zero_add]
    unfold colloc3D_Aq
    refine Finset.sum_congr rfl (fun k hk => ?_)
    rw [hsD k n (Finset.mem_range.mp hk) hn]
    congr 1
    split
    · refine Finset.sum_congr rfl (fun m hm => ?_)
      rw [hsD m i (Finset.mem_range.mp hm) hi, hsD m j (Finset.mem_range.mp hm) hj]
    · rfl
  generalize (bp3_layers Q1D d e L.1 S.2
    (sc.s_Gqr, sc.s_Gqs, sc.r_qt, bp3_clear Q1D S.1)).2.2.2 = R at hR ⊢
  -- back to the nodes
  rw [bp3_store_spec D1D Q1D _ e y hDQ a' b' c' ha hb hc,
    bp3_backX_spec D1D Q1D _ _ hDQ c' b' a' hc hb ha]
  unfold colloc3D_action
  refine Finset.sum_congr rfl (fun i hi => ?_)
  rw [hsI i a' (Finset.mem_range.mp hi) ha,
    bp3_backY_spec D1D Q1D _ _ hDQ c' b' i hc hb (Finset.mem_range.mp hi)]
  congr 1
  refine Finset.sum_congr rfl (fun j hj => ?_)
  rw [hsI j b' (Finset.mem_range.mp hj) hb]
  show _ * bp3_backZ D1D Q1D L.2.1 R S.2 c' j i = _
  rw [bp3_backZ_spec D1D Q1D _ _ _ c' j i hc (Finset.mem_range.mp hj) (Finset.mem_range.mp hi)]
  congr 1
  refine Finset.sum_congr rfl (fun k hk => ?_)
  rw [hsI k c' (Finset.mem_range.mp hk) hc,
    hR j i k (Finset.mem_range.mp hj) (Finset.mem_range.mp hi) (Finset.mem_range.mp hk)]

theorem BP3Global_v0_body_frame (D1D Q1D : Nat) (b g d x : Nat → K) (sc : BP3Scratch K)
    (e : Nat) (y : Nat → K) (a : Nat)
    (ha : ∀ i j k, i < D1D → j < D1D → k < D1D → a ≠ idx4 D1D D1D D1D i j k e) :
    BP3Global_v0_body D1D Q1D b g d x sc e y a = y a := by
  unfold BP3Global_v0_body
  exact bp3_store_frame _ _ _ _ _ _ ha

end BP3Proofs

section Colloc3DProofs

variable {K : Type*} [CommRing K]

theorem sum_comm4 {M : Type*} [AddCommMonoid M] (A B C D : Finset Nat)
    (f : Nat → Nat → Nat → Nat → M) :
    ∑ a in A, ∑ b in B, ∑ c in C, ∑ d in D, f a b c d =
      ∑ b in B, ∑ c in C, ∑ d in D, ∑ a in A, f a b c d := by
  rw [Finset.sum_comm]
  refine Finset.sum_congr rfl (fun b _ => ?_)
  rw [Finset.sum_comm]
  refine Finset.sum_congr rfl (fun c _ => ?_)
  rw [Finset.sum_comm]

/-- With `C * B = G`, the derivatives taken with the collocated operator on the
interpolated field are the derivatives taken with `G` on the nodal values. -/
theorem colloc3D_grad_eq (D1D Q1D : Nat) (B G C x : Nat → K) (e k j i : Nat)
    (hk : k < Q1D) (hj : j < Q1D) (hi : i < Q1D)
    (hCB : ∀ q d, q < Q1D → d < D1D →
      ∑ m in Finset.range Q1D, C (idx2 Q1D m q) * B (idx2 Q1D m d) = G (idx2 Q1D q d)) :
    colloc3D_grad D1D Q1D B C x e k j i = sumfact3D_grad D1D Q1D B G x e k j i := by
  have h0 : ∑ m in Finset.range Q1D, C (idx2 Q1D m i) * colloc3D_interp D1D Q1D B x e k j m =
      ∑ dz in Finset.range D1D, (∑ dy in Finset.range D1D,
        (∑ dx in Finset.range D1D, x (idx4 D1D D1D D1D dx dy dz e) * G (idx2 Q1D i dx)) *
          B (idx2 Q1D j dy)) * B (idx2 Q1D k dz) := by
    simp only [colloc3D_interp, Finset.mul_sum, Finset.sum_mul]
    rw [sum_comm4, sum_rev3]
    refine Finset.sum_congr rfl (fun a _ => Finset.sum_congr rfl (fun b _ =>
      Finset.sum_congr rfl (fun c hc => ?_)))
    rw [← hCB i c hi (Finset.mem_range.mp hc), Finset.mul_sum, Finset.sum_mul, Finset.sum_mul]
    exact Finset.sum_congr rfl (fun m _ => by ring)
  have h1 : ∑ m in Finset.range Q1D, C (idx2 Q1D m j) * colloc3D_interp D1D Q1D B x e k m i =
      ∑ dz in Finset.range D1D, (∑ dy in Finset.range D1D,
        (∑ dx in Finset.range D1D, x (idx4 D1D D1D D1D dx dy dz e) * B (idx2 Q1D i dx)) *
          G (idx2 Q1D j dy)) * B (idx2 Q1D k dz) := by
    simp only [colloc3D_interp, Finset.mul_sum, Finset.sum_mul]
    rw [sum_comm4, sum_rev3]
    refine Finset.sum_congr rfl (fun a _ => Finset.sum_congr rfl (fun b hb =>
      Finset.sum_congr rfl (fun c _ => ?_)))
    rw [← hCB j b hj (Finset.mem_range.mp hb), Finset.mul_sum, Finset.sum_mul]
    exact Finset.sum_congr rfl (fun m _ => by ring)
  have h2 : ∑ m in Finset.range Q1D, C (idx2 Q1D m k) * colloc3D_interp D1D Q1D B x e m j i =
      ∑ dz in Finset.range D1D, (∑ dy in Finset.range D1D,
        (∑ dx in Finset.range D1D, x (idx4 D1D D1D D1D dx dy dz e) * B (idx2 Q1D i dx)) *
          B (idx2 Q1D j dy)) * G (idx2 Q1D k dz) := by
    simp only [colloc3D_interp, Finset.mul_sum, Finset.sum_mul]
    rw [sum_comm4, sum_rev3]
    refine Finset.sum_congr rfl (fun a ha => Finset.sum_congr rfl (fun b _ =>
      Finset.sum_congr rfl (fun c _ => ?_)))
    rw [← hCB k a hk (Finset.mem_range.mp ha), Finset.mul_sum]
    exact Finset.sum_congr rfl (fun m _ => by ring)
  unfold colloc3D_grad sumfact3D_grad
  rw [h0, h1, h2]

theorem colloc3D_flux_eq (D1D Q1D : Nat) (B G C d x : Nat → K) (e k j i : Nat)
    (hk : k < Q1D) (hj : j < Q1D) (hi : i < Q1D)
    (hCB : ∀ q d, q < Q1D → d < D1D →
      ∑ m in Finset.range Q1D, C (idx2 Q1D m q) * B (idx2 Q1D m d) = G (idx2 Q1D q d)) :
    colloc3D_flux D1D Q1D B C d x e k j i = sumfact3D_flux D1D Q1D B G d x e k j i := by
  unfold colloc3D_flux sumfact3D_flux
  rw [colloc3D_grad_eq D1D Q1D B G C x e k j i hk hj hi hCB]
  have hq : i + ((j * Q1D) + (k * Q1D * Q1D)) = i + (j + k * Q1D) * Q1D := by ring
  rw [hq]

/-- Contraction back to the nodes, first direction: the transposed collocated
operator followed by the interpolation is the transposed derivative table. -/
theorem colloc3D_back0 (D1D Q1D : Nat) (B G C : Nat → K) (F : Nat → Nat → Nat → K)
    (a b c : Nat) (ha : a < D1D)
    (hCB : ∀ q d, q < Q1D → d < D1D →
      ∑ m in Finset.range Q1D, C (idx2 Q1D m q) * B (idx2 Q1D m d) = G (idx2 Q1D q d)) :
    ∑ i in Finset.range Q1D, B (idx2 Q1D i a) * ∑ j in Finset.range Q1D, B (idx2 Q1D j b) *
      ∑ n in Finset.range Q1D, B (idx2 Q1D n c) *
        ∑ m in Finset.range Q1D, C (idx2 Q1D i m) * F n j m =
    ∑ qz in Finset.range Q1D, (∑ qy in Finset.range Q1D,
      (∑ qx in Finset.range Q1D, F qz qy qx * G (idx2 Q1D qx a)) * B (idx2 Q1D qy b)) *
        B (idx2 Q1D qz c) := by
  simp only [Finset.mul_sum, Finset.sum_mul]
  rw [sum_rev3]
  refine Finset.sum_congr rfl (fun n _ => Finset.sum_congr rfl (fun j _ => ?_))
  rw [Finset.sum_comm]
  refine Finset.sum_congr rfl (fun m hm => ?_)
  rw [← hCB m a (Finset.mem_range.mp hm) ha, Finset.mul_sum, Finset.sum_mul, Finset.sum_mul]
  exact Finset.sum_congr rfl (fun i _ => by ring)

theorem colloc3D_back1 (D1D Q1D : Nat) (B G C : Nat → K) (F : Nat → Nat → Nat → K)
    (a b c : Nat) (hb : b < D1D)
    (hCB : ∀ q d, q < Q1D → d < D1D →
      ∑ m in Finset.range Q1D, C (idx2 Q1D m q) * B (idx2 Q1D m d) = G (idx2 Q1D q d)) :
    ∑ i in Finset.range Q1D, B (idx2 Q1D i a) * ∑ j in Finset.range Q1D, B (idx2 Q1D j b) *
      ∑ n in Finset.range Q1D, B (idx2 Q1D n c) *
        ∑ m in Finset.range Q1D, C (idx2 Q1D j m) * F n m i =
    ∑ qz in Finset.range Q1D, (∑ qy in Finset.range Q1D,
      (∑ qx in Finset.range Q1D, F qz qy qx * B (idx2 Q1D qx a)) * G (idx2 Q1D qy b)) *
        B (idx2 Q1D qz c) := by
  simp only [Finset.mul_sum, Finset.sum_mul]
  rw [sum_rev3]
  refine Finset.sum_congr rfl (fun n _ => ?_)
  rw [sum_rev3]
  refine Finset.sum_congr rfl (fun m hm => Finset.sum_congr rfl (fun i _ => ?_))
  rw [← hCB m b (Finset.mem_range.mp hm) hb, Finset.mul_sum, Finset.sum_mul]
  exact Finset.sum_congr rfl (fun j _ => by ring)

theorem colloc3D_back2 (D1D Q1D : Nat) (B G C : Nat → K) (F : Nat → Nat → Nat → K)
    (a b c : Nat) (hc : c < D1D)
    (hCB : ∀ q d, q < Q1D → d < D1D →
      ∑ m in Finset.range Q1D, C (idx2 Q1D m q) * B (idx2 Q1D m d) = G (idx2 Q1D q d)) :
    ∑ i in Finset.range Q1D, B (idx2 Q1D i a) * ∑ j in Finset.range Q1D, B (idx2 Q1D j b) *
      ∑ n in Finset.range Q1D, B (idx2 Q1D n c) *
        ∑ k in Finset.range Q1D, C (idx2 Q1D n k) * F k j i =
    ∑ qz in Finset.range Q1D, (∑ qy in Finset.range Q1D,
      (∑ qx in Finset.range Q1D, F qz qy qx * B (idx2 Q1D qx a)) * B (idx2 Q1D qy b)) *
        G (idx2 Q1D qz c) := by
  simp only [Finset.mul_sum, Finset.sum_mul]
  refine (Finset.sum_congr rfl (fun i _ => Finset.sum_congr rfl (fun j _ =>
    Finset.sum_comm))).trans ?_
  rw [sum_rev3]
  refine Finset.sum_congr rfl (fun k hk => Finset.sum_congr rfl (fun j _ =>
    Finset.sum_congr rfl (fun i _ => ?_)))
  rw [← hCB k c (Finset.mem_range.mp hk) hc, Finset.mul_sum]
  exact Finset.sum_congr rfl (fun n _ => by ring)

/-- With `C * B = G` the collocated form of the action is the dense
contraction. -/
theorem colloc3D_eq_dense (D1D Q1D : Nat) (B G C d x : Nat → K) (e a b c : Nat)
    (ha : a < D1D) (hb : b < D1D) (hc : c < D1D)
    (hCB : ∀ q d, q < Q1D → d < D1D →
      ∑ m in Finset.range Q1D, C (idx2 Q1D m q) * B (idx2 Q1D m d) = G (idx2 Q1D q d)) :
    colloc3D_action D1D Q1D B C d x e a b c = denseAction3D D1D Q1D B G d x e a b c := by
  rw [← sumfact3D_eq_dense]
  have hA : ∀ j i n, n ∈ Finset.range Q1D → colloc3D_Aq D1D Q1D B C d x e j i n =
      ∑ k in Finset.range Q1D, C (idx2 Q1D n k) * colloc3D_flux D1D Q1D B C d x e k j i 2 +
      (∑ m in Finset.range Q1D, C (idx2 Q1D i m) * colloc3D_flux D1D Q1D B C d x e n j m 0 +
       ∑ m in Finset.range Q1D, C (idx2 Q1D j m) * colloc3D_flux D1D Q1D B C d x e n m i 1) := by
    intro j i n hn
    unfold colloc3D_Aq
    rw [Finset.sum_add_distrib, Finset.sum_ite_eq, if_pos hn, Finset.sum_add_distrib]
  have hL : colloc3D_action D1D Q1D B C d x e a b c =
      ∑ i in Finset.range Q1D, B (idx2 Q1D i a) * ∑ j in Finset.range Q1D, B (idx2 Q1D j b) *
        ∑ n in Finset.range Q1D, B (idx2 Q1D n c) *
          (∑ k in Finset.range Q1D, C (idx2 Q1D n k) * colloc3D_flux D1D Q1D B C d x e k j i 2 +
          (∑ m in Finset.range Q1D, C (idx2 Q1D i m) * colloc3D_flux D1D Q1D B C d x e n j m 0 +
           ∑ m in Finset.range Q1D,
             C (idx2 Q1D j m) * colloc3D_flux D1D Q1D B C d x e n m i 1)) := by
    unfold colloc3D_action
    refine Finset.sum_congr rfl (fun i _ => ?_)
    congr 1
    refine Finset.sum_congr rfl (fun j _ => ?_)
    congr 1
    refine Finset.sum_congr rfl (fun n hn => ?_)
    rw [hA j i n hn]
  rw [hL]
  simp only [mul_add, Finset.sum_add_distrib]
  rw [colloc3D_back2 D1D Q1D B G C (fun k j i => colloc3D_flux D1D Q1D B C d x e k j i 2)
      a b c hc hCB,
    colloc3D_back0 D1D Q1D B G C (fun k j i => colloc3D_flux D1D Q1D B C d x e k j i 0)
      a b c ha hCB,
    colloc3D_back1 D1D Q1D B G C (fun k j i => colloc3D_flux D1D Q1D B C d x e k j i 1)
      a b c hb hCB]
  unfold sumfact3D_action
  rw [Finset.sum_add_distrib, Finset.sum_add_distrib]
  have hF : ∀ (t : Fin 3) (w1 w2 w3 : Nat → K),
      ∑ qz in Finset.range Q1D, (∑ qy in Finset.range Q1D,
        (∑ qx in Finset.range Q1D, colloc3D_flux D1D Q1D B C d x e qz qy qx t * w1 qx) *
          w2 qy) * w3 qz =
      ∑ qz in Finset.range Q1D, (∑ qy in Finset.range Q1D,
        (∑ qx in Finset.range Q1D, sumfact3D_flux D1D Q1D B G d x e qz qy qx t * w1 qx) *
          w2 qy) * w3 qz := by
    intro t w1 w2 w3
    refine Finset.sum_congr rfl (fun qz hqz => ?_)
    congr 1
    refine Finset.sum_congr rfl (fun qy hqy => ?_)
    congr 1
    refine Finset.sum_congr rfl (fun qx hqx => ?_)
    rw [colloc3D_flux_eq D1D Q1D B G C d x e qz qy qx (Finset.mem_range.mp hqz)
      (Finset.mem_range.mp hqy) (Finset.mem_range.mp hqx) hCB]
  rw [← hF 0 (fun qx => G (idx2 Q1D qx a)) (fun qy => B (idx2 Q1D qy b))
      (fun qz => B (idx2 Q1D qz c)),
    ← hF 1 (fun qx => B (idx2 Q1D qx a)) (fun qy => G (idx2 Q1D qy b))
      (fun qz => B (idx2 Q1D qz c)),
    ← hF 2 (fun qx => B (idx2 Q1D qx a)) (fun qy => B (idx2 Q1D qy b))
      (fun qz => G (idx2 Q1D qz c))]
  ring

end Colloc3DProofs

section BP3KernelProofs

variable {K : Type*} [CommRing K]

/-- The kernel `BP3Global_v0` always runs its element loop: both of its size
checks compare a size with itself. -/
theorem BP3Global_v0_eq_some (T_D1D T_Q1D NE : Nat) (b g d x : Nat → K) (sc : BP3Scratch K)
    (y0 : Nat → K) (hTD : 0 < T_D1D) (hTQ : 0 < T_Q1D) :
    BP3Global_v0 T_D1D T_Q1D NE b g d x sc y0 =
      some (forLoop NE (fun e y => BP3Global_v0_body T_D1D T_Q1D b g d x sc e y) y0) := by
  simp only [BP3Global_v0, if_pos (Nat.pos_iff_ne_zero.mp hTD),
    if_pos (Nat.pos_iff_ne_zero.mp hTQ), le_refl, not_true_eq_false, if_false]

/-- The element loop of `BP3Global_v0` leaves in every cell of every element
the collocated form of the action, whatever the cell held before. -/
theorem BP3Global_v0_loop_spec (D1D Q1D NE : Nat) (b g d x : Nat → K) (sc : BP3Scratch K)
    (y0 : Nat → K) (hDQ : D1D ≤ Q1D) (e i j k : Nat) (he : e < NE)
    (hi : i < D1D) (hj : j < D1D) (hk : k < D1D) :
    forLoop NE (fun e y => BP3Global_v0_body D1D Q1D b g d x sc e y) y0
      (idx4 D1D D1D D1D i j k e) = colloc3D_action D1D Q1D b g d x e i j k := by
  refine forLoop_single (fun y : Nat → K => y (idx4 D1D D1D D1D i j k e)) (fun _ => True)
    NE e _ y0 _ he trivial (fun _ _ _ _ => trivial) ?_ ?_
  · intro s _
    exact BP3Global_v0_body_spec D1D Q1D b g d x sc e s hDQ i j k hi hj hk
  · intro e' he' _ s
    exact BP3Global_v0_body_frame D1D Q1D b g d x sc e' s _
      (fun i' j' k' hi' hj' hk' => idx4_ne hi hi' hj hj' hk hk'
        (fun h => Nat.ne_of_lt he' h.2.2.2))

theorem BP3Global_v0_loop_frame (D1D Q1D NE : Nat) (b g d x : Nat → K) (sc : BP3Scratch K)
    (y0 : Nat → K) (a : Nat)
    (ha : ∀ e i j k, e < NE → i < D1D → j < D1D → k < D1D → a ≠ idx4 D1D D1D D1D i j k e) :
    forLoop NE (fun e y => BP3Global_v0_body D1D Q1D b g d x sc e y) y0 a = y0 a :=
  forLoop_untouched (fun y : Nat → K => y a) NE _ y0
    (fun e he s => BP3Global_v0_body_frame D1D Q1D b g d x sc e s a
      (fun i j k hi hj hk => ha e i j k he hi hj hk))

/-- **C8.** The global/collocated kernel computes the stiffness action of the
generic 3D kernel.  For template sizes `1 <= D <= Q` (every pair the
dispatcher instantiates), every `NE`, `op`, `x`, tables `B`, `G` (`Q x D`) and
every `Q x Q` table `coG` with `coG * B = G` (row `j`, column `i` of `coG` stored
at `i + Q*j`), `BP3Global_v0<D,Q>(NE,B,coG,op,x,y)` succeeds, the value it
stores in each `y(i,j,k,e)` is the value the element loop of
`PADiffusionApply3D(NE,B,G,Bᵀ,Gᵀ,op,x,y)` leaves there from an all-zero `y`,
which is the dense contraction, it leaves every other address of `y` as it
was, and within the limits `MAX_D1D`, `MAX_Q1D` the generic kernel returns
that element loop. -/
theorem BP3Global_v0_eq_generic (MAX_D1D MAX_Q1D D Q T_D1D T_Q1D d1d q1d NE : Nat)
    (B G coG Bt Gt op x : Nat → K) (sc : BP3Scratch K) (s0 : Scratch3D K) (y0 : Nat → K)
    (hD0 : 0 < D) (hDQ : D ≤ Q)
    (hD1D : D = if T_D1D ≠ 0 then T_D1D else d1d)
    (hQ1D : Q = if T_Q1D ≠ 0 then T_Q1D else q1d)
    (hCB : ∀ q d, q < Q → d < D →
      ∑ m in Finset.range Q, coG (idx2 Q m q) * B (idx2 Q m d) = G (idx2 Q q d))
    (hbt : ∀ d q, d < D → q < Q → Bt (idx2 D d q) = B (idx2 Q q d))
    (hgt : ∀ d q, d < D → q < Q → Gt (idx2 D d q) = G (idx2 Q q d)) :
    ∃ r : Nat → K, BP3Global_v0 D Q NE B coG op x sc y0 = some r ∧
      (∀ e i j k, e < NE → i < D → j < D → k < D →
        r (idx4 D D D i j k e) =
          forLoop NE (fun e y => PADiffusionApply3D_body D Q B G Bt Gt op x s0 e y)
            (fun _ => 0) (idx4 D D D i j k e) ∧
        r (idx4 D D D i j k e) = denseAction3D D Q B G op x e i j k) ∧
      (∀ a, (∀ e i j k, e < NE → i < D → j < D → k < D → a ≠ idx4 D D D i j k e) →
        r a = y0 a) ∧
      (D ≤ MAX_D1D → Q ≤ MAX_Q1D →
        PADiffusionApply3D MAX_D1D MAX_Q1D T_D1D T_Q1D NE B G Bt Gt op x s0 (fun _ => 0)
          d1d q1d =
        some (forLoop NE (fun e y => PADiffusionApply3D_body D Q B G Bt Gt op x s0 e y)
          (fun _ => 0))) := by
  refine ⟨_, BP3Global_v0_eq_some D Q NE B coG op x sc y0 hD0 (lt_of_lt_of_le hD0 hDQ),
    ?_, ?_, ?_⟩
  · intro e i j k he hi hj hk
    have h := BP3Global_v0_loop_spec D Q NE B coG op x sc y0 hDQ e i j k he hi hj hk
    rw [h, colloc3D_eq_dense D Q B G coG op x e i j k hi hj hk hCB,
      PADiffusionApply3D_loop_spec D Q NE B G Bt Gt op x s0 (fun _ => 0) hbt hgt e i j k
        he hi hj hk, zero_add]
    exact ⟨rfl, rfl⟩
  · intro a ha
    exact BP3Global_v0_loop_frame D Q NE B coG op x sc y0 a ha
  · intro hD hQ
    exact PADiffusionApply3D_eq_some MAX_D1D MAX_Q1D T_D1D T_Q1D NE B G Bt Gt op x s0
      (fun _ => 0) d1d q1d D Q hD1D hQ1D hD hQ

/-- Witness for C8: one element with `D = 2`, `Q = 3` over the integers. -/
theorem BP3Global_v0_eq_generic_witness :
    ((0 : Nat) < 2 ∧ (2 : Nat) ≤ 3) ∧
    ∃ r : Nat → ℤ, BP3Global_v0 2 3 1 collocIn_b collocIn_coG collocIn_op collocIn_x
        collocIn_scratch (fun _ => 5) = some r ∧
      r (idx4 2 2 2 1 1 1 0) =
        forLoop 1 (fun e y => PADiffusionApply3D_body 2 3 collocIn_b collocIn_G collocIn_bt
          collocIn_Gt collocIn_op collocIn_x
          ⟨fun _ _ _ _ => 7, fun _ _ _ => 7, fun _ _ => 7, fun _ _ _ => 7, fun _ _ => 7⟩ e y)
          (fun _ => 0) (idx4 2 2 2 1 1 1 0) ∧
      r (idx4 2 2 2 1 1 1 0) =
        denseAction3D 2 3 collocIn_b collocIn_G collocIn_op collocIn_x 0 1 1 1 := by
  have hidx : ∀ d q, d < 2 → q < 3 → idx2 3 (idx2 2 d q / 2) (idx2 2 d q % 2) = idx2 3 q d := by
    intro d q hd hq
    interval_cases d <;> interval_cases q <;> rfl
  have hCB : ∀ q d, q < 3 → d < 2 →
      ∑ m in Finset.range 3, collocIn_coG (idx2 3 m q) * collocIn_b (idx2 3 m d) =
        collocIn_G (idx2 3 q d) := by
    intro q d hq hd
    interval_cases q <;> interval_cases d <;> rfl
  refine ⟨⟨by decide, by decide⟩, ?_⟩
  obtain ⟨r, hr, h, -⟩ := BP3Global_v0_eq_generic 14 14 2 3 0 0 2 3 1 collocIn_b collocIn_G
    collocIn_coG collocIn_bt collocIn_Gt collocIn_op collocIn_x collocIn_scratch
    ⟨fun _ _ _ _ => 7, fun _ _ _ => 7, fun _ _ => 7, fun _ _ _ => 7, fun _ _ => 7⟩
    (fun _ => 5) (by decide) (by decide) rfl rfl hCB
    (fun d q hd hq => by simp only [collocIn_bt, hidx d q hd hq])
    (fun d q hd hq => by simp only [collocIn_Gt, hidx d q hd hq])
  exact ⟨r, hr, h 0 1 1 1 (by decide) (by decide) (by decide) (by decide)⟩

/-- **C9.** `BP3Global_v0` does not accumulate into its output: it overwrites
it.  For template sizes `1 <= D <= Q` and every input, after a call on `y0`
each entry `y(i,j,k,e)` is the entry `A` the kernel computes for `x` (what it
leaves on an all-zero buffer), not `y0(i,j,k,e)` plus it, and after a second
call with the same `x` it is again `A`, not `y0 + 2*A`; the entry equals
`y0(i,j,k,e) + A` only where `y0(i,j,k,e) = 0`. -/
theorem BP3Global_v0_overwrites (D Q NE : Nat) (B coG op x : Nat → K)
    (sc0 sc1 sc2 : BP3Scratch K) (y0 : Nat → K) (hD0 : 0 < D) (hDQ : D ≤ Q) :
    ∃ A y1 y2 : Nat → K,
      BP3Global_v0 D Q NE B coG op x sc0 (fun _ => 0) = some A ∧
      BP3Global_v0 D Q NE B coG op x sc1 y0 = some y1 ∧
      BP3Global_v0 D Q NE B coG op x sc2 y1 = some y2 ∧
      ∀ e i j k, e < NE → i < D → j < D → k < D →
        y1 (idx4 D D D i j k e) = A (idx4 D D D i j k e) ∧
        y2 (idx4 D D D i j k e) = A (idx4 D D D i j k e) ∧
        (y1 (idx4 D D D i j k e) = y0 (idx4 D D D i j k e) + A (idx4 D D D i j k e) ↔
          y0 (idx4 D D D i j k e) = 0) := by
  have hQ0 : 0 < Q := lt_of_lt_of_le hD0 hDQ
  refine ⟨_, _, _, BP3Global_v0_eq_some D Q NE B coG op x sc0 _ hD0 hQ0,
    BP3Global_v0_eq_some D Q NE B coG op x sc1 y0 hD0 hQ0,
    BP3Global_v0_eq_some D Q NE B coG op x sc2 _ hD0 hQ0, ?_⟩
  intro e i j k he hi hj hk
  rw [BP3Global_v0_loop_spec D Q NE B coG op x sc0 _ hDQ e i j k he hi hj hk,
    BP3Global_v0_loop_spec D Q NE B coG op x sc1 y0 hDQ e i j k he hi hj hk,
    BP3Global_v0_loop_spec D Q NE B coG op x sc2 _ hDQ e i j k he hi hj hk]
  refine ⟨rfl, rfl, ?_⟩
  constructor
  · intro h
    exact (add_left_eq_self.mp h.symm)
  · intro h
    rw [h, zero_add]

/-- Witness for C9: one element with `D = 2`, `Q = 3` over the integers and
`y0 = 5` everywhere.  The kernel leaves `388080` in `y(0,0,0,0)` on the zero
buffer, on `y0` and after a second call alike. -/
theorem BP3Global_v0_overwrites_witness :
    ((0 : Nat) < 2 ∧ (2 : Nat) ≤ 3) ∧
    ∃ A y1 y2 : Nat → ℤ,
      BP3Global_v0 2 3 1 collocIn_b collocIn_coG collocIn_op collocIn_x collocIn_scratch
        (fun _ => 0) = some A ∧
      BP3Global_v0 2 3 1 collocIn_b collocIn_coG collocIn_op collocIn_x collocIn_scratch
        (fun _ => 5) = some y1 ∧
      BP3Global_v0 2 3 1 collocIn_b collocIn_coG collocIn_op collocIn_x collocIn_scratch
        y1 = some y2 ∧
      A 0 = 388080 ∧ y1 0 = 388080 ∧ y2 0 = 388080 ∧ y1 0 ≠ 5 + A 0 ∧ y2 0 ≠ 5 + 2 * A 0 := by
  refine ⟨⟨by decide, by decide⟩, ?_⟩
  obtain ⟨A, y1, y2, hA, h1, h2, h⟩ := BP3Global_v0_overwrites 2 3 1 collocIn_b collocIn_coG
    collocIn_op collocIn_x collocIn_scratch collocIn_scratch collocIn_scratch (fun _ => 5)
    (by decide) (by decide)
  have hv : (BP3Global_v0 2 3 1 collocIn_b collocIn_coG collocIn_op collocIn_x
      collocIn_scratch (fun _ => 0)).map (fun y => y 0) = some 388080 := by
    set_option maxRecDepth 100000 in decide
  rw [hA] at hv
  have hA0 : A 0 = 388080 := Option.some.inj hv
  obtain ⟨e1, e2, -⟩ := h 0 0 0 0 (by decide) (by decide) (by decide) (by decide)
  have e1' : y1 0 = A 0 := e1
  have e2' : y2 0 = A 0 := e2
  refine ⟨A, y1, y2, hA, h1, h2, hA0, e1'.trans hA0, e2'.trans hA0, ?_, ?_⟩
  · rw [e1', hA0]
    decide
  · rw [e2', hA0]
    decide

end BP3KernelProofs

section ReflectorProofs

variable {K : Type*} [LinearOrderedField K]

/-- A reflector is symmetric for the dot product of length `m`. -/
theorem reflector_dot_symm (m : Nat) (u : Nat → K) (t : K) (x y : Nat → K) :
    ∑ r in Finset.range m, reflector m u t x r * y r =
      ∑ r in Finset.range m, x r * reflector m u t y r := by
  have h1 : ∀ W : K, ∑ r in Finset.range m, t * W * u r * y r =
      t * W * ∑ r in Finset.range m, u r * y r := by
    intro W
    rw [Finset.mul_sum]
    exact Finset.sum_congr rfl (fun r _ => by ring)
  have h2 : ∀ W : K, ∑ r in Finset.range m, x r * (t * W * u r) =
      t * W * ∑ r in Finset.range m, u r * x r := by
    intro W
    rw [Finset.mul_sum]
    exact Finset.sum_congr rfl (fun r _ => by ring)
  simp only [reflector, sub_mul, mul_sub, Finset.sum_sub_distrib]
  rw [h1, h2]
  ring

/-- A reflector is linear. -/
theorem reflector_sum {ι : Type*} (m : Nat) (u : Nat → K) (t : K) (s : Finset ι) (α : ι → K)
    (w : ι → Nat → K) (r : Nat) :
    reflector m u t (fun r => ∑ d in s, α d * w d r) r =
      ∑ d in s, α d * reflector m u t (w d) r := by
  have h : ∑ q in Finset.range m, u q * ∑ d in s, α d * w d q =
      ∑ d in s, α d * ∑ q in Finset.range m, u q * w d q := by
    simp only [Finset.mul_sum]
    rw [Finset.sum_comm]
    exact Finset.sum_congr rfl (fun d _ => Finset.sum_congr rfl (fun q _ => by ring))
  have h' : ∀ W : ι → K, t * (∑ d in s, α d * W d) * u r = ∑ d in s, α d * (t * W d * u r) := by
    intro W
    rw [Finset.mul_sum, Finset.sum_mul]
    exact Finset.sum_congr rfl (fun d _ => by ring)
  simp only [reflector, mul_sub, Finset.sum_sub_distrib]
  rw [h, h']

/-- A reflector with `t (u · u) = 2` is injective on vectors of length `m`. -/
theorem reflector_vanish (m : Nat) (u : Nat → K) (t : K) (y : Nat → K)
    (ht : t * ∑ q in Finset.range m, u q * u q = 2)
    (h : ∀ r, r < m → reflector m u t y r = 0) : ∀ r, r < m → y r = 0 := by
  have hy : ∀ r, r < m → y r = t * (∑ q in Finset.range m, u q * y q) * u r := by
    intro r hr
    have := h r hr
    simp only [reflector] at this
    exact sub_eq_zero.mp this
  have hw : ∑ q in Finset.range m, u q * y q = 0 := by
    have h1 : ∑ q in Finset.range m, u q * y q =
        ∑ q in Finset.range m, u q * (t * (∑ q in Finset.range m, u q * y q) * u q) :=
      Finset.sum_congr rfl (fun q hq => by rw [← hy q (Finset.mem_range.mp hq)])
    have h2 : ∀ W : K, ∑ q in Finset.range m, u q * (t * W * u q) =
        (t * ∑ q in Finset.range m, u q * u q) * W := by
      intro W
      rw [Finset.mul_sum, Finset.sum_mul]
      exact Finset.sum_congr rfl (fun q _ => by ring)
    rw [h2, ht] at h1
    linarith
  intro r hr
  rw [hy r hr, hw]
  ring

/-- The dot product with a Householder vector, as `CeedHouseholderReflect`
accumulates it. -/
theorem householderU_dot (m i : Nat) (col y : Nat → K) (hi : i < m) :
    ∑ q in Finset.range m, householderU m i col q * y q =
      y i + ∑ k in Finset.range (m - (i + 1)), col (i + 1 + k) * y (i + 1 + k) := by
  have hsplit : ∑ q in Finset.range m, householderU m i col q * y q =
      ∑ q in Finset.range (i + 1), householderU m i col q * y q +
        ∑ q in Finset.Ico (i + 1) m, householderU m i col q * y q := by
    rw [Finset.range_eq_Ico]
    exact (Finset.sum_Ico_consecutive _ (Nat.zero_le _) hi).symm
  rw [hsplit, Finset.sum_range_succ, Finset.sum_Ico_eq_sum_range]
  have h1 : ∑ q in Finset.range i, householderU m i col q * y q = 0 := by
    refine Finset.sum_eq_zero (fun q hq => ?_)
    have hq' := Finset.mem_range.mp hq
    simp only [householderU, if_neg (Nat.ne_of_lt hq'), if_neg (fun h : i < q ∧ q < m =>
      absurd h.1 (Nat.lt_asymm hq')), zero_mul]
  have h2 : householderU m i col i = 1 := if_pos rfl
  have h3 : ∀ k, k ∈ Finset.range (m - (i + 1)) →
      householderU m i col (i + 1 + k) * y (i + 1 + k) = col (i + 1 + k) * y (i + 1 + k) := by
    intro k hk
    have hk' := Finset.mem_range.mp hk
    have hne : i + 1 + k ≠ i := by omega
    have hlt : i < i + 1 + k ∧ i + 1 + k < m := by omega
    simp only [householderU, if_neg hne, if_pos hlt]
  rw [h1, h2, Finset.sum_congr rfl h3, zero_add, one_mul]

/-- The reflector of column `i` leaves the rows above `i` and the entries
beyond the length `m` as they are. -/
theorem reflector_householderU_above (m i : Nat) (col : Nat → K) (t : K) (y : Nat → K) (r : Nat)
    (hr : r < i ∨ m ≤ r) (hi : i < m) :
    reflector m (householderU m i col) t y r = y r := by
  have hu : householderU m i col r = 0 := by
    have hne : r ≠ i := by omega
    have hn : ¬ (i < r ∧ r < m) := by omega
    simp only [householderU, if_neg hne, if_neg hn]
  simp only [reflector, hu, mul_zero, sub_zero]

/-- The reflector of column `i` fixes every vector that is zero in the rows
`i .. m-1`. -/
theorem reflector_householderU_fix (m i : Nat) (col : Nat → K) (t : K) (y : Nat → K)
    (hy : ∀ r, i ≤ r → r < m → y r = 0) (r : Nat) :
    reflector m (householderU m i col) t y r = y r := by
  have hw : ∑ q in Finset.range m, householderU m i col q * y q = 0 := by
    refine Finset.sum_eq_zero (fun q hq => ?_)
    have hq' := Finset.mem_range.mp hq
    by_cases h : i ≤ q
    · rw [hy q h hq', mul_zero]
    · have hne : q ≠ i := by omega
      have hn : ¬ (i < q ∧ q < m) := by omega
      simp only [householderU, if_neg hne, if_neg hn, zero_mul]
  simp only [reflector, hw, mul_zero, zero_mul, sub_zero]

/-- The pivot chosen by `CeedQRFactorization`: for a nonzero column,
`Rii = -copysign(sqrt(a² + σ), a)` squares to `a² + σ`, is nonzero, and
differs from `a`. -/
theorem householder_pivot (sqrt : K → K)
    (hsqrt : ∀ t : K, 0 ≤ t → 0 ≤ sqrt t ∧ sqrt t * sqrt t = t) (a σ : K) (hσ : 0 ≤ σ)
    (hne : a * a + σ ≠ 0) :
    (-copysign (sqrt (a * a + σ)) a) * (-copysign (sqrt (a * a + σ)) a) = a * a + σ ∧
    -copysign (sqrt (a * a + σ)) a ≠ 0 ∧ a - -copysign (sqrt (a * a + σ)) a ≠ 0 := by
  have h0 : 0 ≤ a * a + σ := add_nonneg (mul_self_nonneg a) hσ
  obtain ⟨hn0, hn2⟩ := hsqrt (a * a + σ) h0
  have hnpos : 0 < sqrt (a * a + σ) := by
    rcases hn0.lt_or_eq with h | h
    · exact h
    · exfalso
      rw [← h, mul_zero] at hn2
      exact hne hn2.symm
  unfold copysign
  rw [abs_of_nonneg hn0]
  by_cases ha : a < 0
  · rw [if_pos ha, neg_neg]
    refine ⟨hn2, ne_of_gt hnpos, ?_⟩
    have : a - sqrt (a * a + σ) < 0 := by linarith
    exact ne_of_lt this
  · rw [if_neg ha]
    refine ⟨by rw [neg_mul_neg]; exact hn2, neg_ne_zero.mpr (ne_of_gt hnpos), ?_⟩
    have : 0 < a - -sqrt (a * a + σ) := by
      have := not_lt.mp ha
      linarith
    exact ne_of_gt this

/-- The Householder property: the reflector built from a column `x` sends it to
`Rii` in row `i` and to zero below, and its `tau` makes it an involution. -/
theorem householder_property (m i : Nat) (x : Nat → K) (Rii : K) (hi : i < m)
    (hR : Rii * Rii = x i * x i +
      ∑ k in Finset.range (m - (i + 1)), x (i + 1 + k) * x (i + 1 + k))
    (hR0 : Rii ≠ 0) (hv0 : x i - Rii ≠ 0) :
    (reflector m (householderU m i (fun r => x r / (x i - Rii)))
      (2 * (x i - Rii) * (x i - Rii) / ((x i - Rii) * (x i - Rii) +
        ∑ k in Finset.range (m - (i + 1)), x (i + 1 + k) * x (i + 1 + k))) x i = Rii) ∧
    (∀ r, i < r → r < m →
      reflector m (householderU m i (fun r => x r / (x i - Rii)))
        (2 * (x i - Rii) * (x i - Rii) / ((x i - Rii) * (x i - Rii) +
          ∑ k in Finset.range (m - (i + 1)), x (i + 1 + k) * x (i + 1 + k))) x r = 0) ∧
    (2 * (x i - Rii) * (x i - Rii) / ((x i - Rii) * (x i - Rii) +
        ∑ k in Finset.range (m - (i + 1)), x (i + 1 + k) * x (i + 1 + k))) *
      (∑ q in Finset.range m, householderU m i (fun r => x r / (x i - Rii)) q *
        householderU m i (fun r => x r / (x i - Rii)) q) = 2 := by
  generalize hσ : ∑ k in Finset.range (m - (i + 1)), x (i + 1 + k) * x (i + 1 + k) = σ at hR ⊢
  have hden : (x i - Rii) * (x i - Rii) + σ = -2 * Rii * (x i - Rii) := by
    linear_combination -hR
  have hden0 : (x i - Rii) * (x i - Rii) + σ ≠ 0 := by
    rw [hden]
    exact mul_ne_zero (mul_ne_zero (by norm_num) hR0) hv0
  have hdot : ∑ q in Finset.range m, householderU m i (fun r => x r / (x i - Rii)) q * x q =
      x i + σ / (x i - Rii) := by
    rw [householderU_dot m i _ x hi, ← hσ, Finset.sum_div]
    congr 1
    exact Finset.sum_congr rfl (fun k _ => by ring)
  have huu : ∑ q in Finset.range m, householderU m i (fun r => x r / (x i - Rii)) q *
      householderU m i (fun r => x r / (x i - Rii)) q =
      1 + σ / ((x i - Rii) * (x i - Rii)) := by
    rw [householderU_dot m i _ _ hi, ← hσ, Finset.sum_div]
    have h1 : householderU m i (fun r => x r / (x i - Rii)) i = 1 := if_pos rfl
    rw [h1]
    congr 1
    refine Finset.sum_congr rfl (fun k hk => ?_)
    have hk' := Finset.mem_range.mp hk
    have hne : i + 1 + k ≠ i := by omega
    have hlt : i < i + 1 + k ∧ i + 1 + k < m := by omega
    simp only [householderU, if_neg hne, if_pos hlt]
    field_simp
  have hkey : 2 * (x i - Rii) * (x i - Rii) / ((x i - Rii) * (x i - Rii) + σ) *
      (x i + σ / (x i - Rii)) = x i - Rii := by
    rw [hden]
    field_simp
    linear_combination (-2 * (x i - Rii) * (x i - Rii)) * hR
  refine ⟨?_, ?_, ?_⟩
  · simp only [reflector]
    rw [hdot, hkey]
    have h1 : householderU m i (fun r => x r / (x i - Rii)) i = 1 := if_pos rfl
    rw [h1]
    ring
  · intro r hir hrm
    simp only [reflector]
    rw [hdot, hkey]
    have hne : r ≠ i := by omega
    simp only [householderU, if_neg hne, if_pos (And.intro hir hrm)]
    field_simp
  · rw [huu]
    field_simp
    ring

end ReflectorProofs

section QRStepProofs

variable {K : Type*} [LinearOrderedField K]

/-- A scalar reduction over `lo ≤ i < hi`. -/
theorem forLoopFrom_sum {β : Type*} [AddCommMonoid β] (lo hi : Nat) (f : Nat → β) (w0 : β) :
    forLoopFrom lo hi (fun i w => w + f i) w0 =
      w0 + ∑ k in Finset.range (hi - lo), f (lo + k) := by
  unfold forLoopFrom
  exact forLoop_sum (hi - lo) (fun k => f (lo + k)) w0

/-- A loop of in-place updates of distinct cells, each new value computed from
the old value of the same cell: the cell of iteration `k0`. -/
theorem forLoop_update_hit {β : Type*} (n : Nat) (p : Nat → Nat) (g : Nat → β → β)
    (A0 : Nat → β) (k0 : Nat) (hk0 : k0 < n)
    (hinj : ∀ k, k < n → k ≠ k0 → p k ≠ p k0) :
    forLoop n (fun k A => Function.update A (p k) (g k (A (p k)))) A0 (p k0) =
      g k0 (A0 (p k0)) := by
  refine forLoop_single (fun A : Nat → β => A (p k0)) (fun A => A (p k0) = A0 (p k0))
    n k0 _ A0 _ hk0 rfl ?_ ?_ ?_
  · intro k hk s hs
    have hne : p k0 ≠ p k := fun h => hinj k (Nat.lt_trans hk hk0) (Nat.ne_of_lt hk) h.symm
    exact (Function.update_noteq hne _ _).trans hs
  · intro s hs
    show Function.update s (p k0) (g k0 (s (p k0))) (p k0) = _
    rw [Function.update_same, hs]
  · intro k hk hkn s
    have hne : p k0 ≠ p k := fun h => hinj k hkn (Nat.ne_of_gt hk) h.symm
    exact Function.update_noteq hne _ _

/-- A cell that no iteration updates keeps its value. -/
theorem forLoop_update_miss {β : Type*} (n : Nat) (p : Nat → Nat) (g : Nat → β → β)
    (A0 : Nat → β) (x : Nat) (h : ∀ k, k < n → x ≠ p k) :
    forLoop n (fun k A => Function.update A (p k) (g k (A (p k)))) A0 x = A0 x :=
  forLoop_untouched (fun A : Nat → β => A x) n _ A0
    (fun k hk s => Function.update_noteq (h k hk) _ _)

/-- One column of `CeedHouseholderReflect`: a cell outside the column keeps its
value. -/
theorem reflect_column_frame (A : Nat → K) (aoff : Nat) (v : Nat → K) (voff : Nat) (b : K)
    (m row col j : Nat) (x : Nat) (hx : ∀ i, i < m → x ≠ aoff + (i * row + j * col))
    (hm : 0 < m) :
    forLoopFrom 1 m (fun i A' =>
      Function.update A' (aoff + (i * row + j * col))
        (A' (aoff + (i * row + j * col)) -
          b * (forLoopFrom 1 m (fun i w => w + v (voff + i) * A (aoff + (i * row + j * col)))
            (A (aoff + (0 * row + j * col)))) * v (voff + i)))
      (Function.update A (aoff + (0 * row + j * col))
        (A (aoff + (0 * row + j * col)) -
          b * (forLoopFrom 1 m (fun i w => w + v (voff + i) * A (aoff + (i * row + j * col)))
            (A (aoff + (0 * row + j * col)))))) x = A x := by
  unfold forLoopFrom
  rw [forLoop_update_miss (m - 1) (fun k => aoff + ((1 + k) * row + j * col))
    (fun k a => a - b * _ * v (voff + (1 + k))) _ x
    (fun k hk => hx (1 + k) (by omega))]
  exact Function.update_noteq (hx 0 hm) _ _

/-- One column of `CeedHouseholderReflect`: the values written. -/
theorem reflect_column_spec (A : Nat → K) (aoff : Nat) (v : Nat → K) (voff : Nat) (b : K)
    (m row col j : Nat) (i : Nat) (hi : i < m)
    (hinj : ∀ i i', i < m → i' < m →
      aoff + (i * row + j * col) = aoff + (i' * row + j * col) → i = i') :
    forLoopFrom 1 m (fun i A' =>
      Function.update A' (aoff + (i * row + j * col))
        (A' (aoff + (i * row + j * col)) -
          b * (forLoopFrom 1 m (fun i w => w + v (voff + i) * A (aoff + (i * row + j * col)))
            (A (aoff + (0 * row + j * col)))) * v (voff + i)))
      (Function.update A (aoff + (0 * row + j * col))
        (A (aoff + (0 * row + j * col)) -
          b * (forLoopFrom 1 m (fun i w => w + v (voff + i) * A (aoff + (i * row + j * col)))
            (A (aoff + (0 * row + j * col)))))) (aoff + (i * row + j * col)) =
    A (aoff + (i * row + j * col)) -
      b * (A (aoff + (0 * row + j * col)) +
        ∑ k in Finset.range (m - 1), v (voff + (1 + k)) * A (aoff + ((1 + k) * row + j * col))) *
      (if i = 0 then 1 else v (voff + i)) := by
  rw [forLoopFrom_sum]
  generalize A (aoff + (0 * row + j * col)) +
    ∑ k in Finset.range (m - 1), v (voff + (1 + k)) * A (aoff + ((1 + k) * row + j * col)) = W
  unfold forLoopFrom
  by_cases h0 : i = 0
  · subst h0
    rw [forLoop_update_miss (m - 1) (fun k => aoff + ((1 + k) * row + j * col))
      (fun k a => a - b * W * v (voff + (1 + k))) _ _
      (fun k hk h => by have := hinj 0 (1 + k) hi (by omega) h; omega),
      Function.update_same, if_pos rfl, mul_one]
  · obtain ⟨k', rfl⟩ : ∃ k', i = 1 + k' := ⟨i - 1, by omega⟩
    have hk0 : k' < m - 1 := by omega
    have h := forLoop_update_hit (m - 1) (fun k => aoff + ((1 + k) * row + j * col))
      (fun k a => a - b * W * v (voff + (1 + k)))
      (Function.update A (aoff + (0 * row + j * col)) (A (aoff + (0 * row + j * col)) - b * W))
      k' hk0
      (fun k hk hne h => by
        have := hinj (1 + k) (1 + k') (by omega) (by omega) h
        omega)
    refine h.trans ?_
    beta_reduce
    rw [if_neg h0, Function.update_noteq (fun h => h0 (hinj (1 + k') 0 hi (by omega) h))]

/-- The cells `CeedHouseholderReflect` does not address keep their value. -/
theorem CeedHouseholderReflect_frame (A : Nat → K) (aoff : Nat) (v : Nat → K) (voff : Nat)
    (b : K) (m n row col : Nat) (hm : 0 < m) (x : Nat)
    (hx : ∀ i j, i < m → j < n → x ≠ aoff + (i * row + j * col)) :
    CeedHouseholderReflect A aoff v voff b m n row col x = A x := by
  unfold CeedHouseholderReflect
  refine forLoop_untouched (fun A : Nat → K => A x) n _ A ?_
  intro j hj s
  exact reflect_column_frame s aoff v voff b m row col j x (fun i hi => hx i j hi hj) hm

/-- The values `CeedHouseholderReflect` leaves in the block it addresses:
every column `j` has `b * w_j * u` subtracted, `u = (1, v[1], v[2], ...)` and
`w_j` the dot product of `u` with the column. -/
theorem CeedHouseholderReflect_spec (A : Nat → K) (aoff : Nat) (v : Nat → K) (voff : Nat)
    (b : K) (m n row col : Nat) (hm : 0 < m)
    (hinj : ∀ i i' j j', i < m → i' < m → j < n → j' < n →
      aoff + (i * row + j * col) = aoff + (i' * row + j' * col) → i = i' ∧ j = j')
    (i j : Nat) (hi : i < m) (hj : j < n) :
    CeedHouseholderReflect A aoff v voff b m n row col (aoff + (i * row + j * col)) =
      A (aoff + (i * row + j * col)) -
        b * (A (aoff + (0 * row + j * col)) +
          ∑ k in Finset.range (m - 1),
            v (voff + (1 + k)) * A (aoff + ((1 + k) * row + j * col))) *
        (if i = 0 then 1 else v (voff + i)) := by
  unfold CeedHouseholderReflect
  refine forLoop_single (fun A' : Nat → K => A' (aoff + (i * row + j * col)))
    (fun A' => ∀ i', i' < m → A' (aoff + (i' * row + j * col)) = A (aoff + (i' * row + j * col)))
    n j _ A _ hj (fun _ _ => rfl) ?_ ?_ ?_
  · intro k hk s hs i' hi'
    refine (reflect_column_frame s aoff v voff b m row col k _ ?_ hm).trans (hs i' hi')
    intro i'' hi'' h
    exact absurd (hinj i' i'' j k hi' hi'' hj (Nat.lt_trans hk hj) h).2 (Nat.ne_of_gt hk)
  · intro s hs
    refine (reflect_column_spec s aoff v voff b m row col j i hi
      (fun a a' ha ha' h => (hinj a a' j j ha ha' hj hj h).1)).trans ?_
    have hsum : ∑ k in Finset.range (m - 1),
        v (voff + (1 + k)) * s (aoff + ((1 + k) * row + j * col)) =
        ∑ k in Finset.range (m - 1),
          v (voff + (1 + k)) * A (aoff + ((1 + k) * row + j * col)) :=
      Finset.sum_congr rfl (fun k hk => by
        rw [hs (1 + k) (by have := Finset.mem_range.mp hk; omega)])
    rw [hs i hi, hs 0 hm, hsum]
  · intro k hk hkn s
    refine reflect_column_frame s aoff v voff b m row col k _ ?_ hm
    intro i'' hi'' h
    exact absurd (hinj i i'' j k hi hi'' hj hkn h).2 (Nat.ne_of_lt hk)

theorem forLoopFrom_update_hit {β : Type*} (lo hi : Nat) (p : Nat → Nat) (g : Nat → β → β)
    (A0 : Nat → β) (j0 : Nat) (hlo : lo ≤ j0) (hhi : j0 < hi)
    (hinj : ∀ j, lo ≤ j → j < hi → j ≠ j0 → p j ≠ p j0) :
    forLoopFrom lo hi (fun j A => Function.update A (p j) (g j (A (p j)))) A0 (p j0) =
      g j0 (A0 (p j0)) := by
  obtain ⟨k0, rfl⟩ : ∃ k0, j0 = lo + k0 := ⟨j0 - lo, by omega⟩
  unfold forLoopFrom
  exact forLoop_update_hit (hi - lo) (fun k => p (lo + k)) (fun k a => g (lo + k) a) A0 k0
    (by omega) (fun k hk hne => hinj (lo + k) (by omega) (by omega) (by omega))

theorem forLoopFrom_update_miss {β : Type*} (lo hi : Nat) (p : Nat → Nat) (g : Nat → β → β)
    (A0 : Nat → β) (x : Nat) (h : ∀ j, lo ≤ j → j < hi → x ≠ p j) :
    forLoopFrom lo hi (fun j A => Function.update A (p j) (g j (A (p j)))) A0 x = A0 x := by
  unfold forLoopFrom
  exact forLoop_update_miss (hi - lo) (fun k => p (lo + k)) (fun k a => g (lo + k) a) A0 x
    (fun k hk => h (lo + k) (by omega) (by omega))

/-- The first loop of a factorization step (lines 1442-1446): column `i` is
copied below the diagonal into `v` and its squares are summed. -/
theorem qr_gather_spec (m n i : Nat) (mat v : Nat → K) :
    (forLoopFrom (i + 1) m (fun j (vs : (Nat → K) × K) =>
      (Function.update vs.1 j (mat (i + n * j)),
        vs.2 + Function.update vs.1 j (mat (i + n * j)) j *
          Function.update vs.1 j (mat (i + n * j)) j)) (v, 0)).2 =
      ∑ k in Finset.range (m - (i + 1)), mat (i + n * (i + 1 + k)) * mat (i + n * (i + 1 + k)) ∧
    (∀ j, i < j → j < m →
      (forLoopFrom (i + 1) m (fun j (vs : (Nat → K) × K) =>
        (Function.update vs.1 j (mat (i + n * j)),
          vs.2 + Function.update vs.1 j (mat (i + n * j)) j *
            Function.update vs.1 j (mat (i + n * j)) j)) (v, 0)).1 j = mat (i + n * j)) ∧
    (∀ x, x ≤ i ∨ m ≤ x →
      (forLoopFrom (i + 1) m (fun j (vs : (Nat → K) × K) =>
        (Function.update vs.1 j (mat (i + n * j)),
          vs.2 + Function.update vs.1 j (mat (i + n * j)) j *
            Function.update vs.1 j (mat (i + n * j)) j)) (v, 0)).1 x = v x) := by
  unfold forLoopFrom
  refine ⟨?_, ?_, ?_⟩
  · refine (forLoop_accum (fun vs : (Nat → K) × K => vs.2) (fun _ => True) (m - (i + 1)) _
      (v, 0) (fun k => mat (i + n * (i + 1 + k)) * mat (i + n * (i + 1 + k))) trivial
      (fun _ _ _ _ => trivial) ?_).trans (zero_add _)
    intro k _ s _
    show s.2 + _ * _ = _
    rw [Function.update_same]
  · intro j hij hjm
    obtain ⟨k0, rfl⟩ : ∃ k0, j = i + 1 + k0 := ⟨j - (i + 1), by omega⟩
    refine forLoop_single (fun vs : (Nat → K) × K => vs.1 (i + 1 + k0)) (fun _ => True)
      (m - (i + 1)) k0 _ (v, 0) _ (by omega) trivial (fun _ _ _ _ => trivial) ?_ ?_
    · intro s _
      exact Function.update_same _ _ _
    · intro k hk _ s
      exact Function.update_noteq (by omega) _ _
  · intro x hx
    refine forLoop_untouched (fun vs : (Nat → K) × K => vs.1 x) (m - (i + 1)) _ (v, 0) ?_
    intro k hk s
    exact Function.update_noteq (by omega) _ _

/-- The scaling loop of a factorization step (line 1454): the entries below
`i` are divided by `v[i]`. -/
theorem qr_scale_spec (m i : Nat) (v : Nat → K) :
    (∀ j, i < j → j < m →
      forLoopFrom (i + 1) m (fun j v => Function.update v j (v j / v i)) v j = v j / v i) ∧
    (∀ x, x ≤ i ∨ m ≤ x →
      forLoopFrom (i + 1) m (fun j v => Function.update v j (v j / v i)) v x = v x) := by
  unfold forLoopFrom
  refine ⟨?_, ?_⟩
  · intro j hij hjm
    obtain ⟨k0, rfl⟩ : ∃ k0, j = i + 1 + k0 := ⟨j - (i + 1), by omega⟩
    refine forLoop_single (fun s : Nat → K => s (i + 1 + k0))
      (fun s => s i = v i ∧ s (i + 1 + k0) = v (i + 1 + k0))
      (m - (i + 1)) k0 _ v _ (by omega) ⟨rfl, rfl⟩ ?_ ?_ ?_
    · intro k hk s hs
      exact ⟨(Function.update_noteq (by omega) _ _).trans hs.1,
        (Function.update_noteq (by omega) _ _).trans hs.2⟩
    · intro s hs
      show Function.update s (i + 1 + k0) (s (i + 1 + k0) / s i) (i + 1 + k0) = _
      rw [Function.update_same, hs.1, hs.2]
    · intro k hk _ s
      exact Function.update_noteq (by omega) _ _
  · intro x hx
    refine forLoop_untouched (fun s : Nat → K => s x) (m - (i + 1)) _ v ?_
    intro k hk s
    exact Function.update_noteq (by omega) _ _

/-- Entries of a row-major matrix with `n` columns have distinct offsets. -/
theorem rowmajor_inj {n d r d' r' : Nat} (hd : d < n) (hd' : d' < n)
    (h : d + n * r = d' + n * r') : d = d' ∧ r = r' :=
  @idx2_inj n d r d' r' hd hd' h

/-- One step of `CeedQRFactorization`, for column `i`: with `a` the diagonal
entry, `σ` the sum of the squares below it, `Rii = -copysign(sqrt(a² + σ), a)`,
`v0 = a - Rii` and `τ = 2 v0² / (v0² + σ)`, the step stores `τ` in `tau[i]`,
`Rii` on the diagonal, the column divided by `v0` below it, subtracts
`τ w u` from every column to the right (rows `i..m-1`), and leaves all other
entries of `mat` as they are. -/
theorem CeedQRFactorization_step_spec (sqrt : K → K) (m n i : Nat)
    (s : (Nat → K) × (Nat → K) × (Nat → K)) (hin : i < n) (hnm : n ≤ m)
    (a σ Rii v0 τ : K) (ha : a = s.1 (i + n * i))
    (hσ : σ = ∑ k in Finset.range (m - (i + 1)),
      s.1 (i + n * (i + 1 + k)) * s.1 (i + n * (i + 1 + k)))
    (hR : Rii = -copysign (sqrt (a * a + σ)) a) (hv0 : v0 = a - Rii)
    (hτ : τ = 2 * v0 * v0 / (v0 * v0 + σ)) :
    (CeedQRFactorization_step sqrt m n i s).2.1 = Function.update s.2.1 i τ ∧
    (CeedQRFactorization_step sqrt m n i s).1 (i + n * i) = Rii ∧
    (∀ r, i < r → r < m →
      (CeedQRFactorization_step sqrt m n i s).1 (i + n * r) = s.1 (i + n * r) / v0) ∧
    (∀ r d, i ≤ r → r < m → i < d → d < n →
      (CeedQRFactorization_step sqrt m n i s).1 (d + n * r) =
        s.1 (d + n * r) -
          τ * (s.1 (d + n * i) + ∑ k in Finset.range (m - i - 1),
            s.1 (i + n * (i + 1 + k)) / v0 * s.1 (d + n * (i + 1 + k))) *
          (if r = i then 1 else s.1 (i + n * r) / v0)) ∧
    (∀ x, (∀ r d, i ≤ r → r < m → i ≤ d → d < n → x ≠ d + n * r) →
      (CeedQRFactorization_step sqrt m n i s).1 x = s.1 x) := by
  have him : i < m := lt_of_lt_of_le hin hnm
  have hn0 : 0 < n := Nat.lt_of_le_of_lt (Nat.zero_le i) hin
  unfold CeedQRFactorization_step
  dsimp only
  obtain ⟨hs2, hv1, hv1'⟩ := qr_gather_spec m n i s.1 (Function.update s.2.2 i (s.1 (i + n * i)))
  generalize (forLoopFrom (i + 1) m (fun j (vs : (Nat → K) × K) =>
      (Function.update vs.1 j (s.1 (i + n * j)),
        vs.2 + Function.update vs.1 j (s.1 (i + n * j)) j *
          Function.update vs.1 j (s.1 (i + n * j)) j))
      (Function.update s.2.2 i (s.1 (i + n * i)), 0)) = vs at hs2 hv1 hv1' ⊢
  have hvi : vs.1 i = a := by
    rw [hv1' i (Or.inl (le_refl i)), Function.update_same, ha]
  rw [← hσ] at hs2
  simp only [hvi, hs2, ← hR, Function.update_same, ← hv0, ← hτ]
  obtain ⟨hv3, hv3'⟩ := qr_scale_spec m i (Function.update vs.1 i v0)
  generalize forLoopFrom (i + 1) m (fun j v => Function.update v j (v j / v i))
    (Function.update vs.1 i v0) = V3 at hv3 hv3' ⊢
  have hV3 : ∀ j, i < j → j < m → V3 j = s.1 (i + n * j) / v0 := by
    intro j hij hjm
    rw [hv3 j hij hjm, Function.update_same, Function.update_noteq (Nat.ne_of_gt hij),
      hv1 j hij hjm]
  have hinj : ∀ i' i'' j j', i' < m - i → i'' < m - i → j < n - i - 1 → j' < n - i - 1 →
      i * n + i + 1 + (i' * n + j * 1) = i * n + i + 1 + (i'' * n + j' * 1) →
      i' = i'' ∧ j = j' := by
    intro i' i'' j j' _ _ hj hj' h
    have h1 : (i + 1 + j) + n * (i + i') = (i + 1 + j') + n * (i + i'') := by
      have e1 : (i + 1 + j) + n * (i + i') = i * n + i + 1 + (i' * n + j * 1) := by ring
      have e2 : (i + 1 + j') + n * (i + i'') = i * n + i + 1 + (i'' * n + j' * 1) := by ring
      rw [e1, e2, h]
    have := rowmajor_inj (by omega) (by omega) h1
    omega
  have hsave_miss : ∀ (M : Nat → K) (x : Nat), (∀ j, i < j → j < m → x ≠ i + n * j) →
      forLoopFrom (i + 1) m (fun j mat => Function.update mat (i + n * j) (V3 j)) M x = M x := by
    intro M x hx
    exact forLoopFrom_update_miss (i + 1) m (fun j => i + n * j) (fun j _ => V3 j) M x
      (fun j hj hjm => hx j hj hjm)
  refine ⟨trivial, ?_, ?_, ?_, ?_⟩
  · rw [hsave_miss _ _ (fun j hij _ h => by
      have := (rowmajor_inj hin hin h).2
      omega), Function.update_same]
  · intro r hir hrm
    rw [← hV3 r hir hrm]
    exact forLoopFrom_update_hit (i + 1) m (fun j => i + n * j) (fun j _ => V3 j) _ r hir hrm
      (fun j _ _ hne h => hne (rowmajor_inj hin hin h).2)
  · intro r d hir hrm hid hdn
    obtain ⟨i', rfl⟩ : ∃ i', r = i + i' := ⟨r - i, by omega⟩
    obtain ⟨j, rfl⟩ : ∃ j, d = i + 1 + j := ⟨d - (i + 1), by omega⟩
    have haddr : ∀ q, (i + 1 + j) + n * (i + q) = i * n + i + 1 + (q * n + j * 1) := by
      intro q
      ring
    rw [hsave_miss _ _ (fun j' _ _ h => by
        have := (rowmajor_inj hdn hin h).1
        omega),
      Function.update_noteq (fun h => by
        have := (rowmajor_inj hdn hin h).1
        omega),
      haddr i', CeedHouseholderReflect_spec s.1 (i * n + i + 1) V3 i τ (m - i) (n - i - 1) n 1
        (by omega) hinj i' j (by omega) (by omega)]
    have hsum : ∑ k in Finset.range (m - i - 1),
        V3 (i + (1 + k)) * s.1 (i * n + i + 1 + ((1 + k) * n + j * 1)) =
        ∑ k in Finset.range (m - i - 1),
          s.1 (i + n * (i + 1 + k)) / v0 * s.1 (i + 1 + j + n * (i + 1 + k)) := by
      refine Finset.sum_congr rfl (fun k hk => ?_)
      have hk' := Finset.mem_range.mp hk
      have e1 : i + (1 + k) = i + 1 + k := by ring
      have e2 : i * n + i + 1 + ((1 + k) * n + j * 1) = i + 1 + j + n * (i + 1 + k) := by ring
      rw [e1, e2, hV3 (i + 1 + k) (by omega) (by omega)]
    have e0 : i * n + i + 1 + (0 * n + j * 1) = i + 1 + j + n * i := by ring
    rw [hsum, e0]
    by_cases h0 : i' = 0
    · subst h0
      simp only [if_pos rfl, Nat.add_zero, if_true]
    · have hne : i + i' ≠ i := by omega
      rw [if_neg h0, if_neg hne, hV3 (i + i') (by omega) hrm]
  · intro x hx
    rw [hsave_miss _ _ (fun j hij hjm => hx j i (Nat.le_of_lt hij) hjm (le_refl i) hin),
      Function.update_noteq (hx i i (le_refl i) him (le_refl i) hin)]
    refine CeedHouseholderReflect_frame s.1 (i * n + i + 1) V3 i τ (m - i) (n - i - 1) n 1
      (by omega) x ?_
    intro i' j hi' hj
    have e : i * n + i + 1 + (i' * n + j * 1) = (i + 1 + j) + n * (i + i') := by ring
    rw [e]
    exact hx (i + i') (i + 1 + j) (by omega) (by omega) (by omega) (by omega)

end QRStepProofs

section QRInvariantProofs

variable {K : Type*} [LinearOrderedField K]

theorem forLoop_congr {σ : Type*} (n : Nat) (body body' : Nat → σ → σ) (s : σ)
    (h : ∀ k, k < n → ∀ s, body k s = body' k s) :
    forLoop n body s = forLoop n body' s := by
  induction n with
  | zero => rfl
  | succ n ih =>
    rw [forLoop_succ, forLoop_succ, ih (fun k hk s => h k (Nat.lt_succ_of_lt hk) s),
      h n (Nat.lt_succ_self n)]

theorem householderU_congr (m i : Nat) (col col' : Nat → K)
    (h : ∀ r, i < r → r < m → col r = col' r) :
    householderU m i col = householderU m i col' := by
  funext r
  unfold householderU
  by_cases h1 : r = i
  · rw [if_pos h1, if_pos h1]
  · rw [if_neg h1, if_neg h1]
    by_cases h2 : i < r ∧ r < m
    · rw [if_pos h2, if_pos h2, h r h2.1 h2.2]
    · rw [if_neg h2, if_neg h2]

/-- A stored reflector depends only on the entries of its column below the
diagonal and on its `tau`. -/
theorem qrReflector_congr (m n : Nat) (mat mat' tau tau' : Nat → K) (i : Nat)
    (hcol : ∀ r, i < r → r < m → mat (i + n * r) = mat' (i + n * r))
    (htau : tau i = tau' i) :
    qrReflector m n mat tau i = qrReflector m n mat' tau' i := by
  funext y
  unfold qrReflector
  rw [householderU_congr m i (colOf n mat i) (colOf n mat' i) hcol, htau]

theorem reflector_congr (m : Nat) (u : Nat → K) (t : K) (y y' : Nat → K)
    (h : ∀ q, q < m → y q = y' q) (r : Nat) (hr : r < m) :
    reflector m u t y r = reflector m u t y' r := by
  unfold reflector
  rw [h r hr, Finset.sum_congr rfl (fun q hq => by rw [h q (Finset.mem_range.mp hq)])]

theorem qrColumn_congr (m n : Nat) (mat mat' tau tau' : Nat → K) (i : Nat) (M0 : Nat → K)
    (d : Nat)
    (hcol : ∀ k r, k < i → k < r → r < m → mat (k + n * r) = mat' (k + n * r))
    (htau : ∀ k, k < i → tau k = tau' k) :
    qrColumn m n mat tau i M0 d = qrColumn m n mat' tau' i M0 d := by
  unfold qrColumn
  refine forLoop_congr i _ _ _ (fun k hk y => ?_)
  rw [qrReflector_congr m n mat mat' tau tau' k (fun r h1 h2 => hcol k r hk h1 h2) (htau k hk)]

/-- After the step for column `i`, every column to the right holds the
reflector of column `i` applied to what it held before. -/
theorem CeedQRFactorization_step_reflect (sqrt : K → K) (m n i : Nat)
    (s : (Nat → K) × (Nat → K) × (Nat → K)) (hin : i < n) (hnm : n ≤ m)
    (d r : Nat) (hid : i < d) (hdn : d < n) (hrm : r < m) :
    (CeedQRFactorization_step sqrt m n i s).1 (d + n * r) =
      qrReflector m n (CeedQRFactorization_step sqrt m n i s).1
        (CeedQRFactorization_step sqrt m n i s).2.1 i (colOf n s.1 d) r := by
  have him : i < m := lt_of_lt_of_le hin hnm
  obtain ⟨h1, h2, h3, h4, h5⟩ := CeedQRFactorization_step_spec sqrt m n i s hin hnm
    _ _ _ _ _ rfl rfl rfl rfl rfl
  generalize CeedQRFactorization_step sqrt m n i s = s' at h1 h2 h3 h4 h5 ⊢
  generalize hv0 : s.1 (i + n * i) - -copysign (sqrt (s.1 (i + n * i) * s.1 (i + n * i) +
    ∑ k in Finset.range (m - (i + 1)),
      s.1 (i + n * (i + 1 + k)) * s.1 (i + n * (i + 1 + k)))) (s.1 (i + n * i)) = v0
    at h1 h3 h4
  generalize 2 * v0 * v0 / (v0 * v0 + ∑ k in Finset.range (m - (i + 1)),
      s.1 (i + n * (i + 1 + k)) * s.1 (i + n * (i + 1 + k))) = τ at h1 h4
  unfold qrReflector reflector
  rw [householderU_dot m i _ _ him, h1, Function.update_same]
  have hsum : ∑ k in Finset.range (m - (i + 1)),
      colOf n s'.1 i (i + 1 + k) * colOf n s.1 d (i + 1 + k) =
      ∑ k in Finset.range (m - i - 1),
        s.1 (i + n * (i + 1 + k)) / v0 * s.1 (d + n * (i + 1 + k)) := by
    rw [Nat.sub_sub]
    refine Finset.sum_congr rfl (fun k hk => ?_)
    have hk' := Finset.mem_range.mp hk
    show s'.1 (i + n * (i + 1 + k)) * s.1 (d + n * (i + 1 + k)) = _
    rw [h3 (i + 1 + k) (by omega) (by omega)]
  rw [hsum]
  show _ = s.1 (d + n * r) - τ * (s.1 (d + n * i) + _) * _
  by_cases hri : i ≤ r
  · rw [h4 r d hri hrm hid hdn]
    congr 1
    congr 1
    by_cases h0 : r = i
    · subst h0
      simp only [householderU, if_pos rfl, if_true]
    · have hlt : i < r ∧ r < m := ⟨lt_of_le_of_ne hri (Ne.symm h0), hrm⟩
      simp only [householderU, if_neg h0, if_pos hlt, colOf]
      rw [h3 r hlt.1 hrm]
  · have hne : r ≠ i := by omega
    have hn : ¬ (i < r ∧ r < m) := by omega
    rw [h5 (d + n * r) (fun r' d' hr' _ _ hd' h => by
      have := (rowmajor_inj hdn hd' h).2
      omega)]
    simp only [householderU, if_neg hne, if_neg hn, mul_zero, sub_zero]

/-- The composition of the first `k` stored reflectors is linear. -/
theorem qrReflectors_sum {ι : Type*} (m n : Nat) (mat tau : Nat → K) (k : Nat) (s : Finset ι)
    (α : ι → K) (w : ι → Nat → K) :
    forLoop k (fun i y => qrReflector m n mat tau i y) (fun r => ∑ d in s, α d * w d r) =
      fun r => ∑ d in s, α d * forLoop k (fun i y => qrReflector m n mat tau i y) (w d) r := by
  induction k with
  | zero => rfl
  | succ k ih =>
    rw [forLoop_succ, ih]
    funext r
    exact reflector_sum m _ _ s α _ r

/-- The composition of the first `k` stored reflectors is injective on vectors
of length `m` when each of them satisfies `tau (u · u) = 2`. -/
theorem qrReflectors_vanish (m n : Nat) (mat tau : Nat → K) (k : Nat)
    (ht : ∀ j, j < k → tau j * ∑ q in Finset.range m,
      householderU m j (colOf n mat j) q * householderU m j (colOf n mat j) q = 2)
    (y : Nat → K)
    (h : ∀ r, r < m → forLoop k (fun i y => qrReflector m n mat tau i y) y r = 0) :
    ∀ r, r < m → y r = 0 := by
  induction k with
  | zero => exact h
  | succ k ih =>
    refine ih (fun j hj => ht j (Nat.lt_succ_of_lt hj)) ?_
    exact reflector_vanish m _ _ _ (ht k (Nat.lt_succ_self k)) h

/-- A matrix of full column rank has a nonzero pivot column at every step of
the factorization. -/
theorem qr_pivot_ne_zero (m n : Nat) (M0 : Nat → K) (i : Nat) (mat tau : Nat → K)
    (hin : i < n) (hnm : n ≤ m) (hinv : QRInvariant m n M0 i mat tau)
    (hrank : ∀ c : Nat → K,
      (∀ q, q < m → ∑ d in Finset.range n, M0 (d + n * q) * c d = 0) → ∀ d, d < n → c d = 0) :
    mat (i + n * i) * mat (i + n * i) +
      ∑ k in Finset.range (m - (i + 1)),
        mat (i + n * (i + 1 + k)) * mat (i + n * (i + 1 + k)) ≠ 0 := by
  obtain ⟨hI1, -, hI3, hI4, -⟩ := hinv
  have him : i < m := lt_of_lt_of_le hin hnm
  intro h0
  have hsn : 0 ≤ ∑ k in Finset.range (m - (i + 1)),
      mat (i + n * (i + 1 + k)) * mat (i + n * (i + 1 + k)) :=
    Finset.sum_nonneg (fun k _ => mul_self_nonneg _)
  have ha0 : mat (i + n * i) * mat (i + n * i) = 0 := by
    have := mul_self_nonneg (mat (i + n * i))
    linarith
  have hs0 : ∑ k in Finset.range (m - (i + 1)),
      mat (i + n * (i + 1 + k)) * mat (i + n * (i + 1 + k)) = 0 := by
    have := mul_self_nonneg (mat (i + n * i))
    linarith
  have hcol0 : ∀ r, i ≤ r → r < m → mat (i + n * r) = 0 := by
    intro r hir hrm
    rcases Nat.eq_or_lt_of_le hir with h | h
    · rw [← h]
      exact mul_self_eq_zero.mp ha0
    · obtain ⟨k, rfl⟩ : ∃ k, r = i + 1 + k := ⟨r - (i + 1), by omega⟩
      have := (Finset.sum_eq_zero_iff_of_nonneg (fun k _ => mul_self_nonneg _)).mp hs0 k
        (Finset.mem_range.mpr (by omega))
      exact mul_self_eq_zero.mp this
  have hz : ∀ d, d ≤ i → ∀ r, i ≤ r → r < m → qrColumn m n mat tau i M0 d r = 0 := by
    intro d hd r hir hrm
    rcases Nat.eq_or_lt_of_le hd with h | h
    · subst h
      rw [← hI1 d r hin hrm (le_refl d)]
      exact hcol0 r hir hrm
    · exact hI3 d r h hrm (by omega)
  -- a nontrivial combination of the first `i + 1` columns that vanishes
  have hdet : (Matrix.of (fun (r d : Fin (i + 1)) =>
      qrColumn m n mat tau i M0 d.1 r.1)).det = 0 := by
    refine Matrix.det_eq_zero_of_row_eq_zero (Fin.last i) (fun d => ?_)
    exact hz d.1 (Nat.le_of_lt_succ d.2) i (le_refl i) him
  obtain ⟨α, hα0, hα⟩ := Matrix.exists_mulVec_eq_zero_iff.mpr hdet
  have hc : ∀ d : Fin (i + 1),
      (fun d : Nat => if h : d < i + 1 then α ⟨d, h⟩ else 0) d.1 = α d := by
    intro d
    simp only [d.2, dite_true]
  generalize hcdef : (fun d : Nat => if h : d < i + 1 then α ⟨d, h⟩ else 0) = c at hc
  have hcz : ∀ d, i + 1 ≤ d → c d = 0 := by
    intro d hd
    rw [← hcdef]
    simp only [not_lt.mpr hd, dite_false]
  have hTz : ∀ r, r < m → forLoop i (fun k y => qrReflector m n mat tau k y)
      (fun r => ∑ d in Finset.range (i + 1), c d * colOf n M0 d r) r = 0 := by
    intro r hrm
    rw [qrReflectors_sum]
    show ∑ d in Finset.range (i + 1), c d * qrColumn m n mat tau i M0 d r = 0
    by_cases hri : r ≤ i
    · have h1 := congrFun hα ⟨r, Nat.lt_succ_of_le hri⟩
      simp only [Matrix.mulVec, Matrix.dotProduct, Matrix.of_apply, Pi.zero_apply] at h1
      rw [← Fin.sum_univ_eq_sum_range (fun d => c d * qrColumn m n mat tau i M0 d r) (i + 1)]
      rw [← h1]
      refine Finset.sum_congr rfl (fun d _ => ?_)
      rw [hc d]
      ring
    · refine Finset.sum_eq_zero (fun d hd => ?_)
      rw [hz d (Nat.le_of_lt_succ (Finset.mem_range.mp hd)) r (by omega) hrm, mul_zero]
  have hzero := qrReflectors_vanish m n mat tau i hI4 _ hTz
  have hc0 := hrank c (fun q hq => by
    have h1 := hzero q hq
    have hsub : ∑ d in Finset.range n, M0 (d + n * q) * c d =
        ∑ d in Finset.range (i + 1), M0 (d + n * q) * c d := by
      refine (Finset.sum_subset (Finset.range_subset.mpr (by omega)) ?_).symm
      intro d _ hd
      rw [hcz d (by
        have := Finset.mem_range.not.mp hd
        omega), mul_zero]
    rw [hsub, ← h1]
    exact Finset.sum_congr rfl (fun d _ => by
      show _ = c d * M0 (d + n * q)
      ring))
  apply hα0
  funext d
  rw [← hc d]
  exact hc0 d.1 (by
    have := d.2
    omega)

/-- The invariant of the factorization is preserved by the step for column
`i`, for a matrix of full column rank. -/
theorem QRInvariant_step (sqrt : K → K)
    (hsqrt : ∀ t : K, 0 ≤ t → 0 ≤ sqrt t ∧ sqrt t * sqrt t = t) (m n : Nat) (M0 : Nat → K)
    (i : Nat) (s : (Nat → K) × (Nat → K) × (Nat → K)) (hin : i < n) (hnm : n ≤ m)
    (hinv : QRInvariant m n M0 i s.1 s.2.1)
    (hrank : ∀ c : Nat → K,
      (∀ q, q < m → ∑ d in Finset.range n, M0 (d + n * q) * c d = 0) → ∀ d, d < n → c d = 0) :
    QRInvariant m n M0 (i + 1) (CeedQRFactorization_step sqrt m n i s).1
      (CeedQRFactorization_step sqrt m n i s).2.1 := by
  have him : i < m := lt_of_lt_of_le hin hnm
  have hpiv := qr_pivot_ne_zero m n M0 i s.1 s.2.1 hin hnm hinv hrank
  obtain ⟨hI1, hI2, hI3, hI4, hI5⟩ := hinv
  obtain ⟨a, ha⟩ : ∃ a, a = s.1 (i + n * i) := ⟨_, rfl⟩
  obtain ⟨σ, hσ⟩ : ∃ σ, σ = ∑ k in Finset.range (m - (i + 1)),
      s.1 (i + n * (i + 1 + k)) * s.1 (i + n * (i + 1 + k)) := ⟨_, rfl⟩
  obtain ⟨Rii, hR⟩ : ∃ Rii, Rii = -copysign (sqrt (a * a + σ)) a := ⟨_, rfl⟩
  obtain ⟨v0, hv0⟩ : ∃ v0, v0 = a - Rii := ⟨_, rfl⟩
  obtain ⟨τ, hτ⟩ : ∃ τ, τ = 2 * v0 * v0 / (v0 * v0 + σ) := ⟨_, rfl⟩
  rw [← ha, ← hσ] at hpiv
  have hσ0 : 0 ≤ σ := by
    rw [hσ]
    exact Finset.sum_nonneg (fun k _ => mul_self_nonneg _)
  obtain ⟨hRR, hR0, hv0ne⟩ := householder_pivot sqrt hsqrt a σ hσ0 hpiv
  rw [← hR] at hRR hR0 hv0ne
  obtain ⟨h1, h2, h3, -, h5⟩ := CeedQRFactorization_step_spec sqrt m n i s hin hnm
    a σ Rii v0 τ ha hσ hR hv0 hτ
  have hrefl := CeedQRFactorization_step_reflect sqrt m n i s hin hnm
  generalize CeedQRFactorization_step sqrt m n i s = s' at h1 h2 h3 h5 hrefl ⊢
  have hτi : s'.2.1 i = τ := by rw [h1, Function.update_same]
  have hτk : ∀ k, k < i → s'.2.1 k = s.2.1 k := by
    intro k hk
    rw [h1, Function.update_noteq (Nat.ne_of_lt hk)]
  have hFcol : ∀ k r, k < i → s'.1 (k + n * r) = s.1 (k + n * r) := by
    intro k r hk
    refine h5 _ (fun r' d' _ _ hd' hd'n h => ?_)
    have := (rowmajor_inj (lt_trans hk hin) hd'n h).1
    omega
  have hFrow : ∀ d r, d < n → r < i → s'.1 (d + n * r) = s.1 (d + n * r) := by
    intro d r hd hr
    refine h5 _ (fun r' d' hr' _ _ hd'n h => ?_)
    have := (rowmajor_inj hd hd'n h).2
    omega
  have hcongr : ∀ d, qrColumn m n s'.1 s'.2.1 i M0 d = qrColumn m n s.1 s.2.1 i M0 d :=
    fun d => qrColumn_congr m n s'.1 s.1 s'.2.1 s.2.1 i M0 d
      (fun k r hk _ _ => hFcol k r hk) hτk
  have hsucc : ∀ d, qrColumn m n s'.1 s'.2.1 (i + 1) M0 d =
      qrReflector m n s'.1 s'.2.1 i (qrColumn m n s.1 s.2.1 i M0 d) := by
    intro d
    rw [← hcongr d]
    rfl
  have hU : householderU m i (colOf n s'.1 i) =
      householderU m i (fun r => colOf n s.1 i r / (colOf n s.1 i i - Rii)) := by
    refine householderU_congr m i _ _ (fun r hir hrm => ?_)
    show s'.1 (i + n * r) = s.1 (i + n * r) / (s.1 (i + n * i) - Rii)
    rw [h3 r hir hrm, hv0, ha]
  have hτeq : τ = 2 * (colOf n s.1 i i - Rii) * (colOf n s.1 i i - Rii) /
      ((colOf n s.1 i i - Rii) * (colOf n s.1 i i - Rii) +
        ∑ k in Finset.range (m - (i + 1)),
          colOf n s.1 i (i + 1 + k) * colOf n s.1 i (i + 1 + k)) := by
    rw [hτ, hv0, ha, hσ]
    rfl
  have hRR' : Rii * Rii = colOf n s.1 i i * colOf n s.1 i i +
      ∑ k in Finset.range (m - (i + 1)),
        colOf n s.1 i (i + 1 + k) * colOf n s.1 i (i + 1 + k) := by
    rw [hRR, ha, hσ]
    rfl
  have hv0' : colOf n s.1 i i - Rii ≠ 0 := by
    show s.1 (i + n * i) - Rii ≠ 0
    rw [← ha]
    exact hv0ne
  obtain ⟨hP1, hP2, hP3⟩ := householder_property m i (colOf n s.1 i) Rii him hRR' hR0 hv0'
  rw [← hτeq, ← hU] at hP1 hP2 hP3
  have hxc : ∀ q, q < m → qrColumn m n s.1 s.2.1 i M0 i q = colOf n s.1 i q :=
    fun q hq => (hI1 i q hin hq (le_refl i)).symm
  have hHi : ∀ r, r < m →
      qrReflector m n s'.1 s'.2.1 i (qrColumn m n s.1 s.2.1 i M0 i) r =
        reflector m (householderU m i (colOf n s'.1 i)) τ (colOf n s.1 i) r := by
    intro r hr
    unfold qrReflector
    rw [hτi]
    exact reflector_congr m _ _ _ _ hxc r hr
  have hfix : ∀ d, d < i → ∀ r,
      qrReflector m n s'.1 s'.2.1 i (qrColumn m n s.1 s.2.1 i M0 d) r =
        qrColumn m n s.1 s.2.1 i M0 d r := by
    intro d hd r
    exact reflector_householderU_fix m i _ _ _
      (fun r' hr' hr'm => hI3 d r' hd hr'm (by omega)) r
  refine ⟨?_, ?_, ?_, ?_, ?_⟩
  · intro d r hd hr hid
    rw [hsucc d, hrefl d r (by omega) hd hr]
    unfold qrReflector
    exact reflector_congr m _ _ _ _
      (fun q hq => hI1 d q hd hq (by omega)) r hr
  · intro d r hd hr hrd
    rw [hsucc d]
    rcases Nat.eq_or_lt_of_le (Nat.le_of_lt_succ hd) with hdi | hdi
    · subst hdi
      rw [hHi r hr]
      rcases Nat.eq_or_lt_of_le hrd with hrd' | hrd'
      · subst hrd'
        rw [hP1, h2]
      · rw [reflector_householderU_above m d _ _ _ r (Or.inl hrd') him, hFrow d r hin hrd']
        rfl
    · rw [hfix d hdi r, hFcol d r hdi]
      exact hI2 d r hdi hr hrd
  · intro d r hd hr hdr
    rw [hsucc d]
    rcases Nat.eq_or_lt_of_le (Nat.le_of_lt_succ hd) with hdi | hdi
    · subst hdi
      rw [hHi r hr]
      exact hP2 r hdr hr
    · rw [hfix d hdi r]
      exact hI3 d r hdi hr hdr
  · intro k hk
    rcases Nat.eq_or_lt_of_le (Nat.le_of_lt_succ hk) with hki | hki
    · subst hki
      rw [hτi]
      exact hP3
    · rw [hτk k hki, householderU_congr m k (colOf n s'.1 k) (colOf n s.1 k)
        (fun r _ _ => hFcol k r hki)]
      exact hI4 k hki
  · intro d hd
    rcases Nat.eq_or_lt_of_le (Nat.le_of_lt_succ hd) with hdi | hdi
    · subst hdi
      rw [h2]
      exact hR0
    · rw [hFcol d d hdi]
      exact hI5 d hdi

/-- The invariant holds after every number of steps of the factorization. -/
theorem QRInvariant_loop (sqrt : K → K)
    (hsqrt : ∀ t : K, 0 ≤ t → 0 ≤ sqrt t ∧ sqrt t * sqrt t = t) (m n : Nat)
    (M0 tau0 v0 : Nat → K) (hnm : n ≤ m)
    (hrank : ∀ c : Nat → K,
      (∀ q, q < m → ∑ d in Finset.range n, M0 (d + n * q) * c d = 0) → ∀ d, d < n → c d = 0)
    (i : Nat) (hi : i ≤ n) :
    QRInvariant m n M0 i
      (forLoop i (fun i s => CeedQRFactorization_step sqrt m n i s) (M0, tau0, v0)).1
      (forLoop i (fun i s => CeedQRFactorization_step sqrt m n i s) (M0, tau0, v0)).2.1 := by
  induction i with
  | zero =>
    refine ⟨fun d r _ _ _ => rfl, ?_, ?_, ?_, ?_⟩
    · intro d r hd
      exact absurd hd (Nat.not_lt_zero d)
    · intro d r hd
      exact absurd hd (Nat.not_lt_zero d)
    · intro k hk
      exact absurd hk (Nat.not_lt_zero k)
    · intro d hd
      exact absurd hd (Nat.not_lt_zero d)
  | succ i ih =>
    rw [forLoop_succ]
    exact QRInvariant_step sqrt hsqrt m n M0 i _ (by omega) hnm (ih (by omega)) hrank

end QRInvariantProofs

section QRSolveProofs

variable {K : Type*} [LinearOrderedField K]

/-- An invariant that depends on the number of iterations done. -/
theorem forLoop_inv_idx {σ : Type*} (P : Nat → σ → Prop) (n : Nat) (body : Nat → σ → σ)
    (s0 : σ) (h0 : P 0 s0) (hstep : ∀ k, k < n → ∀ s, P k s → P (k + 1) (body k s)) :
    P n (forLoop n body s0) := by
  induction n with
  | zero => exact h0
  | succ n ih =>
    rw [forLoop_succ]
    exact hstep n (Nat.lt_succ_self n) _ (ih (fun k hk s hs => hstep k (Nat.lt_succ_of_lt hk) s hs))

/-- The copy loops of `CeedBasisGetCollocatedGrad`: `interp1d` and `grad1d`
hold `B` and `G` row-major. -/
theorem collocated_copy_spec (P1d Q1d : Nat) (B G : Nat → K) (s0 : (Nat → K) × (Nat → K))
    (d q : Nat) (hd : d < P1d) (hq : q < Q1d) :
    (collocated_copy P1d Q1d B G s0).1 (d + P1d * q) = B (q + Q1d * d) ∧
    (collocated_copy P1d Q1d B G s0).2 (d + P1d * q) = G (q + Q1d * d) := by
  unfold collocated_copy
  constructor
  · refine forLoop2_single (fun s : (Nat → K) × (Nat → K) => s.1 (d + P1d * q)) (fun _ => True)
      P1d Q1d d q _ s0 _ hd hq trivial (fun _ _ _ _ _ _ _ => trivial) ?_ ?_
    · intro s _
      exact Function.update_same _ _ _
    · intro d' q' hd' _ hne s
      exact Function.update_noteq (fun h => hne (by
        have := rowmajor_inj hd hd' h
        exact ⟨this.1.symm, this.2.symm⟩)) _ _
  · refine forLoop2_single (fun s : (Nat → K) × (Nat → K) => s.2 (d + P1d * q)) (fun _ => True)
      P1d Q1d d q _ s0 _ hd hq trivial (fun _ _ _ _ _ _ _ => trivial) ?_ ?_
    · intro s _
      exact Function.update_same _ _ _
    · intro d' q' hd' _ hne s
      exact Function.update_noteq (fun h => hne (by
        have := rowmajor_inj hd hd' h
        exact ⟨this.1.symm, this.2.symm⟩)) _ _

/-- The elimination loop over `k` of the triangular solve (lines 1499-1502):
the cell `j` of the row has the products with the cells `k < j` subtracted. -/
theorem solve_inner_spec (P1d Q1d i j : Nat) (interp1d c : Nat → K) (hj : j < Q1d) :
    forLoop j (fun k c =>
        Function.update c (j + Q1d * i)
          (c (j + Q1d * i) - interp1d (j + P1d * k) * c (k + Q1d * i))) c (j + Q1d * i) =
      c (j + Q1d * i) +
        ∑ k in Finset.range j, -(interp1d (j + P1d * k) * c (k + Q1d * i)) ∧
    ∀ x, x ≠ j + Q1d * i →
      forLoop j (fun k c =>
        Function.update c (j + Q1d * i)
          (c (j + Q1d * i) - interp1d (j + P1d * k) * c (k + Q1d * i))) c x = c x := by
  have hframe : ∀ (n : Nat) (x : Nat), x ≠ j + Q1d * i →
      forLoop n (fun k c =>
        Function.update c (j + Q1d * i)
          (c (j + Q1d * i) - interp1d (j + P1d * k) * c (k + Q1d * i))) c x = c x := by
    intro n x hx
    exact forLoop_untouched (fun c : Nat → K => c x) n _ c
      (fun k _ s => Function.update_noteq hx _ _)
  refine ⟨?_, hframe j⟩
  refine forLoop_accum (fun c : Nat → K => c (j + Q1d * i))
    (fun s => ∀ k, k < j → s (k + Q1d * i) = c (k + Q1d * i)) j _ c _ (fun _ _ => rfl) ?_ ?_
  · intro k _ s hs k' hk'
    have hne : k' + Q1d * i ≠ j + Q1d * i := by omega
    exact (Function.update_noteq hne _ _).trans (hs k' hk')
  · intro k hk s hs
    show Function.update s (j + Q1d * i) _ (j + Q1d * i) = _
    rw [Function.update_same, hs k hk]
    ring

/-- One column `j` of the triangular solve (lines 1497-1503). -/
theorem solve_column_spec (P1d Q1d i j : Nat) (interp1d grad1d c : Nat → K) (hj : j < Q1d) :
    Function.update
        (forLoop j (fun k c =>
          Function.update c (j + Q1d * i)
            (c (j + Q1d * i) - interp1d (j + P1d * k) * c (k + Q1d * i)))
          (Function.update c (j + Q1d * i) (grad1d (j + P1d * i))))
        (j + Q1d * i)
        (forLoop j (fun k c =>
          Function.update c (j + Q1d * i)
            (c (j + Q1d * i) - interp1d (j + P1d * k) * c (k + Q1d * i)))
          (Function.update c (j + Q1d * i) (grad1d (j + P1d * i))) (j + Q1d * i) /
            interp1d (j + P1d * j)) (j + Q1d * i) =
      (grad1d (j + P1d * i) - ∑ k in Finset.range j, interp1d (j + P1d * k) * c (k + Q1d * i)) /
        interp1d (j + P1d * j) ∧
    ∀ x, x ≠ j + Q1d * i →
      Function.update
        (forLoop j (fun k c =>
          Function.update c (j + Q1d * i)
            (c (j + Q1d * i) - interp1d (j + P1d * k) * c (k + Q1d * i)))
          (Function.update c (j + Q1d * i) (grad1d (j + P1d * i))))
        (j + Q1d * i)
        (forLoop j (fun k c =>
          Function.update c (j + Q1d * i)
            (c (j + Q1d * i) - interp1d (j + P1d * k) * c (k + Q1d * i)))
          (Function.update c (j + Q1d * i) (grad1d (j + P1d * i))) (j + Q1d * i) /
            interp1d (j + P1d * j)) x = c x := by
  obtain ⟨h1, h2⟩ := solve_inner_spec P1d Q1d i j interp1d
    (Function.update c (j + Q1d * i) (grad1d (j + P1d * i))) hj
  constructor
  · rw [Function.update_same, h1, Function.update_same]
    congr 1
    rw [sub_eq_add_neg, ← Finset.sum_neg_distrib]
    congr 1
    refine Finset.sum_congr rfl (fun k hk => ?_)
    have hne : k + Q1d * i ≠ j + Q1d * i := by
      have := Finset.mem_range.mp hk
      omega
    rw [Function.update_noteq hne]
  · intro x hx
    rw [Function.update_noteq hx, h2 x hx, Function.update_noteq hx]

/-- One row `i` of the triangular solve (lines 1494-1508): the first `P1d`
entries of the row solve `x R = grad1d[i]`, the others are zero, and the
other rows are not touched. -/
theorem solve_row_spec (P1d Q1d i : Nat) (interp1d grad1d c : Nat → K) (hi : i < Q1d)
    (hPQ : P1d ≤ Q1d) (hdiag : ∀ j, j < P1d → interp1d (j + P1d * j) ≠ 0) :
    (∀ j, j < P1d →
      ∑ k in Finset.range (j + 1),
        forLoopFrom P1d Q1d (fun j c => Function.update c (j + Q1d * i) 0)
          (forLoopFrom 1 P1d (fun j c =>
            Function.update
              (forLoop j (fun k c =>
                Function.update c (j + Q1d * i)
                  (c (j + Q1d * i) - interp1d (j + P1d * k) * c (k + Q1d * i)))
                (Function.update c (j + Q1d * i) (grad1d (j + P1d * i))))
              (j + Q1d * i)
              (forLoop j (fun k c =>
                Function.update c (j + Q1d * i)
                  (c (j + Q1d * i) - interp1d (j + P1d * k) * c (k + Q1d * i)))
                (Function.update c (j + Q1d * i) (grad1d (j + P1d * i))) (j + Q1d * i) /
                  interp1d (j + P1d * j)))
            (Function.update c (Q1d * i) (grad1d (P1d * i) / interp1d 0))) (k + Q1d * i) *
          interp1d (j + P1d * k) = grad1d (j + P1d * i)) ∧
    (∀ j, P1d ≤ j → j < Q1d →
      forLoopFrom P1d Q1d (fun j c => Function.update c (j + Q1d * i) 0)
        (forLoopFrom 1 P1d (fun j c =>
          Function.update
            (forLoop j (fun k c =>
              Function.update c (j + Q1d * i)
                (c (j + Q1d * i) - interp1d (j + P1d * k) * c (k + Q1d * i)))
              (Function.update c (j + Q1d * i) (grad1d (j + P1d * i))))
            (j + Q1d * i)
            (forLoop j (fun k c =>
              Function.update c (j + Q1d * i)
                (c (j + Q1d * i) - interp1d (j + P1d * k) * c (k + Q1d * i)))
              (Function.update c (j + Q1d * i) (grad1d (j + P1d * i))) (j + Q1d * i) /
                interp1d (j + P1d * j)))
          (Function.update c (Q1d * i) (grad1d (P1d * i) / interp1d 0))) (j + Q1d * i) = 0) ∧
    (∀ x, (∀ j, j < Q1d → x ≠ j + Q1d * i) →
      forLoopFrom P1d Q1d (fun j c => Function.update c (j + Q1d * i) 0)
        (forLoopFrom 1 P1d (fun j c =>
          Function.update
            (forLoop j (fun k c =>
              Function.update c (j + Q1d * i)
                (c (j + Q1d * i) - interp1d (j + P1d * k) * c (k + Q1d * i)))
              (Function.update c (j + Q1d * i) (grad1d (j + P1d * i))))
            (j + Q1d * i)
            (forLoop j (fun k c =>
              Function.update c (j + Q1d * i)
                (c (j + Q1d * i) - interp1d (j + P1d * k) * c (k + Q1d * i)))
              (Function.update c (j + Q1d * i) (grad1d (j + P1d * i))) (j + Q1d * i) /
                interp1d (j + P1d * j)))
          (Function.update c (Q1d * i) (grad1d (P1d * i) / interp1d 0))) x = c x) := by
  have hQ0 : 0 < Q1d := Nat.lt_of_le_of_lt (Nat.zero_le i) hi
  -- the loop over the columns `1 ≤ j < P1d`
  have hmid : (∀ j', j' < 1 + (P1d - 1) → j' < P1d →
        ∑ k in Finset.range (j' + 1),
          forLoopFrom 1 P1d (fun j c =>
            Function.update
              (forLoop j (fun k c =>
                Function.update c (j + Q1d * i)
                  (c (j + Q1d * i) - interp1d (j + P1d * k) * c (k + Q1d * i)))
                (Function.update c (j + Q1d * i) (grad1d (j + P1d * i))))
              (j + Q1d * i)
              (forLoop j (fun k c =>
                Function.update c (j + Q1d * i)
                  (c (j + Q1d * i) - interp1d (j + P1d * k) * c (k + Q1d * i)))
                (Function.update c (j + Q1d * i) (grad1d (j + P1d * i))) (j + Q1d * i) /
                  interp1d (j + P1d * j)))
            (Function.update c (Q1d * i) (grad1d (P1d * i) / interp1d 0)) (k + Q1d * i) *
          interp1d (j' + P1d * k) = grad1d (j' + P1d * i)) ∧
      (∀ x, (∀ j, j < Q1d → x ≠ j + Q1d * i) →
        forLoopFrom 1 P1d (fun j c =>
            Function.update
              (forLoop j (fun k c =>
                Function.update c (j + Q1d * i)
                  (c (j + Q1d * i) - interp1d (j + P1d * k) * c (k + Q1d * i)))
                (Function.update c (j + Q1d * i) (grad1d (j + P1d * i))))
              (j + Q1d * i)
              (forLoop j (fun k c =>
                Function.update c (j + Q1d * i)
                  (c (j + Q1d * i) - interp1d (j + P1d * k) * c (k + Q1d * i)))
                (Function.update c (j + Q1d * i) (grad1d (j + P1d * i))) (j + Q1d * i) /
                  interp1d (j + P1d * j)))
            (Function.update c (Q1d * i) (grad1d (P1d * i) / interp1d 0)) x = c x) := by
    unfold forLoopFrom
    refine forLoop_inv_idx (fun k (s : Nat → K) =>
      (∀ j', j' < 1 + k → j' < P1d →
        ∑ k' in Finset.range (j' + 1), s (k' + Q1d * i) * interp1d (j' + P1d * k') =
          grad1d (j' + P1d * i)) ∧
      (∀ x, (∀ j, j < Q1d → x ≠ j + Q1d * i) → s x = c x)) (P1d - 1) _ _ ?_ ?_
    · beta_reduce
      constructor
      · intro j' hj' hj'P
        have hj0 : j' = 0 := by omega
        subst hj0
        have h0 := hdiag 0 hj'P
        simp only [zero_add, mul_zero, Finset.sum_range_one] at h0 ⊢
        have e : 0 + Q1d * i = Q1d * i := Nat.zero_add _
        rw [e, Function.update_same]
        field_simp
      · intro x hx
        have hne : x ≠ Q1d * i := by
          have := hx 0 hQ0
          omega
        exact Function.update_noteq hne _ _
    · intro k hk s hs
      obtain ⟨hs1, hs2⟩ := hs
      obtain ⟨hc1, hc2⟩ := solve_column_spec P1d Q1d i (1 + k) interp1d grad1d s (by omega)
      beta_reduce
      constructor
      · intro j' hj' hj'P
        by_cases hlt : j' < 1 + k
        · rw [← hs1 j' hlt hj'P]
          refine Finset.sum_congr rfl (fun k' hk' => ?_)
          have hne : k' + Q1d * i ≠ 1 + k + Q1d * i := by
            have := Finset.mem_range.mp hk'
            omega
          rw [hc2 _ hne]
        · have hj'e : j' = 1 + k := by omega
          subst hj'e
          rw [Finset.sum_range_succ, hc1]
          have hd := hdiag (1 + k) hj'P
          have hsum : ∑ x in Finset.range (1 + k),
              Function.update
                (forLoop (1 + k) (fun k_1 c =>
                  Function.update c (1 + k + Q1d * i)
                    (c (1 + k + Q1d * i) - interp1d (1 + k + P1d * k_1) * c (k_1 + Q1d * i)))
                  (Function.update s (1 + k + Q1d * i) (grad1d (1 + k + P1d * i))))
                (1 + k + Q1d * i)
                (forLoop (1 + k) (fun k_1 c =>
                  Function.update c (1 + k + Q1d * i)
                    (c (1 + k + Q1d * i) - interp1d (1 + k + P1d * k_1) * c (k_1 + Q1d * i)))
                  (Function.update s (1 + k + Q1d * i) (grad1d (1 + k + P1d * i)))
                  (1 + k + Q1d * i) / interp1d (1 + k + P1d * (1 + k))) (x + Q1d * i) *
                interp1d (1 + k + P1d * x) =
              ∑ x in Finset.range (1 + k), interp1d (1 + k + P1d * x) * s (x + Q1d * i) := by
            refine Finset.sum_congr rfl (fun k' hk' => ?_)
            have hne : k' + Q1d * i ≠ 1 + k + Q1d * i := by
              have := Finset.mem_range.mp hk'
              omega
            rw [hc2 _ hne]
            ring
          rw [hsum]
          field_simp
      · intro x hx
        rw [hc2 x (hx (1 + k) (by omega))]
        exact hs2 x hx
  obtain ⟨hm1, hm2⟩ := hmid
  generalize forLoopFrom 1 P1d (fun j c =>
      Function.update
        (forLoop j (fun k c =>
          Function.update c (j + Q1d * i)
            (c (j + Q1d * i) - interp1d (j + P1d * k) * c (k + Q1d * i)))
          (Function.update c (j + Q1d * i) (grad1d (j + P1d * i))))
        (j + Q1d * i)
        (forLoop j (fun k c =>
          Function.update c (j + Q1d * i)
            (c (j + Q1d * i) - interp1d (j + P1d * k) * c (k + Q1d * i)))
          (Function.update c (j + Q1d * i) (grad1d (j + P1d * i))) (j + Q1d * i) /
            interp1d (j + P1d * j)))
      (Function.update c (Q1d * i) (grad1d (P1d * i) / interp1d 0)) = cM at hm1 hm2 ⊢
  have hmiss : ∀ x, (∀ j, P1d ≤ j → j < Q1d → x ≠ j + Q1d * i) →
      forLoopFrom P1d Q1d (fun j c => Function.update c (j + Q1d * i) 0) cM x = cM x :=
    fun x hx => forLoopFrom_update_miss P1d Q1d (fun j => j + Q1d * i) (fun _ _ => 0) cM x hx
  refine ⟨?_, ?_, ?_⟩
  · intro j hj
    rw [← hm1 j (by omega) hj]
    refine Finset.sum_congr rfl (fun k hk => ?_)
    have hk' := Finset.mem_range.mp hk
    rw [hmiss _ (fun j' hj' _ => by omega)]
  · intro j hPj hjQ
    exact forLoopFrom_update_hit P1d Q1d (fun j => j + Q1d * i) (fun _ _ => 0) cM j hPj hjQ
      (fun j' _ _ hne => by
        show j' + Q1d * i ≠ j + Q1d * i
        omega)
  · intro x hx
    rw [hmiss x (fun j _ hj => hx j hj)]
    exact hm2 x hx

/-- A property established by iteration `i` and kept by the later iterations
holds after the loop. -/
theorem forLoop_establish {σ : Type*} (Pr : σ → Prop) (n i : Nat) (body : Nat → σ → σ)
    (s0 : σ) (hi : i < n) (hw : ∀ s, Pr (body i s))
    (hkeep : ∀ k, i < k → k < n → ∀ s, Pr s → Pr (body k s)) :
    Pr (forLoop n body s0) := by
  induction n with
  | zero => exact absurd hi (Nat.not_lt_zero i)
  | succ n ih =>
    rw [forLoop_succ]
    rcases Nat.lt_succ_iff_lt_or_eq.mp hi with hlt | heq
    · exact hkeep n hlt (Nat.lt_succ_self n) _
        (ih hlt (fun k hk hkn s hs => hkeep k hk (Nat.lt_succ_of_lt hkn) s hs))
    · subst heq
      exact hw _

/-- The triangular solve of `CeedBasisGetCollocatedGrad` (lines 1492-1508):
row `i` of the result, restricted to its first `P1d` entries, solves
`x R = grad1d[i]` with `R` the upper triangle of the factored `interp1d`, and
its other entries are zero. -/
theorem collocated_solve_spec (P1d Q1d : Nat) (interp1d grad1d c0 : Nat → K)
    (hPQ : P1d ≤ Q1d) (hdiag : ∀ j, j < P1d → interp1d (j + P1d * j) ≠ 0)
    (i : Nat) (hi : i < Q1d) :
    (∀ j, j < P1d →
      ∑ k in Finset.range (j + 1),
        collocated_solve P1d Q1d interp1d grad1d c0 (k + Q1d * i) * interp1d (j + P1d * k) =
          grad1d (j + P1d * i)) ∧
    (∀ j, P1d ≤ j → j < Q1d → collocated_solve P1d Q1d interp1d grad1d c0 (j + Q1d * i) = 0) := by
  unfold collocated_solve
  refine forLoop_establish (fun X : Nat → K =>
    (∀ j, j < P1d →
      ∑ k in Finset.range (j + 1), X (k + Q1d * i) * interp1d (j + P1d * k) =
        grad1d (j + P1d * i)) ∧
    (∀ j, P1d ≤ j → j < Q1d → X (j + Q1d * i) = 0)) Q1d i _ c0 hi ?_ ?_
  · intro s
    obtain ⟨h1, h2, -⟩ := solve_row_spec P1d Q1d i interp1d grad1d s hi hPQ hdiag
    exact ⟨h1, h2⟩
  · intro k hik hk s hs
    obtain ⟨-, -, h3⟩ := solve_row_spec P1d Q1d k interp1d grad1d s hk hPQ hdiag
    have hrow : ∀ j, j < Q1d → ∀ j', j' < Q1d → j + Q1d * i ≠ j' + Q1d * k := by
      intro j hj j' hj' h
      have := (rowmajor_inj hj hj' h).2
      omega
    beta_reduce
    constructor
    · intro j hj
      rw [← hs.1 j hj]
      refine Finset.sum_congr rfl (fun k' hk' => ?_)
      have hk'' := Finset.mem_range.mp hk'
      rw [h3 _ (hrow k' (by omega))]
    · intro j hPj hjQ
      rw [h3 _ (hrow j hjQ)]
      exact hs.2 j hPj hjQ

/-- One pass of the loop of `CeedHouseholderApplyQ` on a matrix with rows of
length `m` (`row = 1`, `col = m`): every row has the stored reflector `i`
applied to it. -/
theorem applyQ_iter_spec (A Qm tau v : Nat → K) (m n k i : Nat) (hik : i < k) (hkm : k ≤ m)
    (j r : Nat) (hj : j < n) (hr : r < m) :
    CeedHouseholderReflect A (i * 1)
        (forLoopFrom (i + 1) m (fun j v => Function.update v j (Qm (j * k + i))) v) i (tau i)
        (m - i) n 1 m (r + m * j) =
      qrReflector m k Qm tau i (rowOf m A j) r := by
  have him : i < m := lt_of_lt_of_le hik hkm
  have hv : ∀ q, i < q → q < m →
      forLoopFrom (i + 1) m (fun j v => Function.update v j (Qm (j * k + i))) v q =
        Qm (i + k * q) := by
    intro q hiq hqm
    have e : q * k + i = i + k * q := by ring
    rw [← e]
    exact forLoopFrom_update_hit (i + 1) m (fun j => j) (fun j _ => Qm (j * k + i)) v q hiq hqm
      (fun j _ _ hne => hne)
  generalize forLoopFrom (i + 1) m (fun j v => Function.update v j (Qm (j * k + i))) v = v'
    at hv ⊢
  have hinj : ∀ a a' b b', a < m - i → a' < m - i → b < n → b' < n →
      i * 1 + (a * 1 + b * m) = i * 1 + (a' * 1 + b' * m) → a = a' ∧ b = b' := by
    intro a a' b b' ha ha' _ _ h
    have h1 : (i + a) + m * b = (i + a') + m * b' := by
      have e1 : (i + a) + m * b = i * 1 + (a * 1 + b * m) := by ring
      have e2 : (i + a') + m * b' = i * 1 + (a' * 1 + b' * m) := by ring
      rw [e1, e2, h]
    have := rowmajor_inj (by omega) (by omega) h1
    omega
  unfold qrReflector reflector
  rw [householderU_dot m i _ _ him]
  by_cases hri : i ≤ r
  · obtain ⟨a, rfl⟩ : ∃ a, r = i + a := ⟨r - i, by omega⟩
    have haddr : ∀ q, (i + q) + m * j = i * 1 + (q * 1 + j * m) := by
      intro q
      ring
    rw [haddr a, CeedHouseholderReflect_spec A (i * 1) v' i (tau i) (m - i) n 1 m (by omega)
      hinj a j (by omega) hj]
    have hsum : ∑ k' in Finset.range (m - i - 1),
        v' (i + (1 + k')) * A (i * 1 + ((1 + k') * 1 + j * m)) =
        ∑ k' in Finset.range (m - (i + 1)),
          colOf k Qm i (i + 1 + k') * rowOf m A j (i + 1 + k') := by
      rw [Nat.sub_sub]
      refine Finset.sum_congr rfl (fun k' hk' => ?_)
      have hk'' := Finset.mem_range.mp hk'
      have e1 : i + (1 + k') = i + 1 + k' := by ring
      have e2 : i * 1 + ((1 + k') * 1 + j * m) = (i + 1 + k') + m * j := by ring
      rw [e1, e2, hv (i + 1 + k') (by omega) (by omega)]
      rfl
    have e0 : i * 1 + (0 * 1 + j * m) = i + m * j := by ring
    rw [hsum, e0, ← haddr a]
    show _ = A (i + a + m * j) - tau i * (A (i + m * j) + _) * _
    congr 1
    congr 1
    by_cases h0 : a = 0
    · subst h0
      simp only [householderU, if_pos rfl, Nat.add_zero, if_true]
    · have hne : i + a ≠ i := by omega
      have hlt : i < i + a ∧ i + a < m := ⟨by omega, hr⟩
      simp only [householderU, if_neg h0, if_neg hne, if_pos hlt, colOf]
      rw [hv (i + a) hlt.1 hr]
  · have hne : r ≠ i := by omega
    have hn : ¬ (i < r ∧ r < m) := by omega
    rw [CeedHouseholderReflect_frame A (i * 1) v' i (tau i) (m - i) n 1 m (by omega) _
      (fun a b ha _ h => by
        have e : i * 1 + (a * 1 + b * m) = (i + a) + m * b := by ring
        rw [e] at h
        have := (rowmajor_inj hr (by omega) h).1
        omega)]
    simp only [householderU, if_neg hne, if_neg hn, mul_zero, sub_zero]
    rfl

/-- `CeedHouseholderApplyQ` with `tmode = false`, `row = 1`, `col = m`: every
row of `A` has the stored reflectors `k-1, ..., 0` applied to it, in that
order. -/
theorem CeedHouseholderApplyQ_spec (A Qm tau v0 : Nat → K) (m n k : Nat) (hkm : k ≤ m)
    (j r : Nat) (hj : j < n) (hr : r < m) :
    CeedHouseholderApplyQ A Qm tau v0 false m n k 1 m (r + m * j) =
      forLoop k (fun ii x => qrReflector m k Qm tau (k - 1 - ii) x) (rowOf m A j) r := by
  unfold CeedHouseholderApplyQ
  have hgen : ∀ c, c ≤ k → ∀ r, r < m →
      (forLoop c (fun ii (s : (Nat → K) × (Nat → K)) =>
        (CeedHouseholderReflect s.1 ((if false = true then ii else k - 1 - ii) * 1)
          (forLoopFrom ((if false = true then ii else k - 1 - ii) + 1) m
            (fun j v => Function.update v j
              (Qm (j * k + (if false = true then ii else k - 1 - ii)))) s.2)
          (if false = true then ii else k - 1 - ii)
          (tau (if false = true then ii else k - 1 - ii))
          (m - (if false = true then ii else k - 1 - ii)) n 1 m,
         forLoopFrom ((if false = true then ii else k - 1 - ii) + 1) m
            (fun j v => Function.update v j
              (Qm (j * k + (if false = true then ii else k - 1 - ii)))) s.2)) (A, v0)).1
        (r + m * j) =
      forLoop c (fun ii x => qrReflector m k Qm tau (k - 1 - ii) x) (rowOf m A j) r := by
    intro c
    induction c with
    | zero =>
      intro _ r _
      rfl
    | succ c ih =>
      intro hc r hr
      rw [forLoop_succ, forLoop_succ]
      simp only [Bool.false_eq_true, if_false]
      rw [applyQ_iter_spec _ Qm tau _ m n k (k - 1 - c) (by omega) hkm j r hj hr]
      unfold qrReflector
      refine reflector_congr m _ _ _ _ (fun q hq => ?_) r hr
      have := ih (by omega) q hq
      simp only [Bool.false_eq_true, if_false] at this
      exact this
  exact hgen k (le_refl k) r hr

/-- The first iteration of a loop peeled off. -/
theorem forLoop_peel {σ : Type*} (k : Nat) (body : Nat → σ → σ) (s : σ) :
    forLoop (k + 1) body s = forLoop k (fun i s => body (i + 1) s) (body 0 s) := by
  induction k with
  | zero => rfl
  | succ k ih =>
    rw [forLoop_succ, ih, forLoop_succ]

/-- Symmetric maps applied in the order `k-1, ..., 0` on one side of the dot
product are the same maps applied in the order `0, ..., k-1` on the other. -/
theorem reflectors_adjoint (m : Nat) (k : Nat) :
    ∀ (H : Nat → (Nat → K) → (Nat → K)),
    (∀ i x y, ∑ r in Finset.range m, H i x r * y r = ∑ r in Finset.range m, x r * H i y r) →
    ∀ x y : Nat → K,
    ∑ r in Finset.range m, forLoop k (fun ii x => H (k - 1 - ii) x) x r * y r =
      ∑ r in Finset.range m, x r * forLoop k (fun i y => H i y) y r := by
  induction k with
  | zero =>
    intro H _ x y
    rfl
  | succ k ih =>
    intro H hsym x y
    have h1 : forLoop (k + 1) (fun ii x => H (k + 1 - 1 - ii) x) x =
        H 0 (forLoop k (fun ii x => H (k - 1 - ii + 1) x) x) := by
      rw [forLoop_succ]
      have e0 : k + 1 - 1 - k = 0 := by omega
      rw [e0]
      refine congrArg (H 0) (forLoop_congr k _ _ x (fun ii hii s => ?_))
      have e : k + 1 - 1 - ii = k - 1 - ii + 1 := by omega
      rw [e]
    rw [h1, hsym 0, ih (fun j => H (j + 1)) (fun i x y => hsym (i + 1) x y) x (H 0 y),
      forLoop_peel k (fun i y => H i y) y]

/-- The collocated-gradient builder over an ordered field with a square root:
for `P1d ≤ Q1d` and `B` of full column rank it returns a matrix `C` with
`C * B = G`. -/
theorem CeedBasisGetCollocatedGrad_spec (sqrt : K → K)
    (hsqrt : ∀ t : K, 0 ≤ t → 0 ≤ sqrt t ∧ sqrt t * sqrt t = t) (P1d Q1d : Nat)
    (B G : Nat → K) (sc : QRScratch K) (c0 : Nat → K) (hPQ : P1d ≤ Q1d)
    (hrank : ∀ c : Nat → K,
      (∀ q, q < Q1d → ∑ d in Finset.range P1d, B (q + Q1d * d) * c d = 0) →
        ∀ d, d < P1d → c d = 0) :
    ∃ C : Nat → K, CeedBasisGetCollocatedGrad sqrt P1d Q1d B G sc c0 = some C ∧
      ∀ i, i < Q1d → ∀ d, d < P1d →
        ∑ q in Finset.range Q1d, C (q + Q1d * i) * B (q + Q1d * d) = G (i + Q1d * d) := by
  unfold CeedBasisGetCollocatedGrad CeedQRFactorization
  have hcopy := collocated_copy_spec P1d Q1d B G (sc.interp1d, sc.grad1d)
  generalize collocated_copy P1d Q1d B G (sc.interp1d, sc.grad1d) = ig at hcopy ⊢
  have hrank' : ∀ c : Nat → K,
      (∀ q, q < Q1d → ∑ d in Finset.range P1d, ig.1 (d + P1d * q) * c d = 0) →
        ∀ d, d < P1d → c d = 0 := by
    intro c hc
    refine hrank c (fun q hq => ?_)
    rw [← hc q hq]
    exact Finset.sum_congr rfl (fun d hd => by
      rw [(hcopy d q (Finset.mem_range.mp hd) hq).1])
  obtain ⟨-, hI2, hI3, -, hI5⟩ :=
    QRInvariant_loop sqrt hsqrt Q1d P1d ig.1 sc.tau sc.vQR hPQ hrank' P1d (le_refl _)
  dsimp only
  rw [if_neg (not_lt.mpr hPQ)]
  dsimp only
  generalize forLoop P1d (fun i s => CeedQRFactorization_step sqrt Q1d P1d i s)
    (ig.1, sc.tau, sc.vQR) = F at hI2 hI3 hI5 ⊢
  refine ⟨_, rfl, ?_⟩
  intro i hi d hd
  obtain ⟨hs1, hs2⟩ := collocated_solve_spec P1d Q1d F.1 ig.2 c0 hPQ hI5 i hi
  generalize collocated_solve P1d Q1d F.1 ig.2 c0 = X at hs1 hs2 ⊢
  have h1 : ∑ q in Finset.range Q1d,
      CeedHouseholderApplyQ X F.1 F.2.1 sc.vQ false Q1d Q1d P1d 1 Q1d (q + Q1d * i) *
        B (q + Q1d * d) =
      ∑ q in Finset.range Q1d,
        forLoop P1d (fun ii x => qrReflector Q1d P1d F.1 F.2.1 (P1d - 1 - ii) x)
          (rowOf Q1d X i) q * colOf P1d ig.1 d q := by
    refine Finset.sum_congr rfl (fun q hq => ?_)
    have hq' := Finset.mem_range.mp hq
    rw [CeedHouseholderApplyQ_spec X F.1 F.2.1 sc.vQ Q1d Q1d P1d hPQ i q hi hq',
      ← (hcopy d q hd hq').1]
    rfl
  rw [h1, reflectors_adjoint Q1d P1d (fun i => qrReflector Q1d P1d F.1 F.2.1 i)
    (fun i x y => reflector_dot_symm Q1d _ _ x y)]
  have hsub : ∑ r in Finset.range (d + 1), rowOf Q1d X i r *
      forLoop P1d (fun i y => qrReflector Q1d P1d F.1 F.2.1 i y) (colOf P1d ig.1 d) r =
      ∑ r in Finset.range Q1d, rowOf Q1d X i r *
        forLoop P1d (fun i y => qrReflector Q1d P1d F.1 F.2.1 i y) (colOf P1d ig.1 d) r := by
    refine Finset.sum_subset (Finset.range_subset.mpr (by omega)) (fun r hr hnr => ?_)
    have hr' := Finset.mem_range.mp hr
    have hnr' : d < r := by
      have := Finset.mem_range.not.mp hnr
      omega
    have h0 : forLoop P1d (fun i y => qrReflector Q1d P1d F.1 F.2.1 i y) (colOf P1d ig.1 d) r
        = 0 := hI3 d r hd hr' hnr'
    rw [h0, mul_zero]
  rw [← hsub, ← (hcopy d i hd hi).2, ← hs1 d hd]
  refine Finset.sum_congr rfl (fun r hr => ?_)
  have hr' := Finset.mem_range.mp hr
  have h0 : forLoop P1d (fun i y => qrReflector Q1d P1d F.1 F.2.1 i y) (colOf P1d ig.1 d) r
      = F.1 (d + P1d * r) := (hI2 d r hd (by omega) (by omega)).symm
  rw [h0]
  rfl

/-- **C7.** QR round trip of the collocated-gradient builder, over the reals
with the real square root: for every `P1d ≤ Q1d`, every interpolation table
`B` (`Q1d x P1d`, `B[q + Q1d*d]`) of full column rank (its columns are
linearly independent: a combination of the columns that vanishes in every
row has all coefficients zero) and every derivative table `G` of the same
shape, `CeedBasisGetCollocatedGrad` returns a `Q1d x Q1d` matrix `colograd1d`
(row `i`, column `q` at `q + Q1d*i`) with `colograd1d * B = G` exactly,
whatever the scratch arrays and the output buffer held; in particular for
`(P1d,Q1d)` in `(2,3)`, `(3,4)`, `(4,5)`, `(5,6)`. -/
theorem CeedBasisGetCollocatedGrad_roundtrip (P1d Q1d : Nat) (B G : Nat → ℝ)
    (sc : QRScratch ℝ) (colograd0 : Nat → ℝ) (hPQ : P1d ≤ Q1d)
    (hrank : ∀ c : Nat → ℝ,
      (∀ q, q < Q1d → ∑ d in Finset.range P1d, B (q + Q1d * d) * c d = 0) →
        ∀ d, d < P1d → c d = 0) :
    ∃ colograd1d : Nat → ℝ,
      CeedBasisGetCollocatedGrad Real.sqrt P1d Q1d B G sc colograd0 = some colograd1d ∧
      ∀ i, i < Q1d → ∀ d, d < P1d →
        ∑ q in Finset.range Q1d, colograd1d (q + Q1d * i) * B (q + Q1d * d) =
          G (i + Q1d * d) :=
  CeedBasisGetCollocatedGrad_spec Real.sqrt
    (fun t ht => ⟨Real.sqrt_nonneg t, Real.mul_self_sqrt ht⟩) P1d Q1d B G sc colograd0 hPQ hrank

/-- Witness for C7: `P1d = 2`, `Q1d = 3`, the columns of `B` being `(1,1,1)` and
`(0,1,2)`. -/
theorem CeedBasisGetCollocatedGrad_roundtrip_witness :
    ((2 : Nat) ≤ 3 ∧ ∀ c : Nat → ℝ,
      (∀ q, q < 3 → ∑ d in Finset.range 2,
        (fun i : Nat => if i < 3 then (1 : ℝ) else (i : ℝ) - 3) (q + 3 * d) * c d = 0) →
        ∀ d, d < 2 → c d = 0) ∧
    ∃ colograd1d : Nat → ℝ,
      CeedBasisGetCollocatedGrad Real.sqrt 2 3
        (fun i : Nat => if i < 3 then (1 : ℝ) else (i : ℝ) - 3) (fun i : Nat => (i : ℝ))
        ⟨fun _ => 0, fun _ => 0, fun _ => 0, fun _ => 0, fun _ => 0⟩ (fun _ => 0) =
          some colograd1d ∧
      ∀ i, i < 3 → ∀ d, d < 2 →
        ∑ q in Finset.range 3, colograd1d (q + 3 * i) *
          (fun i : Nat => if i < 3 then (1 : ℝ) else (i : ℝ) - 3) (q + 3 * d) =
          (fun i : Nat => (i : ℝ)) (i + 3 * d) := by
  have hrank : ∀ c : Nat → ℝ,
      (∀ q, q < 3 → ∑ d in Finset.range 2,
        (fun i : Nat => if i < 3 then (1 : ℝ) else (i : ℝ) - 3) (q + 3 * d) * c d = 0) →
        ∀ d, d < 2 → c d = 0 := by
    intro c hc d hd
    have h0 := hc 0 (by norm_num)
    have h1 := hc 1 (by norm_num)
    simp only [Finset.sum_range_succ, Finset.sum_range_zero] at h0 h1
    norm_num at h0 h1
    interval_cases d
    · exact h0
    · linarith
  exact ⟨⟨by norm_num, hrank⟩,
    CeedBasisGetCollocatedGrad_roundtrip 2 3 _ _ _ _ (by norm_num) hrank⟩

end QRSolveProofs

section SetupDispatchProofs

variable {K : Type*} [Field K]

/-- **C20.** Setup rejects one-dimensional problems: for every `D1D`, `Q1D`,
`NE`, `W`, `J`, `COEFF` and `op`, `PADiffusionSetup` with `dim = 1` aborts with
the message `dim==1 not supported in PADiffusionSetup`, and the buffer `op`
holds afterwards what it held before. -/
theorem PADiffusionSetup_dim1 (D1D Q1D NE : Nat) (W J : Nat → K) (COEFF : K) (op : Nat → K) :
    PADiffusionSetup 1 D1D Q1D NE W J COEFF op =
        Except.error "dim==1 not supported in PADiffusionSetup" ∧
      bufferAfter op (PADiffusionSetup 1 D1D Q1D NE W J COEFF op) = op :=
  ⟨rfl, rfl⟩

/-- **C14.** Identity-mapped element: when the Jacobian at point `q` of
element `e` is the identity, `PADiffusionSetup2D` writes
`(W[q]*COEFF, 0, W[q]*COEFF)` to `op(q,0..2,e)` and `PADiffusionSetup3D` writes
`(W[q]*COEFF, 0, 0, W[q]*COEFF, 0, W[q]*COEFF)` to `op(q,0..5,e)`; with
`COEFF = 1` these are `(W[q], 0, W[q])` and `(W[q], 0, 0, W[q], 0, W[q])`. -/
theorem PADiffusionSetup_identity (Q1D NE : Nat) (w j : Nat → K) (COEFF : K) (op : Nat → K)
    (e q : Nat) (he : e < NE) :
    (q < Q1D * Q1D → jac2 (Q1D * Q1D) j q e = 1 →
      (PADiffusionSetup2D Q1D NE w j COEFF op (idx3 (Q1D * Q1D) 3 q 0 e) = w q * COEFF ∧
        PADiffusionSetup2D Q1D NE w j COEFF op (idx3 (Q1D * Q1D) 3 q 1 e) = 0 ∧
        PADiffusionSetup2D Q1D NE w j COEFF op (idx3 (Q1D * Q1D) 3 q 2 e) = w q * COEFF) ∧
      (PADiffusionSetup2D Q1D NE w j 1 op (idx3 (Q1D * Q1D) 3 q 0 e) = w q ∧
        PADiffusionSetup2D Q1D NE w j 1 op (idx3 (Q1D * Q1D) 3 q 1 e) = 0 ∧
        PADiffusionSetup2D Q1D NE w j 1 op (idx3 (Q1D * Q1D) 3 q 2 e) = w q)) ∧
    (q < Q1D * Q1D * Q1D → jac3 (Q1D * Q1D * Q1D) j q e = 1 →
      (PADiffusionSetup3D Q1D NE w j COEFF op (idx3 (Q1D * Q1D * Q1D) 6 q 0 e) = w q * COEFF ∧
        PADiffusionSetup3D Q1D NE w j COEFF op (idx3 (Q1D * Q1D * Q1D) 6 q 1 e) = 0 ∧
        PADiffusionSetup3D Q1D NE w j COEFF op (idx3 (Q1D * Q1D * Q1D) 6 q 2 e) = 0 ∧
        PADiffusionSetup3D Q1D NE w j COEFF op (idx3 (Q1D * Q1D * Q1D) 6 q 3 e) = w q * COEFF ∧
        PADiffusionSetup3D Q1D NE w j COEFF op (idx3 (Q1D * Q1D * Q1D) 6 q 4 e) = 0 ∧
        PADiffusionSetup3D Q1D NE w j COEFF op (idx3 (Q1D * Q1D * Q1D) 6 q 5 e) = w q * COEFF) ∧
      (PADiffusionSetup3D Q1D NE w j 1 op (idx3 (Q1D * Q1D * Q1D) 6 q 0 e) = w q ∧
        PADiffusionSetup3D Q1D NE w j 1 op (idx3 (Q1D * Q1D * Q1D) 6 q 1 e) = 0 ∧
        PADiffusionSetup3D Q1D NE w j 1 op (idx3 (Q1D * Q1D * Q1D) 6 q 2 e) = 0 ∧
        PADiffusionSetup3D Q1D NE w j 1 op (idx3 (Q1D * Q1D * Q1D) 6 q 3 e) = w q ∧
        PADiffusionSetup3D Q1D NE w j 1 op (idx3 (Q1D * Q1D * Q1D) 6 q 4 e) = 0 ∧
        PADiffusionSetup3D Q1D NE w j 1 op (idx3 (Q1D * Q1D * Q1D) 6 q 5 e) = w q)) := by
  constructor
  · intro hq hJ
    have h2 : ∀ C : K,
        PADiffusionSetup2D Q1D NE w j C op (idx3 (Q1D * Q1D) 3 q 0 e) = w q * C ∧
        PADiffusionSetup2D Q1D NE w j C op (idx3 (Q1D * Q1D) 3 q 1 e) = 0 ∧
        PADiffusionSetup2D Q1D NE w j C op (idx3 (Q1D * Q1D) 3 q 2 e) = w q * C := by
      intro C
      have h := PADiffusionSetup2D_val Q1D NE w j C op e q he hq
      have h00 : j (idx4 (Q1D * Q1D) 2 2 q 0 0 e) = 1 := by
        have := congrFun (congrFun hJ 0) 0
        simpa [jac2] using this
      have h01 : j (idx4 (Q1D * Q1D) 2 2 q 0 1 e) = 0 := by
        have := congrFun (congrFun hJ 0) 1
        simpa [jac2] using this
      have h10 : j (idx4 (Q1D * Q1D) 2 2 q 1 0 e) = 0 := by
        have := congrFun (congrFun hJ 1) 0
        simpa [jac2] using this
      have h11 : j (idx4 (Q1D * Q1D) 2 2 q 1 1 e) = 1 := by
        have := congrFun (congrFun hJ 1) 1
        simpa [jac2] using this
      simp only [h00, h01, h10, h11] at h
      refine ⟨h.1.trans ?_, h.2.1.trans ?_, h.2.2.trans ?_⟩ <;> simp
    refine ⟨h2 COEFF, ?_⟩
    simpa using h2 1
  · intro hq hJ
    have h3 : ∀ C : K,
        PADiffusionSetup3D Q1D NE w j C op (idx3 (Q1D * Q1D * Q1D) 6 q 0 e) = w q * C ∧
        PADiffusionSetup3D Q1D NE w j C op (idx3 (Q1D * Q1D * Q1D) 6 q 1 e) = 0 ∧
        PADiffusionSetup3D Q1D NE w j C op (idx3 (Q1D * Q1D * Q1D) 6 q 2 e) = 0 ∧
        PADiffusionSetup3D Q1D NE w j C op (idx3 (Q1D * Q1D * Q1D) 6 q 3 e) = w q * C ∧
        PADiffusionSetup3D Q1D NE w j C op (idx3 (Q1D * Q1D * Q1D) 6 q 4 e) = 0 ∧
        PADiffusionSetup3D Q1D NE w j C op (idx3 (Q1D * Q1D * Q1D) 6 q 5 e) = w q * C := by
      intro C
      have h := PADiffusionSetup3D_val Q1D NE w j C op e q he hq
      simp only [hJ] at h
      obtain ⟨a0, a1, a2, a3, a4, a5⟩ := h
      refine ⟨a0.trans ?_, a1.trans ?_, a2.trans ?_, a3.trans ?_, a4.trans ?_, a5.trans ?_⟩ <;>
        simp [Setup3D_detJ, Setup3D_adj, Matrix.vecHead, Matrix.vecTail]
    refine ⟨h3 COEFF, ?_⟩
    simpa using h3 1

/-- Witness for C14: `Q1D = 4`, `NE = 1`, `dim = 2`, point `q = 5` of an
identity-mapped element, weights `W[q] = q + 1`, `COEFF = 3`. -/
theorem PADiffusionSetup_identity_witness :
    ((0 : Nat) < 1 ∧ (5 : Nat) < 4 * 4 ∧ jac2 (4 * 4) identityJ2Q4 5 0 = 1) ∧
    (PADiffusionSetup2D 4 1 (fun q => (q : ℚ) + 1) identityJ2Q4 3 (fun _ => 7)
        (idx3 (4 * 4) 3 5 0 0) = (fun q : Nat => (q : ℚ) + 1) 5 * 3 ∧
      PADiffusionSetup2D 4 1 (fun q => (q : ℚ) + 1) identityJ2Q4 3 (fun _ => 7)
        (idx3 (4 * 4) 3 5 1 0) = 0 ∧
      PADiffusionSetup2D 4 1 (fun q => (q : ℚ) + 1) identityJ2Q4 3 (fun _ => 7)
        (idx3 (4 * 4) 3 5 2 0) = (fun q : Nat => (q : ℚ) + 1) 5 * 3) := by
  have hJ : jac2 (4 * 4) identityJ2Q4 5 0 = 1 := by
    ext r c
    fin_cases r <;> fin_cases c <;> simp [jac2, idx4, idx3, idx2, identityJ2Q4]
  exact ⟨⟨by decide, by decide, hJ⟩,
    ((PADiffusionSetup_identity 4 1 (fun q => (q : ℚ) + 1) identityJ2Q4 3 (fun _ => 7) 0 5
      (by decide)).1 (by decide) hJ).1⟩

end SetupDispatchProofs

section DispatchCaseProofs

variable {K : Type*} [LinearOrderedField K]

/-- For `D1D < 2^27` (no overflow of `D1D << 4` in `int`) and `Q1D < 16` the
packed key is `16 * D1D + Q1D`. -/
theorem packedKey_eq (D1D Q1D : Nat) (hD : D1D < 2 ^ 27) (hQ : Q1D < 16) :
    ((D1D <<< 4) ||| Q1D) % 2 ^ 32 = 16 * D1D + Q1D := by
  have h := @Nat.mul_add_lt_is_or 4 Q1D (by simpa using hQ) D1D
  rw [Nat.shiftLeft_eq, Nat.mul_comm, ← h]
  exact Nat.mod_eq_of_lt (by omega)

/-- For `D1D < 2^27` and `Q1D < 16` the `switch` without the toggle selects
`<d,q>` exactly on the pair `(d,q)`. -/
theorem smemCase_eq_some_iff (D1D Q1D : Nat) (hD : D1D < 2 ^ 27) (hQ : Q1D < 16)
    (p : Nat × Nat) :
    smemCase D1D Q1D = some p ↔
      (D1D, Q1D) = p ∧ p ∈ [(2, 3), (3, 4), (4, 5), (5, 6), (6, 7), (7, 8), (8, 9)] := by
  obtain ⟨d, q⟩ := p
  simp only [smemCase, packedKey_eq D1D Q1D hD hQ, List.mem_cons, Prod.mk.injEq,
    List.mem_singleton, List.not_mem_nil, or_false]
  constructor
  · intro h
    split_ifs at h <;> simp only [Option.some.injEq, Prod.mk.injEq] at h <;>
      omega
  · rintro ⟨⟨rfl, rfl⟩, h⟩
    rcases h with h | h | h | h | h | h | h <;>
    · obtain ⟨hd, hq⟩ := h
      subst hd hq
      rfl

/-- For `D1D < 2^27` and `Q1D < 16` the `switch` with the toggle selects
`<d,q>` exactly on the pair `(d,q)`. -/
theorem bp3Case_eq_some_iff (D1D Q1D : Nat) (hD : D1D < 2 ^ 27) (hQ : Q1D < 16)
    (p : Nat × Nat) :
    bp3Case D1D Q1D = some p ↔
      (D1D, Q1D) = p ∧
        p ∈ [(2, 3), (3, 4), (4, 5), (5, 6), (6, 7), (7, 8), (8, 9), (14, 15)] := by
  obtain ⟨d, q⟩ := p
  simp only [bp3Case, packedKey_eq D1D Q1D hD hQ, List.mem_cons, Prod.mk.injEq,
    List.mem_singleton, List.not_mem_nil, or_false]
  constructor
  · intro h
    split_ifs at h <;> simp only [Option.some.injEq, Prod.mk.injEq] at h <;>
      omega
  · rintro ⟨⟨rfl, rfl⟩, h⟩
    rcases h with h | h | h | h | h | h | h | h <;>
    · obtain ⟨hd, hq⟩ := h
      subst hd hq
      rfl

/-- Without the toggle the dispatcher is the `switch` over the tiled kernels. -/
theorem PADiffusionApply_off (MAX_D1D MAX_Q1D : Nat) (sqrt : K → K) (dim D1D Q1D NE : Nat)
    (B G Bt Gt op x : Nat → K) (sc : ApplyScratch K) (y : Nat → K) :
    PADiffusionApply MAX_D1D MAX_Q1D sqrt false dim D1D Q1D NE B G Bt Gt op x sc y =
      if dim = 3 then
        match smemCase D1D Q1D with
        | some p => kernelResult
            (SmemPADiffusionApply3D MAX_D1D MAX_Q1D p.1 p.2 NE B G op x sc.smem y 0 0)
        | none => Except.error "Unknown kernel."
      else Except.error "Unknown kernel." := by
  unfold PADiffusionApply smemCase
  dsimp only
  rw [if_neg Bool.false_ne_true]
  by_cases hd : dim = 3
  · rw [if_pos hd, if_pos hd]
    split_ifs <;> rfl
  · rw [if_neg hd, if_neg hd]

/-- With the toggle the dispatcher builds the collocated operator and is then
the `switch` over the collocated kernels. -/
theorem PADiffusionApply_on (MAX_D1D MAX_Q1D : Nat) (sqrt : K → K) (dim D1D Q1D NE : Nat)
    (B G Bt Gt op x : Nat → K) (sc : ApplyScratch K) (y : Nat → K) :
    PADiffusionApply MAX_D1D MAX_Q1D sqrt true dim D1D Q1D NE B G Bt Gt op x sc y =
      match CeedBasisGetCollocatedGrad sqrt D1D Q1D B G sc.qr sc.coG with
      | none => Except.error ""
      | some coG =>
        if dim = 3 then
          match bp3Case D1D Q1D with
          | some p => kernelResult (BP3Global_v0 p.1 p.2 NE B coG op x sc.bp3 y)
          | none => Except.error "Unknown kernel."
        else Except.error "Unknown kernel." := by
  unfold PADiffusionApply bp3Case
  dsimp only
  rw [if_pos rfl]
  cases CeedBasisGetCollocatedGrad sqrt D1D Q1D B G sc.qr sc.coG with
  | none => rfl
  | some coG =>
    dsimp only
    by_cases hd : dim = 3
    · rw [if_pos hd, if_pos hd]
      split_ifs <;> rfl
    · rw [if_neg hd, if_neg hd]

/-- The builder of the collocated operator completes whenever `P1d <= Q1d`. -/
theorem CeedBasisGetCollocatedGrad_isSome (sqrt : K → K) (P1d Q1d : Nat) (B G : Nat → K)
    (sc : QRScratch K) (c0 : Nat → K) (hPQ : P1d ≤ Q1d) :
    ∃ C, CeedBasisGetCollocatedGrad sqrt P1d Q1d B G sc c0 = some C := by
  simp only [CeedBasisGetCollocatedGrad, CeedQRFactorization, if_neg (not_lt.mpr hPQ)]
  exact ⟨_, rfl⟩

/-- **C15.** The dispatcher does not serve two-dimensional problems: without
the toggle and with `dim = 2`, `PADiffusionApply` aborts with `Unknown kernel.`
for every `D1D`, `Q1D` (in particular `D1D = 3`, `Q1D = 4`, `NE = 1`) and every
input; no 2D kernel runs and `y` keeps its content. -/
theorem PADiffusionApply_dim2 (MAX_D1D MAX_Q1D : Nat) (sqrt : K → K) (D1D Q1D NE : Nat)
    (B G Bt Gt op x : Nat → K) (sc : ApplyScratch K) (y : Nat → K) :
    PADiffusionApply MAX_D1D MAX_Q1D sqrt false 2 D1D Q1D NE B G Bt Gt op x sc y =
        Except.error "Unknown kernel." ∧
      bufferAfter y
        (PADiffusionApply MAX_D1D MAX_Q1D sqrt false 2 D1D Q1D NE B G Bt Gt op x sc y) = y := by
  have h : PADiffusionApply MAX_D1D MAX_Q1D sqrt false 2 D1D Q1D NE B G Bt Gt op x sc y =
      Except.error "Unknown kernel." := by
    rw [PADiffusionApply_off, if_neg (by decide)]
  rw [h]
  exact ⟨rfl, rfl⟩

/-- **C16.** No generic fallback: with `dim = 3` and the toggle off, whenever
the packed key of `(D1D,Q1D)` matches no `case` label, `PADiffusionApply`
aborts with `Unknown kernel.` and `y` keeps its content; this is so for every
pair with `D1D < 2^27` (so that `D1D << 4` does not overflow the 32-bit
`int`) and `Q1D <= 15` outside the seven precompiled ones, for example `(2,2)`
and `(3,5)`. -/
theorem PADiffusionApply_unmatched (MAX_D1D MAX_Q1D : Nat) (sqrt : K → K) (D1D Q1D NE : Nat)
    (B G Bt Gt op x : Nat → K) (sc : ApplyScratch K) (y : Nat → K) :
    (smemCase D1D Q1D = none →
      PADiffusionApply MAX_D1D MAX_Q1D sqrt false 3 D1D Q1D NE B G Bt Gt op x sc y =
          Except.error "Unknown kernel." ∧
        bufferAfter y
          (PADiffusionApply MAX_D1D MAX_Q1D sqrt false 3 D1D Q1D NE B G Bt Gt op x sc y) = y) ∧
    (D1D < 2 ^ 27 → Q1D ≤ 15 →
      (D1D, Q1D) ∉ [(2, 3), (3, 4), (4, 5), (5, 6), (6, 7), (7, 8), (8, 9)] →
      smemCase D1D Q1D = none) := by
  constructor
  · intro hc
    have h : PADiffusionApply MAX_D1D MAX_Q1D sqrt false 3 D1D Q1D NE B G Bt Gt op x sc y =
        Except.error "Unknown kernel." := by
      rw [PADiffusionApply_off, if_pos rfl, hc]
    rw [h]
    exact ⟨rfl, rfl⟩
  · intro hD hQ hpair
    cases hc : smemCase D1D Q1D with
    | none => rfl
    | some p =>
      obtain ⟨h1, h2⟩ := (smemCase_eq_some_iff D1D Q1D hD (by omega) p).mp hc
      exact absurd (h1 ▸ h2) hpair

/-- Witness for C16: the pair `(3,5)`. -/
theorem PADiffusionApply_unmatched_witness :
    ((3 : Nat) < 2 ^ 27 ∧ (5 : Nat) ≤ 15 ∧
      ((3 : Nat), (5 : Nat)) ∉ [(2, 3), (3, 4), (4, 5), (5, 6), (6, 7), (7, 8), (8, 9)]) ∧
    smemCase 3 5 = none ∧
    PADiffusionApply 14 14 (fun t : ℚ => t) false 3 3 5 1 (fun i => (i : ℚ) + 1)
        (fun i => 2 * (i : ℚ)) (fun i => (i : ℚ)) (fun i => (i : ℚ)) (fun i => (i : ℚ))
        (fun i => (i : ℚ)) zeroApplyScratch (fun _ => 5) = Except.error "Unknown kernel." :=
  ⟨⟨by norm_num, by decide, by decide⟩,
    (PADiffusionApply_unmatched 14 14 (fun t : ℚ => t) 3 5 1 (fun i => (i : ℚ) + 1)
      (fun i => 2 * (i : ℚ)) (fun i => (i : ℚ)) (fun i => (i : ℚ)) (fun i => (i : ℚ))
      (fun i => (i : ℚ)) zeroApplyScratch (fun _ => 5)).2 (by norm_num) (by decide) (by decide),
    ((PADiffusionApply_unmatched 14 14 (fun t : ℚ => t) 3 5 1 (fun i => (i : ℚ) + 1)
      (fun i => 2 * (i : ℚ)) (fun i => (i : ℚ)) (fun i => (i : ℚ)) (fun i => (i : ℚ))
      (fun i => (i : ℚ)) zeroApplyScratch (fun _ => 5)).1 (by decide)).1⟩

/-- Counterexample to C16 as stated: at `(D1D,Q1D) = (2,2)`, within the limits
`MAX_D1D = MAX_Q1D = 14`, the dispatcher aborts although the generic kernel
`PADiffusionApply3D(NE,B,G,Bt,Gt,op,x,y,2,2)` completes. -/
theorem PADiffusionApply_no_fallback :
    ((2 : Nat) ≤ 14 ∧ (2 : Nat) ≤ 14) ∧
    PADiffusionApply 14 14 (fun t : ℚ => t) false 3 2 2 1 (fun i => (i : ℚ) + 1)
        (fun i => 2 * (i : ℚ)) (fun i => (i : ℚ)) (fun i => (i : ℚ)) (fun i => (i : ℚ))
        (fun i => (i : ℚ)) zeroApplyScratch (fun _ => 5) = Except.error "Unknown kernel." ∧
    ∃ y, PADiffusionApply3D 14 14 0 0 1 (fun i => (i : ℚ) + 1)
        (fun i => 2 * (i : ℚ)) (fun i => (i : ℚ)) (fun i => (i : ℚ)) (fun i => (i : ℚ))
        (fun i => (i : ℚ))
        ⟨fun _ _ _ _ => 0, fun _ _ _ => 0, fun _ _ => 0, fun _ _ _ => 0, fun _ _ => 0⟩
        (fun _ => 5) 2 2 = some y := by
  refine ⟨⟨by decide, by decide⟩, ?_, ⟨_, PADiffusionApply3D_eq_some 14 14 0 0 1 _ _ _ _ _ _ _ _
    2 2 2 2 rfl rfl (by decide) (by decide)⟩⟩
  rw [PADiffusionApply_off, if_pos rfl]
  rfl

/-- **C17.** A size-specialized kernel is selected only for the pair it was
compiled for, as long as `D1D < 2^27` (so that `D1D << 4` does not overflow
the 32-bit `int`) and `Q1D <= 15`: with `dim = 3` the dispatcher runs the
instance `<d,q>` the `switch` selects (`SmemPADiffusionApply3D<d,q>` with the
toggle off, `BP3Global_v0<d,q>` with it on), and for every `0 <= D1D < 2^27`
and `0 <= Q1D <= 15` the `switch` selects `<d,q>` if and only if
`(D1D,Q1D) = (d,q)` and `<d,q>` is one of the precompiled pairs. -/
theorem PADiffusionApply_selects (MAX_D1D MAX_Q1D : Nat) (sqrt : K → K) (D1D Q1D NE : Nat)
    (B G Bt Gt op x : Nat → K) (sc : ApplyScratch K) (y : Nat → K) (hD : D1D < 2 ^ 27)
    (hQ : Q1D ≤ 15) :
    (PADiffusionApply MAX_D1D MAX_Q1D sqrt false 3 D1D Q1D NE B G Bt Gt op x sc y =
      match smemCase D1D Q1D with
      | some p => kernelResult
          (SmemPADiffusionApply3D MAX_D1D MAX_Q1D p.1 p.2 NE B G op x sc.smem y 0 0)
      | none => Except.error "Unknown kernel.") ∧
    (PADiffusionApply MAX_D1D MAX_Q1D sqrt true 3 D1D Q1D NE B G Bt Gt op x sc y =
      match CeedBasisGetCollocatedGrad sqrt D1D Q1D B G sc.qr sc.coG with
      | none => Except.error ""
      | some coG =>
        match bp3Case D1D Q1D with
        | some p => kernelResult (BP3Global_v0 p.1 p.2 NE B coG op x sc.bp3 y)
        | none => Except.error "Unknown kernel.") ∧
    (∀ d q : Nat, smemCase D1D Q1D = some (d, q) ↔
      (D1D, Q1D) = (d, q) ∧
        (d, q) ∈ [(2, 3), (3, 4), (4, 5), (5, 6), (6, 7), (7, 8), (8, 9)]) ∧
    (∀ d q : Nat, bp3Case D1D Q1D = some (d, q) ↔
      (D1D, Q1D) = (d, q) ∧
        (d, q) ∈ [(2, 3), (3, 4), (4, 5), (5, 6), (6, 7), (7, 8), (8, 9), (14, 15)]) := by
  refine ⟨?_, ?_, fun d q => smemCase_eq_some_iff D1D Q1D hD (by omega) (d, q),
    fun d q => bp3Case_eq_some_iff D1D Q1D hD (by omega) (d, q)⟩
  · rw [PADiffusionApply_off, if_pos rfl]
  · rw [PADiffusionApply_on]
    cases CeedBasisGetCollocatedGrad sqrt D1D Q1D B G sc.qr sc.coG with
    | none => rfl
    | some coG => simp only [if_true]

/-- Witness for C17: the pair `(4,5)`. -/
theorem PADiffusionApply_selects_witness :
    ((4 : Nat) < 2 ^ 27 ∧ (5 : Nat) ≤ 15) ∧ (smemCase 4 5 = some (4, 5) ↔
      ((4 : Nat), (5 : Nat)) = (4, 5) ∧
        ((4 : Nat), (5 : Nat)) ∈ [(2, 3), (3, 4), (4, 5), (5, 6), (6, 7), (7, 8), (8, 9)]) :=
  ⟨⟨by norm_num, by decide⟩,
    (PADiffusionApply_selects 14 14 (fun t : ℚ => t) 4 5 1 (fun i => (i : ℚ) + 1)
      (fun i => 2 * (i : ℚ)) (fun i => (i : ℚ)) (fun i => (i : ℚ)) (fun i => (i : ℚ))
      (fun i => (i : ℚ)) zeroApplyScratch (fun _ => 5) (by norm_num) (by decide)).2.2.1 4 5⟩

/-- Counterexample to C17 as stated: the pair `(2,35)` has the packed key
`0x23`, so both `switch` statements select the instance `<2,3>`, and the
dispatcher runs `SmemPADiffusionApply3D<2,3>` on it.  So has the pair
`(2^28 + 2, 3)`, the high bits of `D1D` being shifted out of the `int`. -/
theorem PADiffusionApply_key_collision :
    (((2 : Nat) <<< 4) ||| 35) % 2 ^ 32 = 0x23 ∧ ((2 : Nat), (35 : Nat)) ≠ (2, 3) ∧
    smemCase 2 35 = some (2, 3) ∧ bp3Case 2 35 = some (2, 3) ∧
    (((268435458 : Nat) <<< 4) ||| 3) % 2 ^ 32 = 0x23 ∧
    ((268435458 : Nat), (3 : Nat)) ≠ (2, 3) ∧
    smemCase 268435458 3 = some (2, 3) ∧ bp3Case 268435458 3 = some (2, 3) ∧
    PADiffusionApply 14 14 (fun t : ℚ => t) false 3 2 35 1 (fun i => (i : ℚ) + 1)
        (fun i => 2 * (i : ℚ)) (fun i => (i : ℚ)) (fun i => (i : ℚ)) (fun i => (i : ℚ))
        (fun i => (i : ℚ)) zeroApplyScratch (fun _ => 5) =
      kernelResult (SmemPADiffusionApply3D 14 14 2 3 1 (fun i => (i : ℚ) + 1)
        (fun i => 2 * (i : ℚ)) (fun i => (i : ℚ)) (fun i => (i : ℚ))
        (zeroApplyScratch : ApplyScratch ℚ).smem (fun _ => 5) 0 0) := by
  refine ⟨by decide, by decide, by decide, by decide, by decide, by decide, by decide,
    by decide, ?_⟩
  rw [PADiffusionApply_off, if_pos rfl]
  rfl

/-- **C18.** The collocated path is opt-in only.  With the toggle unset, for
every `dim`, `D1D`, `Q1D` and input, the dispatcher is the `switch` over the
tiled kernels alone (it neither builds the collocated operator nor runs
`BP3Global_v0`), and for `dim = 3` with `(D1D,Q1D)` one of the seven
precompiled pairs it runs `SmemPADiffusionApply3D<D1D,Q1D>`.  With the toggle
set and `dim = 3`, for a pair of that set or `(14,15)`,
`CeedBasisGetCollocatedGrad` builds `coG` and the dispatcher runs
`BP3Global_v0<D1D,Q1D>` on it. -/
theorem PADiffusionApply_opt_in (MAX_D1D MAX_Q1D : Nat) (sqrt : K → K) (dim D1D Q1D NE : Nat)
    (B G Bt Gt op x : Nat → K) (sc : ApplyScratch K) (y : Nat → K) :
    (PADiffusionApply MAX_D1D MAX_Q1D sqrt false dim D1D Q1D NE B G Bt Gt op x sc y =
      if dim = 3 then
        match smemCase D1D Q1D with
        | some p => kernelResult
            (SmemPADiffusionApply3D MAX_D1D MAX_Q1D p.1 p.2 NE B G op x sc.smem y 0 0)
        | none => Except.error "Unknown kernel."
      else Except.error "Unknown kernel.") ∧
    ((D1D, Q1D) ∈ [(2, 3), (3, 4), (4, 5), (5, 6), (6, 7), (7, 8), (8, 9)] →
      PADiffusionApply MAX_D1D MAX_Q1D sqrt false 3 D1D Q1D NE B G Bt Gt op x sc y =
        kernelResult
          (SmemPADiffusionApply3D MAX_D1D MAX_Q1D D1D Q1D NE B G op x sc.smem y 0 0)) ∧
    ((D1D, Q1D) ∈ [(2, 3), (3, 4), (4, 5), (5, 6), (6, 7), (7, 8), (8, 9), (14, 15)] →
      ∃ coG, CeedBasisGetCollocatedGrad sqrt D1D Q1D B G sc.qr sc.coG = some coG ∧
        PADiffusionApply MAX_D1D MAX_Q1D sqrt true 3 D1D Q1D NE B G Bt Gt op x sc y =
          kernelResult (BP3Global_v0 D1D Q1D NE B coG op x sc.bp3 y)) := by
  refine ⟨PADiffusionApply_off _ _ _ _ _ _ _ _ _ _ _ _ _ _ _, ?_, ?_⟩
  · intro hpair
    have hQ : Q1D < 16 ∧ D1D < 2 ^ 27 := by
      simp only [List.mem_cons, Prod.mk.injEq, List.mem_singleton, List.not_mem_nil, or_false]
        at hpair
      omega
    rw [PADiffusionApply_off, if_pos rfl,
      (smemCase_eq_some_iff D1D Q1D hQ.2 hQ.1 (D1D, Q1D)).mpr ⟨rfl, hpair⟩]
  · intro hpair
    have hQ : Q1D < 16 ∧ D1D ≤ Q1D := by
      simp only [List.mem_cons, Prod.mk.injEq, List.mem_singleton, List.not_mem_nil, or_false]
        at hpair
      omega
    obtain ⟨coG, hco⟩ := CeedBasisGetCollocatedGrad_isSome sqrt D1D Q1D B G sc.qr sc.coG hQ.2
    refine ⟨coG, hco, ?_⟩
    rw [PADiffusionApply_on, hco]
    simp only [if_true,
      (bp3Case_eq_some_iff D1D Q1D (by omega) hQ.1 (D1D, Q1D)).mpr ⟨rfl, hpair⟩]

/-- Witness for C18: the pair `(2,3)` without the toggle. -/
theorem PADiffusionApply_opt_in_witness :
    ((2 : Nat), (3 : Nat)) ∈ [(2, 3), (3, 4), (4, 5), (5, 6), (6, 7), (7, 8), (8, 9)] ∧
    PADiffusionApply 14 14 (fun t : ℚ => t) false 3 2 3 1 (fun i => (i : ℚ) + 1)
        (fun i => 2 * (i : ℚ)) (fun i => (i : ℚ)) (fun i => (i : ℚ)) (fun i => (i : ℚ))
        (fun i => (i : ℚ)) zeroApplyScratch (fun _ => 5) =
      kernelResult (SmemPADiffusionApply3D 14 14 2 3 1 (fun i => (i : ℚ) + 1)
        (fun i => 2 * (i : ℚ)) (fun i => (i : ℚ)) (fun i => (i : ℚ))
        (zeroApplyScratch : ApplyScratch ℚ).smem (fun _ => 5) 0 0) :=
  ⟨by decide, (PADiffusionApply_opt_in 14 14 (fun t : ℚ => t) 3 2 3 1 (fun i => (i : ℚ) + 1)
    (fun i => 2 * (i : ℚ)) (fun i => (i : ℚ)) (fun i => (i : ℚ)) (fun i => (i : ℚ))
    (fun i => (i : ℚ)) zeroApplyScratch (fun _ => 5)).2.1 (by decide)⟩

/-- **C19.** Unsupported pairs fail on the collocated path, as long as
`Q1D <= 15`: with the toggle set and `dim = 3`, for every `(D1D,Q1D)` with
`D1D <= Q1D <= 15` that is not one of the eight precompiled pairs,
`PADiffusionApply` aborts with `Unknown kernel.` and `y` keeps its content. -/
theorem PADiffusionApply_collocated_unsupported (MAX_D1D MAX_Q1D : Nat) (sqrt : K → K)
    (D1D Q1D NE : Nat) (B G Bt Gt op x : Nat → K) (sc : ApplyScratch K) (y : Nat → K)
    (hDQ : D1D ≤ Q1D) (hQ : Q1D ≤ 15)
    (hpair : (D1D, Q1D) ∉ [(2, 3), (3, 4), (4, 5), (5, 6), (6, 7), (7, 8), (8, 9), (14, 15)]) :
    PADiffusionApply MAX_D1D MAX_Q1D sqrt true 3 D1D Q1D NE B G Bt Gt op x sc y =
        Except.error "Unknown kernel." ∧
      bufferAfter y
        (PADiffusionApply MAX_D1D MAX_Q1D sqrt true 3 D1D Q1D NE B G Bt Gt op x sc y) = y := by
  have hc : bp3Case D1D Q1D = none := by
    cases hc : bp3Case D1D Q1D with
    | none => rfl
    | some p =>
      obtain ⟨h1, h2⟩ := (bp3Case_eq_some_iff D1D Q1D (by omega) (by omega) p).mp hc
      exact absurd (h1 ▸ h2) hpair
  obtain ⟨coG, hco⟩ := CeedBasisGetCollocatedGrad_isSome sqrt D1D Q1D B G sc.qr sc.coG hDQ
  have h : PADiffusionApply MAX_D1D MAX_Q1D sqrt true 3 D1D Q1D NE B G Bt Gt op x sc y =
      Except.error "Unknown kernel." := by
    rw [PADiffusionApply_on, hco]
    simp only [if_true, hc]
  rw [h]
  exact ⟨rfl, rfl⟩

/-- Witness for C19: the pair `(3,5)`. -/
theorem PADiffusionApply_collocated_unsupported_witness :
    ((3 : Nat) ≤ 5 ∧ (5 : Nat) ≤ 15 ∧ ((3 : Nat), (5 : Nat)) ∉
      [(2, 3), (3, 4), (4, 5), (5, 6), (6, 7), (7, 8), (8, 9), (14, 15)]) ∧
    PADiffusionApply 14 14 (fun t : ℚ => t) true 3 3 5 1 (fun i => (i : ℚ) + 1)
        (fun i => 2 * (i : ℚ)) (fun i => (i : ℚ)) (fun i => (i : ℚ)) (fun i => (i : ℚ))
        (fun i => (i : ℚ)) zeroApplyScratch (fun _ => 5) = Except.error "Unknown kernel." :=
  ⟨⟨by decide, by decide, by decide⟩,
    (PADiffusionApply_collocated_unsupported 14 14 (fun t : ℚ => t) 3 5 1
      (fun i => (i : ℚ) + 1) (fun i => 2 * (i : ℚ)) (fun i => (i : ℚ)) (fun i => (i : ℚ))
      (fun i => (i : ℚ)) (fun i => (i : ℚ)) zeroApplyScratch (fun _ => 5)
      (by decide) (by decide) (by decide)).1⟩

/-- Counterexample to C19 as stated: with the toggle set and `dim = 3`, the
pair `(3,20)` satisfies `D1D <= Q1D` and is none of the eight pairs, yet its
packed key is `0x34` and the dispatcher completes, returning the buffer
written by `BP3Global_v0<3,4>`. -/
theorem PADiffusionApply_collocated_collision :
    ((3 : Nat) ≤ 20 ∧ ((3 : Nat), (20 : Nat)) ∉
      [(2, 3), (3, 4), (4, 5), (5, 6), (6, 7), (7, 8), (8, 9), (14, 15)]) ∧
    ∃ coG y, PADiffusionApply 14 14 (fun t : ℚ => t) true 3 3 20 1 (fun i => (i : ℚ) + 1)
        (fun i => 2 * (i : ℚ)) (fun i => (i : ℚ)) (fun i => (i : ℚ)) (fun i => (i : ℚ))
        (fun i => (i : ℚ)) zeroApplyScratch (fun _ => 5) = Except.ok y ∧
      BP3Global_v0 3 4 1 (fun i => (i : ℚ) + 1) coG (fun i => (i : ℚ)) (fun i => (i : ℚ))
        (zeroApplyScratch : ApplyScratch ℚ).bp3 (fun _ => 5) = some y := by
  refine ⟨⟨by decide, by decide⟩, ?_⟩
  obtain ⟨coG, hco⟩ := CeedBasisGetCollocatedGrad_isSome (fun t : ℚ => t) 3 20
    (fun i => (i : ℚ) + 1) (fun i => 2 * (i : ℚ)) (zeroApplyScratch : ApplyScratch ℚ).qr
    (zeroApplyScratch : ApplyScratch ℚ).coG (by decide)
  have hk := BP3Global_v0_eq_some 3 4 1 (fun i => (i : ℚ) + 1) coG (fun i => (i : ℚ))
    (fun i => (i : ℚ)) (zeroApplyScratch : ApplyScratch ℚ).bp3 (fun _ => 5)
    (by decide) (by decide)
  refine ⟨coG, _, ?_, hk⟩
  rw [PADiffusionApply_on, hco]
  have hc : bp3Case 3 20 = some (3, 4) := by decide
  simp only [if_true, hc, hk, kernelResult]

end DispatchCaseProofs

section BackSweepProofs

variable {K : Type*} [CommRing K]

/-- After the metric phase of the 2D kernel the local `grad` holds the flux. -/
theorem apply2D_metric_flux (D1D Q1D : Nat) (B G op x : Nat → K)
    (grad0 : Nat → Nat → Nat → K) (gradXq0 : Nat → Nat → K)
    (e qy qx : Nat) (hqy : qy < Q1D) (hqx : qx < Q1D) :
    apply2D_metric Q1D op e
        (apply2D_forward D1D Q1D B G x gradXq0 e (apply2D_clear Q1D grad0)) qy qx 0 =
      sumfact2D_flux D1D Q1D B G op x e qy qx 0 ∧
    apply2D_metric Q1D op e
        (apply2D_forward D1D Q1D B G x gradXq0 e (apply2D_clear Q1D grad0)) qy qx 1 =
      sumfact2D_flux D1D Q1D B G op x e qy qx 1 := by
  have hm := apply2D_metric_spec Q1D op e
    (apply2D_forward D1D Q1D B G x gradXq0 e (apply2D_clear Q1D grad0)) qy qx hqy hqx
  have hf := apply2D_forward_spec D1D Q1D B G x gradXq0 e (apply2D_clear Q1D grad0)
    qy qx hqy hqx
  rw [apply2D_clear_spec Q1D grad0 qy qx 0 hqy hqx (by decide), zero_add] at hf
  rw [apply2D_clear_spec Q1D grad0 qy qx 1 hqy hqx (by decide), zero_add] at hf
  rw [hm.1, hm.2, hf.1, hf.2]
  exact ⟨rfl, rfl⟩

/-- The element body of the generic 2D kernel adds to the cell `(dx,dy,e)` the
flux of `x` swept back with `Bt`, `Gt`; no relation between the tables is
needed. -/
theorem PADiffusionApply2D_body_back (D1D Q1D : Nat) (B G Bt Gt op x : Nat → K)
    (grad0 : Nat → Nat → Nat → K) (gradXq0 gradXd0 : Nat → Nat → K)
    (e : Nat) (y : Nat → K) (dx dy : Nat) (hdx : dx < D1D) (hdy : dy < D1D) :
    PADiffusionApply2D_body D1D Q1D B G Bt Gt op x grad0 gradXq0 gradXd0 e y
      (idx3 D1D D1D dx dy e) =
    y (idx3 D1D D1D dx dy e) +
      sumfact2D_back D1D Q1D Bt Gt (sumfact2D_flux D1D Q1D B G op x e) dx dy := by
  unfold PADiffusionApply2D_body
  rw [apply2D_backward_spec _ _ _ _ _ _ _ _ _ _ hdx hdy, sumfact2D_back]
  congr 1
  refine Finset.sum_congr rfl (fun qy hqy => ?_)
  have hqy' := Finset.mem_range.mp hqy
  congr 1
  · congr 1
    refine Finset.sum_congr rfl (fun qx hqx => ?_)
    rw [(apply2D_metric_flux D1D Q1D B G op x grad0 gradXq0 e qy qx hqy'
      (Finset.mem_range.mp hqx)).1]
  · congr 1
    refine Finset.sum_congr rfl (fun qx hqx => ?_)
    rw [(apply2D_metric_flux D1D Q1D B G op x grad0 gradXq0 e qy qx hqy'
      (Finset.mem_range.mp hqx)).2]

/-- The element loop of the generic 2D kernel, for arbitrary tables. -/
theorem PADiffusionApply2D_loop_back (D1D Q1D NE : Nat) (b g bt gt op x : Nat → K)
    (grad0 : Nat → Nat → Nat → K) (gradXq0 gradXd0 : Nat → Nat → K) (y0 : Nat → K)
    (e dx dy : Nat) (he : e < NE) (hdx : dx < D1D) (hdy : dy < D1D) :
    forLoop NE (fun e y =>
        PADiffusionApply2D_body D1D Q1D b g bt gt op x grad0 gradXq0 gradXd0 e y) y0
      (idx3 D1D D1D dx dy e) =
    y0 (idx3 D1D D1D dx dy e) +
      sumfact2D_back D1D Q1D bt gt (sumfact2D_flux D1D Q1D b g op x e) dx dy := by
  refine forLoop_elements NE _ (fun e (i : Nat × Nat) => idx3 D1D D1D i.1 i.2 e)
    (fun i => i.1 < D1D ∧ i.2 < D1D)
    (fun e i => sumfact2D_back D1D Q1D bt gt (sumfact2D_flux D1D Q1D b g op x e) i.1 i.2)
    y0 ?_ ?_ ?_ e (dx, dy) he ⟨hdx, hdy⟩
  · intro e e' i i' hi hi' h
    exact (idx3_inj hi.1 hi'.1 hi.2 hi'.2 h).2.2
  · intro e y a ha
    exact PADiffusionApply2D_body_frame _ _ _ _ _ _ _ _ _ _ _ _ _ _
      (fun dx dy hdx hdy => ha (dx, dy) ⟨hdx, hdy⟩)
  · intro e y i hi
    exact PADiffusionApply2D_body_back _ _ _ _ _ _ _ _ _ _ _ _ _ _ _ hi.1 hi.2

/-- Cells outside every element slot keep their content in the 2D loop. -/
theorem PADiffusionApply2D_loop_frame (D1D Q1D NE : Nat) (b g bt gt op x : Nat → K)
    (grad0 : Nat → Nat → Nat → K) (gradXq0 gradXd0 : Nat → Nat → K) (y0 : Nat → K) (a : Nat)
    (ha : ∀ e dx dy, e < NE → dx < D1D → dy < D1D → a ≠ idx3 D1D D1D dx dy e) :
    forLoop NE (fun e y =>
        PADiffusionApply2D_body D1D Q1D b g bt gt op x grad0 gradXq0 gradXd0 e y) y0 a =
      y0 a := by
  refine forLoop_elements_frame NE _ (fun e (i : Nat × Nat) => idx3 D1D D1D i.1 i.2 e)
    (fun i => i.1 < D1D ∧ i.2 < D1D) y0 ?_ a
    (fun e he i hi => ha e i.1 i.2 he hi.1 hi.2)
  intro e y a ha
  exact PADiffusionApply2D_body_frame _ _ _ _ _ _ _ _ _ _ _ _ _ _
    (fun dx dy hdx hdy => ha (dx, dy) ⟨hdx, hdy⟩)

/-- The element body of the generic 3D kernel adds to the cell `(dx,dy,dz,e)`
the flux of `x` swept back with `Bt`, `Gt`; no relation between the tables is
needed. -/
theorem PADiffusionApply3D_body_back (D1D Q1D : Nat) (B G Bt Gt op x : Nat → K)
    (s0 : Scratch3D K) (e : Nat) (y : Nat → K) (dx dy dz : Nat)
    (hdx : dx < D1D) (hdy : dy < D1D) (hdz : dz < D1D) :
    PADiffusionApply3D_body D1D Q1D B G Bt Gt op x s0 e y (idx4 D1D D1D D1D dx dy dz e) =
      y (idx4 D1D D1D D1D dx dy dz e) +
        sumfact3D_back D1D Q1D Bt Gt (sumfact3D_flux D1D Q1D B G op x e) dx dy dz := by
  unfold PADiffusionApply3D_body
  rw [apply3D_backward_spec _ _ _ _ _ _ _ _ _ _ _ _ hdx hdy hdz, sumfact3D_back]
  congr 1
  refine Finset.sum_congr rfl (fun qz hqz => ?_)
  have hqz' := Finset.mem_range.mp hqz
  have hXYd := apply3D_gradXYd_spec D1D Q1D Bt Gt s0.gradXYd s0.gradXd
    (apply3D_metric Q1D op e
      (apply3D_forward D1D Q1D B G x s0.gradXYq s0.gradXq e (apply3D_clear Q1D s0.grad)))
    qz dy dx hdy hdx
  have hXd := fun qy => apply3D_gradXd_spec D1D Q1D Bt Gt s0.gradXd
    (apply3D_metric Q1D op e
      (apply3D_forward D1D Q1D B G x s0.gradXYq s0.gradXq e (apply3D_clear Q1D s0.grad)))
    qz qy dx hdx
  rw [hXYd.1, hXYd.2.1, hXYd.2.2]
  simp only [fun qy => (hXd qy).1, fun qy => (hXd qy).2.1, fun qy => (hXd qy).2.2]
  have hflux : ∀ qy ∈ Finset.range Q1D, ∀ qx ∈ Finset.range Q1D, ∀ c : Fin 3,
      apply3D_metric Q1D op e
        (apply3D_forward D1D Q1D B G x s0.gradXYq s0.gradXq e (apply3D_clear Q1D s0.grad))
        qz qy qx c.val = sumfact3D_flux D1D Q1D B G op x e qz qy qx c :=
    fun qy hqy qx hqx c => apply3D_metric_flux D1D Q1D B G op x s0 e qz qy qx hqz'
      (Finset.mem_range.mp hqy) (Finset.mem_range.mp hqx) c
  have hsum : ∀ (c : Fin 3) (T1 T2 : Nat → K),
      ∑ qy in Finset.range Q1D, (∑ qx in Finset.range Q1D,
        apply3D_metric Q1D op e
          (apply3D_forward D1D Q1D B G x s0.gradXYq s0.gradXq e (apply3D_clear Q1D s0.grad))
          qz qy qx c.val * T1 qx) * T2 qy =
      ∑ qy in Finset.range Q1D, (∑ qx in Finset.range Q1D,
        sumfact3D_flux D1D Q1D B G op x e qz qy qx c * T1 qx) * T2 qy := by
    intro c T1 T2
    refine Finset.sum_congr rfl (fun qy hqy => ?_)
    congr 1
    refine Finset.sum_congr rfl (fun qx hqx => ?_)
    rw [hflux qy hqy qx hqx c]
  have h0 := hsum 0 (fun qx => Gt (idx2 D1D dx qx)) (fun qy => Bt (idx2 D1D dy qy))
  have h1 := hsum 1 (fun qx => Bt (idx2 D1D dx qx)) (fun qy => Gt (idx2 D1D dy qy))
  have h2 := hsum 2 (fun qx => Bt (idx2 D1D dx qx)) (fun qy => Bt (idx2 D1D dy qy))
  simp only [Fin.val_zero, Fin.val_one, Fin.val_two] at h0 h1 h2
  rw [h0, h1, h2]

/-- The element loop of the generic 3D kernel, for arbitrary tables. -/
theorem PADiffusionApply3D_loop_back (D1D Q1D NE : Nat) (b g bt gt op x : Nat → K)
    (s0 : Scratch3D K) (y0 : Nat → K)
    (e dx dy dz : Nat) (he : e < NE) (hdx : dx < D1D) (hdy : dy < D1D) (hdz : dz < D1D) :
    forLoop NE (fun e y => PADiffusionApply3D_body D1D Q1D b g bt gt op x s0 e y) y0
      (idx4 D1D D1D D1D dx dy dz e) =
    y0 (idx4 D1D D1D D1D dx dy dz e) +
      sumfact3D_back D1D Q1D bt gt (sumfact3D_flux D1D Q1D b g op x e) dx dy dz := by
  refine forLoop_elements NE _ (fun e (i : Nat × Nat × Nat) => idx4 D1D D1D D1D i.1 i.2.1 i.2.2 e)
    (fun i => i.1 < D1D ∧ i.2.1 < D1D ∧ i.2.2 < D1D)
    (fun e i => sumfact3D_back D1D Q1D bt gt (sumfact3D_flux D1D Q1D b g op x e)
      i.1 i.2.1 i.2.2) y0 ?_ ?_ ?_ e (dx, dy, dz) he ⟨hdx, hdy, hdz⟩
  · intro e e' i i' hi hi' h
    exact (idx4_inj hi.1 hi'.1 hi.2.1 hi'.2.1 hi.2.2 hi'.2.2 h).2.2.2
  · intro e y a ha
    exact PADiffusionApply3D_body_frame _ _ _ _ _ _ _ _ _ _ _ _
      (fun dx dy dz hdx hdy hdz => ha (dx, dy, dz) ⟨hdx, hdy, hdz⟩)
  · intro e y i hi
    exact PADiffusionApply3D_body_back _ _ _ _ _ _ _ _ _ _ _ _ _ _ hi.1 hi.2.1 hi.2.2

end BackSweepProofs

section SumFact2DProofs

variable {K : Type*} [CommRing K]

/-- Within the limits the 2D kernel runs the element loop. -/
theorem PADiffusionApply2D_eq_some (MAX_D1D MAX_Q1D T_D1D T_Q1D NE : Nat)
    (b g bt gt op x : Nat → K) (grad0 : Nat → Nat → Nat → K)
    (gradXq0 gradXd0 : Nat → Nat → K) (y0 : Nat → K) (d1d q1d D1D Q1D : Nat)
    (hD1D : D1D = if T_D1D ≠ 0 then T_D1D else d1d)
    (hQ1D : Q1D = if T_Q1D ≠ 0 then T_Q1D else q1d)
    (hD : D1D ≤ MAX_D1D) (hQ : Q1D ≤ MAX_Q1D) :
    PADiffusionApply2D MAX_D1D MAX_Q1D T_D1D T_Q1D NE b g bt gt op x grad0 gradXq0 gradXd0
        y0 d1d q1d =
      some (forLoop NE (fun e y =>
        PADiffusionApply2D_body D1D Q1D b g bt gt op x grad0 gradXq0 gradXd0 e y) y0) := by
  simp only [PADiffusionApply2D]
  rw [← hD1D, ← hQ1D, if_neg (not_not.mpr hD), if_neg (not_not.mpr hQ)]

/-- The 2D reference gradient is linear in the field. -/
theorem sumfact2D_grad_linear (D1D Q1D : Nat) (B G : Nat → K) (a b : K) (x1 x2 : Nat → K)
    (e qy qx : Nat) (c : Fin 2) :
    sumfact2D_grad D1D Q1D B G (fun i => a * x1 i + b * x2 i) e qy qx c =
      a * sumfact2D_grad D1D Q1D B G x1 e qy qx c +
        b * sumfact2D_grad D1D Q1D B G x2 e qy qx c := by
  fin_cases c <;>
  · simp only [sumfact2D_grad, Fin.zero_eta, Fin.mk_one, Matrix.cons_val_zero,
      Matrix.cons_val_one, Matrix.head_cons, Finset.mul_sum, Finset.sum_mul,
      ← Finset.sum_add_distrib]
    refine Finset.sum_congr rfl (fun dy _ => Finset.sum_congr rfl (fun dx _ => ?_))
    ring

/-- The 2D flux is linear in the field. -/
theorem sumfact2D_flux_linear (D1D Q1D : Nat) (B G op : Nat → K) (a b : K) (x1 x2 : Nat → K)
    (e qy qx : Nat) (c : Fin 2) :
    sumfact2D_flux D1D Q1D B G op (fun i => a * x1 i + b * x2 i) e qy qx c =
      a * sumfact2D_flux D1D Q1D B G op x1 e qy qx c +
        b * sumfact2D_flux D1D Q1D B G op x2 e qy qx c := by
  fin_cases c <;>
  · simp only [sumfact2D_flux, Fin.zero_eta, Fin.mk_one, Matrix.cons_val_zero,
      Matrix.cons_val_one, Matrix.head_cons, sumfact2D_grad_linear]
    ring

/-- The 2D backward sweep is linear in the values at the quadrature points. -/
theorem sumfact2D_back_linear (D1D Q1D : Nat) (Bt Gt : Nat → K) (a b : K)
    (F F1 F2 : Nat → Nat → Fin 2 → K)
    (hF : ∀ qy qx c, F qy qx c = a * F1 qy qx c + b * F2 qy qx c) (dx dy : Nat) :
    sumfact2D_back D1D Q1D Bt Gt F dx dy =
      a * sumfact2D_back D1D Q1D Bt Gt F1 dx dy + b * sumfact2D_back D1D Q1D Bt Gt F2 dx dy := by
  simp only [sumfact2D_back, hF, Finset.mul_sum, Finset.sum_mul, ← Finset.sum_add_distrib]
  refine Finset.sum_congr rfl (fun qy _ => Finset.sum_congr rfl (fun qx _ => ?_))
  ring

/-- The 2D backward sweep of values that vanish at every quadrature point is
zero. -/
theorem sumfact2D_back_zero (D1D Q1D : Nat) (Bt Gt : Nat → K) (F : Nat → Nat → Fin 2 → K)
    (hF : ∀ qy qx, qy < Q1D → qx < Q1D → ∀ c, F qy qx c = 0) (dx dy : Nat) :
    sumfact2D_back D1D Q1D Bt Gt F dx dy = 0 := by
  unfold sumfact2D_back
  refine Finset.sum_eq_zero (fun qy hqy => ?_)
  have h : ∀ (c : Fin 2) (T : Nat → K), ∑ qx in Finset.range Q1D, F qy qx c * T qx = 0 :=
    fun c T => Finset.sum_eq_zero (fun qx hqx => by
      rw [hF qy qx (Finset.mem_range.mp hqy) (Finset.mem_range.mp hqx) c, zero_mul])
  rw [h 0 (fun qx => Gt (idx2 D1D dx qx)), h 1 (fun qx => Bt (idx2 D1D dx qx))]
  ring

/-- The 2D reference gradient of a field that is constant on the element
vanishes when every row of `G` sums to zero. -/
theorem sumfact2D_grad_const (D1D Q1D : Nat) (B G x : Nat → K) (e : Nat) (v : K)
    (hx : ∀ dx dy, dx < D1D → dy < D1D → x (idx3 D1D D1D dx dy e) = v)
    (hG : ∀ q, q < Q1D → ∑ d in Finset.range D1D, G (idx2 Q1D q d) = 0)
    (qy qx : Nat) (hqy : qy < Q1D) (hqx : qx < Q1D) (c : Fin 2) :
    sumfact2D_grad D1D Q1D B G x e qy qx c = 0 := by
  have hin : ∀ (T : Nat → K) (dy : Nat), dy ∈ Finset.range D1D →
      ∑ dx in Finset.range D1D, x (idx3 D1D D1D dx dy e) * T dx =
        v * ∑ dx in Finset.range D1D, T dx := by
    intro T dy hdy
    rw [Finset.mul_sum]
    refine Finset.sum_congr rfl (fun dx hdx => ?_)
    rw [hx dx dy (Finset.mem_range.mp hdx) (Finset.mem_range.mp hdy)]
  fin_cases c
  · show (∑ dy in Finset.range D1D,
      (∑ dx in Finset.range D1D, x (idx3 D1D D1D dx dy e) * G (idx2 Q1D qx dx)) *
        B (idx2 Q1D qy dy)) = 0
    refine Finset.sum_eq_zero (fun dy hdy => ?_)
    rw [hin (fun dx => G (idx2 Q1D qx dx)) dy hdy, hG qx hqx, mul_zero, zero_mul]
  · show (∑ dy in Finset.range D1D,
      (∑ dx in Finset.range D1D, x (idx3 D1D D1D dx dy e) * B (idx2 Q1D qx dx)) *
        G (idx2 Q1D qy dy)) = 0
    rw [Finset.sum_congr rfl (fun dy hdy => by
      rw [hin (fun dx => B (idx2 Q1D qx dx)) dy hdy]), ← Finset.mul_sum, hG qy hqy, mul_zero]

/-- The 2D flux of a field that is constant on the element vanishes when every
row of `G` sums to zero. -/
theorem sumfact2D_flux_const (D1D Q1D : Nat) (B G op x : Nat → K) (e : Nat) (v : K)
    (hx : ∀ dx dy, dx < D1D → dy < D1D → x (idx3 D1D D1D dx dy e) = v)
    (hG : ∀ q, q < Q1D → ∑ d in Finset.range D1D, G (idx2 Q1D q d) = 0)
    (qy qx : Nat) (hqy : qy < Q1D) (hqx : qx < Q1D) (c : Fin 2) :
    sumfact2D_flux D1D Q1D B G op x e qy qx c = 0 := by
  have h := sumfact2D_grad_const D1D Q1D B G x e v hx hG qy qx hqy hqx
  fin_cases c <;>
  · simp only [sumfact2D_flux, Fin.zero_eta, Fin.mk_one, Matrix.cons_val_zero,
      Matrix.cons_val_one, Matrix.head_cons, h, mul_zero, add_zero]

end SumFact2DProofs

section SumFact3DProofs

variable {K : Type*} [CommRing K]

/-- The 3D reference gradient is linear in the field. -/
theorem sumfact3D_grad_linear (D1D Q1D : Nat) (B G : Nat → K) (a b : K) (x1 x2 : Nat → K)
    (e qz qy qx : Nat) (c : Fin 3) :
    sumfact3D_grad D1D Q1D B G (fun i => a * x1 i + b * x2 i) e qz qy qx c =
      a * sumfact3D_grad D1D Q1D B G x1 e qz qy qx c +
        b * sumfact3D_grad D1D Q1D B G x2 e qz qy qx c := by
  fin_cases c <;>
  · simp only [sumfact3D_grad, Fin.zero_eta, Fin.mk_one, Fin.reduceFinMk, Matrix.cons_val_zero,
      Matrix.cons_val_one, Matrix.cons_val_two, Matrix.head_cons, Matrix.tail_cons,
      Finset.mul_sum, Finset.sum_mul, ← Finset.sum_add_distrib]
    refine Finset.sum_congr rfl (fun dz _ => Finset.sum_congr rfl (fun dy _ =>
      Finset.sum_congr rfl (fun dx _ => ?_)))
    ring

/-- The 3D flux is linear in the field. -/
theorem sumfact3D_flux_linear (D1D Q1D : Nat) (B G op : Nat → K) (a b : K) (x1 x2 : Nat → K)
    (e qz qy qx : Nat) (c : Fin 3) :
    sumfact3D_flux D1D Q1D B G op (fun i => a * x1 i + b * x2 i) e qz qy qx c =
      a * sumfact3D_flux D1D Q1D B G op x1 e qz qy qx c +
        b * sumfact3D_flux D1D Q1D B G op x2 e qz qy qx c := by
  simp only [sumfact3D_flux, Matrix.mulVec, Matrix.dotProduct, Fin.sum_univ_three,
    sumfact3D_grad_linear]
  ring

/-- The 3D backward sweep is linear in the values at the quadrature points. -/
theorem sumfact3D_back_linear (D1D Q1D : Nat) (Bt Gt : Nat → K) (a b : K)
    (F F1 F2 : Nat → Nat → Nat → Fin 3 → K)
    (hF : ∀ qz qy qx c, F qz qy qx c = a * F1 qz qy qx c + b * F2 qz qy qx c)
    (dx dy dz : Nat) :
    sumfact3D_back D1D Q1D Bt Gt F dx dy dz =
      a * sumfact3D_back D1D Q1D Bt Gt F1 dx dy dz +
        b * sumfact3D_back D1D Q1D Bt Gt F2 dx dy dz := by
  simp only [sumfact3D_back, hF, Finset.mul_sum, Finset.sum_mul, ← Finset.sum_add_distrib]
  refine Finset.sum_congr rfl (fun qz _ => Finset.sum_congr rfl (fun qy _ =>
    Finset.sum_congr rfl (fun qx _ => ?_)))
  ring

/-- The 3D backward sweep of values that vanish at every quadrature point is
zero. -/
theorem sumfact3D_back_zero (D1D Q1D : Nat) (Bt Gt : Nat → K)
    (F : Nat → Nat → Nat → Fin 3 → K)
    (hF : ∀ qz qy qx, qz < Q1D → qy < Q1D → qx < Q1D → ∀ c, F qz qy qx c = 0)
    (dx dy dz : Nat) :
    sumfact3D_back D1D Q1D Bt Gt F dx dy dz = 0 := by
  unfold sumfact3D_back
  refine Finset.sum_eq_zero (fun qz hqz => ?_)
  have h : ∀ (c : Fin 3) (T1 T2 : Nat → K),
      ∑ qy in Finset.range Q1D, (∑ qx in Finset.range Q1D, F qz qy qx c * T1 qx) * T2 qy = 0 :=
    fun c T1 T2 => Finset.sum_eq_zero (fun qy hqy => by
      rw [Finset.sum_eq_zero (fun qx hqx => by
        rw [hF qz qy qx (Finset.mem_range.mp hqz) (Finset.mem_range.mp hqy)
          (Finset.mem_range.mp hqx) c, zero_mul]), zero_mul])
  rw [h 0 (fun qx => Gt (idx2 D1D dx qx)) (fun qy => Bt (idx2 D1D dy qy)),
    h 1 (fun qx => Bt (idx2 D1D dx qx)) (fun qy => Gt (idx2 D1D dy qy)),
    h 2 (fun qx => Bt (idx2 D1D dx qx)) (fun qy => Bt (idx2 D1D dy qy))]
  ring

/-- The 3D reference gradient of a field that is constant on the element
vanishes when every row of `G` sums to zero. -/
theorem sumfact3D_grad_const (D1D Q1D : Nat) (B G x : Nat → K) (e : Nat) (v : K)
    (hx : ∀ dx dy dz, dx < D1D → dy < D1D → dz < D1D → x (idx4 D1D D1D D1D dx dy dz e) = v)
    (hG : ∀ q, q < Q1D → ∑ d in Finset.range D1D, G (idx2 Q1D q d) = 0)
    (qz qy qx : Nat) (hqz : qz < Q1D) (hqy : qy < Q1D) (hqx : qx < Q1D) (c : Fin 3) :
    sumfact3D_grad D1D Q1D B G x e qz qy qx c = 0 := by
  have hin : ∀ (T : Nat → K) (dz dy : Nat), dz ∈ Finset.range D1D → dy ∈ Finset.range D1D →
      ∑ dx in Finset.range D1D, x (idx4 D1D D1D D1D dx dy dz e) * T dx =
        v * ∑ dx in Finset.range D1D, T dx := by
    intro T dz dy hdz hdy
    rw [Finset.mul_sum]
    refine Finset.sum_congr rfl (fun dx hdx => ?_)
    rw [hx dx dy dz (Finset.mem_range.mp hdx) (Finset.mem_range.mp hdy)
      (Finset.mem_range.mp hdz)]
  have hmid : ∀ (T1 T2 : Nat → K) (dz : Nat), dz ∈ Finset.range D1D →
      ∑ dy in Finset.range D1D,
        (∑ dx in Finset.range D1D, x (idx4 D1D D1D D1D dx dy dz e) * T1 dx) * T2 dy =
      (v * ∑ dx in Finset.range D1D, T1 dx) * ∑ dy in Finset.range D1D, T2 dy := by
    intro T1 T2 dz hdz
    rw [Finset.mul_sum]
    refine Finset.sum_congr rfl (fun dy hdy => ?_)
    rw [hin T1 dz dy hdz hdy]
  have hout : ∀ (T1 T2 T3 : Nat → K),
      ∑ dz in Finset.range D1D, (∑ dy in Finset.range D1D,
        (∑ dx in Finset.range D1D, x (idx4 D1D D1D D1D dx dy dz e) * T1 dx) * T2 dy) * T3 dz =
      ((v * ∑ dx in Finset.range D1D, T1 dx) * ∑ dy in Finset.range D1D, T2 dy) *
        ∑ dz in Finset.range D1D, T3 dz := by
    intro T1 T2 T3
    rw [Finset.mul_sum]
    refine Finset.sum_congr rfl (fun dz hdz => ?_)
    rw [hmid T1 T2 dz hdz]
  fin_cases c
  · show (∑ dz in Finset.range D1D, (∑ dy in Finset.range D1D,
      (∑ dx in Finset.range D1D, x (idx4 D1D D1D D1D dx dy dz e) * G (idx2 Q1D qx dx)) *
        B (idx2 Q1D qy dy)) * B (idx2 Q1D qz dz)) = 0
    rw [hout (fun dx => G (idx2 Q1D qx dx)), hG qx hqx]
    ring
  · show (∑ dz in Finset.range D1D, (∑ dy in Finset.range D1D,
      (∑ dx in Finset.range D1D, x (idx4 D1D D1D D1D dx dy dz e) * B (idx2 Q1D qx dx)) *
        G (idx2 Q1D qy dy)) * B (idx2 Q1D qz dz)) = 0
    rw [hout (fun dx => B (idx2 Q1D qx dx)) (fun dy => G (idx2 Q1D qy dy)), hG qy hqy]
    ring
  · show (∑ dz in Finset.range D1D, (∑ dy in Finset.range D1D,
      (∑ dx in Finset.range D1D, x (idx4 D1D D1D D1D dx dy dz e) * B (idx2 Q1D qx dx)) *
        B (idx2 Q1D qy dy)) * G (idx2 Q1D qz dz)) = 0
    rw [hout (fun dx => B (idx2 Q1D qx dx)) (fun dy => B (idx2 Q1D qy dy))
      (fun dz => G (idx2 Q1D qz dz)), hG qz hqz]
    ring

/-- The 3D flux of a field that is constant on the element vanishes when every
row of `G` sums to zero. -/
theorem sumfact3D_flux_const (D1D Q1D : Nat) (B G op x : Nat → K) (e : Nat) (v : K)
    (hx : ∀ dx dy dz, dx < D1D → dy < D1D → dz < D1D → x (idx4 D1D D1D D1D dx dy dz e) = v)
    (hG : ∀ q, q < Q1D → ∑ d in Finset.range D1D, G (idx2 Q1D q d) = 0)
    (qz qy qx : Nat) (hqz : qz < Q1D) (hqy : qy < Q1D) (hqx : qx < Q1D) (c : Fin 3) :
    sumfact3D_flux D1D Q1D B G op x e qz qy qx c = 0 := by
  have h : sumfact3D_grad D1D Q1D B G x e qz qy qx = 0 :=
    funext (fun c => sumfact3D_grad_const D1D Q1D B G x e v hx hG qz qy qx hqz hqy hqx c)
  rw [sumfact3D_flux, h, Matrix.mulVec_zero]
  rfl

end SumFact3DProofs

section LinearityProofs

variable {K : Type*} [CommRing K]

/-- **C11.** Linearity of Apply: for each of `PADiffusionApply2D` and
`PADiffusionApply3D`, within the limits `D1D <= MAX_D1D`, `Q1D <= MAX_Q1D`,
for every `B`, `G`, `Bt`, `Gt`, `op`, scalars `α`, `β` and fields `x1`, `x2`
(and whatever the scratch arrays hold), the three calls on `α*x1 + β*x2`, `x1`
and `x2` from an all-zero `y` complete, and their outputs satisfy
`A(α*x1 + β*x2) = α*A(x1) + β*A(x2)` at every index of the buffer. -/
theorem PADiffusionApply_linear (MAX_D1D MAX_Q1D T_D1D T_Q1D NE : Nat)
    (b g bt gt op : Nat → K) (α β : K) (x1 x2 : Nat → K)
    (grad0 grad1 grad2 : Nat → Nat → Nat → K)
    (gradXq0 gradXq1 gradXq2 gradXd0 gradXd1 gradXd2 : Nat → Nat → K)
    (s0 s1 s2 : Scratch3D K) (d1d q1d D1D Q1D : Nat)
    (hD1D : D1D = if T_D1D ≠ 0 then T_D1D else d1d)
    (hQ1D : Q1D = if T_Q1D ≠ 0 then T_Q1D else q1d)
    (hD : D1D ≤ MAX_D1D) (hQ : Q1D ≤ MAX_Q1D) :
    (∃ A A1 A2 : Nat → K,
      PADiffusionApply2D MAX_D1D MAX_Q1D T_D1D T_Q1D NE b g bt gt op
        (fun i => α * x1 i + β * x2 i) grad0 gradXq0 gradXd0 (fun _ => 0) d1d q1d = some A ∧
      PADiffusionApply2D MAX_D1D MAX_Q1D T_D1D T_Q1D NE b g bt gt op x1
        grad1 gradXq1 gradXd1 (fun _ => 0) d1d q1d = some A1 ∧
      PADiffusionApply2D MAX_D1D MAX_Q1D T_D1D T_Q1D NE b g bt gt op x2
        grad2 gradXq2 gradXd2 (fun _ => 0) d1d q1d = some A2 ∧
      ∀ i, A i = α * A1 i + β * A2 i) ∧
    (∃ A A1 A2 : Nat → K,
      PADiffusionApply3D MAX_D1D MAX_Q1D T_D1D T_Q1D NE b g bt gt op
        (fun i => α * x1 i + β * x2 i) s0 (fun _ => 0) d1d q1d = some A ∧
      PADiffusionApply3D MAX_D1D MAX_Q1D T_D1D T_Q1D NE b g bt gt op x1 s1
        (fun _ => 0) d1d q1d = some A1 ∧
      PADiffusionApply3D MAX_D1D MAX_Q1D T_D1D T_Q1D NE b g bt gt op x2 s2
        (fun _ => 0) d1d q1d = some A2 ∧
      ∀ i, A i = α * A1 i + β * A2 i) := by
  constructor
  · refine ⟨_, _, _,
      PADiffusionApply2D_eq_some MAX_D1D MAX_Q1D T_D1D T_Q1D NE b g bt gt op _ grad0 gradXq0
        gradXd0 _ d1d q1d D1D Q1D hD1D hQ1D hD hQ,
      PADiffusionApply2D_eq_some MAX_D1D MAX_Q1D T_D1D T_Q1D NE b g bt gt op _ grad1 gradXq1
        gradXd1 _ d1d q1d D1D Q1D hD1D hQ1D hD hQ,
      PADiffusionApply2D_eq_some MAX_D1D MAX_Q1D T_D1D T_Q1D NE b g bt gt op _ grad2 gradXq2
        gradXd2 _ d1d q1d D1D Q1D hD1D hQ1D hD hQ, ?_⟩
    intro i
    by_cases hi : ∃ e dx dy, e < NE ∧ dx < D1D ∧ dy < D1D ∧ i = idx3 D1D D1D dx dy e
    · obtain ⟨e, dx, dy, he, hdx, hdy, rfl⟩ := hi
      rw [PADiffusionApply2D_loop_back _ _ _ _ _ _ _ _ _ _ _ _ _ _ _ _ he hdx hdy,
        PADiffusionApply2D_loop_back _ _ _ _ _ _ _ _ _ _ _ _ _ _ _ _ he hdx hdy,
        PADiffusionApply2D_loop_back _ _ _ _ _ _ _ _ _ _ _ _ _ _ _ _ he hdx hdy,
        sumfact2D_back_linear D1D Q1D bt gt α β _ _ _
          (fun qy qx c => sumfact2D_flux_linear D1D Q1D b g op α β x1 x2 e qy qx c)]
      ring
    · have hne : ∀ e dx dy, e < NE → dx < D1D → dy < D1D → i ≠ idx3 D1D D1D dx dy e :=
        fun e dx dy he hdx hdy h => hi ⟨e, dx, dy, he, hdx, hdy, h⟩
      rw [PADiffusionApply2D_loop_frame _ _ _ _ _ _ _ _ _ _ _ _ _ _ hne,
        PADiffusionApply2D_loop_frame _ _ _ _ _ _ _ _ _ _ _ _ _ _ hne,
        PADiffusionApply2D_loop_frame _ _ _ _ _ _ _ _ _ _ _ _ _ _ hne]
      ring
  · refine ⟨_, _, _,
      PADiffusionApply3D_eq_some MAX_D1D MAX_Q1D T_D1D T_Q1D NE b g bt gt op _ s0 _ d1d q1d
        D1D Q1D hD1D hQ1D hD hQ,
      PADiffusionApply3D_eq_some MAX_D1D MAX_Q1D T_D1D T_Q1D NE b g bt gt op _ s1 _ d1d q1d
        D1D Q1D hD1D hQ1D hD hQ,
      PADiffusionApply3D_eq_some MAX_D1D MAX_Q1D T_D1D T_Q1D NE b g bt gt op _ s2 _ d1d q1d
        D1D Q1D hD1D hQ1D hD hQ, ?_⟩
    intro i
    by_cases hi : ∃ e dx dy dz, e < NE ∧ dx < D1D ∧ dy < D1D ∧ dz < D1D ∧
        i = idx4 D1D D1D D1D dx dy dz e
    · obtain ⟨e, dx, dy, dz, he, hdx, hdy, hdz, rfl⟩ := hi
      rw [PADiffusionApply3D_loop_back _ _ _ _ _ _ _ _ _ _ _ _ _ _ _ he hdx hdy hdz,
        PADiffusionApply3D_loop_back _ _ _ _ _ _ _ _ _ _ _ _ _ _ _ he hdx hdy hdz,
        PADiffusionApply3D_loop_back _ _ _ _ _ _ _ _ _ _ _ _ _ _ _ he hdx hdy hdz,
        sumfact3D_back_linear D1D Q1D bt gt α β _ _ _
          (fun qz qy qx c => sumfact3D_flux_linear D1D Q1D b g op α β x1 x2 e qz qy qx c)]
      ring
    · have hne : ∀ e dx dy dz, e < NE → dx < D1D → dy < D1D → dz < D1D →
          i ≠ idx4 D1D D1D D1D dx dy dz e :=
        fun e dx dy dz he hdx hdy hdz h => hi ⟨e, dx, dy, dz, he, hdx, hdy, hdz, h⟩
      rw [PADiffusionApply3D_loop_frame _ _ _ _ _ _ _ _ _ _ _ _ hne,
        PADiffusionApply3D_loop_frame _ _ _ _ _ _ _ _ _ _ _ _ hne,
        PADiffusionApply3D_loop_frame _ _ _ _ _ _ _ _ _ _ _ _ hne]
      ring

/-- Witness for C11: `D1D = 2`, `Q1D = 3`, one element, `α = 2`, `β = -3`. -/
theorem PADiffusionApply_linear_witness :
    ((2 : Nat) ≤ 14 ∧ (3 : Nat) ≤ 14) ∧
    ∃ A A1 A2 : Nat → ℚ,
      PADiffusionApply3D 14 14 0 0 1 (fun i => (i : ℚ) + 1) (fun i => 2 * (i : ℚ))
        (fun i => (i : ℚ) * (i : ℚ)) (fun i => 3 - (i : ℚ)) (fun i => (i : ℚ))
        (fun i => 2 * (fun i : Nat => (i : ℚ)) i + (-3) * (fun i : Nat => 1 + (i : ℚ)) i)
        ⟨fun _ _ _ _ => 7, fun _ _ _ => 7, fun _ _ => 7, fun _ _ _ => 7, fun _ _ => 7⟩
        (fun _ => 0) 2 3 = some A ∧
      PADiffusionApply3D 14 14 0 0 1 (fun i => (i : ℚ) + 1) (fun i => 2 * (i : ℚ))
        (fun i => (i : ℚ) * (i : ℚ)) (fun i => 3 - (i : ℚ)) (fun i => (i : ℚ))
        (fun i : Nat => (i : ℚ))
        ⟨fun _ _ _ _ => 1, fun _ _ _ => 1, fun _ _ => 1, fun _ _ _ => 1, fun _ _ => 1⟩
        (fun _ => 0) 2 3 = some A1 ∧
      PADiffusionApply3D 14 14 0 0 1 (fun i => (i : ℚ) + 1) (fun i => 2 * (i : ℚ))
        (fun i => (i : ℚ) * (i : ℚ)) (fun i => 3 - (i : ℚ)) (fun i => (i : ℚ))
        (fun i : Nat => 1 + (i : ℚ))
        ⟨fun _ _ _ _ => 0, fun _ _ _ => 0, fun _ _ => 0, fun _ _ _ => 0, fun _ _ => 0⟩
        (fun _ => 0) 2 3 = some A2 ∧
      ∀ i, A i = 2 * A1 i + (-3) * A2 i :=
  ⟨⟨by decide, by decide⟩,
    (PADiffusionApply_linear 14 14 0 0 1 (fun i => (i : ℚ) + 1) (fun i => 2 * (i : ℚ))
      (fun i => (i : ℚ) * (i : ℚ)) (fun i => 3 - (i : ℚ)) (fun i => (i : ℚ)) 2 (-3)
      (fun i : Nat => (i : ℚ)) (fun i : Nat => 1 + (i : ℚ))
      (fun _ _ _ => 0) (fun _ _ _ => 0) (fun _ _ _ => 0)
      (fun _ _ => 0) (fun _ _ => 0) (fun _ _ => 0) (fun _ _ => 0) (fun _ _ => 0) (fun _ _ => 0)
      ⟨fun _ _ _ _ => 7, fun _ _ _ => 7, fun _ _ => 7, fun _ _ _ => 7, fun _ _ => 7⟩
      ⟨fun _ _ _ _ => 1, fun _ _ _ => 1, fun _ _ => 1, fun _ _ _ => 1, fun _ _ => 1⟩
      ⟨fun _ _ _ _ => 0, fun _ _ _ => 0, fun _ _ => 0, fun _ _ _ => 0, fun _ _ => 0⟩
      2 3 2 3 rfl rfl (by decide) (by decide)).2⟩

end LinearityProofs

section NullSpaceProofs

variable {K : Type*} [CommRing K]

/-- **C13.** Null space: for each of `PADiffusionApply2D` and
`PADiffusionApply3D`, within the limits `D1D <= MAX_D1D`, `Q1D <= MAX_Q1D`, if
every row of the derivative table sums to zero (`sum over d of G(q,d) = 0` for
every `q < Q1D`) and `x` is constant on each element, then the call completes
and leaves every entry of `y` equal to its initial value, for every `B`, `Bt`,
`Gt` and `op`. -/
theorem PADiffusionApply_constant (MAX_D1D MAX_Q1D T_D1D T_Q1D NE : Nat)
    (b g bt gt op : Nat → K) (v : Nat → K) (d1d q1d D1D Q1D : Nat)
    (hD1D : D1D = if T_D1D ≠ 0 then T_D1D else d1d)
    (hQ1D : Q1D = if T_Q1D ≠ 0 then T_Q1D else q1d)
    (hD : D1D ≤ MAX_D1D) (hQ : Q1D ≤ MAX_Q1D)
    (hG : ∀ q, q < Q1D → ∑ d in Finset.range D1D, g (idx2 Q1D q d) = 0) :
    (∀ (x : Nat → K) (grad0 : Nat → Nat → Nat → K) (gradXq0 gradXd0 : Nat → Nat → K)
      (y0 : Nat → K),
      (∀ e dx dy, e < NE → dx < D1D → dy < D1D → x (idx3 D1D D1D dx dy e) = v e) →
      PADiffusionApply2D MAX_D1D MAX_Q1D T_D1D T_Q1D NE b g bt gt op x grad0 gradXq0 gradXd0
        y0 d1d q1d = some y0) ∧
    (∀ (x : Nat → K) (s0 : Scratch3D K) (y0 : Nat → K),
      (∀ e dx dy dz, e < NE → dx < D1D → dy < D1D → dz < D1D →
        x (idx4 D1D D1D D1D dx dy dz e) = v e) →
      PADiffusionApply3D MAX_D1D MAX_Q1D T_D1D T_Q1D NE b g bt gt op x s0 y0 d1d q1d =
        some y0) := by
  constructor
  · intro x grad0 gradXq0 gradXd0 y0 hx
    rw [PADiffusionApply2D_eq_some MAX_D1D MAX_Q1D T_D1D T_Q1D NE b g bt gt op x grad0 gradXq0
      gradXd0 y0 d1d q1d D1D Q1D hD1D hQ1D hD hQ]
    congr 1
    funext i
    by_cases hi : ∃ e dx dy, e < NE ∧ dx < D1D ∧ dy < D1D ∧ i = idx3 D1D D1D dx dy e
    · obtain ⟨e, dx, dy, he, hdx, hdy, rfl⟩ := hi
      rw [PADiffusionApply2D_loop_back _ _ _ _ _ _ _ _ _ _ _ _ _ _ _ _ he hdx hdy,
        sumfact2D_back_zero D1D Q1D bt gt _
          (fun qy qx hqy hqx c => sumfact2D_flux_const D1D Q1D b g op x e (v e)
            (fun dx dy hdx hdy => hx e dx dy he hdx hdy) hG qy qx hqy hqx c), add_zero]
    · exact PADiffusionApply2D_loop_frame _ _ _ _ _ _ _ _ _ _ _ _ _ _
        (fun e dx dy he hdx hdy h => hi ⟨e, dx, dy, he, hdx, hdy, h⟩)
  · intro x s0 y0 hx
    rw [PADiffusionApply3D_eq_some MAX_D1D MAX_Q1D T_D1D T_Q1D NE b g bt gt op x s0 y0 d1d q1d
      D1D Q1D hD1D hQ1D hD hQ]
    congr 1
    funext i
    by_cases hi : ∃ e dx dy dz, e < NE ∧ dx < D1D ∧ dy < D1D ∧ dz < D1D ∧
        i = idx4 D1D D1D D1D dx dy dz e
    · obtain ⟨e, dx, dy, dz, he, hdx, hdy, hdz, rfl⟩ := hi
      rw [PADiffusionApply3D_loop_back _ _ _ _ _ _ _ _ _ _ _ _ _ _ _ he hdx hdy hdz,
        sumfact3D_back_zero D1D Q1D bt gt _
          (fun qz qy qx hqz hqy hqx c => sumfact3D_flux_const D1D Q1D b g op x e (v e)
            (fun dx dy dz hdx hdy hdz => hx e dx dy dz he hdx hdy hdz) hG qz qy qx
            hqz hqy hqx c), add_zero]
    · exact PADiffusionApply3D_loop_frame _ _ _ _ _ _ _ _ _ _ _ _
        (fun e dx dy dz he hdx hdy hdz h => hi ⟨e, dx, dy, dz, he, hdx, hdy, hdz, h⟩)

/-- Witness for C13: `D1D = 2`, `Q1D = 3`, the table `G(q,0) = -1`, `G(q,1) = 1`
and the constant field `x = 4` on one 3D element. -/
theorem PADiffusionApply_constant_witness :
    ((2 : Nat) ≤ 14 ∧ (3 : Nat) ≤ 14 ∧
      (∀ q, q < 3 → ∑ d in Finset.range 2,
        (fun i : Nat => if i < 3 then (-1 : ℚ) else 1) (idx2 3 q d) = 0) ∧
      (∀ e dx dy dz, e < 1 → dx < 2 → dy < 2 → dz < 2 →
        (fun _ : Nat => (4 : ℚ)) (idx4 2 2 2 dx dy dz e) = (fun _ : Nat => (4 : ℚ)) e)) ∧
    PADiffusionApply3D 14 14 0 0 1 (fun i => (i : ℚ) + 1)
        (fun i : Nat => if i < 3 then (-1 : ℚ) else 1)
        (fun i => (i : ℚ) * (i : ℚ)) (fun i => 3 - (i : ℚ)) (fun i => (i : ℚ))
        (fun _ : Nat => (4 : ℚ))
        ⟨fun _ _ _ _ => 7, fun _ _ _ => 7, fun _ _ => 7, fun _ _ _ => 7, fun _ _ => 7⟩
        (fun i => (i : ℚ)) 2 3 = some (fun i : Nat => (i : ℚ)) := by
  have hG : ∀ q, q < 3 → ∑ d in Finset.range 2,
      (fun i : Nat => if i < 3 then (-1 : ℚ) else 1) (idx2 3 q d) = 0 := by
    intro q hq
    interval_cases q <;> simp [Finset.sum_range_succ, idx2]
  exact ⟨⟨by decide, by decide, hG, fun _ _ _ _ _ _ _ _ => rfl⟩,
    (PADiffusionApply_constant 14 14 0 0 1 (fun i => (i : ℚ) + 1)
      (fun i : Nat => if i < 3 then (-1 : ℚ) else 1)
      (fun i => (i : ℚ) * (i : ℚ)) (fun i => 3 - (i : ℚ)) (fun i => (i : ℚ))
      (fun _ : Nat => (4 : ℚ)) 2 3 2 3 rfl rfl (by decide) (by decide) hG).2
      (fun _ : Nat => (4 : ℚ))
      ⟨fun _ _ _ _ => 7, fun _ _ _ => 7, fun _ _ => 7, fun _ _ _ => 7, fun _ _ => 7⟩
      (fun i => (i : ℚ)) (fun _ _ _ _ _ _ _ _ => rfl)⟩

end NullSpaceProofs

section SymmetryLemmas

variable {K : Type*} [CommRing K]

/-- A sum over the flat indices of a `Reshape(., n, m)` view is the sum over
its entries. -/
theorem sum_range_idx2 {M : Type*} [AddCommMonoid M] (n m : Nat) (f : Nat → M) :
    ∑ i in Finset.range (n * m), f i =
      ∑ b in Finset.range m, ∑ a in Finset.range n, f (idx2 n a b) := by
  induction m with
  | zero => simp
  | succ m ih =>
    rw [Nat.mul_succ, Finset.sum_range_add, ih, Finset.sum_range_succ]
    congr 1
    refine Finset.sum_congr rfl (fun a _ => ?_)
    rw [idx2, Nat.add_comm]

/-- A sum over the flat indices of a `Reshape(., n0, n1, n2)` view is the sum
over its entries. -/
theorem sum_range_idx3 {M : Type*} [AddCommMonoid M] (n0 n1 n2 : Nat) (f : Nat → M) :
    ∑ i in Finset.range (n0 * n1 * n2), f i =
      ∑ c in Finset.range n2, ∑ b in Finset.range n1, ∑ a in Finset.range n0,
        f (idx3 n0 n1 a b c) := by
  rw [Nat.mul_assoc, sum_range_idx2, sum_range_idx2]
  rfl

/-- A sum over the flat indices of a `Reshape(., n0, n1, n2, n3)` view is the
sum over its entries. -/
theorem sum_range_idx4 {M : Type*} [AddCommMonoid M] (n0 n1 n2 n3 : Nat) (f : Nat → M) :
    ∑ i in Finset.range (n0 * n1 * n2 * n3), f i =
      ∑ d in Finset.range n3, ∑ c in Finset.range n2, ∑ b in Finset.range n1,
        ∑ a in Finset.range n0, f (idx4 n0 n1 n2 a b c d) := by
  rw [show n0 * n1 * n2 * n3 = n0 * (n1 * n2 * n3) by ring, sum_range_idx2, sum_range_idx3]
  rfl

/-- Two nested sums as one sum over pairs. -/
theorem sum2_eq_prod {M : Type*} [AddCommMonoid M] (A B : Finset Nat) (f : Nat → Nat → M) :
    ∑ a in A, ∑ b in B, f a b = ∑ p in A ×ˢ B, f p.1 p.2 :=
  (Finset.sum_product' A B f).symm

/-- Three nested sums as one sum over triples. -/
theorem sum3_eq_prod {M : Type*} [AddCommMonoid M] (A B C : Finset Nat)
    (f : Nat → Nat → Nat → M) :
    ∑ a in A, ∑ b in B, ∑ c in C, f a b c = ∑ p in A ×ˢ B ×ˢ C, f p.1 p.2.1 p.2.2 := by
  rw [Finset.sum_product' A (B ×ˢ C) (fun a p => f a p.1 p.2)]
  refine Finset.sum_congr rfl (fun a _ => ?_)
  rw [Finset.sum_product' B C (fun b c => f a b c)]

/-- A symmetric kernel gives a symmetric pairing. -/
theorem pairing_symm {ι : Type*} (P : Finset ι) (k : ι → ι → K)
    (hk : ∀ p p', k p p' = k p' p) (x z : ι → K) :
    ∑ p in P, (∑ p' in P, k p p' * x p') * z p =
      ∑ p in P, (∑ p' in P, k p p' * z p') * x p := by
  simp only [Finset.sum_mul]
  rw [Finset.sum_comm]
  refine Finset.sum_congr rfl (fun p _ => Finset.sum_congr rfl (fun p' _ => ?_))
  rw [hk p' p]
  ring

/-- The dense 2D action as a kernel applied to the nodal values. -/
theorem denseAction2D_kernel (D1D Q1D : Nat) (B G op x : Nat → K) (e dx dy : Nat) :
    denseAction2D D1D Q1D B G op x e dx dy =
      ∑ p' in Finset.range D1D ×ˢ Finset.range D1D,
        (∑ q in Finset.range Q1D ×ˢ Finset.range Q1D,
          ((G (idx2 Q1D q.1 dx) * B (idx2 Q1D q.2 dy)) *
              (op (idx3 (Q1D * Q1D) 3 (q.1 + q.2 * Q1D) 0 e) *
                  (G (idx2 Q1D q.1 p'.1) * B (idx2 Q1D q.2 p'.2)) +
                op (idx3 (Q1D * Q1D) 3 (q.1 + q.2 * Q1D) 1 e) *
                  (B (idx2 Q1D q.1 p'.1) * G (idx2 Q1D q.2 p'.2))) +
            (B (idx2 Q1D q.1 dx) * G (idx2 Q1D q.2 dy)) *
              (op (idx3 (Q1D * Q1D) 3 (q.1 + q.2 * Q1D) 1 e) *
                  (G (idx2 Q1D q.1 p'.1) * B (idx2 Q1D q.2 p'.2)) +
                op (idx3 (Q1D * Q1D) 3 (q.1 + q.2 * Q1D) 2 e) *
                  (B (idx2 Q1D q.1 p'.1) * G (idx2 Q1D q.2 p'.2))))) *
          x (idx3 D1D D1D p'.1 p'.2 e) := by
  unfold denseAction2D
  rw [sum2_eq_prod]
  simp only [sum2_eq_prod, Finset.sum_mul]
  rw [Finset.sum_comm]

/-- On one element the dense 2D action is symmetric. -/
theorem denseAction2D_symm (D1D Q1D : Nat) (B G op x z : Nat → K) (e : Nat) :
    ∑ dy in Finset.range D1D, ∑ dx in Finset.range D1D,
        denseAction2D D1D Q1D B G op x e dx dy * z (idx3 D1D D1D dx dy e) =
      ∑ dy in Finset.range D1D, ∑ dx in Finset.range D1D,
        denseAction2D D1D Q1D B G op z e dx dy * x (idx3 D1D D1D dx dy e) := by
  rw [Finset.sum_comm, Finset.sum_comm (s := Finset.range D1D) (t := Finset.range D1D)
    (f := fun dy dx => denseAction2D D1D Q1D B G op z e dx dy * x (idx3 D1D D1D dx dy e))]
  rw [sum2_eq_prod, sum2_eq_prod]
  simp only [denseAction2D_kernel]
  refine pairing_symm (Finset.range D1D ×ˢ Finset.range D1D) _ ?_
    (fun p => x (idx3 D1D D1D p.1 p.2 e)) (fun p => z (idx3 D1D D1D p.1 p.2 e))
  intro p p'
  refine Finset.sum_congr rfl (fun q _ => ?_)
  ring

/-- The matrix `O(q,e)` is symmetric as a bilinear form. -/
theorem metricO3_dot_symm (NQ : Nat) (op : Nat → K) (q e : Nat) (u v : Fin 3 → K) :
    Matrix.dotProduct u (Matrix.mulVec (metricO3 NQ op q e) v) =
      Matrix.dotProduct v (Matrix.mulVec (metricO3 NQ op q e) u) := by
  simp only [metricO3, Matrix.mulVec, Matrix.dotProduct, Fin.sum_univ_three, Matrix.of_apply,
    Matrix.cons_val_zero, Matrix.cons_val_one, Matrix.cons_val_two, Matrix.head_cons,
    Matrix.tail_cons]
  ring

/-- The dense 3D action as a kernel applied to the nodal values. -/
theorem denseAction3D_kernel (D1D Q1D : Nat) (B G op x : Nat → K) (e dx dy dz : Nat) :
    denseAction3D D1D Q1D B G op x e dx dy dz =
      ∑ p' in Finset.range D1D ×ˢ Finset.range D1D ×ˢ Finset.range D1D,
        (∑ q in Finset.range Q1D ×ˢ Finset.range Q1D ×ˢ Finset.range Q1D,
          Matrix.dotProduct (refGrad3 Q1D B G q.1 q.2.1 q.2.2 dx dy dz)
            (Matrix.mulVec
              (metricO3 (Q1D * Q1D * Q1D) op (q.1 + (q.2.1 + q.2.2 * Q1D) * Q1D) e)
              (refGrad3 Q1D B G q.1 q.2.1 q.2.2 p'.1 p'.2.1 p'.2.2))) *
          x (idx4 D1D D1D D1D p'.1 p'.2.1 p'.2.2 e) := by
  unfold denseAction3D
  rw [sum3_eq_prod]
  simp only [sum3_eq_prod, Finset.sum_mul]
  rw [Finset.sum_comm]

/-- On one element the dense 3D action is symmetric. -/
theorem denseAction3D_symm (D1D Q1D : Nat) (B G op x z : Nat → K) (e : Nat) :
    ∑ dz in Finset.range D1D, ∑ dy in Finset.range D1D, ∑ dx in Finset.range D1D,
        denseAction3D D1D Q1D B G op x e dx dy dz * z (idx4 D1D D1D D1D dx dy dz e) =
      ∑ dz in Finset.range D1D, ∑ dy in Finset.range D1D, ∑ dx in Finset.range D1D,
        denseAction3D D1D Q1D B G op z e dx dy dz * x (idx4 D1D D1D D1D dx dy dz e) := by
  rw [← sum_rev3 (Finset.range D1D) (Finset.range D1D) (Finset.range D1D)
      (fun dx dy dz => denseAction3D D1D Q1D B G op x e dx dy dz *
        z (idx4 D1D D1D D1D dx dy dz e)),
    ← sum_rev3 (Finset.range D1D) (Finset.range D1D) (Finset.range D1D)
      (fun dx dy dz => denseAction3D D1D Q1D B G op z e dx dy dz *
        x (idx4 D1D D1D D1D dx dy dz e))]
  rw [sum3_eq_prod, sum3_eq_prod]
  simp only [denseAction3D_kernel]
  refine pairing_symm (Finset.range D1D ×ˢ Finset.range D1D ×ˢ Finset.range D1D) _ ?_
    (fun p => x (idx4 D1D D1D D1D p.1 p.2.1 p.2.2 e))
    (fun p => z (idx4 D1D D1D D1D p.1 p.2.1 p.2.2 e))
  intro p p'
  refine Finset.sum_congr rfl (fun q _ => ?_)
  exact metricO3_dot_symm _ _ _ _ _ _

end SymmetryLemmas

section SymmetryProofs

variable {K : Type*} [CommRing K]

/-- The element loop of the generic 2D kernel adds the dense contraction to
every cell of every element. -/
theorem PADiffusionApply2D_loop_spec (D1D Q1D NE : Nat) (b g bt gt op x : Nat → K)
    (grad0 : Nat → Nat → Nat → K) (gradXq0 gradXd0 : Nat → Nat → K) (y0 : Nat → K)
    (hbt : ∀ d q, d < D1D → q < Q1D → bt (idx2 D1D d q) = b (idx2 Q1D q d))
    (hgt : ∀ d q, d < D1D → q < Q1D → gt (idx2 D1D d q) = g (idx2 Q1D q d))
    (e dx dy : Nat) (he : e < NE) (hdx : dx < D1D) (hdy : dy < D1D) :
    forLoop NE (fun e y =>
        PADiffusionApply2D_body D1D Q1D b g bt gt op x grad0 gradXq0 gradXd0 e y) y0
      (idx3 D1D D1D dx dy e) =
    y0 (idx3 D1D D1D dx dy e) + denseAction2D D1D Q1D b g op x e dx dy := by
  refine forLoop_elements NE _ (fun e (i : Nat × Nat) => idx3 D1D D1D i.1 i.2 e)
    (fun i => i.1 < D1D ∧ i.2 < D1D)
    (fun e i => denseAction2D D1D Q1D b g op x e i.1 i.2)
    y0 ?_ ?_ ?_ e (dx, dy) he ⟨hdx, hdy⟩
  · intro e e' i i' hi hi' h
    exact (idx3_inj hi.1 hi'.1 hi.2 hi'.2 h).2.2
  · intro e y a ha
    exact PADiffusionApply2D_body_frame _ _ _ _ _ _ _ _ _ _ _ _ _ _
      (fun dx dy hdx hdy => ha (dx, dy) ⟨hdx, hdy⟩)
  · intro e y i hi
    exact PADiffusionApply2D_body_spec _ _ _ _ _ _ _ _ _ _ _ _ _ _ _ hi.1 hi.2 hbt hgt

/-- **C12.** Symmetry of Apply: for each of `PADiffusionApply2D` and
`PADiffusionApply3D`, within the limits `D1D <= MAX_D1D`, `Q1D <= MAX_Q1D`,
for every `B`, `G` with `Bt = Bᵀ` and `Gt = Gᵀ`, every `op` and every pair of
fields `x`, `z`, the calls on `x` and on `z` from an all-zero `y` complete, and
the sum over all entries of `A(x)*z` equals the sum over all entries of
`A(z)*x`. -/
theorem PADiffusionApply_symmetric (MAX_D1D MAX_Q1D T_D1D T_Q1D NE : Nat)
    (b g bt gt op x z : Nat → K) (grad0 grad1 : Nat → Nat → Nat → K)
    (gradXq0 gradXq1 gradXd0 gradXd1 : Nat → Nat → K) (s0 s1 : Scratch3D K)
    (d1d q1d D1D Q1D : Nat)
    (hD1D : D1D = if T_D1D ≠ 0 then T_D1D else d1d)
    (hQ1D : Q1D = if T_Q1D ≠ 0 then T_Q1D else q1d)
    (hD : D1D ≤ MAX_D1D) (hQ : Q1D ≤ MAX_Q1D)
    (hbt : ∀ d q, d < D1D → q < Q1D → bt (idx2 D1D d q) = b (idx2 Q1D q d))
    (hgt : ∀ d q, d < D1D → q < Q1D → gt (idx2 D1D d q) = g (idx2 Q1D q d)) :
    (∃ Ax Az : Nat → K,
      PADiffusionApply2D MAX_D1D MAX_Q1D T_D1D T_Q1D NE b g bt gt op x
        grad0 gradXq0 gradXd0 (fun _ => 0) d1d q1d = some Ax ∧
      PADiffusionApply2D MAX_D1D MAX_Q1D T_D1D T_Q1D NE b g bt gt op z
        grad1 gradXq1 gradXd1 (fun _ => 0) d1d q1d = some Az ∧
      ∑ i in Finset.range (D1D * D1D * NE), Ax i * z i =
        ∑ i in Finset.range (D1D * D1D * NE), Az i * x i) ∧
    (∃ Ax Az : Nat → K,
      PADiffusionApply3D MAX_D1D MAX_Q1D T_D1D T_Q1D NE b g bt gt op x s0
        (fun _ => 0) d1d q1d = some Ax ∧
      PADiffusionApply3D MAX_D1D MAX_Q1D T_D1D T_Q1D NE b g bt gt op z s1
        (fun _ => 0) d1d q1d = some Az ∧
      ∑ i in Finset.range (D1D * D1D * D1D * NE), Ax i * z i =
        ∑ i in Finset.range (D1D * D1D * D1D * NE), Az i * x i) := by
  constructor
  · refine ⟨_, _,
      PADiffusionApply2D_eq_some MAX_D1D MAX_Q1D T_D1D T_Q1D NE b g bt gt op x grad0 gradXq0
        gradXd0 _ d1d q1d D1D Q1D hD1D hQ1D hD hQ,
      PADiffusionApply2D_eq_some MAX_D1D MAX_Q1D T_D1D T_Q1D NE b g bt gt op z grad1 gradXq1
        gradXd1 _ d1d q1d D1D Q1D hD1D hQ1D hD hQ, ?_⟩
    rw [sum_range_idx3, sum_range_idx3]
    refine Finset.sum_congr rfl (fun e he => ?_)
    have hcell : ∀ (u w : Nat → K) (gr : Nat → Nat → Nat → K) (gq gd : Nat → Nat → K),
        ∑ dy in Finset.range D1D, ∑ dx in Finset.range D1D,
          forLoop NE (fun e y =>
            PADiffusionApply2D_body D1D Q1D b g bt gt op u gr gq gd e y) (fun _ => 0)
            (idx3 D1D D1D dx dy e) * w (idx3 D1D D1D dx dy e) =
        ∑ dy in Finset.range D1D, ∑ dx in Finset.range D1D,
          denseAction2D D1D Q1D b g op u e dx dy * w (idx3 D1D D1D dx dy e) := by
      intro u w gr gq gd
      refine Finset.sum_congr rfl (fun dy hdy => Finset.sum_congr rfl (fun dx hdx => ?_))
      rw [PADiffusionApply2D_loop_spec D1D Q1D NE b g bt gt op u gr gq gd _ hbt hgt e dx dy
        (Finset.mem_range.mp he) (Finset.mem_range.mp hdx) (Finset.mem_range.mp hdy), zero_add]
    rw [hcell x z, hcell z x]
    exact denseAction2D_symm D1D Q1D b g op x z e
  · refine ⟨_, _,
      PADiffusionApply3D_eq_some MAX_D1D MAX_Q1D T_D1D T_Q1D NE b g bt gt op x s0 _ d1d q1d
        D1D Q1D hD1D hQ1D hD hQ,
      PADiffusionApply3D_eq_some MAX_D1D MAX_Q1D T_D1D T_Q1D NE b g bt gt op z s1 _ d1d q1d
        D1D Q1D hD1D hQ1D hD hQ, ?_⟩
    rw [sum_range_idx4, sum_range_idx4]
    refine Finset.sum_congr rfl (fun e he => ?_)
    have hcell : ∀ (u w : Nat → K) (s : Scratch3D K),
        ∑ dz in Finset.range D1D, ∑ dy in Finset.range D1D, ∑ dx in Finset.range D1D,
          forLoop NE (fun e y => PADiffusionApply3D_body D1D Q1D b g bt gt op u s e y)
            (fun _ => 0) (idx4 D1D D1D D1D dx dy dz e) * w (idx4 D1D D1D D1D dx dy dz e) =
        ∑ dz in Finset.range D1D, ∑ dy in Finset.range D1D, ∑ dx in Finset.range D1D,
          denseAction3D D1D Q1D b g op u e dx dy dz * w (idx4 D1D D1D D1D dx dy dz e) := by
      intro u w s
      refine Finset.sum_congr rfl (fun dz hdz => Finset.sum_congr rfl (fun dy hdy =>
        Finset.sum_congr rfl (fun dx hdx => ?_)))
      rw [PADiffusionApply3D_loop_spec D1D Q1D NE b g bt gt op u s _ hbt hgt e dx dy dz
        (Finset.mem_range.mp he) (Finset.mem_range.mp hdx) (Finset.mem_range.mp hdy)
        (Finset.mem_range.mp hdz), zero_add]
    rw [hcell x z, hcell z x]
    exact denseAction3D_symm D1D Q1D b g op x z e

/-- Witness for C12: `D1D = 2`, `Q1D = 3`, one 3D element, `B(q,d) = q + 3d + 1`,
`G = 2 (B - 1)`, the fields `x(i) = i` and `z(i) = i*i + 1`. -/
theorem PADiffusionApply_symmetric_witness :
    ((2 : Nat) ≤ 14 ∧ (3 : Nat) ≤ 14 ∧
      (∀ d q, d < 2 → q < 3 →
        (fun i : Nat => ((idx2 3 (i / 2) (i % 2) : Nat) : ℚ) + 1) (idx2 2 d q) =
          (fun i : Nat => (i : ℚ) + 1) (idx2 3 q d)) ∧
      (∀ d q, d < 2 → q < 3 →
        (fun i : Nat => 2 * ((idx2 3 (i / 2) (i % 2) : Nat) : ℚ)) (idx2 2 d q) =
          (fun i : Nat => 2 * (i : ℚ)) (idx2 3 q d))) ∧
    ∃ Ax Az : Nat → ℚ,
      PADiffusionApply3D 14 14 0 0 1 (fun i => (i : ℚ) + 1) (fun i => 2 * (i : ℚ))
        (fun i => ((idx2 3 (i / 2) (i % 2) : Nat) : ℚ) + 1)
        (fun i => 2 * ((idx2 3 (i / 2) (i % 2) : Nat) : ℚ))
        (fun i => (i : ℚ)) (fun i => (i : ℚ))
        ⟨fun _ _ _ _ => 7, fun _ _ _ => 7, fun _ _ => 7, fun _ _ _ => 7, fun _ _ => 7⟩
        (fun _ => 0) 2 3 = some Ax ∧
      PADiffusionApply3D 14 14 0 0 1 (fun i => (i : ℚ) + 1) (fun i => 2 * (i : ℚ))
        (fun i => ((idx2 3 (i / 2) (i % 2) : Nat) : ℚ) + 1)
        (fun i => 2 * ((idx2 3 (i / 2) (i % 2) : Nat) : ℚ))
        (fun i => (i : ℚ)) (fun i => (i : ℚ) * (i : ℚ) + 1)
        ⟨fun _ _ _ _ => 1, fun _ _ _ => 1, fun _ _ => 1, fun _ _ _ => 1, fun _ _ => 1⟩
        (fun _ => 0) 2 3 = some Az ∧
      ∑ i in Finset.range (2 * 2 * 2 * 1), Ax i * (fun i : Nat => (i : ℚ) * (i : ℚ) + 1) i =
        ∑ i in Finset.range (2 * 2 * 2 * 1), Az i * (fun i : Nat => (i : ℚ)) i := by
  have hidx : ∀ d q, d < 2 → q < 3 → idx2 3 (idx2 2 d q / 2) (idx2 2 d q % 2) = idx2 3 q d := by
    intro d q hd hq
    interval_cases d <;> interval_cases q <;> rfl
  have hbt : ∀ d q, d < 2 → q < 3 →
      (fun i : Nat => ((idx2 3 (i / 2) (i % 2) : Nat) : ℚ) + 1) (idx2 2 d q) =
        (fun i : Nat => (i : ℚ) + 1) (idx2 3 q d) :=
    fun d q hd hq => by simp only [hidx d q hd hq]
  have hgt : ∀ d q, d < 2 → q < 3 →
      (fun i : Nat => 2 * ((idx2 3 (i / 2) (i % 2) : Nat) : ℚ)) (idx2 2 d q) =
        (fun i : Nat => 2 * (i : ℚ)) (idx2 3 q d) :=
    fun d q hd hq => by simp only [hidx d q hd hq]
  exact ⟨⟨by decide, by decide, hbt, hgt⟩,
    (PADiffusionApply_symmetric 14 14 0 0 1 (fun i => (i : ℚ) + 1) (fun i => 2 * (i : ℚ))
      (fun i => ((idx2 3 (i / 2) (i % 2) : Nat) : ℚ) + 1)
      (fun i => 2 * ((idx2 3 (i / 2) (i % 2) : Nat) : ℚ))
      (fun i => (i : ℚ)) (fun i => (i : ℚ)) (fun i => (i : ℚ) * (i : ℚ) + 1)
      (fun _ _ _ => 0) (fun _ _ _ => 0) (fun _ _ => 0) (fun _ _ => 0) (fun _ _ => 0)
      (fun _ _ => 0)
      ⟨fun _ _ _ _ => 7, fun _ _ _ => 7, fun _ _ => 7, fun _ _ _ => 7, fun _ _ => 7⟩
      ⟨fun _ _ _ _ => 1, fun _ _ _ => 1, fun _ _ => 1, fun _ _ _ => 1, fun _ _ => 1⟩
      2 3 2 3 rfl rfl (by decide) (by decide) hbt hgt).2⟩

end SymmetryProofs

section SetupDimProofs

variable {K : Type*} [Field K]

/-- What `PADiffusionSetup` returns for each value of `dim`. -/
theorem PADiffusionSetup_cases (dim D1D Q1D NE : Nat) (W J : Nat → K) (COEFF : K)
    (op : Nat → K) :
    (dim = 1 → PADiffusionSetup dim D1D Q1D NE W J COEFF op =
      Except.error "dim==1 not supported in PADiffusionSetup") ∧
    (dim = 2 → PADiffusionSetup dim D1D Q1D NE W J COEFF op =
      Except.ok (PADiffusionSetup2D Q1D NE W J COEFF op)) ∧
    (dim = 3 → PADiffusionSetup dim D1D Q1D NE W J COEFF op =
      Except.ok (PADiffusionSetup3D Q1D NE W J COEFF op)) ∧
    (dim ≠ 1 → dim ≠ 2 → dim ≠ 3 →
      PADiffusionSetup dim D1D Q1D NE W J COEFF op = Except.ok op) := by
  refine ⟨?_, ?_, ?_, ?_⟩
  · rintro rfl
    rfl
  · rintro rfl
    rfl
  · rintro rfl
    rfl
  · intro h1 h2 h3
    simp only [PADiffusionSetup, if_neg h1, if_neg h2, if_neg h3]

/-- **C21.** Setup fails fast on `dim = 1` only: for every other argument,
`PADiffusionSetup` aborts if and only if `dim = 1`; for `dim = 2` and `dim = 3`
it runs the kernel of that dimension, and for every other `dim` (for example
`0` or `4`) it returns without a failure, leaving `op` as it was. -/
theorem PADiffusionSetup_fails_iff (dim D1D Q1D NE : Nat) (W J : Nat → K) (COEFF : K)
    (op : Nat → K) :
    ((∃ msg, PADiffusionSetup dim D1D Q1D NE W J COEFF op = Except.error msg) ↔ dim = 1) ∧
    (dim = 2 → PADiffusionSetup dim D1D Q1D NE W J COEFF op =
      Except.ok (PADiffusionSetup2D Q1D NE W J COEFF op)) ∧
    (dim = 3 → PADiffusionSetup dim D1D Q1D NE W J COEFF op =
      Except.ok (PADiffusionSetup3D Q1D NE W J COEFF op)) ∧
    (dim ≠ 1 → dim ≠ 2 → dim ≠ 3 →
      PADiffusionSetup dim D1D Q1D NE W J COEFF op = Except.ok op) := by
  obtain ⟨h1, h2, h3, h4⟩ := PADiffusionSetup_cases dim D1D Q1D NE W J COEFF op
  refine ⟨⟨?_, fun h => ⟨_, h1 h⟩⟩, h2, h3, h4⟩
  rintro ⟨msg, hmsg⟩
  by_contra hne
  simp only [PADiffusionSetup, if_neg hne] at hmsg
  exact Except.noConfusion hmsg

/-- Witness for C21: `dim = 2` succeeds. -/
theorem PADiffusionSetup_fails_iff_witness :
    (2 : Nat) = 2 ∧
    PADiffusionSetup 2 3 4 1 (fun q => (q : ℚ) + 1) identityJ2Q4 1 (fun _ => 7) =
      Except.ok (PADiffusionSetup2D 4 1 (fun q => (q : ℚ) + 1) identityJ2Q4 1 (fun _ => 7)) :=
  ⟨rfl, (PADiffusionSetup_fails_iff 2 3 4 1 (fun q => (q : ℚ) + 1) identityJ2Q4 1
    (fun _ => 7)).2.1 rfl⟩

/-- Counterexample to C21 as stated: with `dim = 0` and with `dim = 4`
`PADiffusionSetup` reports no failure; it returns with `op` as it was. -/
theorem PADiffusionSetup_dim0_dim4 :
    PADiffusionSetup 0 3 4 1 (fun q => (q : ℚ) + 1) identityJ2Q4 1 (fun _ => 7) =
      Except.ok (fun _ => 7) ∧
    PADiffusionSetup 4 3 4 1 (fun q => (q : ℚ) + 1) identityJ2Q4 1 (fun _ => 7) =
      Except.ok (fun _ => 7) :=
  ⟨rfl, rfl⟩

end SetupDimProofs

section ApplyDim1Proofs

variable {K : Type*} [LinearOrderedField K]

/-- **C22.** The Apply dispatcher rejects one-dimensional problems: for
`dim = 1`, every `D1D`, `Q1D`, `NE`, tables, `op`, `x` and the toggle off,
`PADiffusionApply` aborts (with `Unknown kernel.`) and `y` keeps its content. -/
theorem PADiffusionApply_dim1 (MAX_D1D MAX_Q1D : Nat) (sqrt : K → K) (D1D Q1D NE : Nat)
    (B G Bt Gt op x : Nat → K) (sc : ApplyScratch K) (y : Nat → K) :
    PADiffusionApply MAX_D1D MAX_Q1D sqrt false 1 D1D Q1D NE B G Bt Gt op x sc y =
        Except.error "Unknown kernel." ∧
      bufferAfter y
        (PADiffusionApply MAX_D1D MAX_Q1D sqrt false 1 D1D Q1D NE B G Bt Gt op x sc y) = y := by
  have h : PADiffusionApply MAX_D1D MAX_Q1D sqrt false 1 D1D Q1D NE B G Bt Gt op x sc y =
      Except.error "Unknown kernel." := by
    rw [PADiffusionApply_off, if_neg (by decide)]
  rw [h]
  exact ⟨rfl, rfl⟩

end ApplyDim1Proofs

section SizeLimitProofs

variable {K : Type*} [CommRing K]

/-- **C23.** Size limits are checked before any work: each of the
runtime-sized instantiations (`T_D1D = T_Q1D = 0`) of `PADiffusionApply2D`,
`PADiffusionApply3D`, `SmemPADiffusionApply2D` and `SmemPADiffusionApply3D`
fails if and only if `d1d > MAX_D1D` or `q1d > MAX_Q1D`; a failed call leaves
`y` as it was, and a call within the limits runs the element loop with the
bounds `d1d` and `q1d` themselves. -/
theorem Apply_size_limits (MAX_D1D MAX_Q1D T_NBZ NE : Nat) (b g bt gt op x : Nat → K)
    (grad0 : Nat → Nat → Nat → K) (gradXq0 gradXd0 : Nat → Nat → K) (s0 : Scratch3D K)
    (sh2 : Shared2D K) (sh3 : Shared3D K) (y : Nat → K) (d1d q1d : Nat) :
    ((PADiffusionApply2D MAX_D1D MAX_Q1D 0 0 NE b g bt gt op x grad0 gradXq0 gradXd0 y d1d q1d =
        none ↔ d1d > MAX_D1D ∨ q1d > MAX_Q1D) ∧
      (PADiffusionApply3D MAX_D1D MAX_Q1D 0 0 NE b g bt gt op x s0 y d1d q1d = none ↔
        d1d > MAX_D1D ∨ q1d > MAX_Q1D) ∧
      (SmemPADiffusionApply2D MAX_D1D MAX_Q1D 0 0 T_NBZ NE b g op x sh2 y d1d q1d = none ↔
        d1d > MAX_D1D ∨ q1d > MAX_Q1D) ∧
      (SmemPADiffusionApply3D MAX_D1D MAX_Q1D 0 0 NE b g op x sh3 y d1d q1d = none ↔
        d1d > MAX_D1D ∨ q1d > MAX_Q1D)) ∧
    (d1d > MAX_D1D ∨ q1d > MAX_Q1D →
      (PADiffusionApply2D MAX_D1D MAX_Q1D 0 0 NE b g bt gt op x grad0 gradXq0 gradXd0 y
        d1d q1d).getD y = y ∧
      (PADiffusionApply3D MAX_D1D MAX_Q1D 0 0 NE b g bt gt op x s0 y d1d q1d).getD y = y ∧
      (SmemPADiffusionApply2D MAX_D1D MAX_Q1D 0 0 T_NBZ NE b g op x sh2 y d1d q1d).getD y = y ∧
      (SmemPADiffusionApply3D MAX_D1D MAX_Q1D 0 0 NE b g op x sh3 y d1d q1d).getD y = y) ∧
    (d1d ≤ MAX_D1D → q1d ≤ MAX_Q1D →
      PADiffusionApply2D MAX_D1D MAX_Q1D 0 0 NE b g bt gt op x grad0 gradXq0 gradXd0 y
          d1d q1d =
        some (forLoop NE (fun e y =>
          PADiffusionApply2D_body d1d q1d b g bt gt op x grad0 gradXq0 gradXd0 e y) y) ∧
      PADiffusionApply3D MAX_D1D MAX_Q1D 0 0 NE b g bt gt op x s0 y d1d q1d =
        some (forLoop NE (fun e y =>
          PADiffusionApply3D_body d1d q1d b g bt gt op x s0 e y) y) ∧
      SmemPADiffusionApply2D MAX_D1D MAX_Q1D 0 0 T_NBZ NE b g op x sh2 y d1d q1d =
        some (forLoop NE (fun e y =>
          SmemPADiffusionApply2D_body d1d q1d MAX_D1D MAX_Q1D (if T_NBZ ≠ 0 then T_NBZ else 1)
            b g op x sh2 e y) y) ∧
      SmemPADiffusionApply3D MAX_D1D MAX_Q1D 0 0 NE b g op x sh3 y d1d q1d =
        some (forLoop NE (fun e y =>
          SmemPADiffusionApply3D_body d1d q1d MAX_D1D MAX_Q1D b g op x sh3 e y) y)) := by
  have hok : d1d ≤ MAX_D1D → q1d ≤ MAX_Q1D →
      PADiffusionApply2D MAX_D1D MAX_Q1D 0 0 NE b g bt gt op x grad0 gradXq0 gradXd0 y
          d1d q1d =
        some (forLoop NE (fun e y =>
          PADiffusionApply2D_body d1d q1d b g bt gt op x grad0 gradXq0 gradXd0 e y) y) ∧
      PADiffusionApply3D MAX_D1D MAX_Q1D 0 0 NE b g bt gt op x s0 y d1d q1d =
        some (forLoop NE (fun e y =>
          PADiffusionApply3D_body d1d q1d b g bt gt op x s0 e y) y) ∧
      SmemPADiffusionApply2D MAX_D1D MAX_Q1D 0 0 T_NBZ NE b g op x sh2 y d1d q1d =
        some (forLoop NE (fun e y =>
          SmemPADiffusionApply2D_body d1d q1d MAX_D1D MAX_Q1D (if T_NBZ ≠ 0 then T_NBZ else 1)
            b g op x sh2 e y) y) ∧
      SmemPADiffusionApply3D MAX_D1D MAX_Q1D 0 0 NE b g op x sh3 y d1d q1d =
        some (forLoop NE (fun e y =>
          SmemPADiffusionApply3D_body d1d q1d MAX_D1D MAX_Q1D b g op x sh3 e y) y) := by
    intro hD hQ
    simp only [PADiffusionApply2D, PADiffusionApply3D, SmemPADiffusionApply2D,
      SmemPADiffusionApply3D, ne_eq, not_true_eq_false, if_false, hD, hQ, and_self]
  have hfail : d1d > MAX_D1D ∨ q1d > MAX_Q1D →
      PADiffusionApply2D MAX_D1D MAX_Q1D 0 0 NE b g bt gt op x grad0 gradXq0 gradXd0 y
          d1d q1d = none ∧
      PADiffusionApply3D MAX_D1D MAX_Q1D 0 0 NE b g bt gt op x s0 y d1d q1d = none ∧
      SmemPADiffusionApply2D MAX_D1D MAX_Q1D 0 0 T_NBZ NE b g op x sh2 y d1d q1d = none ∧
      SmemPADiffusionApply3D MAX_D1D MAX_Q1D 0 0 NE b g op x sh3 y d1d q1d = none := by
    intro h
    simp only [PADiffusionApply2D, PADiffusionApply3D, SmemPADiffusionApply2D,
      SmemPADiffusionApply3D, ne_eq, not_true_eq_false, if_false]
    rcases h with h | h
    · simp only [not_le.mpr h, not_false_eq_true, if_true, and_self]
    · by_cases hD : d1d ≤ MAX_D1D
      · simp only [hD, not_true_eq_false, if_false, not_le.mpr h, not_false_eq_true, if_true,
          and_self]
      · simp only [hD, not_false_eq_true, if_true, and_self]
  have hiff : ∀ r : Option (Nat → K), (d1d > MAX_D1D ∨ q1d > MAX_Q1D → r = none) →
      (d1d ≤ MAX_D1D → q1d ≤ MAX_Q1D → ∃ v, r = some v) →
      (r = none ↔ d1d > MAX_D1D ∨ q1d > MAX_Q1D) := by
    intro r h1 h2
    refine ⟨fun hr => ?_, h1⟩
    by_contra hc
    obtain ⟨v, hv⟩ := h2 (by omega) (by omega)
    rw [hv] at hr
    exact Option.noConfusion hr
  refine ⟨⟨?_, ?_, ?_, ?_⟩, ?_, hok⟩
  · exact hiff _ (fun h => (hfail h).1) (fun hD hQ => ⟨_, (hok hD hQ).1⟩)
  · exact hiff _ (fun h => (hfail h).2.1) (fun hD hQ => ⟨_, (hok hD hQ).2.1⟩)
  · exact hiff _ (fun h => (hfail h).2.2.1) (fun hD hQ => ⟨_, (hok hD hQ).2.2.1⟩)
  · exact hiff _ (fun h => (hfail h).2.2.2) (fun hD hQ => ⟨_, (hok hD hQ).2.2.2⟩)
  · intro h
    obtain ⟨f1, f2, f3, f4⟩ := hfail h
    rw [f1, f2, f3, f4]
    exact ⟨rfl, rfl, rfl, rfl⟩

/-- Witness for C23: `d1d = 2`, `q1d = 3` within the limits `14`, `14`, for the
generic 3D kernel. -/
theorem Apply_size_limits_witness :
    ((2 : Nat) ≤ 14 ∧ (3 : Nat) ≤ 14) ∧
    PADiffusionApply3D 14 14 0 0 1 (fun i => (i : ℚ) + 1) (fun i => 2 * (i : ℚ))
        (fun i => (i : ℚ) * (i : ℚ)) (fun i => 3 - (i : ℚ)) (fun i => (i : ℚ))
        (fun i => (i : ℚ))
        ⟨fun _ _ _ _ => 7, fun _ _ _ => 7, fun _ _ => 7, fun _ _ _ => 7, fun _ _ => 7⟩
        (fun _ => 5) 2 3 =
      some (forLoop 1 (fun e y =>
        PADiffusionApply3D_body 2 3 (fun i => (i : ℚ) + 1) (fun i => 2 * (i : ℚ))
          (fun i => (i : ℚ) * (i : ℚ)) (fun i => 3 - (i : ℚ)) (fun i => (i : ℚ))
          (fun i => (i : ℚ))
          ⟨fun _ _ _ _ => 7, fun _ _ _ => 7, fun _ _ => 7, fun _ _ _ => 7, fun _ _ => 7⟩ e y)
        (fun _ => 5)) :=
  ⟨⟨by decide, by decide⟩,
    ((Apply_size_limits 14 14 0 1 (fun i => (i : ℚ) + 1) (fun i => 2 * (i : ℚ))
      (fun i => (i : ℚ) * (i : ℚ)) (fun i => 3 - (i : ℚ)) (fun i => (i : ℚ))
      (fun i => (i : ℚ)) (fun _ _ _ => 0) (fun _ _ => 0) (fun _ _ => 0)
      ⟨fun _ _ _ _ => 7, fun _ _ _ => 7, fun _ _ => 7, fun _ _ _ => 7, fun _ _ => 7⟩
      ⟨fun _ => 0, fun _ => 0, fun _ => 0, fun _ => 0⟩ ⟨fun _ => 0, fun _ => 0, fun _ => 0⟩
      (fun _ => 5) 2 3).2.2 (by decide) (by decide)).2.1⟩

end SizeLimitProofs

section IntegratorSetupProofs

variable {K : Type*} [Field K]

/-- The only message `PADiffusionSetup` aborts with is the one for `dim = 1`. -/
theorem PADiffusionSetup_error_msg (dim D1D Q1D NE : Nat) (W J : Nat → K) (COEFF : K)
    (op : Nat → K) (msg : String)
    (h : PADiffusionSetup dim D1D Q1D NE W J COEFF op = Except.error msg) :
    msg = "dim==1 not supported in PADiffusionSetup" := by
  by_cases hd : dim = 1
  · simp only [PADiffusionSetup, if_pos hd] at h
    exact (Except.error.inj h).symm
  · simp only [PADiffusionSetup, if_neg hd] at h
    exact Except.noConfusion h

/-- **C24.** Coefficient resolution in `DiffusionIntegrator::Setup`: with no
coefficient attached the kernel dispatcher `PADiffusionSetup` receives
`COEFF = 1`; with a coefficient that casts to a constant coefficient of value
`c` it receives `COEFF = c`; with any other coefficient `Setup` fails with the
verification message and `PADiffusionSetup` is not called.  `Setup` fails with
that message if and only if a coefficient is attached and it is not
constant. -/
theorem DiffusionIntegrator_Setup_coefficient {Coefficient : Type*}
    (dynamic_cast : Coefficient → Option K) (dims nq dim ne dofs1D quad1D : Nat)
    (W J : Nat → K) (Q : Option Coefficient) (pa_data : Nat → K) :
    (Q = none →
      DiffusionIntegrator.Setup dynamic_cast dims nq dim ne dofs1D quad1D W J Q pa_data =
        match PADiffusionSetup dim dofs1D quad1D ne W J 1 pa_data with
        | Except.error msg => Except.error msg
        | Except.ok data => Except.ok (symmDims dims * nq * ne, data)) ∧
    (∀ q c, Q = some q → dynamic_cast q = some c →
      DiffusionIntegrator.Setup dynamic_cast dims nq dim ne dofs1D quad1D W J Q pa_data =
        match PADiffusionSetup dim dofs1D quad1D ne W J c pa_data with
        | Except.error msg => Except.error msg
        | Except.ok data => Except.ok (symmDims dims * nq * ne, data)) ∧
    (∀ q, Q = some q → dynamic_cast q = none →
      DiffusionIntegrator.Setup dynamic_cast dims nq dim ne dofs1D quad1D W J Q pa_data =
        Except.error "only ConstantCoefficient is supported!") ∧
    (DiffusionIntegrator.Setup dynamic_cast dims nq dim ne dofs1D quad1D W J Q pa_data =
        Except.error "only ConstantCoefficient is supported!" ↔
      ∃ q, Q = some q ∧ dynamic_cast q = none) := by
  have hne : ∀ c : K,
      (match PADiffusionSetup dim dofs1D quad1D ne W J c pa_data with
        | Except.error msg => Except.error msg
        | Except.ok data => Except.ok (symmDims dims * nq * ne, data)) ≠
      (Except.error "only ConstantCoefficient is supported!" :
        Except String (Nat × (Nat → K))) := by
    intro c h
    cases hp : PADiffusionSetup dim dofs1D quad1D ne W J c pa_data with
    | error msg =>
      rw [hp] at h
      have h1 := PADiffusionSetup_error_msg _ _ _ _ _ _ _ _ _ hp
      have h2 : msg = "only ConstantCoefficient is supported!" := Except.error.inj h
      rw [h1] at h2
      exact absurd h2 (by decide)
    | ok data =>
      rw [hp] at h
      exact Except.noConfusion h
  have h1 : Q = none →
      DiffusionIntegrator.Setup dynamic_cast dims nq dim ne dofs1D quad1D W J Q pa_data =
        match PADiffusionSetup dim dofs1D quad1D ne W J 1 pa_data with
        | Except.error msg => Except.error msg
        | Except.ok data => Except.ok (symmDims dims * nq * ne, data) := by
    rintro rfl
    rfl
  have h2 : ∀ q c, Q = some q → dynamic_cast q = some c →
      DiffusionIntegrator.Setup dynamic_cast dims nq dim ne dofs1D quad1D W J Q pa_data =
        match PADiffusionSetup dim dofs1D quad1D ne W J c pa_data with
        | Except.error msg => Except.error msg
        | Except.ok data => Except.ok (symmDims dims * nq * ne, data) := by
    rintro q c rfl hc
    simp only [DiffusionIntegrator.Setup, hc]
    rfl
  have h3 : ∀ q, Q = some q → dynamic_cast q = none →
      DiffusionIntegrator.Setup dynamic_cast dims nq dim ne dofs1D quad1D W J Q pa_data =
        Except.error "only ConstantCoefficient is supported!" := by
    rintro q rfl hc
    simp only [DiffusionIntegrator.Setup, hc]
  refine ⟨h1, h2, h3, ⟨fun h => ?_, fun ⟨q, hq, hc⟩ => h3 q hq hc⟩⟩
  cases hQ : Q with
  | none =>
    rw [h1 hQ] at h
    exact absurd h (hne 1)
  | some q =>
    cases hc : dynamic_cast q with
    | none => exact ⟨q, rfl, hc⟩
    | some c =>
      rw [h2 q c hQ hc] at h
      exact absurd h (hne c)

/-- Witness for C24: a constant coefficient of value `3` on a 2D problem with
`Q1D = 4` and one element. -/
theorem DiffusionIntegrator_Setup_coefficient_witness :
    ((some (some 3) : Option (Option ℚ)) = some (some 3) ∧
      (fun c : Option ℚ => c) (some 3) = some 3) ∧
    DiffusionIntegrator.Setup (fun c : Option ℚ => c) 2 16 2 1 3 4 (fun q => (q : ℚ) + 1)
        identityJ2Q4 (some (some 3)) (fun _ => 7) =
      match PADiffusionSetup 2 3 4 1 (fun q => (q : ℚ) + 1) identityJ2Q4 3 (fun _ => 7) with
      | Except.error msg => Except.error msg
      | Except.ok data => Except.ok (symmDims 2 * 16 * 1, data) :=
  ⟨⟨rfl, rfl⟩, (DiffusionIntegrator_Setup_coefficient (fun c : Option ℚ => c) 2 16 2 1 3 4
    (fun q => (q : ℚ) + 1) identityJ2Q4 (some (some 3)) (fun _ => 7)).2.1
    (some 3) 3 rfl rfl⟩

/-- **C27.** Setup output is local: for `PADiffusionSetup2D` and
`PADiffusionSetup3D`, the entries `op(q,.,e)` written for point `q` of element
`e` depend on `W[q]`, `COEFF` and the Jacobian `J(q,.,.,e)` alone; two runs
that agree on these produce the same `op(q,.,e)`, whatever `op` held before
and whatever the weights and Jacobians of other points and elements are.  The
kernels return nothing but `op`: `W` and `J` are only read. -/
theorem PADiffusionSetup_local (Q1D NE : Nat) (w w' j j' : Nat → K) (COEFF : K)
    (op op' : Nat → K) (e q : Nat) (he : e < NE) (hw : w q = w' q) :
    (q < Q1D * Q1D → jac2 (Q1D * Q1D) j q e = jac2 (Q1D * Q1D) j' q e →
      ∀ s, s < 3 → PADiffusionSetup2D Q1D NE w j COEFF op (idx3 (Q1D * Q1D) 3 q s e) =
        PADiffusionSetup2D Q1D NE w' j' COEFF op' (idx3 (Q1D * Q1D) 3 q s e)) ∧
    (q < Q1D * Q1D * Q1D →
      jac3 (Q1D * Q1D * Q1D) j q e = jac3 (Q1D * Q1D * Q1D) j' q e →
      ∀ s, s < 6 → PADiffusionSetup3D Q1D NE w j COEFF op (idx3 (Q1D * Q1D * Q1D) 6 q s e) =
        PADiffusionSetup3D Q1D NE w' j' COEFF op' (idx3 (Q1D * Q1D * Q1D) 6 q s e)) := by
  constructor
  · intro hq hJ s hs
    have h := PADiffusionSetup2D_val Q1D NE w j COEFF op e q he hq
    have h' := PADiffusionSetup2D_val Q1D NE w' j' COEFF op' e q he hq
    have hJ' : ∀ r c : Fin 2, j (idx4 (Q1D * Q1D) 2 2 q r.val c.val e) =
        j' (idx4 (Q1D * Q1D) 2 2 q r.val c.val e) :=
      fun r c => congrFun (congrFun hJ r) c
    have h00 := hJ' 0 0
    have h01 := hJ' 0 1
    have h10 := hJ' 1 0
    have h11 := hJ' 1 1
    simp only [Fin.val_zero, Fin.val_one] at h00 h01 h10 h11
    simp only [h00, h01, h10, h11, hw] at h
    interval_cases s
    · exact h.1.trans h'.1.symm
    · exact h.2.1.trans h'.2.1.symm
    · exact h.2.2.trans h'.2.2.symm
  · intro hq hJ s hs
    have h := PADiffusionSetup3D_val Q1D NE w j COEFF op e q he hq
    have h' := PADiffusionSetup3D_val Q1D NE w' j' COEFF op' e q he hq
    simp only [hJ, hw] at h
    interval_cases s
    · exact h.1.trans h'.1.symm
    · exact h.2.1.trans h'.2.1.symm
    · exact h.2.2.1.trans h'.2.2.1.symm
    · exact h.2.2.2.1.trans h'.2.2.2.1.symm
    · exact h.2.2.2.2.1.trans h'.2.2.2.2.1.symm
    · exact h.2.2.2.2.2.trans h'.2.2.2.2.2.symm

/-- Witness for C27: two elements with one point each; the two runs differ in
the prior content of `op`, in the weight of no point but in the Jacobian of
element `1`, and agree on `op(0,0,0)`. -/
theorem PADiffusionSetup_local_witness :
    ((0 : Nat) < 2 ∧ (fun _ : Nat => (2 : ℚ)) 0 = (fun _ : Nat => (2 : ℚ)) 0 ∧
      (0 : Nat) < 1 * 1 ∧
      jac2 (1 * 1) identityJ2 0 0 =
        jac2 (1 * 1) (fun i => if i < 4 then identityJ2 i else 5) 0 0 ∧ (0 : Nat) < 3) ∧
    PADiffusionSetup2D 1 2 (fun _ => (2 : ℚ)) identityJ2 3 (fun _ => 0)
        (idx3 (1 * 1) 3 0 0 0) =
      PADiffusionSetup2D 1 2 (fun _ => (2 : ℚ)) (fun i => if i < 4 then identityJ2 i else 5) 3
        (fun _ => 9) (idx3 (1 * 1) 3 0 0 0) := by
  have hJ : jac2 (1 * 1) identityJ2 0 0 =
      jac2 (1 * 1) (fun i => if i < 4 then identityJ2 i else 5) 0 0 := by
    ext r c
    fin_cases r <;> fin_cases c <;> simp [jac2, idx4]
  exact ⟨⟨by decide, rfl, by decide, hJ, by decide⟩,
    (PADiffusionSetup_local 1 2 (fun _ => (2 : ℚ)) (fun _ => (2 : ℚ)) identityJ2
      (fun i => if i < 4 then identityJ2 i else 5) 3 (fun _ => 0) (fun _ => 9) 0 0
      (by decide) rfl).1 (by decide) hJ 0 (by decide)⟩

end IntegratorSetupProofs

section SetupShapeProofs

variable {K : Type*} [Field K]

/-- A loop whose body transforms the state and appends to a log a list that
depends on the iteration only: the final log is the concatenation of the
lists in iteration order. -/
theorem forLoop_trace {σ : Type*} (n : Nat) (body : Nat → σ × List Nat → σ × List Nat)
    (f : Nat → σ → σ) (g : Nat → List Nat)
    (h : ∀ i, i < n → ∀ a l, body i (a, l) = (f i a, l ++ g i)) (a : σ) (l : List Nat) :
    forLoop n body (a, l) = (forLoop n f a, l ++ (List.range n).flatMap g) := by
  induction n with
  | zero => simp [forLoop]
  | succ n ih =>
    rw [forLoop_succ, ih (fun i hi => h i (Nat.lt_succ_of_lt hi)), h n (Nat.lt_succ_self n),
      forLoop_succ, List.range_succ, List.flatMap_append, List.flatMap_singleton,
      List.append_assoc]

/-- The logged 2D kernel computes what `PADiffusionSetup2D` computes and logs
the entries of the `Reshape(op, NQ, 3, NE)` view in order. -/
theorem PADiffusionSetup2D_traced_eq (Q1D NE : Nat) (w j : Nat → K) (COEFF : K)
    (op : Nat → K) :
    PADiffusionSetup2D_traced Q1D NE w j COEFF op =
      (PADiffusionSetup2D Q1D NE w j COEFF op, opEntries (Q1D * Q1D) 3 NE) := by
  unfold PADiffusionSetup2D_traced PADiffusionSetup2D opEntries
  dsimp only
  rw [forLoop_trace NE _ _
    (fun e => (List.range (Q1D * Q1D)).flatMap (fun q =>
      (List.range 3).map (fun s => idx3 (Q1D * Q1D) 3 q s e))) ?_ op [], List.nil_append]
  intro e _ a l
  rw [forLoop_trace (Q1D * Q1D) _ _
    (fun q => (List.range 3).map (fun s => idx3 (Q1D * Q1D) 3 q s e)) ?_ a l]
  intro q _ a l
  simp [List.range_succ]

/-- The logged 3D kernel computes what `PADiffusionSetup3D` computes and logs
the entries of the `Reshape(op, NQ, 6, NE)` view in order. -/
theorem PADiffusionSetup3D_traced_eq (Q1D NE : Nat) (w j : Nat → K) (COEFF : K)
    (op : Nat → K) :
    PADiffusionSetup3D_traced Q1D NE w j COEFF op =
      (PADiffusionSetup3D Q1D NE w j COEFF op, opEntries (Q1D * Q1D * Q1D) 6 NE) := by
  unfold PADiffusionSetup3D_traced PADiffusionSetup3D opEntries
  dsimp only
  rw [forLoop_trace NE _ _
    (fun e => (List.range (Q1D * Q1D * Q1D)).flatMap (fun q =>
      (List.range 6).map (fun s => idx3 (Q1D * Q1D * Q1D) 6 q s e))) ?_ op [],
    List.nil_append]
  intro e _ a l
  rw [forLoop_trace (Q1D * Q1D * Q1D) _ _
    (fun q => (List.range 6).map (fun s => idx3 (Q1D * Q1D * Q1D) 6 q s e)) ?_ a l]
  intro q _ a l
  simp [List.range_succ]

/-- Membership in the list of entries. -/
theorem mem_opEntries (NQ S NE i : Nat) :
    i ∈ opEntries NQ S NE ↔ ∃ e q s, e < NE ∧ q < NQ ∧ s < S ∧ i = idx3 NQ S q s e := by
  simp only [opEntries, List.mem_flatMap, List.mem_map, List.mem_range]
  constructor
  · rintro ⟨e, he, q, hq, s, hs, rfl⟩
    exact ⟨e, q, s, he, hq, hs, rfl⟩
  · rintro ⟨e, q, s, he, hq, hs, rfl⟩
    exact ⟨e, he, q, hq, s, hs, rfl⟩

/-- The entries are exactly the flat indices below `NQ * S * NE`. -/
theorem mem_opEntries_iff_lt (NQ S NE i : Nat) :
    i ∈ opEntries NQ S NE ↔ i < NQ * S * NE := by
  rw [mem_opEntries]
  constructor
  · rintro ⟨e, q, s, he, hq, hs, rfl⟩
    exact idx3_lt hq hs he
  · intro hi
    have hNQ : 0 < NQ := by
      rcases Nat.eq_zero_or_pos NQ with h | h
      · rw [h] at hi
        simp at hi
      · exact h
    have hS : 0 < S := by
      rcases Nat.eq_zero_or_pos S with h | h
      · rw [h] at hi
        simp at hi
      · exact h
    refine ⟨i / NQ / S, i % NQ, i / NQ % S, ?_, Nat.mod_lt _ hNQ, Nat.mod_lt _ hS, ?_⟩
    · rw [Nat.div_div_eq_div_mul]
      exact Nat.div_lt_of_lt_mul hi
    · unfold idx3
      rw [Nat.mod_add_div, Nat.mod_add_div]

/-- No entry is listed twice. -/
theorem nodup_opEntries (NQ S NE : Nat) : (opEntries NQ S NE).Nodup := by
  unfold opEntries
  rw [List.nodup_flatMap]
  constructor
  · intro e _
    rw [List.nodup_flatMap]
    constructor
    · intro q _
      refine (List.nodup_range S).map_on ?_
      intro s hs s' hs' h
      by_cases hq : q < NQ
      · exact (idx3_inj hq hq (List.mem_range.mp hs) (List.mem_range.mp hs') h).2.1
      · rename_i hq'
        exact absurd (List.mem_range.mp hq') hq
    · refine (List.pairwise_lt_range NQ).imp_of_mem ?_
      intro q q' hq hq' hlt
      rw [Function.onFun, List.disjoint_left]
      intro i hi hi'
      simp only [List.mem_map, List.mem_range] at hi hi'
      obtain ⟨s, hs, rfl⟩ := hi
      obtain ⟨s', hs', h⟩ := hi'
      have := (idx3_inj (List.mem_range.mp hq') (List.mem_range.mp hq) hs' hs h).1
      omega
  · refine (List.pairwise_lt_range NE).imp ?_
    intro e e' hlt
    rw [Function.onFun, List.disjoint_left]
    intro i hi hi'
    simp only [List.mem_flatMap, List.mem_map, List.mem_range] at hi hi'
    obtain ⟨q, hq, s, hs, rfl⟩ := hi
    obtain ⟨q', hq', s', hs', h⟩ := hi'
    have := (idx3_inj hq' hq hs' hs h).2.2
    omega

/-- The list of entries is a rearrangement of the flat indices
`0 .. NQ*S*NE - 1`; in particular it has `NQ*S*NE` members. -/
theorem perm_opEntries (NQ S NE : Nat) :
    (opEntries NQ S NE).Perm (List.range (NQ * S * NE)) ∧
      (opEntries NQ S NE).length = NQ * S * NE := by
  have hp : (opEntries NQ S NE).Perm (List.range (NQ * S * NE)) :=
    (List.perm_ext_iff_of_nodup (nodup_opEntries NQ S NE) (List.nodup_range _)).mpr
      (fun i => by rw [mem_opEntries_iff_lt, List.mem_range])
  exact ⟨hp, by rw [hp.length_eq, List.length_range]⟩

/-- The size `DiffusionIntegrator::Setup` gives to `pa_data`. -/
theorem DiffusionIntegrator_Setup_size {Coefficient : Type*}
    (dynamic_cast : Coefficient → Option K) (dims nq dim ne dofs1D quad1D : Nat)
    (W J : Nat → K) (Q : Option Coefficient) (pa_data : Nat → K) (size : Nat)
    (data : Nat → K)
    (h : DiffusionIntegrator.Setup dynamic_cast dims nq dim ne dofs1D quad1D W J Q pa_data =
      Except.ok (size, data)) :
    size = symmDims dims * nq * ne := by
  unfold DiffusionIntegrator.Setup at h
  dsimp only at h
  split at h
  · exact Except.noConfusion h
  · split at h
    · exact Except.noConfusion h
    · exact (congrArg Prod.fst (Except.ok.inj h)).symm

/-- **C25.** Shape of the metric buffer: `DiffusionIntegrator::Setup` sizes
`pa_data` to `symmDims*nq*ne` with `symmDims = dims*(dims+1)/2`, which is `3`
for `dims = 2` and `6` for `dims = 3`; `PADiffusionSetup2D` stores to exactly
the `3*Q1D^2*NE` entries `op(q,s,e)`, `s < 3`, and `PADiffusionSetup3D` to
exactly the `6*Q1D^3*NE` entries `op(q,s,e)`, `s < 6`, each exactly once, at
the flat index `q + NQ*(s + S*e)` with `S = 3` resp. `6`; the indices stored to
are exactly those below `symmDims*NQ*NE`, the size of the buffer. -/
theorem Setup_metric_shape {Coefficient : Type*}
    (dynamic_cast : Coefficient → Option K) (dims nq dim ne dofs1D quad1D : Nat)
    (W J : Nat → K) (Q : Option Coefficient) (pa_data : Nat → K)
    (Q1D NE : Nat) (w j : Nat → K) (COEFF : K) (op : Nat → K) :
    (symmDims 2 = 3 ∧ symmDims 3 = 6) ∧
    (∀ size data,
      DiffusionIntegrator.Setup dynamic_cast dims nq dim ne dofs1D quad1D W J Q pa_data =
        Except.ok (size, data) → size = symmDims dims * nq * ne) ∧
    ((PADiffusionSetup2D_traced Q1D NE w j COEFF op).1 =
        PADiffusionSetup2D Q1D NE w j COEFF op ∧
      (PADiffusionSetup2D_traced Q1D NE w j COEFF op).2.Nodup ∧
      (PADiffusionSetup2D_traced Q1D NE w j COEFF op).2.length = 3 * (Q1D * Q1D) * NE ∧
      (∀ i, i ∈ (PADiffusionSetup2D_traced Q1D NE w j COEFF op).2 ↔
        ∃ e q s, e < NE ∧ q < Q1D * Q1D ∧ s < 3 ∧ i = q + Q1D * Q1D * (s + 3 * e)) ∧
      (∀ i, i ∈ (PADiffusionSetup2D_traced Q1D NE w j COEFF op).2 ↔
        i < symmDims 2 * (Q1D * Q1D) * NE)) ∧
    ((PADiffusionSetup3D_traced Q1D NE w j COEFF op).1 =
        PADiffusionSetup3D Q1D NE w j COEFF op ∧
      (PADiffusionSetup3D_traced Q1D NE w j COEFF op).2.Nodup ∧
      (PADiffusionSetup3D_traced Q1D NE w j COEFF op).2.length =
        6 * (Q1D * Q1D * Q1D) * NE ∧
      (∀ i, i ∈ (PADiffusionSetup3D_traced Q1D NE w j COEFF op).2 ↔
        ∃ e q s, e < NE ∧ q < Q1D * Q1D * Q1D ∧ s < 6 ∧
          i = q + Q1D * Q1D * Q1D * (s + 6 * e)) ∧
      (∀ i, i ∈ (PADiffusionSetup3D_traced Q1D NE w j COEFF op).2 ↔
        i < symmDims 3 * (Q1D * Q1D * Q1D) * NE)) := by
  have h2 : symmDims 2 = 3 := rfl
  have h3 : symmDims 3 = 6 := rfl
  refine ⟨⟨h2, h3⟩,
    fun size data h => DiffusionIntegrator_Setup_size _ _ _ _ _ _ _ _ _ _ _ _ _ h, ?_, ?_⟩
  · rw [PADiffusionSetup2D_traced_eq, h2]
    refine ⟨rfl, nodup_opEntries _ _ _, ?_, fun i => mem_opEntries _ _ _ i, fun i => ?_⟩
    · rw [(perm_opEntries _ _ _).2, Nat.mul_comm 3]
    · rw [mem_opEntries_iff_lt, Nat.mul_comm 3]
  · rw [PADiffusionSetup3D_traced_eq, h3]
    refine ⟨rfl, nodup_opEntries _ _ _, ?_, fun i => mem_opEntries _ _ _ i, fun i => ?_⟩
    · rw [(perm_opEntries _ _ _).2, Nat.mul_comm 6]
    · rw [mem_opEntries_iff_lt, Nat.mul_comm 6]

/-- Witness for C25: `DiffusionIntegrator::Setup` on a 2D problem with
`Q1D = 4` (16 points) and one element sizes `pa_data` to `3 * 16 * 1`. -/
theorem Setup_metric_shape_witness :
    DiffusionIntegrator.Setup (fun c : Option ℚ => c) 2 16 2 1 3 4 (fun q => (q : ℚ) + 1)
        identityJ2Q4 none (fun _ => 7) =
      Except.ok (3 * 16 * 1,
        PADiffusionSetup2D 4 1 (fun q => (q : ℚ) + 1) identityJ2Q4 1 (fun _ => 7)) ∧
    3 * 16 * 1 = symmDims 2 * 16 * 1 :=
  ⟨rfl, (Setup_metric_shape (fun c : Option ℚ => c) 2 16 2 1 3 4 (fun q => (q : ℚ) + 1)
    identityJ2Q4 none (fun _ => 7) 4 1 (fun q => (q : ℚ) + 1) identityJ2Q4 1
    (fun _ => 7)).2.1 _ _ rfl⟩

end SetupShapeProofs

section ElementIndependence

variable {K : Type*} [CommRing K]

theorem qidx2_lt {Q1D qx qy : Nat} (hqx : qx < Q1D) (hqy : qy < Q1D) :
    qx + qy * Q1D < Q1D * Q1D :=
  calc qx + qy * Q1D < Q1D + qy * Q1D := by omega
    _ = (qy + 1) * Q1D := by ring
    _ ≤ Q1D * Q1D := Nat.mul_le_mul_right Q1D hqy

theorem qidx3_lt {Q1D qx qy qz : Nat} (hqx : qx < Q1D) (hqy : qy < Q1D) (hqz : qz < Q1D) :
    qx + (qy + qz * Q1D) * Q1D < Q1D * Q1D * Q1D :=
  calc qx + (qy + qz * Q1D) * Q1D < Q1D + (qy + qz * Q1D) * Q1D := by omega
    _ = (qy + qz * Q1D + 1) * Q1D := by ring
    _ ≤ Q1D * Q1D * Q1D := Nat.mul_le_mul_right Q1D (qidx2_lt hqy hqz)

/-- The 2D flux at a quadrature point of element `e` reads `x` and `op` in
the slots of element `e` only. -/
theorem sumfact2D_flux_congr (D1D Q1D : Nat) (B G op op' x x' : Nat → K) (e : Nat)
    (hx : ∀ dx dy, dx < D1D → dy < D1D → x (idx3 D1D D1D dx dy e) = x' (idx3 D1D D1D dx dy e))
    (hop : ∀ q s, q < Q1D * Q1D → s < 3 →
      op (idx3 (Q1D * Q1D) 3 q s e) = op' (idx3 (Q1D * Q1D) 3 q s e))
    (qy qx : Nat) (hqy : qy < Q1D) (hqx : qx < Q1D) :
    sumfact2D_flux D1D Q1D B G op x e qy qx = sumfact2D_flux D1D Q1D B G op' x' e qy qx := by
  have hin : ∀ (T1 T2 : Nat → K),
      ∑ dy in Finset.range D1D,
        (∑ dx in Finset.range D1D, x (idx3 D1D D1D dx dy e) * T1 dx) * T2 dy =
      ∑ dy in Finset.range D1D,
        (∑ dx in Finset.range D1D, x' (idx3 D1D D1D dx dy e) * T1 dx) * T2 dy := by
    intro T1 T2
    refine Finset.sum_congr rfl (fun dy hdy => ?_)
    congr 1
    refine Finset.sum_congr rfl (fun dx hdx => ?_)
    rw [hx dx dy (Finset.mem_range.mp hdx) (Finset.mem_range.mp hdy)]
  have hg : sumfact2D_grad D1D Q1D B G x e qy qx = sumfact2D_grad D1D Q1D B G x' e qy qx := by
    unfold sumfact2D_grad
    rw [hin (fun dx => G (idx2 Q1D qx dx)) (fun dy => B (idx2 Q1D qy dy)),
      hin (fun dx => B (idx2 Q1D qx dx)) (fun dy => G (idx2 Q1D qy dy))]
  have hq := qidx2_lt hqx hqy
  unfold sumfact2D_flux
  rw [hg, hop _ 0 hq (by decide), hop _ 1 hq (by decide), hop _ 2 hq (by decide)]

/-- The 2D backward sweep reads its argument at the quadrature points only. -/
theorem sumfact2D_back_congr (D1D Q1D : Nat) (Bt Gt : Nat → K) (F F' : Nat → Nat → Fin 2 → K)
    (hF : ∀ qy qx, qy < Q1D → qx < Q1D → F qy qx = F' qy qx) (dx dy : Nat) :
    sumfact2D_back D1D Q1D Bt Gt F dx dy = sumfact2D_back D1D Q1D Bt Gt F' dx dy := by
  unfold sumfact2D_back
  refine Finset.sum_congr rfl (fun qy hqy => ?_)
  congr 1
  · congr 1
    refine Finset.sum_congr rfl (fun qx hqx => ?_)
    rw [hF qy qx (Finset.mem_range.mp hqy) (Finset.mem_range.mp hqx)]
  · congr 1
    refine Finset.sum_congr rfl (fun qx hqx => ?_)
    rw [hF qy qx (Finset.mem_range.mp hqy) (Finset.mem_range.mp hqx)]

/-- The 3D flux at a quadrature point of element `e` reads `x` and `op` in
the slots of element `e` only. -/
theorem sumfact3D_flux_congr (D1D Q1D : Nat) (B G op op' x x' : Nat → K) (e : Nat)
    (hx : ∀ dx dy dz, dx < D1D → dy < D1D → dz < D1D →
      x (idx4 D1D D1D D1D dx dy dz e) = x' (idx4 D1D D1D D1D dx dy dz e))
    (hop : ∀ q s, q < Q1D * Q1D * Q1D → s < 6 →
      op (idx3 (Q1D * Q1D * Q1D) 6 q s e) = op' (idx3 (Q1D * Q1D * Q1D) 6 q s e))
    (qz qy qx : Nat) (hqz : qz < Q1D) (hqy : qy < Q1D) (hqx : qx < Q1D) :
    sumfact3D_flux D1D Q1D B G op x e qz qy qx =
      sumfact3D_flux D1D Q1D B G op' x' e qz qy qx := by
  have hin : ∀ (T1 T2 T3 : Nat → K),
      ∑ dz in Finset.range D1D, (∑ dy in Finset.range D1D,
        (∑ dx in Finset.range D1D, x (idx4 D1D D1D D1D dx dy dz e) * T1 dx) * T2 dy) * T3 dz =
      ∑ dz in Finset.range D1D, (∑ dy in Finset.range D1D,
        (∑ dx in Finset.range D1D, x' (idx4 D1D D1D D1D dx dy dz e) * T1 dx) * T2 dy) *
          T3 dz := by
    intro T1 T2 T3
    refine Finset.sum_congr rfl (fun dz hdz => ?_)
    congr 1
    refine Finset.sum_congr rfl (fun dy hdy => ?_)
    congr 1
    refine Finset.sum_congr rfl (fun dx hdx => ?_)
    rw [hx dx dy dz (Finset.mem_range.mp hdx) (Finset.mem_range.mp hdy)
      (Finset.mem_range.mp hdz)]
  have hg : sumfact3D_grad D1D Q1D B G x e qz qy qx =
      sumfact3D_grad D1D Q1D B G x' e qz qy qx := by
    unfold sumfact3D_grad
    rw [hin (fun dx => G (idx2 Q1D qx dx)) (fun dy => B (idx2 Q1D qy dy))
        (fun dz => B (idx2 Q1D qz dz)),
      hin (fun dx => B (idx2 Q1D qx dx)) (fun dy => G (idx2 Q1D qy dy))
        (fun dz => B (idx2 Q1D qz dz)),
      hin (fun dx => B (idx2 Q1D qx dx)) (fun dy => B (idx2 Q1D qy dy))
        (fun dz => G (idx2 Q1D qz dz))]
  have hq := qidx3_lt hqx hqy hqz
  unfold sumfact3D_flux metricO3
  rw [hg, hop _ 0 hq (by decide), hop _ 1 hq (by decide), hop _ 2 hq (by decide),
    hop _ 3 hq (by decide), hop _ 4 hq (by decide), hop _ 5 hq (by decide)]

/-- The 3D backward sweep reads its argument at the quadrature points only. -/
theorem sumfact3D_back_congr (D1D Q1D : Nat) (Bt Gt : Nat → K)
    (F F' : Nat → Nat → Nat → Fin 3 → K)
    (hF : ∀ qz qy qx, qz < Q1D → qy < Q1D → qx < Q1D → F qz qy qx = F' qz qy qx)
    (dx dy dz : Nat) :
    sumfact3D_back D1D Q1D Bt Gt F dx dy dz = sumfact3D_back D1D Q1D Bt Gt F' dx dy dz := by
  have h : ∀ (qz : Nat), qz ∈ Finset.range Q1D → ∀ (c : Fin 3) (T1 T2 : Nat → K),
      ∑ qy in Finset.range Q1D, (∑ qx in Finset.range Q1D, F qz qy qx c * T1 qx) * T2 qy =
      ∑ qy in Finset.range Q1D, (∑ qx in Finset.range Q1D, F' qz qy qx c * T1 qx) * T2 qy := by
    intro qz hqz c T1 T2
    refine Finset.sum_congr rfl (fun qy hqy => ?_)
    congr 1
    refine Finset.sum_congr rfl (fun qx hqx => ?_)
    rw [hF qz qy qx (Finset.mem_range.mp hqz) (Finset.mem_range.mp hqy)
      (Finset.mem_range.mp hqx)]
  unfold sumfact3D_back
  refine Finset.sum_congr rfl (fun qz hqz => ?_)
  rw [h qz hqz 0 (fun qx => Gt (idx2 D1D dx qx)) (fun qy => Bt (idx2 D1D dy qy)),
    h qz hqz 1 (fun qx => Bt (idx2 D1D dx qx)) (fun qy => Gt (idx2 D1D dy qy)),
    h qz hqz 2 (fun qx => Bt (idx2 D1D dx qx)) (fun qy => Bt (idx2 D1D dy qy))]

/-- The sum-factorized 3D action on element `e` reads `x` and `op` in the
slots of element `e` only. -/
theorem sumfact3D_action_congr (D1D Q1D : Nat) (B G op op' x x' : Nat → K) (e : Nat)
    (hx : ∀ dx dy dz, dx < D1D → dy < D1D → dz < D1D →
      x (idx4 D1D D1D D1D dx dy dz e) = x' (idx4 D1D D1D D1D dx dy dz e))
    (hop : ∀ q s, q < Q1D * Q1D * Q1D → s < 6 →
      op (idx3 (Q1D * Q1D * Q1D) 6 q s e) = op' (idx3 (Q1D * Q1D * Q1D) 6 q s e))
    (dx dy dz : Nat) :
    sumfact3D_action D1D Q1D B G op x e dx dy dz =
      sumfact3D_action D1D Q1D B G op' x' e dx dy dz := by
  have h : ∀ (qz : Nat), qz ∈ Finset.range Q1D → ∀ (c : Fin 3) (T1 T2 : Nat → K),
      ∑ qy in Finset.range Q1D, (∑ qx in Finset.range Q1D,
        sumfact3D_flux D1D Q1D B G op x e qz qy qx c * T1 qx) * T2 qy =
      ∑ qy in Finset.range Q1D, (∑ qx in Finset.range Q1D,
        sumfact3D_flux D1D Q1D B G op' x' e qz qy qx c * T1 qx) * T2 qy := by
    intro qz hqz c T1 T2
    refine Finset.sum_congr rfl (fun qy hqy => ?_)
    congr 1
    refine Finset.sum_congr rfl (fun qx hqx => ?_)
    rw [sumfact3D_flux_congr D1D Q1D B G op op' x x' e hx hop qz qy qx
      (Finset.mem_range.mp hqz) (Finset.mem_range.mp hqy) (Finset.mem_range.mp hqx)]
  unfold sumfact3D_action
  refine Finset.sum_congr rfl (fun qz hqz => ?_)
  rw [h qz hqz 0 (fun qx => G (idx2 Q1D qx dx)) (fun qy => B (idx2 Q1D qy dy)),
    h qz hqz 1 (fun qx => B (idx2 Q1D qx dx)) (fun qy => G (idx2 Q1D qy dy)),
    h qz hqz 2 (fun qx => B (idx2 Q1D qx dx)) (fun qy => B (idx2 Q1D qy dy))]

/-- **C26.** Elements are independent in Apply: for each of
`PADiffusionApply2D`, `PADiffusionApply3D` and `SmemPADiffusionApply3D`, within
the limits and for every element `e < NE`, two runs whose `x`, `op` and
initial `y` agree on the slots of element `e` (and differ arbitrarily
elsewhere, scratch included) complete and leave the same values `y(.,e)`; and
no entry of `y` outside the element slots `0..NE-1` is changed. -/
theorem Apply_elements_independent (MAX_D1D MAX_Q1D T_D1D T_Q1D NE : Nat)
    (b g bt gt op op' x x' y0 y0' : Nat → K) (grad0 grad0' : Nat → Nat → Nat → K)
    (gradXq0 gradXq0' gradXd0 gradXd0' : Nat → Nat → K) (s0 s0' : Scratch3D K)
    (sh sh' : Shared3D K) (d1d q1d D1D Q1D : Nat)
    (hD1D : D1D = if T_D1D ≠ 0 then T_D1D else d1d)
    (hQ1D : Q1D = if T_Q1D ≠ 0 then T_Q1D else q1d)
    (hD : D1D ≤ MAX_D1D) (hQ : Q1D ≤ MAX_Q1D) (e : Nat) (he : e < NE) :
    (∃ y y',
      PADiffusionApply2D MAX_D1D MAX_Q1D T_D1D T_Q1D NE b g bt gt op x grad0 gradXq0 gradXd0
        y0 d1d q1d = some y ∧
      PADiffusionApply2D MAX_D1D MAX_Q1D T_D1D T_Q1D NE b g bt gt op' x' grad0' gradXq0'
        gradXd0' y0' d1d q1d = some y' ∧
      ((∀ dx dy, dx < D1D → dy < D1D →
          x (idx3 D1D D1D dx dy e) = x' (idx3 D1D D1D dx dy e) ∧
          y0 (idx3 D1D D1D dx dy e) = y0' (idx3 D1D D1D dx dy e)) →
        (∀ q s, q < Q1D * Q1D → s < 3 →
          op (idx3 (Q1D * Q1D) 3 q s e) = op' (idx3 (Q1D * Q1D) 3 q s e)) →
        ∀ dx dy, dx < D1D → dy < D1D →
          y (idx3 D1D D1D dx dy e) = y' (idx3 D1D D1D dx dy e)) ∧
      ∀ a, (∀ e dx dy, e < NE → dx < D1D → dy < D1D → a ≠ idx3 D1D D1D dx dy e) →
        y a = y0 a) ∧
    (∃ y y',
      PADiffusionApply3D MAX_D1D MAX_Q1D T_D1D T_Q1D NE b g bt gt op x s0 y0 d1d q1d =
        some y ∧
      PADiffusionApply3D MAX_D1D MAX_Q1D T_D1D T_Q1D NE b g bt gt op' x' s0' y0' d1d q1d =
        some y' ∧
      ((∀ dx dy dz, dx < D1D → dy < D1D → dz < D1D →
          x (idx4 D1D D1D D1D dx dy dz e) = x' (idx4 D1D D1D D1D dx dy dz e) ∧
          y0 (idx4 D1D D1D D1D dx dy dz e) = y0' (idx4 D1D D1D D1D dx dy dz e)) →
        (∀ q s, q < Q1D * Q1D * Q1D → s < 6 →
          op (idx3 (Q1D * Q1D * Q1D) 6 q s e) = op' (idx3 (Q1D * Q1D * Q1D) 6 q s e)) →
        ∀ dx dy dz, dx < D1D → dy < D1D → dz < D1D →
          y (idx4 D1D D1D D1D dx dy dz e) = y' (idx4 D1D D1D D1D dx dy dz e)) ∧
      ∀ a, (∀ e dx dy dz, e < NE → dx < D1D → dy < D1D → dz < D1D →
          a ≠ idx4 D1D D1D D1D dx dy dz e) → y a = y0 a) ∧
    (∃ y y',
      SmemPADiffusionApply3D MAX_D1D MAX_Q1D T_D1D T_Q1D NE b g op x sh y0 d1d q1d = some y ∧
      SmemPADiffusionApply3D MAX_D1D MAX_Q1D T_D1D T_Q1D NE b g op' x' sh' y0' d1d q1d =
        some y' ∧
      ((∀ dx dy dz, dx < D1D → dy < D1D → dz < D1D →
          x (idx4 D1D D1D D1D dx dy dz e) = x' (idx4 D1D D1D D1D dx dy dz e) ∧
          y0 (idx4 D1D D1D D1D dx dy dz e) = y0' (idx4 D1D D1D D1D dx dy dz e)) →
        (∀ q s, q < Q1D * Q1D * Q1D → s < 6 →
          op (idx3 (Q1D * Q1D * Q1D) 6 q s e) = op' (idx3 (Q1D * Q1D * Q1D) 6 q s e)) →
        ∀ dx dy dz, dx < D1D → dy < D1D → dz < D1D →
          y (idx4 D1D D1D D1D dx dy dz e) = y' (idx4 D1D D1D D1D dx dy dz e)) ∧
      ∀ a, (∀ e dx dy dz, e < NE → dx < D1D → dy < D1D → dz < D1D →
          a ≠ idx4 D1D D1D D1D dx dy dz e) → y a = y0 a) := by
  refine ⟨?_, ?_, ?_⟩
  · refine ⟨_, _,
      PADiffusionApply2D_eq_some MAX_D1D MAX_Q1D T_D1D T_Q1D NE b g bt gt op x grad0 gradXq0
        gradXd0 y0 d1d q1d D1D Q1D hD1D hQ1D hD hQ,
      PADiffusionApply2D_eq_some MAX_D1D MAX_Q1D T_D1D T_Q1D NE b g bt gt op' x' grad0'
        gradXq0' gradXd0' y0' d1d q1d D1D Q1D hD1D hQ1D hD hQ, ?_, ?_⟩
    · intro hxy hop dx dy hdx hdy
      rw [PADiffusionApply2D_loop_back _ _ _ _ _ _ _ _ _ _ _ _ _ _ _ _ he hdx hdy,
        PADiffusionApply2D_loop_back _ _ _ _ _ _ _ _ _ _ _ _ _ _ _ _ he hdx hdy,
        (hxy dx dy hdx hdy).2,
        sumfact2D_back_congr D1D Q1D bt gt _ _
          (fun qy qx hqy hqx => sumfact2D_flux_congr D1D Q1D b g op op' x x' e
            (fun dx dy hdx hdy => (hxy dx dy hdx hdy).1) hop qy qx hqy hqx)]
    · intro a ha
      exact PADiffusionApply2D_loop_frame _ _ _ _ _ _ _ _ _ _ _ _ _ _ ha
  · refine ⟨_, _,
      PADiffusionApply3D_eq_some MAX_D1D MAX_Q1D T_D1D T_Q1D NE b g bt gt op x s0 y0 d1d q1d
        D1D Q1D hD1D hQ1D hD hQ,
      PADiffusionApply3D_eq_some MAX_D1D MAX_Q1D T_D1D T_Q1D NE b g bt gt op' x' s0' y0' d1d
        q1d D1D Q1D hD1D hQ1D hD hQ, ?_, ?_⟩
    · intro hxy hop dx dy dz hdx hdy hdz
      rw [PADiffusionApply3D_loop_back _ _ _ _ _ _ _ _ _ _ _ _ _ _ _ he hdx hdy hdz,
        PADiffusionApply3D_loop_back _ _ _ _ _ _ _ _ _ _ _ _ _ _ _ he hdx hdy hdz,
        (hxy dx dy dz hdx hdy hdz).2,
        sumfact3D_back_congr D1D Q1D bt gt _ _
          (fun qz qy qx hqz hqy hqx => sumfact3D_flux_congr D1D Q1D b g op op' x x' e
            (fun dx dy dz hdx hdy hdz => (hxy dx dy dz hdx hdy hdz).1) hop qz qy qx
            hqz hqy hqx)]
    · intro a ha
      exact PADiffusionApply3D_loop_frame _ _ _ _ _ _ _ _ _ _ _ _ ha
  · have hMD : D1D ≤ (if T_D1D ≠ 0 then T_D1D else MAX_D1D) := by
      rw [hD1D] at hD ⊢
      split_ifs at hD ⊢
      · exact le_refl _
      · exact hD
    have hMQ : Q1D ≤ (if T_Q1D ≠ 0 then T_Q1D else MAX_Q1D) := by
      rw [hQ1D] at hQ ⊢
      split_ifs at hQ ⊢
      · exact le_refl _
      · exact hQ
    refine ⟨_, _,
      SmemPADiffusionApply3D_eq_some MAX_D1D MAX_Q1D T_D1D T_Q1D NE b g op x sh y0 d1d q1d
        D1D Q1D _ _ hD1D hQ1D rfl rfl hMD hMQ,
      SmemPADiffusionApply3D_eq_some MAX_D1D MAX_Q1D T_D1D T_Q1D NE b g op' x' sh' y0' d1d q1d
        D1D Q1D _ _ hD1D hQ1D rfl rfl hMD hMQ, ?_, ?_⟩
    · intro hxy hop dx dy dz hdx hdy hdz
      rw [SmemPADiffusionApply3D_loop_spec _ _ _ _ _ _ _ _ _ _ _ hMD hMQ e dx dy dz he hdx hdy
          hdz,
        SmemPADiffusionApply3D_loop_spec _ _ _ _ _ _ _ _ _ _ _ hMD hMQ e dx dy dz he hdx hdy
          hdz,
        (hxy dx dy dz hdx hdy hdz).2, ← sumfact3D_eq_dense, ← sumfact3D_eq_dense,
        sumfact3D_action_congr D1D Q1D b g op op' x x' e
          (fun dx dy dz hdx hdy hdz => (hxy dx dy dz hdx hdy hdz).1) hop]
    · intro a ha
      exact SmemPADiffusionApply3D_loop_frame _ _ _ _ _ _ _ _ _ _ _ _ ha

/-- Witness for C26: two elements with `D1D = 2`, `Q1D = 3`; the second run
changes `x`, `op` and the initial `y` on element `1` only, and the generic 3D
kernel leaves the same value in the cell `(1,1,1)` of element `0`. -/
theorem Apply_elements_independent_witness :
    ((2 : Nat) ≤ 14 ∧ (3 : Nat) ≤ 14 ∧ (0 : Nat) < 2) ∧
    ∃ y y' : Nat → ℚ,
      PADiffusionApply3D 14 14 0 0 2 (fun i => (i : ℚ) + 1) (fun i => 2 * (i : ℚ))
        (fun i => (i : ℚ) * (i : ℚ)) (fun i => 3 - (i : ℚ)) (fun i => (i : ℚ))
        (fun i => (i : ℚ))
        ⟨fun _ _ _ _ => 7, fun _ _ _ => 7, fun _ _ => 7, fun _ _ _ => 7, fun _ _ => 7⟩
        (fun _ => 5) 2 3 = some y ∧
      PADiffusionApply3D 14 14 0 0 2 (fun i => (i : ℚ) + 1) (fun i => 2 * (i : ℚ))
        (fun i => (i : ℚ) * (i : ℚ)) (fun i => 3 - (i : ℚ))
        (fun i => if i < 162 then (i : ℚ) else 1) (fun i => if i < 8 then (i : ℚ) else 100)
        ⟨fun _ _ _ _ => 1, fun _ _ _ => 1, fun _ _ => 1, fun _ _ _ => 1, fun _ _ => 1⟩
        (fun i => if i < 8 then 5 else 9) 2 3 = some y' ∧
      y (idx4 2 2 2 1 1 1 0) = y' (idx4 2 2 2 1 1 1 0) := by
  refine ⟨⟨by decide, by decide, by decide⟩, ?_⟩
  obtain ⟨y, y', h1, h2, h3, _⟩ := (Apply_elements_independent 14 14 0 0 2
    (fun i => (i : ℚ) + 1) (fun i => 2 * (i : ℚ))
    (fun i => (i : ℚ) * (i : ℚ)) (fun i => 3 - (i : ℚ)) (fun i => (i : ℚ))
    (fun i => if i < 162 then (i : ℚ) else 1) (fun i => (i : ℚ))
    (fun i => if i < 8 then (i : ℚ) else 100) (fun _ => 5) (fun i => if i < 8 then 5 else 9)
    (fun _ _ _ => 0) (fun _ _ _ => 0) (fun _ _ => 0) (fun _ _ => 0) (fun _ _ => 0)
    (fun _ _ => 0)
    ⟨fun _ _ _ _ => 7, fun _ _ _ => 7, fun _ _ => 7, fun _ _ _ => 7, fun _ _ => 7⟩
    ⟨fun _ _ _ _ => 1, fun _ _ _ => 1, fun _ _ => 1, fun _ _ _ => 1, fun _ _ => 1⟩
    ⟨fun _ => 0, fun _ => 0, fun _ => 0⟩ ⟨fun _ => 0, fun _ => 0, fun _ => 0⟩
    2 3 2 3 rfl rfl (by decide) (by decide) 0 (by decide)).2.1
  refine ⟨y, y', h1, h2, h3 ?_ ?_ 1 1 1 (by decide) (by decide) (by decide)⟩
  · intro dx dy dz hdx hdy hdz
    have h8 : idx4 2 2 2 dx dy dz 0 < 8 := by
      unfold idx4
      omega
    simp only [h8, if_true, and_self]
  · intro q s hq hs
    have h162 : idx3 (3 * 3 * 3) 6 q s 0 < 162 := by
      unfold idx3
      omega
    simp only [h162, if_true]

end ElementIndependence

section ReflectorOrderProofs

variable {K : Type*} [LinearOrderedField K]

/-- A counting loop is the left fold over `0, ..., n-1`. -/
theorem forLoop_eq_foldl {σ : Type*} (n : Nat) (body : Nat → σ → σ) (s : σ) :
    forLoop n body s = List.foldl (fun s i => body i s) s (List.range n) := by
  induction n with
  | zero => rfl
  | succ n ih => rw [forLoop_succ, ih, List.range_succ, List.foldl_append]; rfl

/-- A loop that visits the index `k-1-ii` in iteration `ii` is the left fold over
`k-1, ..., 0`. -/
theorem forLoop_reversed_eq_foldl {σ : Type*} (k : Nat) (f : Nat → σ → σ) (s : σ) :
    forLoop k (fun ii s => f (k - 1 - ii) s) s =
      List.foldl (fun s i => f i s) s (List.range k).reverse := by
  have hr : (List.range k).reverse = List.map (fun i => k - 1 - i) (List.range k) := by
    have h := List.reverse_range' 0 k
    rw [← List.range_eq_range'] at h
    rw [h]
    refine List.map_congr_left (fun i _ => ?_)
    rw [Nat.zero_add]
  rw [forLoop_eq_foldl, hr, List.foldl_map]

/-- `CeedHouseholderApplyQ` with `tmode = false` applies the reflectors
`k-1, ..., 0`, in that order. -/
theorem CeedHouseholderApplyQ_backward (A Q tau v0 : Nat → K) (m n k row col : Nat) :
    CeedHouseholderApplyQ A Q tau v0 false m n k row col =
      (List.foldl (fun s i => CeedHouseholderApplyQ_reflector Q tau m n k row col i s)
        (A, v0) (List.range k).reverse).1 := by
  unfold CeedHouseholderApplyQ
  rw [← forLoop_reversed_eq_foldl]
  rfl

/-- `CeedHouseholderApplyQ` with `tmode = true` applies the reflectors
`0, ..., k-1`, in that order. -/
theorem CeedHouseholderApplyQ_forward (A Q tau v0 : Nat → K) (m n k row col : Nat) :
    CeedHouseholderApplyQ A Q tau v0 true m n k row col =
      (List.foldl (fun s i => CeedHouseholderApplyQ_reflector Q tau m n k row col i s)
        (A, v0) (List.range k)).1 := by
  unfold CeedHouseholderApplyQ
  rw [← forLoop_eq_foldl]
  rfl

/-- **C29.** Order of reflectors in step 3 of the collocated-gradient
construction: `CeedBasisGetCollocatedGrad` applies the stored Householder
reflectors to the zero-padded intermediate in backward order, reflector
`P1d-1` first, then `P1d-2`, ..., and reflector `0` last. -/
theorem CeedBasisGetCollocatedGrad_reflector_order (sqrt : K → K) (P1d Q1d : Nat)
    (B G : Nat → K) (sc : QRScratch K) (colograd1d : Nat → K) :
    CeedBasisGetCollocatedGrad sqrt P1d Q1d B G sc colograd1d =
      match CeedQRFactorization sqrt
        (collocated_copy P1d Q1d B G (sc.interp1d, sc.grad1d)).1 sc.tau sc.vQR Q1d P1d with
      | none => none
      | some (interp1d, tau) =>
        some (List.foldl
          (fun s i => CeedHouseholderApplyQ_reflector interp1d tau Q1d Q1d P1d 1 Q1d i s)
          (collocated_solve P1d Q1d interp1d
            (collocated_copy P1d Q1d B G (sc.interp1d, sc.grad1d)).2 colograd1d, sc.vQ)
          (List.range P1d).reverse).1 := by
  unfold CeedBasisGetCollocatedGrad
  dsimp only
  cases CeedQRFactorization sqrt
      (collocated_copy P1d Q1d B G (sc.interp1d, sc.grad1d)).1 sc.tau sc.vQR Q1d P1d with
  | none => rfl
  | some p =>
    dsimp only
    rw [CeedHouseholderApplyQ_backward]

/-- Counterexample to C29 as stated: for the call of step 3 with
`P1d = Q1d = 2` (`tmode = false`, `row = 1`, `col = 2`), the code turns the
first row `(1, 1)` into `(0, -1)`: it applies reflector `1` first and
reflector `0` last.  Applying the reflectors in forward order gives `(-1, 0)`
instead. -/
theorem CeedHouseholderApplyQ_not_forward :
    (CeedHouseholderApplyQ applyQIn_A applyQIn_Q (fun _ => 1) (fun _ => 0) false 2 2 2 1 2 0 =
        0 ∧
      CeedHouseholderApplyQ applyQIn_A applyQIn_Q (fun _ => 1) (fun _ => 0) false 2 2 2 1 2 1 =
        -1) ∧
    ((List.foldl
        (fun s i => CeedHouseholderApplyQ_reflector applyQIn_Q (fun _ => 1) 2 2 2 1 2 i s)
        (applyQIn_A, fun _ => 0) (List.range 2)).1 0 = -1 ∧
      (List.foldl
        (fun s i => CeedHouseholderApplyQ_reflector applyQIn_Q (fun _ => 1) 2 2 2 1 2 i s)
        (applyQIn_A, fun _ => 0) (List.range 2)).1 1 = 0) := by
  refine ⟨⟨?_, ?_⟩, ?_, ?_⟩ <;>
  · simp only [CeedHouseholderApplyQ, CeedHouseholderApplyQ_reflector, CeedHouseholderReflect,
      forLoopFrom, forLoop, List.range_succ, List.range_zero, List.nil_append, List.foldl_cons,
      List.foldl_nil, List.cons_append]
    norm_num [Function.update, applyQIn_A, applyQIn_Q, forLoop]

end ReflectorOrderProofs

section QRReconstructProofs

variable {K : Type*} [LinearOrderedField K]

/-- One pass of the loop of `CeedHouseholderApplyQ` on a row-major matrix with
`n` columns (`row = n`, `col = 1`): every column has the stored reflector `i`
applied to it. -/
theorem applyQ_col_iter_spec (A Qm tau v : Nat → K) (m n k i : Nat) (hik : i < k)
    (hkm : k ≤ m) (j r : Nat) (hj : j < n) (hr : r < m) :
    CeedHouseholderReflect A (i * n)
        (forLoopFrom (i + 1) m (fun j v => Function.update v j (Qm (j * k + i))) v) i (tau i)
        (m - i) n n 1 (j + n * r) =
      qrReflector m k Qm tau i (colOf n A j) r := by
  have him : i < m := lt_of_lt_of_le hik hkm
  have hv : ∀ q, i < q → q < m →
      forLoopFrom (i + 1) m (fun j v => Function.update v j (Qm (j * k + i))) v q =
        Qm (i + k * q) := by
    intro q hiq hqm
    have e : q * k + i = i + k * q := by ring
    rw [← e]
    exact forLoopFrom_update_hit (i + 1) m (fun j => j) (fun j _ => Qm (j * k + i)) v q hiq hqm
      (fun j _ _ hne => hne)
  generalize forLoopFrom (i + 1) m (fun j v => Function.update v j (Qm (j * k + i))) v = v'
    at hv ⊢
  have hinj : ∀ a a' b b', a < m - i → a' < m - i → b < n → b' < n →
      i * n + (a * n + b * 1) = i * n + (a' * n + b' * 1) → a = a' ∧ b = b' := by
    intro a a' b b' _ _ hb hb' h
    have h1 : b + n * (i + a) = b' + n * (i + a') := by
      have e1 : b + n * (i + a) = i * n + (a * n + b * 1) := by ring
      have e2 : b' + n * (i + a') = i * n + (a' * n + b' * 1) := by ring
      rw [e1, e2, h]
    have := rowmajor_inj hb hb' h1
    omega
  unfold qrReflector reflector
  rw [householderU_dot m i _ _ him]
  by_cases hri : i ≤ r
  · obtain ⟨a, rfl⟩ : ∃ a, r = i + a := ⟨r - i, by omega⟩
    have haddr : ∀ q, j + n * (i + q) = i * n + (q * n + j * 1) := by
      intro q
      ring
    rw [haddr a, CeedHouseholderReflect_spec A (i * n) v' i (tau i) (m - i) n n 1 (by omega)
      hinj a j (by omega) hj]
    have hsum : ∑ k' in Finset.range (m - i - 1),
        v' (i + (1 + k')) * A (i * n + ((1 + k') * n + j * 1)) =
        ∑ k' in Finset.range (m - (i + 1)),
          colOf k Qm i (i + 1 + k') * colOf n A j (i + 1 + k') := by
      rw [Nat.sub_sub]
      refine Finset.sum_congr rfl (fun k' hk' => ?_)
      have hk'' := Finset.mem_range.mp hk'
      have e1 : i + (1 + k') = i + 1 + k' := by ring
      have e2 : i * n + ((1 + k') * n + j * 1) = j + n * (i + 1 + k') := by ring
      rw [e1, e2, hv (i + 1 + k') (by omega) (by omega)]
      rfl
    have e0 : i * n + (0 * n + j * 1) = j + n * i := by ring
    rw [hsum, e0, ← haddr a]
    show _ = A (j + n * (i + a)) - tau i * (A (j + n * i) + _) * _
    congr 1
    congr 1
    by_cases h0 : a = 0
    · subst h0
      simp only [householderU, if_pos rfl, Nat.add_zero, if_true]
    · have hne : i + a ≠ i := by omega
      have hlt : i < i + a ∧ i + a < m := ⟨by omega, hr⟩
      simp only [householderU, if_neg h0, if_neg hne, if_pos hlt, colOf]
      rw [hv (i + a) hlt.1 hr]
  · have hne : r ≠ i := by omega
    have hn : ¬ (i < r ∧ r < m) := by omega
    rw [CeedHouseholderReflect_frame A (i * n) v' i (tau i) (m - i) n n 1 (by omega) _
      (fun a b _ hb h => by
        have e : i * n + (a * n + b * 1) = b + n * (i + a) := by ring
        rw [e] at h
        have := (rowmajor_inj hj hb h).2
        omega)]
    simp only [householderU, if_neg hne, if_neg hn, mul_zero, sub_zero]
    rfl

/-- `CeedHouseholderApplyQ` with `tmode = false`, `row = n`, `col = 1`: every
column of the row-major `A` has the stored reflectors `k-1, ..., 0` applied to
it, in that order. -/
theorem CeedHouseholderApplyQ_col_spec (A Qm tau v0 : Nat → K) (m n k : Nat) (hkm : k ≤ m)
    (j r : Nat) (hj : j < n) (hr : r < m) :
    CeedHouseholderApplyQ A Qm tau v0 false m n k n 1 (j + n * r) =
      forLoop k (fun ii x => qrReflector m k Qm tau (k - 1 - ii) x) (colOf n A j) r := by
  rw [CeedHouseholderApplyQ_backward, ← forLoop_reversed_eq_foldl]
  have hgen : ∀ c, c ≤ k → ∀ r, r < m →
      (forLoop c (fun ii s =>
        CeedHouseholderApplyQ_reflector Qm tau m n k n 1 (k - 1 - ii) s) (A, v0)).1
        (j + n * r) =
      forLoop c (fun ii x => qrReflector m k Qm tau (k - 1 - ii) x) (colOf n A j) r := by
    intro c
    induction c with
    | zero =>
      intro _ r _
      rfl
    | succ c ih =>
      intro hc r hr
      rw [forLoop_succ, forLoop_succ]
      unfold CeedHouseholderApplyQ_reflector
      dsimp only
      rw [applyQ_col_iter_spec _ Qm tau _ m n k (k - 1 - c) (by omega) hkm j r hj hr]
      unfold qrReflector
      exact reflector_congr m _ _ _ _ (fun q hq => ih (by omega) q hq) r hr
  exact hgen k (le_refl k) r hr

/-- A reflector `y ↦ y - t (u · y) u` with `t (u · u) = 2` is its own inverse. -/
theorem reflector_involution (m : Nat) (u : Nat → K) (t : K) (y : Nat → K)
    (h : t * ∑ q in Finset.range m, u q * u q = 2) (r : Nat) :
    reflector m u t (reflector m u t y) r = y r := by
  unfold reflector
  have hdot : ∀ c : K, ∑ q in Finset.range m, u q * (y q - c * u q) =
      ∑ q in Finset.range m, u q * y q - c * ∑ q in Finset.range m, u q * u q := by
    intro c
    rw [Finset.mul_sum, ← Finset.sum_sub_distrib]
    refine Finset.sum_congr rfl (fun q _ => ?_)
    ring
  rw [hdot]
  linear_combination (t * (∑ q in Finset.range m, u q * y q) * u r) * h

/-- A loop of maps that read their argument on the rows `< m` only. -/
theorem forLoop_congr_rows (m k : Nat) (H : Nat → (Nat → K) → (Nat → K))
    (hcongr : ∀ i (y y' : Nat → K), (∀ q, q < m → y q = y' q) → ∀ r, r < m → H i y r = H i y' r)
    (y y' : Nat → K) (h : ∀ q, q < m → y q = y' q) (r : Nat) (hr : r < m) :
    forLoop k (fun ii x => H ii x) y r = forLoop k (fun ii x => H ii x) y' r := by
  induction k generalizing r with
  | zero => exact h r hr
  | succ k ih =>
    rw [forLoop_succ, forLoop_succ]
    exact hcongr k _ _ (fun q hq => ih q hq) r hr

/-- Involutions applied in the order `0, ..., k-1` and then in the order
`k-1, ..., 0` cancel. -/
theorem reflectors_cancel (m : Nat) (k : Nat) (H : Nat → (Nat → K) → (Nat → K))
    (hinv : ∀ i, i < k → ∀ (y : Nat → K) r, r < m → H i (H i y) r = y r)
    (hcongr : ∀ i (y y' : Nat → K), (∀ q, q < m → y q = y' q) → ∀ r, r < m → H i y r = H i y' r)
    (y : Nat → K) (r : Nat) (hr : r < m) :
    forLoop k (fun ii x => H (k - 1 - ii) x) (forLoop k (fun i y => H i y) y) r = y r := by
  induction k generalizing r with
  | zero => rfl
  | succ k ih =>
    have hpeel : ∀ z : Nat → K, forLoop (k + 1) (fun ii x => H (k + 1 - 1 - ii) x) z =
        forLoop k (fun ii x => H (k - 1 - ii) x) (H k z) := by
      intro z
      rw [forLoop_peel]
      refine forLoop_congr k _ _ _ (fun ii hii s => ?_)
      have e : k + 1 - 1 - (ii + 1) = k - 1 - ii := by omega
      rw [e]
    rw [hpeel, forLoop_succ]
    rw [forLoop_congr_rows m k (fun ii x => H (k - 1 - ii) x)
      (fun i y y' h r hr => hcongr (k - 1 - i) y y' h r hr) _
      (forLoop k (fun i y => H i y) y)
      (fun q hq => hinv k (Nat.lt_succ_self k) _ q hq) r hr]
    exact ih (fun i hi => hinv i (Nat.lt_succ_of_lt hi)) r hr

/-- The factors stored by `CeedQRFactorization` reproduce the matrix: over an
ordered field with a square root, for `n ≤ m` and `B` of full column rank, the
stored reflectors applied in the order `n-1, ..., 0` to the upper triangle of
the factored matrix give back `B`. -/
theorem CeedQRFactorization_recover (sqrt : K → K)
    (hsqrt : ∀ t : K, 0 ≤ t → 0 ≤ sqrt t ∧ sqrt t * sqrt t = t) (m n : Nat)
    (B tau0 v0 vQ : Nat → K) (hnm : n ≤ m)
    (hrank : ∀ c : Nat → K,
      (∀ q, q < m → ∑ d in Finset.range n, B (d + n * q) * c d = 0) → ∀ d, d < n → c d = 0) :
    ∃ mat tau, CeedQRFactorization sqrt B tau0 v0 m n = some (mat, tau) ∧
      ∀ R : Nat → K,
        (∀ r j, r < m → j < n → R (j + n * r) = if r ≤ j then mat (j + n * r) else 0) →
        ∀ r j, r < m → j < n →
          CeedHouseholderApplyQ R mat tau vQ false m n n n 1 (j + n * r) = B (j + n * r) := by
  refine ⟨(forLoop n (fun i s => CeedQRFactorization_step sqrt m n i s) (B, tau0, v0)).1,
    (forLoop n (fun i s => CeedQRFactorization_step sqrt m n i s) (B, tau0, v0)).2.1, ?_, ?_⟩
  · unfold CeedQRFactorization
    rw [if_neg (not_lt.mpr hnm)]
  · have hinv := QRInvariant_loop sqrt hsqrt m n B tau0 v0 hnm hrank n (le_refl n)
    generalize (forLoop n (fun i s => CeedQRFactorization_step sqrt m n i s) (B, tau0, v0)) = s
      at hinv ⊢
    obtain ⟨-, hI2, hI3, hI4, -⟩ := hinv
    intro R hR r j hr hj
    rw [CeedHouseholderApplyQ_col_spec R s.1 s.2.1 vQ m n n hnm j r hj hr]
    have hcongr : ∀ i (y y' : Nat → K), (∀ q, q < m → y q = y' q) → ∀ r, r < m →
        qrReflector m n s.1 s.2.1 i y r = qrReflector m n s.1 s.2.1 i y' r :=
      fun i y y' h r hr => reflector_congr m _ _ y y' h r hr
    have hcol : ∀ q, q < m → colOf n R j q = qrColumn m n s.1 s.2.1 n B j q := by
      intro q hq
      show R (j + n * q) = _
      rw [hR q j hq hj]
      by_cases hle : q ≤ j
      · rw [if_pos hle]
        exact hI2 j q hj hq hle
      · rw [if_neg hle]
        exact (hI3 j q hj hq (by omega)).symm
    rw [forLoop_congr_rows m n (fun ii x => qrReflector m n s.1 s.2.1 (n - 1 - ii) x)
      (fun i y y' h r hr => hcongr (n - 1 - i) y y' h r hr) _ _ hcol r hr]
    unfold qrColumn
    exact reflectors_cancel m n (fun i y => qrReflector m n s.1 s.2.1 i y)
      (fun i hi y r _ => reflector_involution m _ _ y (hI4 i hi) r) hcongr (colOf n B j) r hr

/-- **C30.** `B` is recoverable from the stored QR factors: over the reals,
for every `m >= n` and every row-major `m x n` matrix `B` of full column rank
(entry `(r,j)` at offset `j + n*r`), `CeedQRFactorization(mat := B, tau, m, n)`
completes, and with `R` the `m x n` matrix whose entries on and above the
diagonal are those of the factored `mat` and whose other entries are `0`,
`CeedHouseholderApplyQ(R, mat, tau, tmode = false, m, n, n, row = n, col = 1)`
leaves `B` in `R`, entry by entry (`Q*R = B`). -/
theorem CeedQRFactorization_reconstructs (m n : Nat) (B tau0 v0 vQ : Nat → ℝ) (hnm : n ≤ m)
    (hrank : ∀ c : Nat → ℝ,
      (∀ q, q < m → ∑ d in Finset.range n, B (d + n * q) * c d = 0) → ∀ d, d < n → c d = 0) :
    ∃ mat tau, CeedQRFactorization Real.sqrt B tau0 v0 m n = some (mat, tau) ∧
      ∀ R : Nat → ℝ,
        (∀ r j, r < m → j < n → R (j + n * r) = if r ≤ j then mat (j + n * r) else 0) →
        ∀ r j, r < m → j < n →
          CeedHouseholderApplyQ R mat tau vQ false m n n n 1 (j + n * r) = B (j + n * r) :=
  CeedQRFactorization_recover Real.sqrt
    (fun t ht => ⟨Real.sqrt_nonneg t, Real.mul_self_sqrt ht⟩) m n B tau0 v0 vQ hnm hrank

/-- Witness for C30: `m = 3`, `n = 2`, the columns of `B` being `(1,1,1)` and
`(0,1,2)`. -/
theorem CeedQRFactorization_reconstructs_witness :
    ((2 : Nat) ≤ 3 ∧ ∀ c : Nat → ℝ,
      (∀ q, q < 3 → ∑ d in Finset.range 2,
        (fun i : Nat => if i % 2 = 0 then (1 : ℝ) else ((i / 2 : Nat) : ℝ)) (d + 2 * q) * c d =
          0) → ∀ d, d < 2 → c d = 0) ∧
    ∃ mat tau, CeedQRFactorization Real.sqrt
        (fun i : Nat => if i % 2 = 0 then (1 : ℝ) else ((i / 2 : Nat) : ℝ))
        (fun _ => 0) (fun _ => 0) 3 2 = some (mat, tau) ∧
      ∀ R : Nat → ℝ,
        (∀ r j, r < 3 → j < 2 → R (j + 2 * r) = if r ≤ j then mat (j + 2 * r) else 0) →
        ∀ r j, r < 3 → j < 2 →
          CeedHouseholderApplyQ R mat tau (fun _ => 0) false 3 2 2 2 1 (j + 2 * r) =
            (fun i : Nat => if i % 2 = 0 then (1 : ℝ) else ((i / 2 : Nat) : ℝ)) (j + 2 * r) := by
  have hrank : ∀ c : Nat → ℝ,
      (∀ q, q < 3 → ∑ d in Finset.range 2,
        (fun i : Nat => if i % 2 = 0 then (1 : ℝ) else ((i / 2 : Nat) : ℝ)) (d + 2 * q) * c d =
          0) → ∀ d, d < 2 → c d = 0 := by
    intro c hc d hd
    have h0 := hc 0 (by norm_num)
    have h1 := hc 1 (by norm_num)
    simp only [Finset.sum_range_succ, Finset.sum_range_zero] at h0 h1
    norm_num at h0 h1
    interval_cases d
    · exact h0
    · linarith
  exact ⟨⟨by norm_num, hrank⟩,
    CeedQRFactorization_reconstructs 3 2 _ _ _ _ (by norm_num) hrank⟩

end QRReconstructProofs

section QRColumnLemmas

variable {K : Type*} [LinearOrderedField K]

/-- The pivot `v[i]` left by one step of `CeedQRFactorization` (line 1450):
the diagonal entry minus `Rii`; the scaling loop does not touch it. -/
theorem CeedQRFactorization_step_v (sqrt : K → K) (m n i : Nat)
    (s : (Nat → K) × (Nat → K) × (Nat → K)) (a σ Rii : K) (ha : a = s.1 (i + n * i))
    (hσ : σ = ∑ k in Finset.range (m - (i + 1)),
      s.1 (i + n * (i + 1 + k)) * s.1 (i + n * (i + 1 + k)))
    (hR : Rii = -copysign (sqrt (a * a + σ)) a) :
    (CeedQRFactorization_step sqrt m n i s).2.2 i = a - Rii := by
  unfold CeedQRFactorization_step
  dsimp only
  obtain ⟨hs2, -, hv1'⟩ := qr_gather_spec m n i s.1 (Function.update s.2.2 i (s.1 (i + n * i)))
  generalize (forLoopFrom (i + 1) m (fun j (vs : (Nat → K) × K) =>
      (Function.update vs.1 j (s.1 (i + n * j)),
        vs.2 + Function.update vs.1 j (s.1 (i + n * j)) j *
          Function.update vs.1 j (s.1 (i + n * j)) j))
      (Function.update s.2.2 i (s.1 (i + n * i)), 0)) = vs at hs2 hv1' ⊢
  have hvi : vs.1 i = a := by
    rw [hv1' i (Or.inl (le_refl i)), Function.update_same, ha]
  rw [← hσ] at hs2
  simp only [hvi, hs2, ← hR]
  rw [(qr_scale_spec m i (Function.update vs.1 i (a - Rii))).2 i (Or.inl (le_refl i)),
    Function.update_same]

/-- Later steps of `CeedQRFactorization` leave column `i` of `mat` and `tau[i]`
as step `i` stored them. -/
theorem CeedQRFactorization_column_kept (sqrt : K → K) (m n i : Nat) (s0 : (Nat → K) × (Nat → K) × (Nat → K))
    (hnm : n ≤ m) (k : Nat) (hik : i + 1 ≤ k) (hkn : k ≤ n) :
    (∀ r, (forLoop k (fun i s => CeedQRFactorization_step sqrt m n i s) s0).1 (i + n * r) =
      (forLoop (i + 1) (fun i s => CeedQRFactorization_step sqrt m n i s) s0).1 (i + n * r)) ∧
    (forLoop k (fun i s => CeedQRFactorization_step sqrt m n i s) s0).2.1 i =
      (forLoop (i + 1) (fun i s => CeedQRFactorization_step sqrt m n i s) s0).2.1 i := by
  induction k, hik using Nat.le_induction with
  | base => exact ⟨fun _ => rfl, rfl⟩
  | succ k hik ih =>
    obtain ⟨ih1, ih2⟩ := ih (by omega)
    have hkn' : k < n := by omega
    obtain ⟨ht, -, -, -, hfr⟩ := CeedQRFactorization_step_spec sqrt m n k
      (forLoop k (fun i s => CeedQRFactorization_step sqrt m n i s) s0) hkn' hnm
      _ _ _ _ _ rfl rfl rfl rfl rfl
    refine ⟨fun r => ?_, ?_⟩
    · rw [← ih1 r]
      refine hfr _ (fun r' d _ _ hkd hdn h => ?_)
      have := (rowmajor_inj (by omega) hdn h).1
      omega
    · rw [← ih2]
      show (CeedQRFactorization_step sqrt m n k _).2.1 i = _
      rw [ht, Function.update_noteq (by omega)]

/-- Sign and size of the diagonal entry `Rii = -copysign(sqrt(a² + σ), a)`
and of the pivot `a - Rii`. -/
theorem householder_pivot_sign (sqrt : K → K)
    (hsqrt : ∀ t : K, 0 ≤ t → 0 ≤ sqrt t ∧ sqrt t * sqrt t = t) (a σ : K) (hσ : 0 ≤ σ) :
    -copysign (sqrt (a * a + σ)) a = -(if a < 0 then -1 else 1) * sqrt (a * a + σ) ∧
    (-copysign (sqrt (a * a + σ)) a) * a ≤ 0 ∧
    |a - -copysign (sqrt (a * a + σ)) a| = |a| + sqrt (a * a + σ) := by
  have h0 : 0 ≤ a * a + σ := add_nonneg (mul_self_nonneg a) hσ
  obtain ⟨hn0, -⟩ := hsqrt (a * a + σ) h0
  unfold copysign
  rw [abs_of_nonneg hn0]
  by_cases ha : a < 0
  · rw [if_pos ha, if_pos ha, abs_of_neg ha]
    refine ⟨by ring, ?_, ?_⟩
    · rw [neg_neg]
      exact mul_nonpos_of_nonneg_of_nonpos hn0 ha.le
    · rw [neg_neg, abs_of_nonpos (by linarith)]
      ring
  · rw [if_neg ha, if_neg ha]
    have ha' : 0 ≤ a := not_lt.mp ha
    rw [abs_of_nonneg ha']
    refine ⟨by ring, ?_, ?_⟩
    · have := mul_nonneg hn0 ha'
      linarith
    · rw [sub_neg_eq_add, abs_of_nonneg (add_nonneg ha' hn0)]

/-- Bounds on the scale `2 v² / (v² + σ)` of a nonzero column. -/
theorem householder_tau_bounds (sqrt : K → K)
    (hsqrt : ∀ t : K, 0 ≤ t → 0 ≤ sqrt t ∧ sqrt t * sqrt t = t) (a σ : K) (hσ : 0 ≤ σ)
    (hne : a * a + σ ≠ 0) :
    1 ≤ 2 * (a - -copysign (sqrt (a * a + σ)) a) * (a - -copysign (sqrt (a * a + σ)) a) /
      ((a - -copysign (sqrt (a * a + σ)) a) * (a - -copysign (sqrt (a * a + σ)) a) + σ) ∧
    2 * (a - -copysign (sqrt (a * a + σ)) a) * (a - -copysign (sqrt (a * a + σ)) a) /
      ((a - -copysign (sqrt (a * a + σ)) a) * (a - -copysign (sqrt (a * a + σ)) a) + σ) ≤ 2 := by
  have h0 : 0 ≤ a * a + σ := add_nonneg (mul_self_nonneg a) hσ
  obtain ⟨hn0, hn2⟩ := hsqrt (a * a + σ) h0
  obtain ⟨-, -, hv⟩ := householder_pivot sqrt hsqrt a σ hσ hne
  obtain ⟨-, -, habs⟩ := householder_pivot_sign sqrt hsqrt a σ hσ
  generalize a - -copysign (sqrt (a * a + σ)) a = v at hv habs
  have hvv : 0 < v * v := mul_self_pos.mpr hv
  have hden : 0 < v * v + σ := by linarith
  have hge : σ ≤ v * v := by
    have h1 : v * v = |v| * |v| := (abs_mul_abs_self v).symm
    have h2 : |a| * |a| = a * a := abs_mul_abs_self a
    have h3 := mul_nonneg (abs_nonneg a) hn0
    rw [h1, habs]
    nlinarith
  constructor
  · rw [le_div_iff₀ hden]
    linarith
  · rw [div_le_iff₀ hden]
    linarith

end QRColumnLemmas

section ReflectInvolutionLemmas

variable {K : Type*} [LinearOrderedField K]

/-- With no rows (`m = 0`) the loop of `CeedHouseholderReflect` still visits
row `0` of every column; with `b = 2` each visit negates the entry, so the
result is the input multiplied entrywise by signs that do not depend on it. -/
theorem CeedHouseholderReflect_zero_rows (aoff : Nat) (v : Nat → K) (voff n row col : Nat) :
    ∃ ε : Nat → K, (∀ x, ε x * ε x = 1) ∧
      ∀ A : Nat → K, CeedHouseholderReflect A aoff v voff 2 0 n row col = fun x => ε x * A x := by
  have hbody : ∀ (k : Nat) (A : Nat → K), CeedHouseholderReflect A aoff v voff 2 0 k row col =
      forLoop k (fun j A => Function.update A (aoff + (0 * row + j * col))
        (A (aoff + (0 * row + j * col)) - 2 * A (aoff + (0 * row + j * col)))) A :=
    fun _ _ => rfl
  simp only [hbody]
  induction n with
  | zero => exact ⟨fun _ => 1, fun _ => by ring, fun A => by funext x; simp [forLoop]⟩
  | succ n ih =>
    obtain ⟨ε, hε, hA⟩ := ih
    refine ⟨Function.update ε (aoff + (0 * row + n * col)) (-ε (aoff + (0 * row + n * col))),
      fun x => ?_, fun A => ?_⟩
    · by_cases hx : x = aoff + (0 * row + n * col)
      · subst hx
        rw [Function.update_same, neg_mul_neg, hε]
      · rw [Function.update_noteq hx, hε]
    · rw [forLoop, hA A]
      funext x
      by_cases hx : x = aoff + (0 * row + n * col)
      · subst hx
        rw [Function.update_same, Function.update_same]
        ring
      · rw [Function.update_noteq hx, Function.update_noteq hx]

/-- Applying `CeedHouseholderReflect` twice with `b (1 + Σ v[i]²) = 2` gives
back the input, when the `m x n` block is addressed without overlap. -/
theorem CeedHouseholderReflect_twice (A : Nat → K) (aoff : Nat) (v : Nat → K) (voff : Nat)
    (b : K) (m n row col : Nat) (hm : 0 < m)
    (hinj : ∀ i i' j j', i < m → i' < m → j < n → j' < n →
      aoff + (i * row + j * col) = aoff + (i' * row + j' * col) → i = i' ∧ j = j')
    (hb : b * (1 + ∑ k in Finset.range (m - 1), v (voff + (1 + k)) * v (voff + (1 + k))) = 2) :
    CeedHouseholderReflect (CeedHouseholderReflect A aoff v voff b m n row col)
      aoff v voff b m n row col = A := by
  funext x
  by_cases hx : ∃ i j, i < m ∧ j < n ∧ x = aoff + (i * row + j * col)
  · obtain ⟨i, j, hi, hj, rfl⟩ := hx
    rw [CeedHouseholderReflect_spec _ aoff v voff b m n row col hm hinj i j hi hj,
      CeedHouseholderReflect_spec A aoff v voff b m n row col hm hinj i j hi hj,
      CeedHouseholderReflect_spec A aoff v voff b m n row col hm hinj 0 j hm hj]
    have hsum : ∑ k in Finset.range (m - 1), v (voff + (1 + k)) *
        CeedHouseholderReflect A aoff v voff b m n row col (aoff + ((1 + k) * row + j * col)) =
        ∑ k in Finset.range (m - 1), v (voff + (1 + k)) * A (aoff + ((1 + k) * row + j * col)) -
        b * (A (aoff + (0 * row + j * col)) + ∑ k in Finset.range (m - 1),
          v (voff + (1 + k)) * A (aoff + ((1 + k) * row + j * col))) *
          ∑ k in Finset.range (m - 1), v (voff + (1 + k)) * v (voff + (1 + k)) := by
      rw [Finset.mul_sum, ← Finset.sum_sub_distrib]
      refine Finset.sum_congr rfl (fun k hk => ?_)
      have hk' := Finset.mem_range.mp hk
      rw [CeedHouseholderReflect_spec A aoff v voff b m n row col hm hinj (1 + k) j
        (by omega) hj, if_neg (by omega)]
      ring
    rw [hsum, if_pos rfl]
    generalize (∑ k in Finset.range (m - 1),
      v (voff + (1 + k)) * A (aoff + ((1 + k) * row + j * col))) = T
    generalize (∑ k in Finset.range (m - 1), v (voff + (1 + k)) * v (voff + (1 + k))) = S at hb
    linear_combination (b * (A (aoff + (0 * row + j * col)) + T) *
      (if i = 0 then 1 else v (voff + i))) * hb
  · have hx' : ∀ i j, i < m → j < n → x ≠ aoff + (i * row + j * col) :=
      fun i j hi hj h => hx ⟨i, j, hi, hj, h⟩
    rw [CeedHouseholderReflect_frame _ aoff v voff b m n row col hm x hx',
      CeedHouseholderReflect_frame A aoff v voff b m n row col hm x hx']

/-- `CeedHouseholderReflect` with `b = 2/(1 + Σ_{i=1..m-1} v[i]²)` is an
involution, for every `m` (also `m = 0`). -/
theorem CeedHouseholderReflect_involutive (A : Nat → K) (aoff : Nat) (v : Nat → K) (voff : Nat)
    (m n row col : Nat)
    (hinj : ∀ i i' j j', i < m → i' < m → j < n → j' < n →
      aoff + (i * row + j * col) = aoff + (i' * row + j' * col) → i = i' ∧ j = j') :
    CeedHouseholderReflect (CeedHouseholderReflect A aoff v voff
        (2 / (1 + ∑ k in Finset.range (m - 1), v (voff + (1 + k)) * v (voff + (1 + k))))
        m n row col) aoff v voff
      (2 / (1 + ∑ k in Finset.range (m - 1), v (voff + (1 + k)) * v (voff + (1 + k))))
      m n row col = A := by
  rcases Nat.eq_zero_or_pos m with h0 | hm
  · subst h0
    obtain ⟨ε, hε, hA⟩ := CeedHouseholderReflect_zero_rows aoff v voff n row col
    simp only [Nat.zero_sub, Finset.range_zero, Finset.sum_empty, add_zero, div_one]
    rw [hA, hA]
    funext x
    rw [← mul_assoc, hε, one_mul]
  · refine CeedHouseholderReflect_twice A aoff v voff _ m n row col hm hinj ?_
    have hpos : 0 < 1 + ∑ k in Finset.range (m - 1),
        v (voff + (1 + k)) * v (voff + (1 + k)) :=
      add_pos_of_pos_of_nonneg one_pos (Finset.sum_nonneg (fun k _ => mul_self_nonneg _))
    exact div_mul_cancel₀ _ hpos.ne.symm

end ReflectInvolutionLemmas

section QRColumnSpecProofs

variable {K : Type*} [LinearOrderedField K]

/-- What `CeedQRFactorization` returns for column `i`: with `a` the diagonal
entry and `σ` the sum of the squares below it when step `i` starts, the
diagonal holds `Rii = -copysign(sqrt(a² + σ), a)`, `tau[i]` holds
`2 v² / (v² + σ)` for `v = a - Rii`, and the entries below the diagonal are
those of the start of step `i` divided by `v`. -/
theorem CeedQRFactorization_column_spec (sqrt : K → K) (m n i : Nat) (mat tau v0 : Nat → K)
    (hin : i < n) (hnm : n ≤ m) (a σ Rii v : K)
    (ha : a = (forLoop i (fun i s => CeedQRFactorization_step sqrt m n i s)
      (mat, tau, v0)).1 (i + n * i))
    (hσ : σ = ∑ k in Finset.range (m - (i + 1)),
      (forLoop i (fun i s => CeedQRFactorization_step sqrt m n i s)
        (mat, tau, v0)).1 (i + n * (i + 1 + k)) *
      (forLoop i (fun i s => CeedQRFactorization_step sqrt m n i s)
        (mat, tau, v0)).1 (i + n * (i + 1 + k)))
    (hR : Rii = -copysign (sqrt (a * a + σ)) a) (hv : v = a - Rii) :
    ∃ mat' tau', CeedQRFactorization sqrt mat tau v0 m n = some (mat', tau') ∧
      mat' (i + n * i) = Rii ∧ tau' i = 2 * v * v / (v * v + σ) ∧
      ∀ r, i < r → r < m → mat' (i + n * r) =
        (forLoop i (fun i s => CeedQRFactorization_step sqrt m n i s)
          (mat, tau, v0)).1 (i + n * r) / v := by
  obtain ⟨hk1, hk2⟩ := CeedQRFactorization_column_kept sqrt m n i (mat, tau, v0) hnm n
    (by omega) (le_refl n)
  obtain ⟨ht, hd, hb, -, -⟩ := CeedQRFactorization_step_spec sqrt m n i
    (forLoop i (fun i s => CeedQRFactorization_step sqrt m n i s) (mat, tau, v0)) hin hnm
    a σ Rii v (2 * v * v / (v * v + σ)) ha hσ hR hv rfl
  refine ⟨(forLoop n (fun i s => CeedQRFactorization_step sqrt m n i s) (mat, tau, v0)).1,
    (forLoop n (fun i s => CeedQRFactorization_step sqrt m n i s) (mat, tau, v0)).2.1,
    ?_, ?_, ?_, ?_⟩
  · unfold CeedQRFactorization
    rw [if_neg (not_lt.mpr hnm)]
  · rw [hk1 i]
    exact hd
  · rw [hk2]
    show (CeedQRFactorization_step sqrt m n i _).2.1 i = _
    rw [ht, Function.update_same]
  · intro r hir hrm
    rw [hk1 r]
    exact hb r hir hrm

/-- A column with a nonzero entry in rows `i..m-1` has a nonzero squared
norm. -/
theorem column_norm_ne_zero (f : Nat → K) (i m : Nat)
    (h : ∃ r, i ≤ r ∧ r < m ∧ f r ≠ 0) :
    f i * f i + ∑ k in Finset.range (m - (i + 1)), f (i + 1 + k) * f (i + 1 + k) ≠ 0 := by
  obtain ⟨r, hir, hrm, hr⟩ := h
  have hs : ∀ k ∈ Finset.range (m - (i + 1)), 0 ≤ f (i + 1 + k) * f (i + 1 + k) :=
    fun k _ => mul_self_nonneg _
  rcases Nat.eq_or_lt_of_le hir with h | h
  · subst h
    have := mul_self_pos.mpr hr
    have := Finset.sum_nonneg hs
    linarith
  · obtain ⟨k, rfl⟩ : ∃ k, r = i + 1 + k := ⟨r - (i + 1), by omega⟩
    have h1 := Finset.single_le_sum hs (Finset.mem_range.mpr (show k < m - (i + 1) by omega))
    have := mul_self_pos.mpr hr
    have := mul_self_nonneg (f i)
    linarith

/-- The scale `2 v² / (v² + σ)` equals `2 / (1 + Σ (c_k / v)²)` when
`σ = Σ c_k²` and `v` is not zero. -/
theorem householder_tau_normalized (c : Nat → K) (N : Nat) (v : K) (hv : v ≠ 0) :
    2 * v * v / (v * v + ∑ k in Finset.range N, c k * c k) =
      2 / (1 + ∑ k in Finset.range N, (c k / v) * (c k / v)) := by
  have hs : ∑ k in Finset.range N, (c k / v) * (c k / v) =
      (∑ k in Finset.range N, c k * c k) / (v * v) := by
    rw [Finset.sum_div]
    exact Finset.sum_congr rfl (fun k _ => by field_simp)
  have hσ : 0 ≤ ∑ k in Finset.range N, c k * c k :=
    Finset.sum_nonneg (fun k _ => mul_self_nonneg _)
  have hvv : 0 < v * v := mul_self_pos.mpr hv
  rw [hs]
  have h1 : v * v + ∑ k in Finset.range N, c k * c k ≠ 0 := by linarith
  field_simp
  ring

end QRColumnSpecProofs

section QRColumnProofs

variable {K : Type*} [LinearOrderedField K]

/-- **C31.** Per-column step of `CeedQRFactorization`, over the reals: for
`i < n <= m`, let `p` be the pivot `mat[i+n*i]` and `σ` the sum of the squares
of the entries `mat[i+n*r]`, `r = i+1..m-1`, when column `i` is processed
(after the steps `0..i-1`), not both zero.  Then the factorization completes
and the diagonal entry it stores is `R_ii = -sign(p) sqrt(p² + σ)` with
`sign(0) = +1`, so that `R_ii² = p² + σ` and `R_ii p <= 0`; with
`v = p - R_ii` (which is not zero) the stored scale is
`tau[i] = 2 v² / (v² + σ)`, and the entries stored below the diagonal of
column `i` are the entries at the time of processing divided by `v`. -/
theorem CeedQRFactorization_column (m n i : Nat) (mat tau v0 : Nat → ℝ) (hin : i < n)
    (hnm : n ≤ m) (p σ : ℝ)
    (hp : p = (forLoop i (fun i s => CeedQRFactorization_step Real.sqrt m n i s)
      (mat, tau, v0)).1 (i + n * i))
    (hσ : σ = ∑ r in Finset.Ico (i + 1) m,
      (forLoop i (fun i s => CeedQRFactorization_step Real.sqrt m n i s)
        (mat, tau, v0)).1 (i + n * r) ^ 2)
    (hne : ¬ (p = 0 ∧ σ = 0)) :
    ∃ mat' tau', CeedQRFactorization Real.sqrt mat tau v0 m n = some (mat', tau') ∧
      mat' (i + n * i) = -(if p < 0 then -1 else 1) * Real.sqrt (p ^ 2 + σ) ∧
      mat' (i + n * i) ^ 2 = p ^ 2 + σ ∧ mat' (i + n * i) * p ≤ 0 ∧
      p - mat' (i + n * i) ≠ 0 ∧
      tau' i = 2 * (p - mat' (i + n * i)) ^ 2 / ((p - mat' (i + n * i)) ^ 2 + σ) ∧
      ∀ r, i < r → r < m → mat' (i + n * r) =
        (forLoop i (fun i s => CeedQRFactorization_step Real.sqrt m n i s)
          (mat, tau, v0)).1 (i + n * r) / (p - mat' (i + n * i)) := by
  have hs : ∀ t : ℝ, 0 ≤ t → 0 ≤ Real.sqrt t ∧ Real.sqrt t * Real.sqrt t = t :=
    fun t ht => ⟨Real.sqrt_nonneg t, Real.mul_self_sqrt ht⟩
  have hσ' : σ = ∑ k in Finset.range (m - (i + 1)),
      (forLoop i (fun i s => CeedQRFactorization_step Real.sqrt m n i s)
        (mat, tau, v0)).1 (i + n * (i + 1 + k)) *
      (forLoop i (fun i s => CeedQRFactorization_step Real.sqrt m n i s)
        (mat, tau, v0)).1 (i + n * (i + 1 + k)) := by
    rw [hσ, Finset.sum_Ico_eq_sum_range]
    exact Finset.sum_congr rfl (fun k _ => sq _)
  have hσ0 : 0 ≤ σ := by
    rw [hσ]
    exact Finset.sum_nonneg (fun r _ => sq_nonneg _)
  have hne' : p * p + σ ≠ 0 := by
    intro h
    have hpp := mul_self_nonneg p
    exact hne ⟨mul_self_eq_zero.mp (by linarith), by linarith⟩
  obtain ⟨mat', tau', hqr, hd, ht, hb⟩ := CeedQRFactorization_column_spec Real.sqrt m n i
    mat tau v0 hin hnm p σ _ _ hp hσ' rfl rfl
  obtain ⟨h1, -, h3⟩ := householder_pivot Real.sqrt hs p σ hσ0 hne'
  obtain ⟨g1, g2, -⟩ := householder_pivot_sign Real.sqrt hs p σ hσ0
  refine ⟨mat', tau', hqr, ?_, ?_, ?_, ?_, ?_, ?_⟩
  · rw [hd, g1, sq]
  · rw [hd, sq, sq, h1]
  · rw [hd]
    exact g2
  · rw [hd]
    exact h3
  · rw [ht, hd, sq, mul_assoc]
  · intro r hir hrm
    rw [hb r hir hrm, hd]

/-- Witness for C31: one column `(1, 1)` (`m = 2`, `n = 1`, `i = 0`), with
`p = 1` and `σ = 1`. -/
theorem CeedQRFactorization_column_witness :
    ((0 < 1 ∧ 1 ≤ 2) ∧
      (1 : ℝ) = (forLoop 0 (fun i s => CeedQRFactorization_step Real.sqrt 2 1 i s)
        ((fun _ => 1), (fun _ => 0), (fun _ => 0))).1 (0 + 1 * 0) ∧
      (1 : ℝ) = ∑ r in Finset.Ico (0 + 1) 2,
        (forLoop 0 (fun i s => CeedQRFactorization_step Real.sqrt 2 1 i s)
          ((fun _ => 1), (fun _ => 0), (fun _ => 0))).1 (0 + 1 * r) ^ 2 ∧
      ¬ ((1 : ℝ) = 0 ∧ (1 : ℝ) = 0)) ∧
    ∃ mat' tau', CeedQRFactorization Real.sqrt (fun _ => (1 : ℝ)) (fun _ => 0) (fun _ => 0)
        2 1 = some (mat', tau') ∧
      mat' (0 + 1 * 0) = -(if (1 : ℝ) < 0 then -1 else 1) * Real.sqrt (1 ^ 2 + 1) ∧
      mat' (0 + 1 * 0) ^ 2 = 1 ^ 2 + 1 ∧ mat' (0 + 1 * 0) * 1 ≤ 0 ∧
      1 - mat' (0 + 1 * 0) ≠ 0 ∧
      tau' 0 = 2 * (1 - mat' (0 + 1 * 0)) ^ 2 / ((1 - mat' (0 + 1 * 0)) ^ 2 + 1) ∧
      ∀ r, 0 < r → r < 2 → mat' (0 + 1 * r) =
        (forLoop 0 (fun i s => CeedQRFactorization_step Real.sqrt 2 1 i s)
          ((fun _ => (1 : ℝ)), (fun _ => 0), (fun _ => 0))).1 (0 + 1 * r) /
          (1 - mat' (0 + 1 * 0)) :=
  ⟨⟨⟨by norm_num, by norm_num⟩, rfl, by simp [forLoop], by norm_num⟩,
    CeedQRFactorization_column 2 1 0 (fun _ => 1) (fun _ => 0) (fun _ => 0) (by norm_num)
      (by norm_num) 1 1 rfl (by simp [forLoop]) (by norm_num)⟩

/-- **C37.** The sign choice of `CeedQRFactorization` prevents cancellation,
over the reals: for `i < n <= m`, if column `i` has a nonzero entry in rows
`i..m-1` when it is processed, then with `p` the pivot and `σ` the sum of the
squares below it at that time, the pivot `v[i]` left by the step (after
`v[i] -= R_ii`) satisfies `|v[i]| = |p| + sqrt(p² + σ)` and is not zero, the
factorization completes, and the `tau[i]` it stores lies in `[1, 2]`. -/
theorem CeedQRFactorization_no_cancellation (m n i : Nat) (mat tau v0 : Nat → ℝ)
    (hin : i < n) (hnm : n ≤ m) (p σ : ℝ)
    (hp : p = (forLoop i (fun i s => CeedQRFactorization_step Real.sqrt m n i s)
      (mat, tau, v0)).1 (i + n * i))
    (hσ : σ = ∑ r in Finset.Ico (i + 1) m,
      (forLoop i (fun i s => CeedQRFactorization_step Real.sqrt m n i s)
        (mat, tau, v0)).1 (i + n * r) ^ 2)
    (hnz : ∃ r, i ≤ r ∧ r < m ∧
      (forLoop i (fun i s => CeedQRFactorization_step Real.sqrt m n i s)
        (mat, tau, v0)).1 (i + n * r) ≠ 0) :
    |(CeedQRFactorization_step Real.sqrt m n i
      (forLoop i (fun i s => CeedQRFactorization_step Real.sqrt m n i s)
        (mat, tau, v0))).2.2 i| = |p| + Real.sqrt (p ^ 2 + σ) ∧
    (CeedQRFactorization_step Real.sqrt m n i
      (forLoop i (fun i s => CeedQRFactorization_step Real.sqrt m n i s)
        (mat, tau, v0))).2.2 i ≠ 0 ∧
    ∃ mat' tau', CeedQRFactorization Real.sqrt mat tau v0 m n = some (mat', tau') ∧
      1 ≤ tau' i ∧ tau' i ≤ 2 := by
  have hs : ∀ t : ℝ, 0 ≤ t → 0 ≤ Real.sqrt t ∧ Real.sqrt t * Real.sqrt t = t :=
    fun t ht => ⟨Real.sqrt_nonneg t, Real.mul_self_sqrt ht⟩
  have hσ' : σ = ∑ k in Finset.range (m - (i + 1)),
      (forLoop i (fun i s => CeedQRFactorization_step Real.sqrt m n i s)
        (mat, tau, v0)).1 (i + n * (i + 1 + k)) *
      (forLoop i (fun i s => CeedQRFactorization_step Real.sqrt m n i s)
        (mat, tau, v0)).1 (i + n * (i + 1 + k)) := by
    rw [hσ, Finset.sum_Ico_eq_sum_range]
    exact Finset.sum_congr rfl (fun k _ => sq _)
  have hσ0 : 0 ≤ σ := by
    rw [hσ]
    exact Finset.sum_nonneg (fun r _ => sq_nonneg _)
  have hne' : p * p + σ ≠ 0 := by
    have := column_norm_ne_zero (fun r => (forLoop i
      (fun i s => CeedQRFactorization_step Real.sqrt m n i s) (mat, tau, v0)).1 (i + n * r))
      i m hnz
    rw [hp, hσ']
    exact this
  obtain ⟨mat', tau', hqr, -, ht, -⟩ := CeedQRFactorization_column_spec Real.sqrt m n i
    mat tau v0 hin hnm p σ _ _ hp hσ' rfl rfl
  obtain ⟨-, -, h3⟩ := householder_pivot Real.sqrt hs p σ hσ0 hne'
  obtain ⟨-, -, g3⟩ := householder_pivot_sign Real.sqrt hs p σ hσ0
  obtain ⟨b1, b2⟩ := householder_tau_bounds Real.sqrt hs p σ hσ0 hne'
  rw [CeedQRFactorization_step_v Real.sqrt m n i _ p σ _ hp hσ' rfl]
  refine ⟨?_, h3, mat', tau', hqr, ?_, ?_⟩
  · rw [g3, sq]
  · rw [ht]
    exact b1
  · rw [ht]
    exact b2

/-- Witness for C37: one column `(1, 1)` (`m = 2`, `n = 1`, `i = 0`). -/
theorem CeedQRFactorization_no_cancellation_witness :
    ((0 < 1 ∧ 1 ≤ 2) ∧
      (1 : ℝ) = (forLoop 0 (fun i s => CeedQRFactorization_step Real.sqrt 2 1 i s)
        ((fun _ => 1), (fun _ => 0), (fun _ => 0))).1 (0 + 1 * 0) ∧
      (1 : ℝ) = ∑ r in Finset.Ico (0 + 1) 2,
        (forLoop 0 (fun i s => CeedQRFactorization_step Real.sqrt 2 1 i s)
          ((fun _ => 1), (fun _ => 0), (fun _ => 0))).1 (0 + 1 * r) ^ 2 ∧
      ∃ r, 0 ≤ r ∧ r < 2 ∧
        (forLoop 0 (fun i s => CeedQRFactorization_step Real.sqrt 2 1 i s)
          ((fun _ => (1 : ℝ)), (fun _ => 0), (fun _ => 0))).1 (0 + 1 * r) ≠ 0) ∧
    |(CeedQRFactorization_step Real.sqrt 2 1 0
      (forLoop 0 (fun i s => CeedQRFactorization_step Real.sqrt 2 1 i s)
        ((fun _ => (1 : ℝ)), (fun _ => 0), (fun _ => 0)))).2.2 0| =
        |(1 : ℝ)| + Real.sqrt (1 ^ 2 + 1) ∧
    (CeedQRFactorization_step Real.sqrt 2 1 0
      (forLoop 0 (fun i s => CeedQRFactorization_step Real.sqrt 2 1 i s)
        ((fun _ => (1 : ℝ)), (fun _ => 0), (fun _ => 0)))).2.2 0 ≠ 0 ∧
    ∃ mat' tau', CeedQRFactorization Real.sqrt (fun _ => (1 : ℝ)) (fun _ => 0) (fun _ => 0)
        2 1 = some (mat', tau') ∧ 1 ≤ tau' 0 ∧ tau' 0 ≤ 2 :=
  ⟨⟨⟨by norm_num, by norm_num⟩, rfl, by simp [forLoop], ⟨0, le_refl 0, by norm_num,
      by simp [forLoop]⟩⟩,
    CeedQRFactorization_no_cancellation 2 1 0 (fun _ => 1) (fun _ => 0) (fun _ => 0)
      (by norm_num) (by norm_num) 1 1 rfl (by simp [forLoop])
      ⟨0, le_refl 0, by norm_num, by simp [forLoop]⟩⟩

end QRColumnProofs

section ReflectInvolutionProofs

variable {K : Type*} [LinearOrderedField K]

/-- **C36.** A stored Householder reflector is an involution, over the reals:
for every `m`, `n` and strides `row`, `col` under which the `m x n` block of
`A` is addressed without overlap, and every vector `v` (kept apart from `A`,
`v[0]` unused and treated as `1`), `CeedHouseholderReflect(A, v, b, m, n, row,
col)` with `b = 2/(1 + sum over k = 1..m-1 of v[k]²)` applied twice gives back
`A`.  And for every column `i < N <= M` of `CeedQRFactorization(mat, tau, M,
N)` holding a nonzero entry in rows `i..M-1` when it is processed (so that
`v[i]` is not zero and the divisions of the step are defined), the stored
`tau[i]` is this `b` for the vector stored below the diagonal of column `i`:
`tau[i] = 2/(1 + sum over r = i+1..M-1 of mat[i+N*r]²)`. -/
theorem CeedHouseholderReflect_involution (A v : Nat → ℝ) (aoff voff m n row col : Nat)
    (hinj : ∀ i i' j j', i < m → i' < m → j < n → j' < n →
      aoff + (i * row + j * col) = aoff + (i' * row + j' * col) → i = i' ∧ j = j')
    (M N i : Nat) (mat tau v0 : Nat → ℝ) (hiN : i < N) (hNM : N ≤ M)
    (hnz : ∃ r, i ≤ r ∧ r < M ∧
      (forLoop i (fun i s => CeedQRFactorization_step Real.sqrt M N i s)
        (mat, tau, v0)).1 (i + N * r) ≠ 0) :
    CeedHouseholderReflect
        (CeedHouseholderReflect A aoff v voff
          (2 / (1 + ∑ k in Finset.Ico 1 m, v (voff + k) ^ 2)) m n row col)
        aoff v voff (2 / (1 + ∑ k in Finset.Ico 1 m, v (voff + k) ^ 2)) m n row col = A ∧
    ∃ mat' tau', CeedQRFactorization Real.sqrt mat tau v0 M N = some (mat', tau') ∧
      tau' i = 2 / (1 + ∑ r in Finset.Ico (i + 1) M, mat' (i + N * r) ^ 2) := by
  have hs : ∀ t : ℝ, 0 ≤ t → 0 ≤ Real.sqrt t ∧ Real.sqrt t * Real.sqrt t = t :=
    fun t ht => ⟨Real.sqrt_nonneg t, Real.mul_self_sqrt ht⟩
  constructor
  · have hb : ∑ k in Finset.Ico 1 m, v (voff + k) ^ 2 =
        ∑ k in Finset.range (m - 1), v (voff + (1 + k)) * v (voff + (1 + k)) := by
      rw [Finset.sum_Ico_eq_sum_range]
      exact Finset.sum_congr rfl (fun k _ => sq _)
    rw [hb]
    exact CeedHouseholderReflect_involutive A aoff v voff m n row col hinj
  · obtain ⟨p, hp⟩ : ∃ p : ℝ, p = (forLoop i
        (fun i s => CeedQRFactorization_step Real.sqrt M N i s) (mat, tau, v0)).1 (i + N * i) :=
      ⟨_, rfl⟩
    obtain ⟨σ, hσ⟩ : ∃ σ : ℝ, σ = ∑ k in Finset.range (M - (i + 1)),
        (forLoop i (fun i s => CeedQRFactorization_step Real.sqrt M N i s)
          (mat, tau, v0)).1 (i + N * (i + 1 + k)) *
        (forLoop i (fun i s => CeedQRFactorization_step Real.sqrt M N i s)
          (mat, tau, v0)).1 (i + N * (i + 1 + k)) := ⟨_, rfl⟩
    have hne : p * p + σ ≠ 0 := by
      rw [hp, hσ]
      exact column_norm_ne_zero (fun r => (forLoop i
        (fun i s => CeedQRFactorization_step Real.sqrt M N i s) (mat, tau, v0)).1 (i + N * r))
        i M hnz
    have hσ0 : 0 ≤ σ := by
      rw [hσ]
      exact Finset.sum_nonneg (fun k _ => mul_self_nonneg _)
    obtain ⟨mat', tau', hqr, -, ht, hb⟩ := CeedQRFactorization_column_spec Real.sqrt M N i
      mat tau v0 hiN hNM p σ _ _ hp hσ rfl rfl
    obtain ⟨-, -, h3⟩ := householder_pivot Real.sqrt hs p σ hσ0 hne
    generalize p - -copysign (Real.sqrt (p * p + σ)) p = w at ht hb h3
    refine ⟨mat', tau', hqr, ?_⟩
    rw [ht, hσ, householder_tau_normalized (fun k => (forLoop i
      (fun i s => CeedQRFactorization_step Real.sqrt M N i s) (mat, tau, v0)).1
        (i + N * (i + 1 + k))) (M - (i + 1)) w h3, Finset.sum_Ico_eq_sum_range]
    congr 2
    refine Finset.sum_congr rfl (fun k hk => ?_)
    have hk' := Finset.mem_range.mp hk
    rw [hb (i + 1 + k) (by omega) (by omega), sq]

/-- Witness for C36: a `2 x 1` block with `row = 1`, `col = 2`, and the
factorization of the single column `(1, 1)`. -/
theorem CeedHouseholderReflect_involution_witness :
    ((∀ i i' j j', i < 2 → i' < 2 → j < 1 → j' < 1 →
        0 + (i * 1 + j * 2) = 0 + (i' * 1 + j' * 2) → i = i' ∧ j = j') ∧
      (0 < 1 ∧ 1 ≤ 2) ∧
      ∃ r, 0 ≤ r ∧ r < 2 ∧
        (forLoop 0 (fun i s => CeedQRFactorization_step Real.sqrt 2 1 i s)
          ((fun _ => (1 : ℝ)), (fun _ => 0), (fun _ => 0))).1 (0 + 1 * r) ≠ 0) ∧
    CeedHouseholderReflect
        (CeedHouseholderReflect (fun i : Nat => (i : ℝ)) 0 (fun _ => 3) 0
          (2 / (1 + ∑ k in Finset.Ico 1 2, (fun _ : Nat => (3 : ℝ)) (0 + k) ^ 2)) 2 1 1 2)
        0 (fun _ => 3) 0
        (2 / (1 + ∑ k in Finset.Ico 1 2, (fun _ : Nat => (3 : ℝ)) (0 + k) ^ 2)) 2 1 1 2 =
      (fun i : Nat => (i : ℝ)) ∧
    ∃ mat' tau', CeedQRFactorization Real.sqrt (fun _ => (1 : ℝ)) (fun _ => 0) (fun _ => 0)
        2 1 = some (mat', tau') ∧
      tau' 0 = 2 / (1 + ∑ r in Finset.Ico (0 + 1) 2, mat' (0 + 1 * r) ^ 2) :=
  ⟨⟨fun i i' j j' _ _ _ _ h => by omega, ⟨by norm_num, by norm_num⟩,
      ⟨0, le_refl 0, by norm_num, by simp [forLoop]⟩⟩,
    CeedHouseholderReflect_involution (fun i : Nat => (i : ℝ)) (fun _ => 3) 0 0 2 1 1 2
      (fun i i' j j' _ _ _ _ h => by omega) 2 1 0 (fun _ => 1) (fun _ => 0) (fun _ => 0)
      (by norm_num) (by norm_num) ⟨0, le_refl 0, by norm_num, by simp [forLoop]⟩⟩

/-- **C35.** `CeedQRFactorization` requires at least as many rows as columns:
it fails (the verification error) if and only if `n > m`; a failed call leaves
`mat` and `tau` as they were, and a call with `n <= m` runs the `n` column
steps.  Consequently, with the toggle set and `D1D > Q1D`,
`CeedBasisGetCollocatedGrad` fails and `PADiffusionApply` aborts with that
error (empty message, not `Unknown kernel.`) for every `dim`, leaving `y` as
it was. -/
theorem CeedQRFactorization_fails_iff (sqrt : K → K) (mat tau v0 : Nat → K) (m n : Nat)
    (MAX_D1D MAX_Q1D dim D1D Q1D NE : Nat) (B G Bt Gt op x : Nat → K) (sc : ApplyScratch K)
    (y : Nat → K) :
    (CeedQRFactorization sqrt mat tau v0 m n = none ↔ n > m) ∧
    (n > m → (CeedQRFactorization sqrt mat tau v0 m n).getD (mat, tau) = (mat, tau)) ∧
    (n ≤ m → CeedQRFactorization sqrt mat tau v0 m n =
      some ((forLoop n (fun i s => CeedQRFactorization_step sqrt m n i s) (mat, tau, v0)).1,
        (forLoop n (fun i s => CeedQRFactorization_step sqrt m n i s) (mat, tau, v0)).2.1)) ∧
    (D1D > Q1D →
      CeedBasisGetCollocatedGrad sqrt D1D Q1D B G sc.qr sc.coG = none ∧
      PADiffusionApply MAX_D1D MAX_Q1D sqrt true dim D1D Q1D NE B G Bt Gt op x sc y =
        Except.error "" ∧
      bufferAfter y
        (PADiffusionApply MAX_D1D MAX_Q1D sqrt true dim D1D Q1D NE B G Bt Gt op x sc y) = y) := by
  have hfail : ∀ (M : Nat → K) (T V : Nat → K) (a b : Nat), b > a →
      CeedQRFactorization sqrt M T V a b = none := by
    intro M T V a b h
    unfold CeedQRFactorization
    rw [if_pos h]
  have hok : n ≤ m → CeedQRFactorization sqrt mat tau v0 m n =
      some ((forLoop n (fun i s => CeedQRFactorization_step sqrt m n i s) (mat, tau, v0)).1,
        (forLoop n (fun i s => CeedQRFactorization_step sqrt m n i s) (mat, tau, v0)).2.1) := by
    intro h
    unfold CeedQRFactorization
    rw [if_neg (not_lt.mpr h)]
  refine ⟨⟨fun h => ?_, hfail mat tau v0 m n⟩, fun h => ?_, hok, fun h => ?_⟩
  · by_contra hc
    rw [hok (not_lt.mp hc)] at h
    exact Option.noConfusion h
  · rw [hfail mat tau v0 m n h]
    rfl
  · have hc : CeedBasisGetCollocatedGrad sqrt D1D Q1D B G sc.qr sc.coG = none := by
      unfold CeedBasisGetCollocatedGrad
      dsimp only
      rw [hfail _ _ _ Q1D D1D h]
    have hA : PADiffusionApply MAX_D1D MAX_Q1D sqrt true dim D1D Q1D NE B G Bt Gt op x sc y =
        Except.error "" := by
      rw [PADiffusionApply_on, hc]
    refine ⟨hc, hA, ?_⟩
    rw [hA]
    rfl

/-- Witness for C35: `m = 2`, `n = 3` fails, and so does the dispatcher for
`D1D = 3`, `Q1D = 2`, `dim = 3`. -/
theorem CeedQRFactorization_fails_iff_witness :
    ((3 : Nat) > 2) ∧
    (CeedQRFactorization (fun t : ℚ => t) (fun _ => 1) (fun _ => 0) (fun _ => 0) 2 3).getD
        ((fun _ => 1), (fun _ => 0)) = ((fun _ => 1), (fun _ => 0)) ∧
    PADiffusionApply 14 14 (fun t : ℚ => t) true 3 3 2 1 (fun _ => 1) (fun _ => 1) (fun _ => 1)
        (fun _ => 1) (fun _ => 1) (fun _ => 1) zeroApplyScratch (fun _ => 5) =
      Except.error "" :=
  ⟨by decide,
    (CeedQRFactorization_fails_iff (fun t : ℚ => t) (fun _ => 1) (fun _ => 0) (fun _ => 0) 2 3
      14 14 3 3 2 1 (fun _ => 1) (fun _ => 1) (fun _ => 1) (fun _ => 1) (fun _ => 1)
      (fun _ => 1) zeroApplyScratch (fun _ => 5)).2.1 (by decide),
    ((CeedQRFactorization_fails_iff (fun t : ℚ => t) (fun _ => 1) (fun _ => 0) (fun _ => 0) 2 3
      14 14 3 3 2 1 (fun _ => 1) (fun _ => 1) (fun _ => 1) (fun _ => 1) (fun _ => 1)
      (fun _ => 1) zeroApplyScratch (fun _ => 5)).2.2.2 (by decide)).2.1⟩

end ReflectInvolutionProofs

section MetricDeterminantProofs

variable {K : Type*} [Field K]

/-- **C33.** Determinant identity of the 2D metric: for every element
`e < NE` and point `q < Q1D^2` whose Jacobian has `det(J) != 0`, the three
entries `O11 = op(q,0,e)`, `O12 = op(q,1,e)`, `O22 = op(q,2,e)` written by
`PADiffusionSetup2D` satisfy `O11*O22 - O12² = (W[q]*COEFF)²`, whatever `J`
is. -/
theorem PADiffusionSetup2D_det_identity (Q1D NE : Nat) (w j : Nat → K) (COEFF : K)
    (op : Nat → K) (e q : Nat) (he : e < NE) (hq : q < Q1D * Q1D)
    (hdet : (jac2 (Q1D * Q1D) j q e).det ≠ 0) :
    PADiffusionSetup2D Q1D NE w j COEFF op (idx3 (Q1D * Q1D) 3 q 0 e) *
        PADiffusionSetup2D Q1D NE w j COEFF op (idx3 (Q1D * Q1D) 3 q 2 e) -
      PADiffusionSetup2D Q1D NE w j COEFF op (idx3 (Q1D * Q1D) 3 q 1 e) ^ 2 =
      (w q * COEFF) ^ 2 := by
  obtain ⟨h0, h1, h2⟩ := PADiffusionSetup2D_val Q1D NE w j COEFF op e q he hq
  have hd : j (idx4 (Q1D * Q1D) 2 2 q 0 0 e) * j (idx4 (Q1D * Q1D) 2 2 q 1 1 e) -
      j (idx4 (Q1D * Q1D) 2 2 q 1 0 e) * j (idx4 (Q1D * Q1D) 2 2 q 0 1 e) ≠ 0 := by
    intro h
    apply hdet
    rw [Matrix.det_fin_two]
    simp only [jac2, Matrix.of_apply, Fin.val_zero, Fin.val_one]
    linear_combination h
  rw [h0, h1, h2]
  field_simp
  ring

/-- Witness for C33: one point with the identity Jacobian. -/
theorem PADiffusionSetup2D_det_identity_witness :
    ((0 : Nat) < 1 ∧ (0 : Nat) < 1 * 1 ∧ (jac2 (1 * 1) identityJ2 0 0).det ≠ 0) ∧
    PADiffusionSetup2D 1 1 (fun _ => (3 : ℚ)) identityJ2 2 (fun _ => 0)
          (idx3 (1 * 1) 3 0 0 0) *
        PADiffusionSetup2D 1 1 (fun _ => (3 : ℚ)) identityJ2 2 (fun _ => 0)
          (idx3 (1 * 1) 3 0 2 0) -
      PADiffusionSetup2D 1 1 (fun _ => (3 : ℚ)) identityJ2 2 (fun _ => 0)
        (idx3 (1 * 1) 3 0 1 0) ^ 2 = ((fun _ => (3 : ℚ)) 0 * 2) ^ 2 := by
  have hdet : (jac2 (1 * 1) identityJ2 0 0).det ≠ 0 := by
    simp [Matrix.det_fin_two, jac2, idx4, identityJ2]
  exact ⟨⟨by decide, by decide, hdet⟩,
    PADiffusionSetup2D_det_identity 1 1 (fun _ => (3 : ℚ)) identityJ2 2 (fun _ => 0) 0 0
      (by decide) (by decide) hdet⟩

end MetricDeterminantProofs

section PositiveSemidefiniteProofs

variable {K : Type*} [LinearOrderedField K]

/-- A kernel of the form `gᵀ O g` pairs every vector with itself to the sum over
the points of the quadratic form of `O` at the vector's image. -/
theorem quadratic_pairing {ι κ : Type*} (P : Finset ι) (Qs : Finset κ)
    (g1 g2 : κ → ι → K) (O11 O12 O22 : κ → K) (x : ι → K) :
    ∑ p in P, (∑ p' in P, (∑ q in Qs,
        (g1 q p * (O11 q * g1 q p' + O12 q * g2 q p') +
          g2 q p * (O12 q * g1 q p' + O22 q * g2 q p'))) * x p') * x p =
      ∑ q in Qs, (O11 q * ((∑ p in P, g1 q p * x p) * (∑ p in P, g1 q p * x p)) +
        2 * O12 q * ((∑ p in P, g1 q p * x p) * (∑ p in P, g2 q p * x p)) +
        O22 q * ((∑ p in P, g2 q p * x p) * (∑ p in P, g2 q p * x p))) := by
  conv_lhs => simp only [Finset.sum_mul]
  rw [Finset.sum_comm]
  have h1 : ∀ p' ∈ P, ∑ p in P, ∑ q in Qs,
      (g1 q p * (O11 q * g1 q p' + O12 q * g2 q p') +
        g2 q p * (O12 q * g1 q p' + O22 q * g2 q p')) * x p' * x p =
      ∑ q in Qs, ∑ p in P,
        (g1 q p * (O11 q * g1 q p' + O12 q * g2 q p') +
          g2 q p * (O12 q * g1 q p' + O22 q * g2 q p')) * x p' * x p :=
    fun p' _ => Finset.sum_comm
  rw [Finset.sum_congr rfl h1, Finset.sum_comm]
  refine Finset.sum_congr rfl (fun q _ => ?_)
  have hin : ∀ p' ∈ P, ∑ p in P,
      (g1 q p * (O11 q * g1 q p' + O12 q * g2 q p') +
        g2 q p * (O12 q * g1 q p' + O22 q * g2 q p')) * x p' * x p =
      (∑ p in P, g1 q p * x p) * ((O11 q * g1 q p' + O12 q * g2 q p') * x p') +
        (∑ p in P, g2 q p * x p) * ((O12 q * g1 q p' + O22 q * g2 q p') * x p') := by
    intro p' _
    rw [Finset.sum_mul, Finset.sum_mul, ← Finset.sum_add_distrib]
    exact Finset.sum_congr rfl (fun p _ => by ring)
  have hout : ∀ a1 a2 : K, ∑ p' in P,
      (a1 * ((O11 q * g1 q p' + O12 q * g2 q p') * x p') +
        a2 * ((O12 q * g1 q p' + O22 q * g2 q p') * x p')) =
      O11 q * (a1 * ∑ p in P, g1 q p * x p) + O12 q * (a1 * ∑ p in P, g2 q p * x p) +
        (O12 q * (a2 * ∑ p in P, g1 q p * x p) + O22 q * (a2 * ∑ p in P, g2 q p * x p)) := by
    intro a1 a2
    simp only [Finset.mul_sum, ← Finset.sum_add_distrib]
    exact Finset.sum_congr rfl (fun p _ => by ring)
  rw [Finset.sum_congr rfl hin, hout]
  ring

/-- The quadratic form of the metric `PADiffusionSetup2D` stores is a sum of two
squares times `c = w COEFF / det`. -/
theorem setup2D_form_nonneg (J11 J21 J12 J22 c a b : K) (hc : 0 ≤ c) :
    0 ≤ c * (J12 * J12 + J22 * J22) * (a * a) + 2 * (-c * (J12 * J11 + J22 * J21)) * (a * b) +
      c * (J11 * J11 + J21 * J21) * (b * b) := by
  have h : c * (J12 * J12 + J22 * J22) * (a * a) +
      2 * (-c * (J12 * J11 + J22 * J21)) * (a * b) + c * (J11 * J11 + J21 * J21) * (b * b) =
      c * ((J12 * a - J11 * b) * (J12 * a - J11 * b) +
        (J22 * a - J21 * b) * (J22 * a - J21 * b)) := by ring
  rw [h]
  exact mul_nonneg hc (add_nonneg (mul_self_nonneg _) (mul_self_nonneg _))

/-- On one element the operator assembled by `PADiffusionSetup2D` pairs every
field with itself to a nonnegative number, when `W[q]*COEFF/det(J) >= 0` at
every point of the element. -/
theorem denseAction2D_setup_nonneg (D1D Q1D NE : Nat) (w j : Nat → K) (COEFF : K)
    (op0 b g x : Nat → K) (e : Nat) (he : e < NE)
    (hpos : ∀ q, q < Q1D * Q1D → 0 ≤ w q * COEFF / (jac2 (Q1D * Q1D) j q e).det) :
    0 ≤ ∑ dy in Finset.range D1D, ∑ dx in Finset.range D1D,
      denseAction2D D1D Q1D b g (PADiffusionSetup2D Q1D NE w j COEFF op0) x e dx dy *
        x (idx3 D1D D1D dx dy e) := by
  rw [Finset.sum_comm, sum2_eq_prod]
  simp only [denseAction2D_kernel]
  refine le_of_le_of_eq ?_ (quadratic_pairing (Finset.range D1D ×ˢ Finset.range D1D)
    (Finset.range Q1D ×ˢ Finset.range Q1D)
    (fun q p => g (idx2 Q1D q.1 p.1) * b (idx2 Q1D q.2 p.2))
    (fun q p => b (idx2 Q1D q.1 p.1) * g (idx2 Q1D q.2 p.2))
    (fun q => PADiffusionSetup2D Q1D NE w j COEFF op0 (idx3 (Q1D * Q1D) 3 (q.1 + q.2 * Q1D) 0 e))
    (fun q => PADiffusionSetup2D Q1D NE w j COEFF op0 (idx3 (Q1D * Q1D) 3 (q.1 + q.2 * Q1D) 1 e))
    (fun q => PADiffusionSetup2D Q1D NE w j COEFF op0 (idx3 (Q1D * Q1D) 3 (q.1 + q.2 * Q1D) 2 e))
    (fun p => x (idx3 D1D D1D p.1 p.2 e))).symm
  refine Finset.sum_nonneg (fun q hq => ?_)
  obtain ⟨hq1, hq2⟩ := Finset.mem_product.mp hq
  have hlt : q.1 + q.2 * Q1D < Q1D * Q1D :=
    qidx2_lt (Finset.mem_range.mp hq1) (Finset.mem_range.mp hq2)
  obtain ⟨h0, h1, h2⟩ := PADiffusionSetup2D_val Q1D NE w j COEFF op0 e (q.1 + q.2 * Q1D) he hlt
  have hc := hpos (q.1 + q.2 * Q1D) hlt
  rw [Matrix.det_fin_two] at hc
  simp only [jac2, Matrix.of_apply, Fin.val_zero, Fin.val_one] at hc
  rw [mul_comm (j (idx4 (Q1D * Q1D) 2 2 (q.1 + q.2 * Q1D) 0 1 e))] at hc
  rw [h0, h1, h2]
  exact setup2D_form_nonneg _ _ _ _ _ _ _ hc

/-- **C32.** The operator assembled by Setup and applied by Apply is positive
semidefinite in 2D: within the limits `D1D <= MAX_D1D`, `Q1D <= MAX_Q1D`, for
every Jacobian field with `det(J) != 0` and `W[q]*COEFF/det(J) >= 0` at every
point of every element, with `op` produced by `PADiffusionSetup2D`,
`Bt = Bᵀ` and `Gt = Gᵀ`, the call of `PADiffusionApply2D` on `x` from an
all-zero `y` completes, and the sum over all entries of `A(x)*x` is `>= 0`,
for every field `x`. -/
theorem PADiffusionApply2D_positive_semidefinite (MAX_D1D MAX_Q1D T_D1D T_Q1D NE : Nat)
    (w j : Nat → K) (COEFF : K) (op0 b g bt gt x : Nat → K) (grad0 : Nat → Nat → Nat → K)
    (gradXq0 gradXd0 : Nat → Nat → K) (d1d q1d D1D Q1D : Nat)
    (hD1D : D1D = if T_D1D ≠ 0 then T_D1D else d1d)
    (hQ1D : Q1D = if T_Q1D ≠ 0 then T_Q1D else q1d)
    (hD : D1D ≤ MAX_D1D) (hQ : Q1D ≤ MAX_Q1D)
    (hbt : ∀ d q, d < D1D → q < Q1D → bt (idx2 D1D d q) = b (idx2 Q1D q d))
    (hgt : ∀ d q, d < D1D → q < Q1D → gt (idx2 D1D d q) = g (idx2 Q1D q d))
    (hJ : ∀ e q, e < NE → q < Q1D * Q1D →
      (jac2 (Q1D * Q1D) j q e).det ≠ 0 ∧ 0 ≤ w q * COEFF / (jac2 (Q1D * Q1D) j q e).det) :
    ∃ Ax : Nat → K,
      PADiffusionApply2D MAX_D1D MAX_Q1D T_D1D T_Q1D NE b g bt gt
        (PADiffusionSetup2D Q1D NE w j COEFF op0) x grad0 gradXq0 gradXd0 (fun _ => 0)
        d1d q1d = some Ax ∧
      0 ≤ ∑ i in Finset.range (D1D * D1D * NE), Ax i * x i := by
  refine ⟨_, PADiffusionApply2D_eq_some MAX_D1D MAX_Q1D T_D1D T_Q1D NE b g bt gt _ x grad0
    gradXq0 gradXd0 _ d1d q1d D1D Q1D hD1D hQ1D hD hQ, ?_⟩
  rw [sum_range_idx3]
  refine Finset.sum_nonneg (fun e he => ?_)
  have hcell : ∑ dy in Finset.range D1D, ∑ dx in Finset.range D1D,
      forLoop NE (fun e y => PADiffusionApply2D_body D1D Q1D b g bt gt
          (PADiffusionSetup2D Q1D NE w j COEFF op0) x grad0 gradXq0 gradXd0 e y) (fun _ => 0)
        (idx3 D1D D1D dx dy e) * x (idx3 D1D D1D dx dy e) =
      ∑ dy in Finset.range D1D, ∑ dx in Finset.range D1D,
        denseAction2D D1D Q1D b g (PADiffusionSetup2D Q1D NE w j COEFF op0) x e dx dy *
          x (idx3 D1D D1D dx dy e) := by
    refine Finset.sum_congr rfl (fun dy hdy => Finset.sum_congr rfl (fun dx hdx => ?_))
    rw [PADiffusionApply2D_loop_spec D1D Q1D NE b g bt gt _ x grad0 gradXq0 gradXd0 _ hbt hgt
      e dx dy (Finset.mem_range.mp he) (Finset.mem_range.mp hdx) (Finset.mem_range.mp hdy),
      zero_add]
  rw [hcell]
  exact denseAction2D_setup_nonneg D1D Q1D NE w j COEFF op0 b g x e (Finset.mem_range.mp he)
    (fun q hq => (hJ e q (Finset.mem_range.mp he) hq).2)

/-- Witness for C32: one element with `D1D = Q1D = 1` and the identity
Jacobian. -/
theorem PADiffusionApply2D_positive_semidefinite_witness :
    ((1 : Nat) = (if (0 : Nat) ≠ 0 then 0 else 1) ∧ (1 : Nat) ≤ 14 ∧
      (∀ d q, d < 1 → q < 1 →
        (fun _ : Nat => (1 : ℚ)) (idx2 1 d q) = (fun _ : Nat => (1 : ℚ)) (idx2 1 q d)) ∧
      (∀ e q, e < 1 → q < 1 * 1 →
        (jac2 (1 * 1) identityJ2 q e).det ≠ 0 ∧
          0 ≤ (fun _ : Nat => (1 : ℚ)) q * 1 / (jac2 (1 * 1) identityJ2 q e).det)) ∧
    ∃ Ax : Nat → ℚ,
      PADiffusionApply2D 14 14 0 0 1 (fun _ => 1) (fun _ => 1) (fun _ => 1) (fun _ => 1)
        (PADiffusionSetup2D 1 1 (fun _ => 1) identityJ2 1 (fun _ => 0)) (fun _ => 2)
        (fun _ _ _ => 0) (fun _ _ => 0) (fun _ _ => 0) (fun _ => 0) 1 1 = some Ax ∧
      0 ≤ ∑ i in Finset.range (1 * 1 * 1), Ax i * (fun _ : Nat => (2 : ℚ)) i := by
  have hJ : ∀ e q, e < 1 → q < 1 * 1 →
      (jac2 (1 * 1) identityJ2 q e).det ≠ 0 ∧
        0 ≤ (fun _ : Nat => (1 : ℚ)) q * 1 / (jac2 (1 * 1) identityJ2 q e).det := by
    intro e q he hq
    obtain rfl : e = 0 := by omega
    obtain rfl : q = 0 := by omega
    simp [Matrix.det_fin_two, jac2, idx4, identityJ2]
  exact ⟨⟨rfl, by decide, fun _ _ _ _ => rfl, hJ⟩,
    PADiffusionApply2D_positive_semidefinite 14 14 0 0 1 (fun _ => 1) identityJ2 1 (fun _ => 0)
      (fun _ => 1) (fun _ => 1) (fun _ => 1) (fun _ => 1) (fun _ => 2) (fun _ _ _ => 0)
      (fun _ _ => 0) (fun _ _ => 0) 1 1 1 1 rfl rfl (by decide) (by decide)
      (fun _ _ _ _ => rfl) (fun _ _ _ _ => rfl) hJ⟩

end PositiveSemidefiniteProofs

section Smem2DViewProofs

variable {K : Type*} [CommRing K]

/-- **C34.** The scratch views of the tiled 2D kernel do not keep their accesses
apart: in the instantiation `<2,3>` (`D1D = MD1 = 2`, `Q1D = MQ1 = 3`,
`NBZ = 1`, worker group `tidz = 0`) the views `DQ0`, `DQ1`, `QQ0`, `QQ1` have
row stride `MD1 = 2` while their column index runs to `Q1D = 3`.  In the first
contraction phase the pairs `(dy,qx) = (0,2)` and `(1,0)` address the same cell
of `GD`; after that phase on the first nodal basis function the cell holds the
value computed for `(1,0)`, which is `0`, not the value `3` computed for
`(0,2)`.  And `QQ0[2][2]`, used by the second phase, lies at offset `6`, past
the `MD1*MQ1 = 6` doubles of the block of `QQ0`, on the cell of `QQ1[0][0]`. -/
theorem SmemPADiffusionApply2D_views_overlap :
    ((2 : Nat) ≤ 2 ∧ (3 : Nat) ≤ 3) ∧
    ((0, 2) ≠ ((1, 0) : Nat × Nat) ∧
      view2 (2 * 3) (0 * 1 + 0) 2 0 2 = view2 (2 * 3) (0 * 1 + 0) 2 1 0) ∧
    (smem2D_phaseDQ 2 3 2 3 1 0
        (smem2D_loadBG 2 3 2 3 tiled2D_b tiled2D_g 0 tiled2D_shared.sBG)
        (smem2D_loadX 2 2 0 tiled2D_x 0 tiled2D_shared.Xz) tiled2D_shared.GD
        (view2 (2 * 3) (0 * 1 + 0) 2 0 2) = 0 ∧
      ∑ dx in Finset.range 2, tiled2D_b (idx2 3 0 dx) * tiled2D_x (idx3 2 2 dx 1 0) = 0 ∧
      ∑ dx in Finset.range 2, tiled2D_b (idx2 3 2 dx) * tiled2D_x (idx3 2 2 dx 0 0) = 3) ∧
    (¬ view2 (2 * 3) (0 * 1 + 0) 2 2 2 < (0 * 1 + 0 + 1) * (2 * 3) ∧
      view2 (2 * 3) (0 * 1 + 0) 2 2 2 = view2 (2 * 3) (1 * 1 + 0) 2 0 0) := by
  refine ⟨⟨by decide, by decide⟩, ⟨by decide, by decide⟩, ⟨by decide, by decide, by decide⟩,
    by decide, by decide⟩

end Smem2DViewProofs

end PADiffusion
